import Mathlib

/-!
# FTGL and FTUI: the FT800 graphics layer (`ftgl.c`) and its controls (`ftui.c`)

A shallow embedding of the command-stream encoder, the state cache and the
bitmap-handle manager of `ftgl.c` and of the immediate-mode controls of
`ftui.c`, followed by theorems about them.

* The global `g_Inst` becomes an explicit record that every function takes and
  returns.  The record also carries the transport side of the world: the log of
  calls made to the `FTHW*` layer, the value last written to the device's
  write-pointer register and the number of drain waits performed so far.
* The global `g_State` of `ftui.c` is a second record, passed next to the
  first by the functions of `ftui.c`.
* Unsigned C integers are `Nat`, signed ones are `Int`; every conversion to a
  fixed-width type is an explicit reduction.
* The chip header `FT800.h` is not part of the sources; its constants and
  command-encoding macros are taken as a parameter (`FT800`).
* Code that can hang in the busy-wait, index an array outside its bounds or
  overflow a signed integer returns in `Except Fault`.
-/

namespace FTGL

/-! ## Machine integers -/

/-- Conversion of an unsigned value to `uint8_t`. -/
def u8 (n : Nat) : Nat := n % 256

/-- Conversion of an unsigned value to `uint16_t`. -/
def u16 (n : Nat) : Nat := n % 65536

/-- Conversion of an unsigned value to `uint32_t`. -/
def u32 (n : Nat) : Nat := n % 4294967296

/-- Conversion of a signed value to `int8_t` (two's complement). -/
def i8 (x : Int) : Int := (x + 128) % 256 - 128

/-- Conversion of a signed value to `int16_t` (two's complement). -/
def i16 (x : Int) : Int := (x + 32768) % 65536 - 32768

/-- Conversion of a signed value to `uint8_t`. -/
def toU8 (x : Int) : Nat := (x % 256).toNat

/-- Conversion of a signed value to `uint16_t`. -/
def toU16 (x : Int) : Nat := (x % 65536).toNat

/-- Conversion of a signed value to `uint32_t`. -/
def toU32 (x : Int) : Nat := (x % 4294967296).toNat

/-- The two bytes of a 16-bit value in the order they lie in memory on the
little-endian host (`HOST_TO_FT_USHORT` is the identity there). -/
def le16 (v : Nat) : List Nat := [v % 256, (v / 256) % 256]

/-- The four bytes of a 32-bit value in the order they lie in memory on the
little-endian host (`HOST_TO_FT_ULONG` is the identity there). -/
def le32 (v : Nat) : List Nat :=
  [v % 256, (v / 256) % 256, (v / 65536) % 256, (v / 16777216) % 256]

/-- The macro `HOST_TO_FT_USHORT` of the platform header. -/
def HOST_TO_FT_USHORT (x : Nat) : Nat := x

/-- The macro `HOST_TO_FT_ULONG` of the platform header. -/
def HOST_TO_FT_ULONG (x : Nat) : Nat := x

/-- The macro `FT_TO_HOST_USHORT` of the platform header. -/
def FT_TO_HOST_USHORT (x : Nat) : Nat := x

/-- The macro `FT_TO_HOST_ULONG` of the platform header. -/
def FT_TO_HOST_ULONG (x : Nat) : Nat := x

/-- The value of a `uint16_t` on the little-endian host whose two bytes in
memory are `bytes` (absent bytes count as zero). -/
def load16 (bytes : List Nat) : Nat :=
  u8 (bytes.getD 0 0) + 256 * u8 (bytes.getD 1 0)

/-- The value of a `uint32_t` on the little-endian host whose four bytes in
memory are `bytes` (absent bytes count as zero). -/
def load32 (bytes : List Nat) : Nat :=
  u8 (bytes.getD 0 0) + 256 * u8 (bytes.getD 1 0) + 65536 * u8 (bytes.getD 2 0) +
    16777216 * u8 (bytes.getD 3 0)

/-- The bytes `WriteReg16` and `Append16` hand to the transport for `val`:
`HOST_TO_FT_USHORT(val)` as it lies in memory. -/
def wire16 (val : Nat) : List Nat := le16 (HOST_TO_FT_USHORT (u16 val))

/-- The bytes `WriteReg32` and `Append32` hand to the transport for `val`:
`HOST_TO_FT_ULONG(val)` as it lies in memory. -/
def wire32 (val : Nat) : List Nat := le32 (HOST_TO_FT_ULONG (u32 val))

/-- The result of `ReadReg16` when `FTHWRead` stores the bytes `wire` at `&out`. -/
def ReadReg16 (wire : List Nat) : Nat := FT_TO_HOST_USHORT (load16 wire)

/-- The result of `ReadReg32` when `FTHWRead` stores the bytes `wire` at `&out`. -/
def ReadReg32 (wire : List Nat) : Nat := FT_TO_HOST_ULONG (load32 wire)

/-! ## What can go wrong -/

/-- Ways in which a call fails to return a defined result. -/
inductive Fault where
  /-- The busy-wait for the drained queue never ends. -/
  | hang
  /-- An array is indexed outside its bounds. -/
  | outOfBounds
  /-- A signed operation has no defined result: it leaves the range of `int`
  or divides by 0. -/
  | overflow
  deriving DecidableEq, Repr

/-- Read of `xs[i]` for a C array `xs`, undefined outside the bounds. -/
def arrGet {α : Type} (xs : List α) (i : Int) : Except Fault α :=
  if 0 ≤ i then
    match xs.get? i.toNat with
    | some x => .ok x
    | none => .error .outOfBounds
  else .error .outOfBounds

/-- Write of `xs[i] = f xs[i]` for a C array `xs`, undefined outside the bounds. -/
def arrModify {α : Type} (xs : List α) (i : Int) (f : α → α) : Except Fault (List α) :=
  if 0 ≤ i then
    match xs.get? i.toNat with
    | some x => .ok (xs.set i.toNat (f x))
    | none => .error .outOfBounds
  else .error .outOfBounds

/-! ## The chip header `FT800.h` (a parameter) -/

/-- The constants and encoding macros of `FT800.h` that `ftgl.c` and `ftui.c`
use.  The file is not among the sources, so nothing is assumed about the
values. -/
structure FT800 where
  FT_RAM_G : Nat
  FT_RAM_CMD : Nat
  FT_RAM_DL : Nat
  FT_REG_ID : Nat
  FT_REG_CMD_READ : Nat
  FT_REG_CMD_WRITE : Nat
  FT_REG_TOUCH_TAG : Nat
  FT_REG_TOUCH_SCREEN_XY : Nat
  FT_REG_PCLK : Nat
  FT_REG_PWM_DUTY : Nat
  FT_REG_VSYNC0 : Nat
  FT_REG_VSYNC1 : Nat
  FT_REG_VOFFSET : Nat
  FT_REG_VCYCLE : Nat
  FT_REG_HSYNC0 : Nat
  FT_REG_HSYNC1 : Nat
  FT_REG_HOFFSET : Nat
  FT_REG_HCYCLE : Nat
  FT_REG_HSIZE : Nat
  FT_REG_VSIZE : Nat
  FT_REG_SWIZZLE : Nat
  FT_REG_PCLK_POL : Nat
  FT_REG_TOUCH_MODE : Nat
  FT_REG_TOUCH_RZTHRESH : Nat
  FT_REG_VOL_PB : Nat
  FT_REG_VOL_SOUND : Nat
  FT_REG_SOUND : Nat
  FT_REG_DLSWAP : Nat
  FT_REG_GPIO_PORT : Nat
  FT_DISPLAY_VSYNC0 : Nat
  FT_DISPLAY_VSYNC1 : Nat
  FT_DISPLAY_VOFFSET : Nat
  FT_DISPLAY_VCYCLE : Nat
  FT_DISPLAY_HSYNC0 : Nat
  FT_DISPLAY_HSYNC1 : Nat
  FT_DISPLAY_HOFFSET : Nat
  FT_DISPLAY_HCYCLE : Nat
  FT_DISPLAY_HSIZE : Nat
  FT_DISPLAY_VSIZE : Nat
  FT_DISPLAY_SWIZZLE : Nat
  FT_DISPLAY_PCLKPOL : Nat
  FT_DISPLAY_PCLK : Nat
  FT_HOSTCOMMAND_ACTIVE : Nat
  FT_HOSTCOMMAND_CLKEXT : Nat
  FT_HOSTCOMMAND_CLK48M : Nat
  FT_ZERO : Nat
  FT_TMODE_FRAME : Nat
  FT_DLSWAP_FRAME : Nat
  FT_ALWAYS : Nat
  FT_SRC_ALPHA : Nat
  FT_ONE_MINUS_SRC_ALPHA : Nat
  FT_KEEP : Nat
  FT_BITMAPS : Nat
  FT_BILINEAR : Nat
  FT_BORDER : Nat
  FT_OPT_CENTER : Nat
  FT_OPT_FLAT : Nat
  FT_OPT_SIGNED : Nat
  FT_NEAREST : Nat
  FT_L1 : Nat
  FT_L4 : Nat
  FT_L8 : Nat
  FT_PALETTED : Nat
  FT_TEXT8X8 : Nat
  FT_TEXTVGA : Nat
  FT_BARGRAPH : Nat
  FT_RGB332 : Nat
  FT_ARGB2 : Nat
  FT_ARGB1555 : Nat
  FT_ARGB4 : Nat
  FT_RGB565 : Nat
  FT_ALPHA_FUNC : Nat → Nat → Nat
  FT_STENCIL_FUNC : Nat → Nat → Nat → Nat
  FT_BLEND_FUNC : Nat → Nat → Nat
  FT_CELL : Nat → Nat
  FT_COLOR_A : Nat → Nat
  FT_COLOR_RGB : Nat → Nat → Nat → Nat
  FT_LINE_WIDTH : Nat → Nat
  FT_POINT_SIZE : Nat → Nat
  FT_SCISSOR_SIZE : Nat → Nat → Nat
  FT_SCISSOR_XY : Nat → Nat → Nat
  FT_BITMAP_HANDLE : Nat → Nat
  FT_CLEAR_STENCIL : Nat → Nat
  FT_CLEAR_TAG : Nat → Nat
  FT_STENCIL_OP : Nat → Nat → Nat
  FT_TAG : Nat → Nat
  FT_TAG_MASK : Nat → Nat
  FT_CLEAR_COLOR_A : Nat → Nat
  FT_CLEAR_COLOR_RGB : Nat → Nat → Nat → Nat
  FT_CLEAR : Nat → Nat → Nat → Nat
  FT_DISPLAY : Nat
  FT_BEGIN : Nat → Nat
  FT_VERTEX2II : Nat → Nat → Nat → Nat → Nat
  FT_VERTEX2F : Nat → Nat → Nat
  FT_BITMAP_LAYOUT : Nat → Nat → Nat → Nat
  FT_BITMAP_SIZE : Nat → Nat → Nat → Nat → Nat → Nat
  FT_BITMAP_SOURCE : Nat → Nat
  FT_BITMAP_TRANSFORM_A : Nat → Nat
  FT_BITMAP_TRANSFORM_B : Nat → Nat
  FT_BITMAP_TRANSFORM_C : Nat → Nat
  FT_BITMAP_TRANSFORM_D : Nat → Nat
  FT_BITMAP_TRANSFORM_E : Nat → Nat
  FT_BITMAP_TRANSFORM_F : Nat → Nat
  FT_CALL : Nat → Nat
  FT_RETURN : Nat
  FT_MACRO : Nat → Nat
  FT_SAVE_CONTEXT : Nat
  FT_RESTORE_CONTEXT : Nat
  FT_CMD_DLSTART : Nat
  FT_CMD_SWAP : Nat
  FT_CMD_STOP : Nat
  FT_CMD_COLDSTART : Nat
  FT_CMD_INFLATE : Nat
  FT_CMD_LOADIMAGE : Nat
  FT_CMD_BUTTON : Nat
  FT_CMD_CLOCK : Nat
  FT_CMD_FGCOLOR : Nat
  FT_CMD_BGCOLOR : Nat
  FT_CMD_GRADCOLOR : Nat
  FT_CMD_GAUGE : Nat
  FT_CMD_GRADIENT : Nat
  FT_CMD_KEYS : Nat
  FT_CMD_PROGRESS : Nat
  FT_CMD_SCROLLBAR : Nat
  FT_CMD_SLIDER : Nat
  FT_CMD_DIAL : Nat
  FT_CMD_TOGGLE : Nat
  FT_CMD_TEXT : Nat
  FT_CMD_NUMBER : Nat
  FT_CMD_LOADIDENTITY : Nat
  FT_CMD_TRANSLATE : Nat
  FT_CMD_SCALE : Nat
  FT_CMD_ROTATE : Nat
  FT_CMD_SETMATRIX : Nat
  FT_CMD_SPINNER : Nat
  FT_CMD_SCREENSAVER : Nat
  FT_CMD_SKETCH : Nat
  FT_CMD_SETFONT : Nat
  FT_CMD_TRACK : Nat
  FT_CMD_SNAPSHOT : Nat
  FT_CMD_LOGO : Nat
  FT_CMD_CALIBRATE : Nat

/-- What the build and the device contribute to a run: the chip header, the
width of `int` on the target, the two array sizes of `ftgl.h` and
`ftgl_config.h`, and the values the device returns when its registers are
read. -/
structure Env where
  /-- The chip header. -/
  hdr : FT800
  /-- The value of `sizeof(int)` on the target (2 on AVR boards, 4 on ARM ones). -/
  sizeofInt : Nat
  /-- The constant `FTGL_MAX_BITMAPS` (16 as shipped). -/
  FTGL_MAX_BITMAPS : Nat
  /-- The constant `FTGL_NUM_BITMAP_HANDLES` (15 as shipped). -/
  FTGL_NUM_BITMAP_HANDLES : Nat
  /-- The successive (read pointer, write pointer) pairs the device returns
  during drain wait number `k` after the host committed write pointer `c`:
  `polls k c`.  A list without an equal pair is a device that never drains. -/
  polls : Nat → Nat → List (Nat × Nat)
  /-- The value of `REG_TOUCH_TAG` read at the end of drain wait number `k`. -/
  regTouchTag : Nat → Nat
  /-- The value of `REG_TOUCH_SCREEN_XY` read at the end of drain wait number `k`. -/
  regTouchXY : Nat → Nat
  /-- The value `REG_ID` reads back during initialisation. -/
  regId : Nat
  /-- The value the GPIO register reads back during initialisation. -/
  regGpio : Nat

/-- The write-pointer register reads back the value last committed to it. -/
def Env.ReadsBack (env : Env) : Prop :=
  ∀ k c, ∀ p ∈ env.polls k c, p.2 = c

/-- The device drains its queue during every wait: some poll returns equal
read and write pointers. -/
def Env.Drains (env : Env) : Prop :=
  ∀ k c, ∃ p ∈ env.polls k c, u16 p.1 = u16 p.2

/-! ## The state: `g_Inst` and the transport -/

/-- The struct `GraphicsContext`: one cached command word per register group. -/
structure GraphicsContext where
  alphaFunc : Nat
  stencilFunc : Nat
  blendFunc : Nat
  bitmapCell : Nat
  colorAlpha : Nat
  colorRGB : Nat
  lineWidth : Nat
  pointSize : Nat
  scissorSize : Nat
  scissorXY : Nat
  bitmapHandle : Nat
  clearStencil : Nat
  clearTag : Nat
  stencilOp : Nat
  tag : Nat
  tagMask : Nat
  clearColorAlpha : Nat
  clearColorRGB : Nat
  deriving DecidableEq, Repr

/-- The struct `CoprocessorContext`. -/
structure CoprocessorContext where
  bgColor : Nat
  fgColor : Nat
  gradColor : Nat
  continuousCommandActive : Nat
  deriving DecidableEq, Repr

/-- The struct `BitmapInfo`. -/
structure BitmapInfo where
  bitmapAddress : Nat
  bitmapDataSize : Nat
  bitmapLayout : Nat
  bitmapSize : Nat
  activeHandle : Int
  deriving DecidableEq, Repr

/-- A call made to the hardware layer `fthw.h`, as the transport sees it. -/
inductive BusEvent where
  | hwInitialize
  | setSpeed (speed : Nat)
  | setReset (inReset : Nat)
  | hostCommand (commandId : Nat)
  | delayMS (ms : Nat)
  | write (addr : Nat) (data : List Nat)
  | read (addr : Nat) (count : Nat)
  | beginAppendWrite (addr : Nat)
  | appendWrite (data : List Nat)
  | endAppendWrite
  deriving DecidableEq, Repr

/-- The struct `FTGLInstance` (the global `g_Inst`, built with all three caches
enabled and context stack depth 0 as `ftgl_config.h` ships), followed by the
transport side of the world: `bus`, the calls made to the hardware layer so
far, oldest first; `regCmdWrite`, the value last written to the device's
write-pointer register; `waits`, the number of drain waits performed. -/
structure FTGLInstance where
  cmdQueueReadIndex : Nat
  cmdQueueWriteIndex : Nat
  cmdQueueFreeSpace : Nat
  graphicsContext : GraphicsContext
  commandContext : CoprocessorContext
  bitmaps : List BitmapInfo
  bitmapIndex : Int
  bitmapHandles : List Int
  lastHandle : Int
  nextHandle : Int
  graphicsRamIndex : Nat
  hasTouch : Nat
  touchX : Nat
  touchY : Nat
  touchTag : Nat
  bus : List BusEvent
  regCmdWrite : Nat
  waits : Nat
  deriving DecidableEq, Repr

/-- The bytes sent through `FTHWAppendWrite` in a log of transport calls, in
order: the command stream the device receives. -/
def appended : List BusEvent → List Nat
  | [] => []
  | .appendWrite d :: es => d ++ appended es
  | _ :: es => appended es

/-- The constant `FTGL_CMD_QUEUE_SIZE`. -/
def FTGL_CMD_QUEUE_SIZE : Nat := 4092

/-- The constant `FTGL_QUEUE_MASK`. -/
def FTGL_QUEUE_MASK : Nat := 0xFFF

/-! ## Register access -/

/-- The function `FTHWWrite`, as a logged call. -/
def FTHWWrite (addr : Nat) (data : List Nat) (s : FTGLInstance) : FTGLInstance :=
  { s with bus := s.bus ++ [.write addr data] }

/-- The function `FTHWRead`, as a logged call (the value read is supplied by `Env`). -/
def FTHWRead (addr count : Nat) (s : FTGLInstance) : FTGLInstance :=
  { s with bus := s.bus ++ [.read addr count] }

/-- The function `FTHWBeginAppendWrite`. -/
def FTHWBeginAppendWrite (addr : Nat) (s : FTGLInstance) : FTGLInstance :=
  { s with bus := s.bus ++ [.beginAppendWrite addr] }

/-- The function `FTHWAppendWrite`. -/
def FTHWAppendWrite (data : List Nat) (s : FTGLInstance) : FTGLInstance :=
  { s with bus := s.bus ++ [.appendWrite data] }

/-- The function `FTHWEndAppendWrite`. -/
def FTHWEndAppendWrite (s : FTGLInstance) : FTGLInstance :=
  { s with bus := s.bus ++ [.endAppendWrite] }

/-- The function `WriteReg8`. -/
def WriteReg8 (addr val : Nat) (s : FTGLInstance) : FTGLInstance :=
  FTHWWrite addr [u8 val] s

/-- The function `WriteReg16`; a write to the write-pointer register is also
remembered as the committed value. -/
def WriteReg16 (hdr : FT800) (addr val : Nat) (s : FTGLInstance) : FTGLInstance :=
  let s := FTHWWrite addr (le16 (u16 val)) s
  if addr = hdr.FT_REG_CMD_WRITE then { s with regCmdWrite := u16 val } else s

/-- The function `WriteReg32`. -/
def WriteReg32 (addr val : Nat) (s : FTGLInstance) : FTGLInstance :=
  FTHWWrite addr (le32 (u32 val)) s

/-- The loop of `WaitForQueueEmpty`, over the pairs the device returns: each
round reads the read pointer and the write pointer into `g_Inst` and goes on
while they differ.  Running out of pairs is the loop that never ends. -/
def pollQueue (hdr : FT800) : List (Nat × Nat) → FTGLInstance → Except Fault FTGLInstance
  | [], _ => .error .hang
  | (r, w) :: rest, s =>
    let s1 : FTGLInstance := { FTHWRead hdr.FT_REG_CMD_READ 2 s with cmdQueueReadIndex := u16 r }
    let s2 : FTGLInstance := { FTHWRead hdr.FT_REG_CMD_WRITE 2 s1 with cmdQueueWriteIndex := u16 w }
    if s2.cmdQueueReadIndex ≠ s2.cmdQueueWriteIndex then pollQueue hdr rest s2
    else .ok s2

/-- The function `WaitForQueueEmpty`. -/
def WaitForQueueEmpty (env : Env) (s : FTGLInstance) : Except Fault FTGLInstance := do
  let s1 ← pollQueue env.hdr (env.polls s.waits s.regCmdWrite) s
  pure { s1 with cmdQueueFreeSpace := FTGL_CMD_QUEUE_SIZE, waits := s1.waits + 1 }

/-- The function `FlushCommands`. -/
def FlushCommands (env : Env) (s : FTGLInstance) : Except Fault FTGLInstance := do
  let s := FTHWEndAppendWrite s
  let s := WriteReg16 env.hdr env.hdr.FT_REG_CMD_WRITE s.cmdQueueWriteIndex s
  let s ← WaitForQueueEmpty env s
  pure (FTHWBeginAppendWrite (env.hdr.FT_RAM_CMD + s.cmdQueueWriteIndex) s)

/-! ## Writing to the command queue -/

/-- The function `EnsureSpace`: the test compares the free space with
`sizeof(amt)`, the size of the parameter, whatever amount is asked for. -/
def EnsureSpace (env : Env) (_amt : Nat) (s : FTGLInstance) : Except Fault FTGLInstance :=
  if s.cmdQueueFreeSpace < env.sizeofInt then FlushCommands env s else pure s

/-- The function `Aligned`. -/
def Aligned (size : Nat) : Nat :=
  let size := u16 size
  let val := size &&& 0x3
  if val ≠ 0 then u16 (size + (4 - val)) else size

/-- The function `Append32`. -/
def Append32 (val : Nat) (s : FTGLInstance) : FTGLInstance :=
  let s := FTHWAppendWrite (le32 (u32 val)) s
  { s with
    cmdQueueWriteIndex := (s.cmdQueueWriteIndex + 4) &&& FTGL_QUEUE_MASK
    cmdQueueFreeSpace := u16 (s.cmdQueueFreeSpace + 65536 - 4) }

/-- The function `DLCommand`. -/
def DLCommand (env : Env) (val : Nat) (s : FTGLInstance) : Except Fault FTGLInstance := do
  let s ← EnsureSpace env 4 s
  pure (Append32 val s)

/-- The function `Append16`. -/
def Append16 (val : Nat) (s : FTGLInstance) : FTGLInstance :=
  let s := FTHWAppendWrite (le16 (u16 val)) s
  { s with
    cmdQueueWriteIndex := (s.cmdQueueWriteIndex + 2) &&& FTGL_QUEUE_MASK
    cmdQueueFreeSpace := u16 (s.cmdQueueFreeSpace + 65536 - 2) }

/-- The function `AppendString`: `count` bytes are read from `data`, which is
undefined when the buffer is shorter. -/
def AppendString (data : List Nat) (count : Nat) (s : FTGLInstance) :
    Except Fault FTGLInstance :=
  let count := u16 count
  if count ≤ data.length then
    let s := FTHWAppendWrite (data.take count) s
    pure { s with
      cmdQueueWriteIndex := (s.cmdQueueWriteIndex + count) &&& FTGL_QUEUE_MASK
      cmdQueueFreeSpace := u16 (s.cmdQueueFreeSpace + 65536 - count) }
  else .error .outOfBounds

/-- The function `AlignBuffer`. -/
def AlignBuffer (s : FTGLInstance) : FTGLInstance :=
  let val := s.cmdQueueWriteIndex &&& 0x3
  if val ≠ 0 then
    let val := 4 - val
    let s := FTHWAppendWrite (List.replicate val 0) s
    { s with
      cmdQueueWriteIndex := (s.cmdQueueWriteIndex + val) &&& FTGL_QUEUE_MASK
      cmdQueueFreeSpace := u16 (s.cmdQueueFreeSpace + 65536 - val) }
  else s

/-! ## The graphics-context cache -/

/-- The fields of `GraphicsContext`, as the macro `WRITE_DLCMD` receives them
in its `cache` argument. -/
inductive Group where
  | alphaFunc | stencilFunc | blendFunc | bitmapCell | colorAlpha | colorRGB
  | lineWidth | pointSize | scissorSize | scissorXY | bitmapHandle
  | clearStencil | clearTag | stencilOp | tag | tagMask
  | clearColorAlpha | clearColorRGB
  deriving DecidableEq, Repr

/-- Read of the field `g` of a graphics context. -/
def GraphicsContext.get (c : GraphicsContext) : Group → Nat
  | .alphaFunc => c.alphaFunc
  | .stencilFunc => c.stencilFunc
  | .blendFunc => c.blendFunc
  | .bitmapCell => c.bitmapCell
  | .colorAlpha => c.colorAlpha
  | .colorRGB => c.colorRGB
  | .lineWidth => c.lineWidth
  | .pointSize => c.pointSize
  | .scissorSize => c.scissorSize
  | .scissorXY => c.scissorXY
  | .bitmapHandle => c.bitmapHandle
  | .clearStencil => c.clearStencil
  | .clearTag => c.clearTag
  | .stencilOp => c.stencilOp
  | .tag => c.tag
  | .tagMask => c.tagMask
  | .clearColorAlpha => c.clearColorAlpha
  | .clearColorRGB => c.clearColorRGB

/-- Assignment to the field `g` of a graphics context. -/
def GraphicsContext.set (c : GraphicsContext) (g : Group) (v : Nat) : GraphicsContext :=
  match g with
  | .alphaFunc => { c with alphaFunc := v }
  | .stencilFunc => { c with stencilFunc := v }
  | .blendFunc => { c with blendFunc := v }
  | .bitmapCell => { c with bitmapCell := v }
  | .colorAlpha => { c with colorAlpha := v }
  | .colorRGB => { c with colorRGB := v }
  | .lineWidth => { c with lineWidth := v }
  | .pointSize => { c with pointSize := v }
  | .scissorSize => { c with scissorSize := v }
  | .scissorXY => { c with scissorXY := v }
  | .bitmapHandle => { c with bitmapHandle := v }
  | .clearStencil => { c with clearStencil := v }
  | .clearTag => { c with clearTag := v }
  | .stencilOp => { c with stencilOp := v }
  | .tag => { c with tag := v }
  | .tagMask => { c with tagMask := v }
  | .clearColorAlpha => { c with clearColorAlpha := v }
  | .clearColorRGB => { c with clearColorRGB := v }

/-- The macro `WRITE_DLCMD(cache, value)` of the build with the graphics
context cached: the command is sent only when it changes the cached word. -/
def WRITE_DLCMD (env : Env) (cache : Group) (value : Nat) (s : FTGLInstance) :
    Except Fault FTGLInstance :=
  let computedValue := u32 value
  if s.graphicsContext.get cache ≠ computedValue then
    DLCommand env computedValue
      { s with graphicsContext := s.graphicsContext.set cache computedValue }
  else pure s

/-! ## Display-list commands -/

/-- The macro `FT_CLEAR_COLOR_RGB32` of `ftgl.c`. -/
def FT_CLEAR_COLOR_RGB32 (color : Nat) : Nat := (2 <<< 24) ||| color

/-- The macro `FT_CLEAR32` of `ftgl.c`. -/
def FT_CLEAR32 (flags : Nat) : Nat := (38 <<< 24) ||| flags

/-- The macro `FT_COLOR_RGB32` of `ftgl.c`. -/
def FT_COLOR_RGB32 (color : Nat) : Nat := (4 <<< 24) ||| color

/-- The macro `FT_COLOR_MASK32` of `ftgl.c`. -/
def FT_COLOR_MASK32 (flags : Nat) : Nat := (32 <<< 24) ||| flags

/-- The enumerator `FT_CLEAR_C`. -/
def FT_CLEAR_C : Nat := 4

/-- The enumerator `FT_CLEAR_S`. -/
def FT_CLEAR_S : Nat := 2

/-- The enumerator `FT_CLEAR_T`. -/
def FT_CLEAR_T : Nat := 1

/-- The function `FTGLBegin`. -/
def FTGLBegin (env : Env) (primitiveType : Nat) (s : FTGLInstance) :=
  DLCommand env (env.hdr.FT_BEGIN (u8 primitiveType)) s

/-- The function `FTGLVertex2ii`. -/
def FTGLVertex2ii (env : Env) (x y handle cell : Nat) (s : FTGLInstance) :=
  DLCommand env (env.hdr.FT_VERTEX2II (u16 x) (u16 y) (u8 handle) (u8 cell)) s

/-- The function `FTGLVertex2f`. -/
def FTGLVertex2f (env : Env) (x y : Nat) (s : FTGLInstance) :=
  DLCommand env (env.hdr.FT_VERTEX2F (u16 x) (u16 y)) s

/-- The function `FTGLEnd` (intentionally empty). -/
def FTGLEnd (s : FTGLInstance) : FTGLInstance := s

/-- The function `FTGLBitmapHandle`. -/
def FTGLBitmapHandle (env : Env) (handle : Nat) (s : FTGLInstance) :=
  WRITE_DLCMD env .bitmapHandle (env.hdr.FT_BITMAP_HANDLE (u8 handle)) s

/-- The function `FTGLBitmapLayout`. -/
def FTGLBitmapLayout (env : Env) (format linestride height : Nat) (s : FTGLInstance) :=
  DLCommand env (env.hdr.FT_BITMAP_LAYOUT (u8 format) (u16 linestride) (u16 height)) s

/-- The function `FTGLBitmapSize`. -/
def FTGLBitmapSize (env : Env) (filter wrapx wrapy width height : Nat) (s : FTGLInstance) :=
  DLCommand env
    (env.hdr.FT_BITMAP_SIZE (u8 filter) (u8 wrapx) (u8 wrapy) (u16 width) (u16 height)) s

/-- The function `FTGLBitmapSource`. -/
def FTGLBitmapSource (env : Env) (sourceAddress : Nat) (s : FTGLInstance) :=
  DLCommand env (env.hdr.FT_BITMAP_SOURCE (u32 sourceAddress)) s

/-- The function `FTGLBitmapCell`. -/
def FTGLBitmapCell (env : Env) (cell : Nat) (s : FTGLInstance) :=
  WRITE_DLCMD env .bitmapCell (env.hdr.FT_CELL (u8 cell)) s

/-- The function `FTGLBitmapTransformA`. -/
def FTGLBitmapTransformA (env : Env) (a : Nat) (s : FTGLInstance) :=
  DLCommand env (env.hdr.FT_BITMAP_TRANSFORM_A (u32 a)) s

/-- The function `FTGLBitmapTransformB`. -/
def FTGLBitmapTransformB (env : Env) (b : Nat) (s : FTGLInstance) :=
  DLCommand env (env.hdr.FT_BITMAP_TRANSFORM_B (u32 b)) s

/-- The function `FTGLBitmapTransformC`. -/
def FTGLBitmapTransformC (env : Env) (c : Nat) (s : FTGLInstance) :=
  DLCommand env (env.hdr.FT_BITMAP_TRANSFORM_C (u32 c)) s

/-- The function `FTGLBitmapTransformD`. -/
def FTGLBitmapTransformD (env : Env) (d : Nat) (s : FTGLInstance) :=
  DLCommand env (env.hdr.FT_BITMAP_TRANSFORM_D (u32 d)) s

/-- The function `FTGLBitmapTransformE`. -/
def FTGLBitmapTransformE (env : Env) (e : Nat) (s : FTGLInstance) :=
  DLCommand env (env.hdr.FT_BITMAP_TRANSFORM_E (u32 e)) s

/-- The function `FTGLBitmapTransformF`. -/
def FTGLBitmapTransformF (env : Env) (f : Nat) (s : FTGLInstance) :=
  DLCommand env (env.hdr.FT_BITMAP_TRANSFORM_F (u32 f)) s

/-- The function `FTGLAlphaFunc`. -/
def FTGLAlphaFunc (env : Env) (func refValue : Nat) (s : FTGLInstance) :=
  WRITE_DLCMD env .alphaFunc (env.hdr.FT_ALPHA_FUNC (u8 func) (u8 refValue)) s

/-- The function `FTGLBlendFunc`. -/
def FTGLBlendFunc (env : Env) (src dst : Nat) (s : FTGLInstance) :=
  WRITE_DLCMD env .blendFunc (env.hdr.FT_BLEND_FUNC (u8 src) (u8 dst)) s

/-- The function `FTGLClearColorA`. -/
def FTGLClearColorA (env : Env) (alpha : Nat) (s : FTGLInstance) :=
  WRITE_DLCMD env .clearColorAlpha (env.hdr.FT_CLEAR_COLOR_A (u8 alpha)) s

/-- The function `FTGLClearColorRGB`. -/
def FTGLClearColorRGB (env : Env) (color : Nat) (s : FTGLInstance) :=
  WRITE_DLCMD env .clearColorRGB (FT_CLEAR_COLOR_RGB32 (u32 color)) s

/-- The function `FTGLClearColorRGBComponents`. -/
def FTGLClearColorRGBComponents (env : Env) (r g b : Nat) (s : FTGLInstance) :=
  WRITE_DLCMD env .clearColorRGB (env.hdr.FT_CLEAR_COLOR_RGB (u8 r) (u8 g) (u8 b)) s

/-- The function `FTGLClearStencil`. -/
def FTGLClearStencil (env : Env) (val : Nat) (s : FTGLInstance) :=
  WRITE_DLCMD env .clearStencil (env.hdr.FT_CLEAR_STENCIL (u8 val)) s

/-- The function `FTGLClearTag`. -/
def FTGLClearTag (env : Env) (tag : Nat) (s : FTGLInstance) :=
  WRITE_DLCMD env .clearTag (env.hdr.FT_CLEAR_TAG (u8 tag)) s

/-- The function `FTGLClear`. -/
def FTGLClear (env : Env) (flags : Nat) (s : FTGLInstance) :=
  DLCommand env (FT_CLEAR32 flags) s

/-- The function `FTGLColorA`: the cache is compared with, and the command
sent is, the bare `alpha`. -/
def FTGLColorA (env : Env) (alpha : Nat) (s : FTGLInstance) :=
  WRITE_DLCMD env .colorAlpha (u8 alpha) s

/-- The function `FTGLColorRGB`. -/
def FTGLColorRGB (env : Env) (color : Nat) (s : FTGLInstance) :=
  WRITE_DLCMD env .colorRGB (FT_COLOR_RGB32 (u32 color)) s

/-- The function `FTGLColorRGBComponents`. -/
def FTGLColorRGBComponents (env : Env) (r g b : Nat) (s : FTGLInstance) :=
  WRITE_DLCMD env .colorRGB (env.hdr.FT_COLOR_RGB (u8 r) (u8 g) (u8 b)) s

/-- The function `FTGLColorMask`. -/
def FTGLColorMask (env : Env) (flags : Nat) (s : FTGLInstance) :=
  DLCommand env (FT_COLOR_MASK32 flags) s

/-- The function `FTGLDisplay`. -/
def FTGLDisplay (env : Env) (s : FTGLInstance) :=
  DLCommand env env.hdr.FT_DISPLAY s

/-- The function `FTGLCall`. -/
def FTGLCall (env : Env) (dest : Nat) (s : FTGLInstance) :=
  DLCommand env (env.hdr.FT_CALL (u16 dest)) s

/-- The function `FTGLReturn`. -/
def FTGLReturn (env : Env) (s : FTGLInstance) :=
  DLCommand env env.hdr.FT_RETURN s

/-- The function `FTGLMacro`. -/
def FTGLMacro (env : Env) (m : Nat) (s : FTGLInstance) :=
  DLCommand env (env.hdr.FT_MACRO (u8 m)) s

/-- The function `FTGLSaveContext` (context stack depth 0: the cached context
is not touched). -/
def FTGLSaveContext (env : Env) (s : FTGLInstance) :=
  DLCommand env env.hdr.FT_SAVE_CONTEXT s

/-- The function `FTGLRestoreContext` (context stack depth 0: the cached
context is not touched). -/
def FTGLRestoreContext (env : Env) (s : FTGLInstance) :=
  DLCommand env env.hdr.FT_RESTORE_CONTEXT s

/-- The function `FTGLLineWidth`. -/
def FTGLLineWidth (env : Env) (width : Nat) (s : FTGLInstance) :=
  WRITE_DLCMD env .lineWidth (env.hdr.FT_LINE_WIDTH (u16 width)) s

/-- The function `FTGLPointSize`. -/
def FTGLPointSize (env : Env) (size : Nat) (s : FTGLInstance) :=
  WRITE_DLCMD env .pointSize (env.hdr.FT_POINT_SIZE (u32 size)) s

/-- The function `FTGLScissorSize`. -/
def FTGLScissorSize (env : Env) (width height : Nat) (s : FTGLInstance) :=
  WRITE_DLCMD env .scissorSize (env.hdr.FT_SCISSOR_SIZE (u16 width) (u16 height)) s

/-- The function `FTGLScissorXY`. -/
def FTGLScissorXY (env : Env) (x y : Nat) (s : FTGLInstance) :=
  WRITE_DLCMD env .scissorXY (env.hdr.FT_SCISSOR_XY (u16 x) (u16 y)) s

/-- The function `FTGLStencilFunc`. -/
def FTGLStencilFunc (env : Env) (func ref mask : Nat) (s : FTGLInstance) :=
  WRITE_DLCMD env .stencilFunc (env.hdr.FT_STENCIL_FUNC (u8 func) (u8 ref) (u8 mask)) s

/-- The function `FTGLStencilOp`. -/
def FTGLStencilOp (env : Env) (sfail spass : Nat) (s : FTGLInstance) :=
  WRITE_DLCMD env .stencilOp (env.hdr.FT_STENCIL_OP (u8 sfail) (u8 spass)) s

/-- The function `FTGLTag`. -/
def FTGLTag (env : Env) (tag : Nat) (s : FTGLInstance) :=
  WRITE_DLCMD env .tag (env.hdr.FT_TAG (u8 tag)) s

/-- The function `FTGLTagMask`. -/
def FTGLTagMask (env : Env) (on' : Nat) (s : FTGLInstance) :=
  WRITE_DLCMD env .tagMask (env.hdr.FT_TAG_MASK (u8 on')) s

/-! ## Coprocessor commands -/

/-- The function `FTGLCmdDLStart`. -/
def FTGLCmdDLStart (env : Env) (s : FTGLInstance) :=
  DLCommand env env.hdr.FT_CMD_DLSTART s

/-- The function `FTGLCmdSwap`. -/
def FTGLCmdSwap (env : Env) (s : FTGLInstance) :=
  DLCommand env env.hdr.FT_CMD_SWAP s

/-- The function `FTGLCmdColdStart`. -/
def FTGLCmdColdStart (env : Env) (s : FTGLInstance) : Except Fault FTGLInstance := do
  let s : FTGLInstance := { s with commandContext :=
    { s.commandContext with bgColor := 0x002040, fgColor := 0x003870, gradColor := 0xffffff } }
  let s ← EnsureSpace env (4 * 2) s
  let s := Append32 env.hdr.FT_CMD_STOP s
  let s := Append32 env.hdr.FT_CMD_COLDSTART s
  pure s

/-- The function `FTGLCmdInflate`; `count` is the length argument, `data` the
bytes at the pointer. -/
def FTGLCmdInflate (env : Env) (ptr : Nat) (data : List Nat) (count : Nat) (s : FTGLInstance) :
    Except Fault FTGLInstance := do
  let s ← EnsureSpace env (Aligned (4 * 2 + u32 count)) s
  let s := Append32 env.hdr.FT_CMD_INFLATE s
  let s := Append32 ptr s
  let s ← AppendString data (u32 count) s
  pure (AlignBuffer s)

/-- The function `FTGLCmdLoadImage`. -/
def FTGLCmdLoadImage (env : Env) (ptr options : Nat) (data : List Nat) (count : Nat)
    (s : FTGLInstance) : Except Fault FTGLInstance := do
  let s ← EnsureSpace env (Aligned (4 * 3 + u32 count)) s
  let s := Append32 env.hdr.FT_CMD_LOADIMAGE s
  let s := Append32 ptr s
  let s := Append32 options s
  let s ← AppendString data (u32 count) s
  pure (AlignBuffer s)

/-- The function `FTGLCmdButton`. -/
def FTGLCmdButton (env : Env) (x y w h : Int) (font options : Nat) (str : List Nat) (len : Nat)
    (s : FTGLInstance) : Except Fault FTGLInstance := do
  let s ← EnsureSpace env (Aligned (4 + 2 * 6 + u16 len)) s
  let s := Append32 env.hdr.FT_CMD_BUTTON s
  let s := Append16 (toU16 x) s
  let s := Append16 (toU16 y) s
  let s := Append16 (toU16 w) s
  let s := Append16 (toU16 h) s
  let s := Append16 font s
  let s := Append16 options s
  let s ← AppendString str (u16 len) s
  pure (AlignBuffer s)

/-- The function `FTGLCmdClock`. -/
def FTGLCmdClock (env : Env) (x y radius : Int) (options h m sec ms : Nat) (s : FTGLInstance) :
    Except Fault FTGLInstance := do
  let s ← EnsureSpace env (4 + 2 * 8) s
  let s := Append32 env.hdr.FT_CMD_CLOCK s
  let s := Append16 (toU16 x) s
  let s := Append16 (toU16 y) s
  let s := Append16 (toU16 radius) s
  let s := Append16 options s
  let s := Append16 h s
  let s := Append16 m s
  let s := Append16 sec s
  let s := Append16 ms s
  pure s

/-- The function `FTGLCmdFGColor`. -/
def FTGLCmdFGColor (env : Env) (color : Nat) (s : FTGLInstance) : Except Fault FTGLInstance :=
  let color := u32 color
  if s.commandContext.fgColor ≠ color then do
    let s : FTGLInstance := { s with commandContext := { s.commandContext with fgColor := color } }
    let s ← EnsureSpace env (4 * 2) s
    let s := Append32 env.hdr.FT_CMD_FGCOLOR s
    let s := Append32 color s
    pure s
  else pure s

/-- The function `FTGLCmdBGColor`. -/
def FTGLCmdBGColor (env : Env) (color : Nat) (s : FTGLInstance) : Except Fault FTGLInstance :=
  let color := u32 color
  if s.commandContext.bgColor ≠ color then do
    let s : FTGLInstance := { s with commandContext := { s.commandContext with bgColor := color } }
    let s ← EnsureSpace env (4 * 2) s
    let s := Append32 env.hdr.FT_CMD_BGCOLOR s
    let s := Append32 color s
    pure s
  else pure s

/-- The function `FTGLCmdGradColor`. -/
def FTGLCmdGradColor (env : Env) (color : Nat) (s : FTGLInstance) : Except Fault FTGLInstance :=
  let color := u32 color
  if s.commandContext.gradColor ≠ color then do
    let s : FTGLInstance :=
      { s with commandContext := { s.commandContext with gradColor := color } }
    let s ← EnsureSpace env (4 * 2) s
    let s := Append32 env.hdr.FT_CMD_GRADCOLOR s
    let s := Append32 color s
    pure s
  else pure s

/-- The function `FTGLCmdGauge`. -/
def FTGLCmdGauge (env : Env) (x y r : Int) (options major minor val range : Nat)
    (s : FTGLInstance) : Except Fault FTGLInstance := do
  let s ← EnsureSpace env (4 + 2 * 8) s
  let s := Append32 env.hdr.FT_CMD_GAUGE s
  let s := Append16 (toU16 x) s
  let s := Append16 (toU16 y) s
  let s := Append16 (toU16 r) s
  let s := Append16 options s
  let s := Append16 major s
  let s := Append16 minor s
  let s := Append16 val s
  let s := Append16 range s
  pure s

/-- The function `FTGLCmdGradient`. -/
def FTGLCmdGradient (env : Env) (x0 y0 : Int) (rgb0 : Nat) (x1 y1 : Int) (rgb1 : Nat)
    (s : FTGLInstance) : Except Fault FTGLInstance := do
  let s ← EnsureSpace env (4 * 3 + 2 * 4) s
  let s := Append32 env.hdr.FT_CMD_GRADIENT s
  let s := Append16 (toU16 x0) s
  let s := Append16 (toU16 y0) s
  let s := Append32 rgb0 s
  let s := Append16 (toU16 x1) s
  let s := Append16 (toU16 y1) s
  let s := Append32 rgb1 s
  pure s

/-- The function `FTGLCmdKeys`. -/
def FTGLCmdKeys (env : Env) (x y w h font : Int) (options : Nat) (str : List Nat) (len : Nat)
    (s : FTGLInstance) : Except Fault FTGLInstance := do
  let s ← EnsureSpace env (Aligned (4 + 2 * 6 + u16 len)) s
  let s := Append32 env.hdr.FT_CMD_KEYS s
  let s := Append16 (toU16 x) s
  let s := Append16 (toU16 y) s
  let s := Append16 (toU16 w) s
  let s := Append16 (toU16 h) s
  let s := Append16 (toU16 font) s
  let s := Append16 options s
  let s ← AppendString str (u16 len) s
  pure (AlignBuffer s)

/-- The function `FTGLCmdProgress`. -/
def FTGLCmdProgress (env : Env) (x y w h : Int) (options val range : Nat) (s : FTGLInstance) :
    Except Fault FTGLInstance := do
  let s ← EnsureSpace env (4 + 2 * 8) s
  let s := Append32 env.hdr.FT_CMD_PROGRESS s
  let s := Append16 (toU16 x) s
  let s := Append16 (toU16 y) s
  let s := Append16 (toU16 w) s
  let s := Append16 (toU16 h) s
  let s := Append16 options s
  let s := Append16 val s
  let s := Append16 range s
  let s := Append16 0 s
  pure s

/-- The function `FTGLCmdScrollbar`. -/
def FTGLCmdScrollbar (env : Env) (x y w h : Int) (options val size range : Nat)
    (s : FTGLInstance) : Except Fault FTGLInstance := do
  let s ← EnsureSpace env (4 + 2 * 8) s
  let s := Append32 env.hdr.FT_CMD_SCROLLBAR s
  let s := Append16 (toU16 x) s
  let s := Append16 (toU16 y) s
  let s := Append16 (toU16 w) s
  let s := Append16 (toU16 h) s
  let s := Append16 options s
  let s := Append16 val s
  let s := Append16 size s
  let s := Append16 range s
  pure s

/-- The function `FTGLCmdSlider`. -/
def FTGLCmdSlider (env : Env) (x y w h : Int) (options val range : Nat) (s : FTGLInstance) :
    Except Fault FTGLInstance := do
  let s ← EnsureSpace env (4 + 2 * 8) s
  let s := Append32 env.hdr.FT_CMD_SLIDER s
  let s := Append16 (toU16 x) s
  let s := Append16 (toU16 y) s
  let s := Append16 (toU16 w) s
  let s := Append16 (toU16 h) s
  let s := Append16 options s
  let s := Append16 val s
  let s := Append16 range s
  let s := Append16 0 s
  pure s

/-- The function `FTGLCmdDial`. -/
def FTGLCmdDial (env : Env) (x y r : Int) (options val : Nat) (s : FTGLInstance) :
    Except Fault FTGLInstance := do
  let s ← EnsureSpace env (4 + 2 * 6) s
  let s := Append32 env.hdr.FT_CMD_DIAL s
  let s := Append16 (toU16 x) s
  let s := Append16 (toU16 y) s
  let s := Append16 (toU16 r) s
  let s := Append16 options s
  let s := Append16 val s
  let s := Append16 0 s
  pure s

/-- The function `FTGLCmdToggle`; the parameter `state` is not sent. -/
def FTGLCmdToggle (env : Env) (x y w font : Int) (options _state : Nat) (str : List Nat)
    (len : Nat) (s : FTGLInstance) : Except Fault FTGLInstance := do
  let s ← EnsureSpace env (Aligned (4 + 2 * 6 + u16 len)) s
  let s := Append32 env.hdr.FT_CMD_TOGGLE s
  let s := Append16 (toU16 x) s
  let s := Append16 (toU16 y) s
  let s := Append16 (toU16 w) s
  let s := Append16 (toU16 font) s
  let s := Append16 options s
  let s ← AppendString str (u16 len) s
  pure (AlignBuffer s)

/-- The function `FTGLCmdText`. -/
def FTGLCmdText (env : Env) (x y font : Int) (options : Nat) (str : List Nat) (len : Nat)
    (s : FTGLInstance) : Except Fault FTGLInstance := do
  let s ← EnsureSpace env (Aligned (4 + 2 * 4 + u16 len)) s
  let s := Append32 env.hdr.FT_CMD_TEXT s
  let s := Append16 (toU16 x) s
  let s := Append16 (toU16 y) s
  let s := Append16 (toU16 font) s
  let s := Append16 options s
  let s ← AppendString str (u16 len) s
  pure (AlignBuffer s)

/-- The function `FTGLCmdNumber`. -/
def FTGLCmdNumber (env : Env) (x y font : Int) (options : Nat) (n : Int) (s : FTGLInstance) :
    Except Fault FTGLInstance := do
  let s ← EnsureSpace env (4 * 2 + 2 * 4) s
  let s := Append32 env.hdr.FT_CMD_NUMBER s
  let s := Append16 (toU16 x) s
  let s := Append16 (toU16 y) s
  let s := Append16 (toU16 font) s
  let s := Append16 options s
  let s := Append32 (toU32 n) s
  pure s

/-- The function `FTGLCmdLoadIdentity`. -/
def FTGLCmdLoadIdentity (env : Env) (s : FTGLInstance) :=
  DLCommand env env.hdr.FT_CMD_LOADIDENTITY s

/-- The function `FTGLCmdTranslate`. -/
def FTGLCmdTranslate (env : Env) (tx ty : Int) (s : FTGLInstance) :
    Except Fault FTGLInstance := do
  let s ← EnsureSpace env (4 * 3) s
  let s := Append32 env.hdr.FT_CMD_TRANSLATE s
  let s := Append32 (toU32 tx) s
  let s := Append32 (toU32 ty) s
  pure s

/-- The function `FTGLCmdScale`. -/
def FTGLCmdScale (env : Env) (sx sy : Int) (s : FTGLInstance) : Except Fault FTGLInstance := do
  let s ← EnsureSpace env (4 * 3) s
  let s := Append32 env.hdr.FT_CMD_SCALE s
  let s := Append32 (toU32 sx) s
  let s := Append32 (toU32 sy) s
  pure s

/-- The function `FTGLCmdRotate`. -/
def FTGLCmdRotate (env : Env) (a : Int) (s : FTGLInstance) : Except Fault FTGLInstance := do
  let s ← EnsureSpace env (4 * 2) s
  let s := Append32 env.hdr.FT_CMD_ROTATE s
  let s := Append32 (toU32 a) s
  pure s

/-- The function `FTGLCmdSetMatrix`. -/
def FTGLCmdSetMatrix (env : Env) (s : FTGLInstance) :=
  DLCommand env env.hdr.FT_CMD_SETMATRIX s

/-- The function `FTGLCmdStop`. -/
def FTGLCmdStop (env : Env) (s : FTGLInstance) : Except Fault FTGLInstance :=
  DLCommand env env.hdr.FT_CMD_STOP
    { s with commandContext := { s.commandContext with continuousCommandActive := 0 } }

/-- The function `FTGLCmdSpinner`. -/
def FTGLCmdSpinner (env : Env) (x y : Int) (style scale : Nat) (s : FTGLInstance) :
    Except Fault FTGLInstance := do
  let s ← (if s.commandContext.continuousCommandActive ≠ 0 then FTGLCmdStop env s else pure s)
  let s : FTGLInstance :=
    { s with commandContext := { s.commandContext with continuousCommandActive := 1 } }
  let s ← EnsureSpace env (4 + 2 * 4) s
  let s := Append32 env.hdr.FT_CMD_SPINNER s
  let s := Append16 (toU16 x) s
  let s := Append16 (toU16 y) s
  let s := Append16 style s
  let s := Append16 scale s
  pure s

/-- The function `FTGLCmdScreensaver`. -/
def FTGLCmdScreensaver (env : Env) (s : FTGLInstance) : Except Fault FTGLInstance := do
  let s ← (if s.commandContext.continuousCommandActive ≠ 0 then FTGLCmdStop env s else pure s)
  let s : FTGLInstance :=
    { s with commandContext := { s.commandContext with continuousCommandActive := 1 } }
  DLCommand env env.hdr.FT_CMD_SCREENSAVER s

/-- The function `FTGLCmdSketch`. -/
def FTGLCmdSketch (env : Env) (x y : Int) (w h ptr format : Nat) (s : FTGLInstance) :
    Except Fault FTGLInstance := do
  let s ← (if s.commandContext.continuousCommandActive ≠ 0 then FTGLCmdStop env s else pure s)
  let s : FTGLInstance :=
    { s with commandContext := { s.commandContext with continuousCommandActive := 1 } }
  let s ← EnsureSpace env (4 * 2 + 2 * 6) s
  let s := Append32 env.hdr.FT_CMD_SKETCH s
  let s := Append16 (toU16 x) s
  let s := Append16 (toU16 y) s
  let s := Append16 w s
  let s := Append16 h s
  let s := Append32 ptr s
  let s := Append16 format s
  let s := Append16 0 s
  pure s

/-- The function `FTGLCmdSetFont`. -/
def FTGLCmdSetFont (env : Env) (font ptr : Nat) (s : FTGLInstance) :
    Except Fault FTGLInstance := do
  let s ← EnsureSpace env (4 * 3) s
  let s := Append32 env.hdr.FT_CMD_SETFONT s
  let s := Append32 font s
  let s := Append32 ptr s
  pure s

/-- The function `FTGLCmdTrack`. -/
def FTGLCmdTrack (env : Env) (x y w h tag : Int) (s : FTGLInstance) :
    Except Fault FTGLInstance := do
  let s ← EnsureSpace env (4 + 2 * 6) s
  let s := Append32 env.hdr.FT_CMD_TRACK s
  let s := Append16 (toU16 x) s
  let s := Append16 (toU16 y) s
  let s := Append16 (toU16 w) s
  let s := Append16 (toU16 h) s
  let s := Append16 (toU16 tag) s
  let s := Append16 0 s
  pure s

/-- The function `FTGLCmdSnapshot`. -/
def FTGLCmdSnapshot (env : Env) (ptr : Nat) (s : FTGLInstance) : Except Fault FTGLInstance := do
  let s ← EnsureSpace env (4 * 2) s
  let s := Append32 env.hdr.FT_CMD_SNAPSHOT s
  let s := Append32 ptr s
  pure s

/-- The function `FTGLCmdLogo`. -/
def FTGLCmdLogo (env : Env) (s : FTGLInstance) :=
  DLCommand env env.hdr.FT_CMD_LOGO s

/-! ## Bitmaps -/

/-- The function `ComputeSizeAndStride`; the result is the pair
`(*size, *stride)`.  All arithmetic is in `uint32_t`. -/
def ComputeSizeAndStride (hdr : FT800) (format widthInPixels totalHeight : Nat) : Nat × Nat :=
  let md : Nat × Nat :=
    if format = hdr.FT_L1 then (1, 8)
    else if format = hdr.FT_L4 then (1, 2)
    else if format = hdr.FT_L8 then (1, 1)
    else if format = hdr.FT_PALETTED then (1, 1)
    else if format = hdr.FT_TEXT8X8 then (1, 1)
    else if format = hdr.FT_TEXTVGA then (1, 1)
    else if format = hdr.FT_BARGRAPH then (1, 1)
    else if format = hdr.FT_RGB332 then (1, 1)
    else if format = hdr.FT_ARGB2 then (1, 1)
    else if format = hdr.FT_ARGB1555 then (2, 1)
    else if format = hdr.FT_ARGB4 then (2, 1)
    else if format = hdr.FT_RGB565 then (2, 1)
    else (1, 1)
  let multiplier := md.1
  let divider := md.2
  let multiplied := u32 (multiplier * widthInPixels)
  let linestride := multiplied / divider
  let linestride := if u32 (linestride * divider) < multiplied then u32 (linestride + 1)
    else linestride
  (u32 (linestride * totalHeight), linestride)

/-- The function `FTGLCreateBitmap`; the result is the returned id and the
new state.  The `int` arguments reach the header macros converted to
unsigned. -/
def FTGLCreateBitmap (env : Env) (format : Nat) (widthInPixels heightInLines : Int)
    (s : FTGLInstance) : Except Fault (Int × FTGLInstance) := do
  let format := u8 format
  let (imgsize, stride) :=
    ComputeSizeAndStride env.hdr format (toU32 widthInPixels) (toU32 heightInLines)
  let addr := s.graphicsRamIndex
  let s : FTGLInstance := { s with graphicsRamIndex := u32 (s.graphicsRamIndex + imgsize) }
  let id := s.bitmapIndex
  let s : FTGLInstance := { s with bitmapIndex := i16 (s.bitmapIndex + 1) }
  let bitmaps ← arrModify s.bitmaps id fun _ =>
    { bitmapAddress := addr
      bitmapDataSize := imgsize
      bitmapLayout := u32 (env.hdr.FT_BITMAP_LAYOUT format stride (toU32 heightInLines))
      bitmapSize := u32 (env.hdr.FT_BITMAP_SIZE env.hdr.FT_BILINEAR env.hdr.FT_BORDER
        env.hdr.FT_BORDER (toU32 widthInPixels) (toU32 heightInLines))
      activeHandle := -1 }
  pure (id, { s with bitmaps := bitmaps })

/-- The statement `g_Inst.bitmaps[id].activeHandle = -1`. -/
def clearActiveHandle (id : Int) (s : FTGLInstance) : Except Fault FTGLInstance := do
  let bitmaps ← arrModify s.bitmaps id fun b => { b with activeHandle := -1 }
  pure { s with bitmaps := bitmaps }

/-- The function `FTGLSetBitmapParams`. -/
def FTGLSetBitmapParams (env : Env) (id : Int) (filter wrapx wrapy : Nat) (s : FTGLInstance) :
    Except Fault FTGLInstance := do
  let bms := u32 (env.hdr.FT_BITMAP_SIZE (u8 filter) (u8 wrapx) (u8 wrapy) 0 0)
  let bitmaps ← arrModify s.bitmaps id fun b =>
    { b with bitmapSize := bms ||| (b.bitmapSize &&& 0x1FFFF) }
  let s : FTGLInstance := { s with bitmaps := bitmaps }
  let b ← arrGet s.bitmaps id
  if b.activeHandle ≥ 0 then
    let handles ← arrModify s.bitmapHandles b.activeHandle fun _ => -1
    clearActiveHandle id { s with bitmapHandles := handles }
  else pure s

/-- The function `FTGLSetBitmapSize`. -/
def FTGLSetBitmapSize (env : Env) (id : Int) (renderWidth renderHeight : Nat)
    (s : FTGLInstance) : Except Fault FTGLInstance := do
  let size := u32 (env.hdr.FT_BITMAP_SIZE 0 0 0 (u16 renderWidth) (u16 renderHeight))
  let bitmaps ← arrModify s.bitmaps id fun b =>
    { b with bitmapSize := size ||| (b.bitmapSize &&& 0xFFFE0000) }
  let s : FTGLInstance := { s with bitmaps := bitmaps }
  let b ← arrGet s.bitmaps id
  if b.activeHandle ≥ 0 then
    let handles ← arrModify s.bitmapHandles b.activeHandle fun _ => -1
    clearActiveHandle id { s with bitmapHandles := handles }
  else pure s

/-- The product of two `uint16_t` operands as C computes it: in `unsigned int`
where `int` has 16 bits, in `int` (undefined on overflow) where it is wider. -/
def mulPromoted (env : Env) (a b : Nat) : Except Fault Nat :=
  if env.sizeofInt ≤ 2 then pure (u16 (a * b))
  else if a * b < 2 ^ (8 * env.sizeofInt - 1) then pure (a * b)
  else .error .overflow

/-- The function `FTGLCreateBitmapVerbose`. -/
def FTGLCreateBitmapVerbose (env : Env) (format stride layoutHeight numCells
    filter wrapx wrapy renderWidth renderHeight : Nat) (s : FTGLInstance) :
    Except Fault (Int × FTGLInstance) := do
  let p ← mulPromoted env (u16 stride) (u16 layoutHeight)
  let p ← mulPromoted env p (u16 numCells)
  let size := u32 p
  let addr := s.graphicsRamIndex
  let s : FTGLInstance := { s with graphicsRamIndex := u32 (s.graphicsRamIndex + size) }
  let id := s.bitmapIndex
  let s : FTGLInstance := { s with bitmapIndex := i16 (s.bitmapIndex + 1) }
  let bitmaps ← arrModify s.bitmaps id fun _ =>
    { bitmapAddress := addr
      bitmapDataSize := size
      bitmapLayout := u32 (env.hdr.FT_BITMAP_LAYOUT (u8 format) (u16 stride) (u16 layoutHeight))
      bitmapSize := u32 (env.hdr.FT_BITMAP_SIZE (u8 filter) (u8 wrapx) (u8 wrapy)
        (u16 renderWidth) (u16 renderHeight))
      activeHandle := -1 }
  pure (id, { s with bitmaps := bitmaps })

/-- The loop of `PickHandleToEvict` with `k` rounds left; `selected` is the
local of that name. -/
def pickLoop (env : Env) : Nat → Int → FTGLInstance → Except Fault (Int × FTGLInstance)
  | 0, selected, s => pure (selected, s)
  | k + 1, selected, s =>
    if s.nextHandle = s.lastHandle then
      -- Skip last used handle
      pickLoop env k selected { s with nextHandle := i8 (s.nextHandle + 1) }
    else do
      let selected := s.nextHandle
      let loaded ← arrGet s.bitmapHandles s.nextHandle
      if loaded = -1 then
        -- Favor empty handles
        pure (selected, { s with nextHandle := i8 (s.nextHandle + 1) })
      else
        let s : FTGLInstance := { s with nextHandle := i8 (s.nextHandle + 1) }
        let s : FTGLInstance :=
          if s.nextHandle ≥ env.FTGL_NUM_BITMAP_HANDLES then { s with nextHandle := 0 } else s
        pickLoop env k selected s

/-- The function `PickHandleToEvict`. -/
def PickHandleToEvict (env : Env) (s : FTGLInstance) : Except Fault (Int × FTGLInstance) := do
  let (selected, s) ← pickLoop env env.FTGL_NUM_BITMAP_HANDLES (-1) s
  pure (i8 selected, s)

/-- The function `FTGLSetBitmapHandle`; `b` is `g_Inst.bitmaps[bitmapId]`, read
for the three words sent. -/
def FTGLSetBitmapHandle (env : Env) (handle bitmapId : Int) (s : FTGLInstance) :
    Except Fault (Int × FTGLInstance) := do
  let handle := i8 handle
  let oldBitmapId := i8 (← arrGet s.bitmapHandles handle)
  let s ← (if oldBitmapId ≥ 0 then clearActiveHandle oldBitmapId s else pure s)
  let s ← FTGLBitmapHandle env (toU8 handle) s
  let s ← EnsureSpace env (4 * 3) s
  let b ← arrGet s.bitmaps bitmapId
  let s := Append32 (env.hdr.FT_BITMAP_SOURCE b.bitmapAddress) s
  let s := Append32 b.bitmapLayout s
  let s := Append32 b.bitmapSize s
  let bitmaps ← arrModify s.bitmaps bitmapId fun b => { b with activeHandle := handle }
  pure (handle, { s with bitmaps := bitmaps })

/-- The function `FTGLUseBitmap`. -/
def FTGLUseBitmap (env : Env) (bitmapId : Int) (s : FTGLInstance) :
    Except Fault (Int × FTGLInstance) := do
  let (selected, s) ← PickHandleToEvict env s
  FTGLSetBitmapHandle env selected bitmapId s

/-- The function `FTGLGetEmptyHandle`; `oldBitmapId` is a `uint8_t` there, so
its test for a loaded bitmap cannot fail. -/
def FTGLGetEmptyHandle (env : Env) (s : FTGLInstance) : Except Fault (Int × FTGLInstance) := do
  let (selected, s) ← PickHandleToEvict env s
  let oldBitmapId : Nat := toU8 (← arrGet s.bitmapHandles selected)
  let s ← (if (oldBitmapId : Int) ≥ 0 then clearActiveHandle oldBitmapId s else pure s)
  let handles ← arrModify s.bitmapHandles selected fun _ => -1
  pure (i8 selected, { s with bitmapHandles := handles })

/-- The function `FTGLDrawBitmapInHandle`. -/
def FTGLDrawBitmapInHandle (env : Env) (handle x y cell : Int) (s : FTGLInstance) :
    Except Fault FTGLInstance := do
  let handle := i8 handle
  let s ← FTGLBegin env env.hdr.FT_BITMAPS s
  let s ← FTGLVertex2ii env (toU16 x) (toU16 y) (toU8 handle) (toU8 cell) s
  let s := FTGLEnd s
  pure { s with lastHandle := handle }

/-- The function `FTGLCmdBitmapCell` of the build with the handle cache. -/
def FTGLCmdBitmapCell (env : Env) (id x y cell : Int) (s : FTGLInstance) :
    Except Fault FTGLInstance := do
  let handle := (← arrGet s.bitmaps id).activeHandle
  let (handle, s) ← (if handle < 0 then FTGLUseBitmap env id s else pure (handle, s))
  FTGLDrawBitmapInHandle env handle x y cell s

/-- The function `FTGLCmdBitmap`. -/
def FTGLCmdBitmap (env : Env) (id x y : Int) (s : FTGLInstance) : Except Fault FTGLInstance :=
  FTGLCmdBitmapCell env id x y 0 s

/-- The function `FTGLGetBitmapSize`; the result is `(*width, *height)`. -/
def FTGLGetBitmapSize (id : Int) (s : FTGLInstance) : Except Fault (Nat × Nat) := do
  let b ← arrGet s.bitmaps id
  pure ((b.bitmapSize >>> 9) &&& 511, b.bitmapSize &&& 511)

/-- The function `FTGLBitmapBufferData`; `data` is the memory at the pointer.
The count becomes the `uint16_t` parameter of `FTHWWrite`, and reading beyond
the buffer is undefined. -/
def FTGLBitmapBufferData (id : Int) (offset : Nat) (data : List Nat) (count : Nat)
    (s : FTGLInstance) : Except Fault FTGLInstance := do
  let b ← arrGet s.bitmaps id
  if u16 (u32 count) ≤ data.length then
    pure (FTHWWrite (u32 (b.bitmapAddress + u32 offset)) (data.take (u16 (u32 count))) s)
  else .error .outOfBounds

/-! ## Frames and initialisation -/

/-- The function `FTGLBeginBuffer`. -/
def FTGLBeginBuffer (env : Env) (s : FTGLInstance) : Except Fault FTGLInstance := do
  let s := FTHWBeginAppendWrite (env.hdr.FT_RAM_CMD + s.cmdQueueWriteIndex) s
  let s ← FTGLCmdDLStart env s
  FTGLClear env FT_CLEAR_C s

/-- The function `FTGLSwapBuffers`; the two touch registers are read after the
drain wait.  The casts to `int16_t` of the two halves are undone by the
`uint16_t` fields `touchX` and `touchY` that receive them. -/
def FTGLSwapBuffers (env : Env) (s : FTGLInstance) : Except Fault FTGLInstance := do
  let s ← FTGLDisplay env s
  let s ← FTGLCmdSwap env s
  let s := FTHWEndAppendWrite s
  let s := WriteReg16 env.hdr env.hdr.FT_REG_CMD_WRITE s.cmdQueueWriteIndex s
  let s ← WaitForQueueEmpty env s
  let s : FTGLInstance :=
    { FTHWRead env.hdr.FT_REG_TOUCH_TAG 2 s with touchTag := u8 (u16 (env.regTouchTag s.waits)) }
  let val := u32 (env.regTouchXY s.waits)
  let s := FTHWRead env.hdr.FT_REG_TOUCH_SCREEN_XY 4 s
  if val = 0x80008000 then
    pure { s with hasTouch := 0 }
  else
    pure { s with hasTouch := 1, touchY := val &&& 0xFFFF, touchX := (val >>> 16) &&& 0xFFFF }

/-- The conversion of a `uint16_t` value to `int`: the value itself where
`int` is wider than 16 bits, the two's-complement reading of the 16 bits
where `int` has 16 bits. -/
def intOfU16 (env : Env) (v : Nat) : Int :=
  if env.sizeofInt ≤ 2 then i16 v else v

/-- The function `FTGLHasTouch`; the result is an `int`. -/
def FTGLHasTouch (s : FTGLInstance) : Int := s.hasTouch

/-- The function `FTGLTouchX`: the `uint16_t` field converted to `int`. -/
def FTGLTouchX (env : Env) (s : FTGLInstance) : Int := intOfU16 env s.touchX

/-- The function `FTGLTouchY`: the `uint16_t` field converted to `int`. -/
def FTGLTouchY (env : Env) (s : FTGLInstance) : Int := intOfU16 env s.touchY

/-- The function `FTGLTouchTag`; the result is an `int`. -/
def FTGLTouchTag (s : FTGLInstance) : Int := s.touchTag

/-- The text `msg` of `FTGLRunCalibration` with its terminating zero byte. -/
def calibrationMsg : List Nat :=
  "Calibration: Touch the Dots".toList.map Char.toNat ++ [0]

/-- The function `FTGLRunCalibration`. -/
def FTGLRunCalibration (env : Env) (s : FTGLInstance) : Except Fault FTGLInstance := do
  let s ← FTGLBeginBuffer env s
  let s ← FTGLCmdText env 240 130 27 env.hdr.FT_OPT_CENTER calibrationMsg
    calibrationMsg.length s
  let s ← EnsureSpace env (4 * 2) s
  let s := Append32 env.hdr.FT_CMD_CALIBRATE s
  let s := Append32 0 s
  let s := FTHWEndAppendWrite s
  let s := WriteReg16 env.hdr env.hdr.FT_REG_CMD_WRITE s.cmdQueueWriteIndex s
  WaitForQueueEmpty env s

/-- A logged call to the hardware layer that carries no data back. -/
def hw (e : BusEvent) (s : FTGLInstance) : FTGLInstance := { s with bus := s.bus ++ [e] }

/-- The constant `FTGL_DEFAULT_SENSITIVITY` of `ftgl_config.h`. -/
def FTGL_DEFAULT_SENSITIVITY : Nat := 1200

/-- The cached graphics context that `FTGLInitialize` sets up. -/
def defaultGraphicsContext (hdr : FT800) : GraphicsContext :=
  { alphaFunc := u32 (hdr.FT_ALPHA_FUNC hdr.FT_ALWAYS 0)
    stencilFunc := u32 (hdr.FT_STENCIL_FUNC 255 hdr.FT_ALWAYS 0)
    blendFunc := u32 (hdr.FT_BLEND_FUNC hdr.FT_SRC_ALPHA hdr.FT_ONE_MINUS_SRC_ALPHA)
    bitmapCell := u32 (hdr.FT_CELL 0)
    colorAlpha := u32 (hdr.FT_COLOR_A 0)
    colorRGB := u32 (hdr.FT_COLOR_RGB 255 255 255)
    lineWidth := u32 (hdr.FT_LINE_WIDTH 16)
    pointSize := u32 (hdr.FT_POINT_SIZE 16)
    scissorSize := u32 (hdr.FT_SCISSOR_SIZE 512 512)
    scissorXY := u32 (hdr.FT_SCISSOR_XY 0 0)
    bitmapHandle := u32 (hdr.FT_BITMAP_HANDLE 0)
    clearStencil := u32 (hdr.FT_CLEAR_STENCIL 0)
    clearTag := u32 (hdr.FT_CLEAR_TAG 0)
    stencilOp := u32 (hdr.FT_STENCIL_OP hdr.FT_KEEP hdr.FT_KEEP)
    tag := u32 (hdr.FT_TAG 255)
    tagMask := u32 (hdr.FT_TAG_MASK 1)
    clearColorAlpha := u32 (hdr.FT_CLEAR_COLOR_A 0)
    clearColorRGB := u32 (hdr.FT_CLEAR_COLOR_RGB 0 0 0) }

/-- The function `FTGLInitialize`; the result is the returned status and the
new state.  `g_Inst` is cleared and set up, then the device is reset,
configured and its backlight raised. -/
def FTGLInitialize (env : Env) (s : FTGLInstance) : Int × FTGLInstance :=
  let hdr := env.hdr
  let s : FTGLInstance :=
    { cmdQueueReadIndex := 0
      cmdQueueWriteIndex := 0
      cmdQueueFreeSpace := FTGL_CMD_QUEUE_SIZE
      graphicsContext := defaultGraphicsContext hdr
      commandContext :=
        { bgColor := 0x002040, fgColor := 0x003870, gradColor := 0xffffff
          continuousCommandActive := 0 }
      bitmaps := List.replicate env.FTGL_MAX_BITMAPS
        { bitmapAddress := 0, bitmapDataSize := 0, bitmapLayout := 0, bitmapSize := 0
          activeHandle := -1 }
      bitmapIndex := 0
      bitmapHandles := List.replicate env.FTGL_NUM_BITMAP_HANDLES (-1)
      lastHandle := -1
      nextHandle := 0
      graphicsRamIndex := u32 hdr.FT_RAM_G
      hasTouch := 0
      touchX := 0
      touchY := 0
      touchTag := 0
      bus := s.bus
      regCmdWrite := s.regCmdWrite
      waits := s.waits }
  -- Initialize hardware devices
  let s := hw .hwInitialize s
  let s := hw (.setSpeed 0) s
  -- Reset the FT800
  let s := hw (.delayMS 20) s
  let s := hw (.setReset 1) s
  let s := hw (.delayMS 20) s
  let s := hw (.setReset 0) s
  let s := hw (.delayMS 20) s
  -- Start the ft800
  let s := hw (.hostCommand (u8 hdr.FT_HOSTCOMMAND_ACTIVE)) s
  let s := hw (.delayMS 6) s
  let s := hw (.hostCommand (u8 hdr.FT_HOSTCOMMAND_CLKEXT)) s
  let s := hw (.delayMS 6) s
  let s := hw (.hostCommand (u8 hdr.FT_HOSTCOMMAND_CLK48M)) s
  let s := hw (.delayMS 6) s
  -- Ensure that SPI comms is working: the value read is only logged
  let s := FTHWRead hdr.FT_REG_ID 1 s
  let _testVal := u8 env.regId
  -- Start with display off and unclocked
  let s := WriteReg8 hdr.FT_REG_PCLK hdr.FT_ZERO s
  let s := WriteReg8 hdr.FT_REG_PWM_DUTY hdr.FT_ZERO s
  -- Configure the display
  let s := WriteReg16 hdr hdr.FT_REG_VSYNC0 hdr.FT_DISPLAY_VSYNC0 s
  let s := WriteReg16 hdr hdr.FT_REG_VSYNC1 hdr.FT_DISPLAY_VSYNC1 s
  let s := WriteReg16 hdr hdr.FT_REG_VOFFSET hdr.FT_DISPLAY_VOFFSET s
  let s := WriteReg16 hdr hdr.FT_REG_VCYCLE hdr.FT_DISPLAY_VCYCLE s
  let s := WriteReg16 hdr hdr.FT_REG_HSYNC0 hdr.FT_DISPLAY_HSYNC0 s
  let s := WriteReg16 hdr hdr.FT_REG_HSYNC1 hdr.FT_DISPLAY_HSYNC1 s
  let s := WriteReg16 hdr hdr.FT_REG_HOFFSET hdr.FT_DISPLAY_HOFFSET s
  let s := WriteReg16 hdr hdr.FT_REG_HCYCLE hdr.FT_DISPLAY_HCYCLE s
  let s := WriteReg16 hdr hdr.FT_REG_HSIZE hdr.FT_DISPLAY_HSIZE s
  let s := WriteReg16 hdr hdr.FT_REG_VSIZE hdr.FT_DISPLAY_VSIZE s
  let s := WriteReg8 hdr.FT_REG_SWIZZLE hdr.FT_DISPLAY_SWIZZLE s
  let s := WriteReg8 hdr.FT_REG_PCLK_POL hdr.FT_DISPLAY_PCLKPOL s
  -- Enable per-frame touch sampling
  let s := WriteReg8 hdr.FT_REG_TOUCH_MODE hdr.FT_TMODE_FRAME s
  let s := WriteReg16 hdr hdr.FT_REG_TOUCH_RZTHRESH FTGL_DEFAULT_SENSITIVITY s
  let s := WriteReg8 hdr.FT_REG_VOL_PB 0 s
  let s := WriteReg8 hdr.FT_REG_VOL_SOUND 0 s
  let s := WriteReg16 hdr hdr.FT_REG_SOUND 0x6000 s
  -- Draw blank screen
  let s := WriteReg32 hdr.FT_RAM_DL (hdr.FT_CLEAR_COLOR_RGB 0 0 0) s
  let s := WriteReg32 (hdr.FT_RAM_DL + 4) (hdr.FT_CLEAR 1 1 1) s
  let s := WriteReg32 (hdr.FT_RAM_DL + 8) hdr.FT_DISPLAY s
  let s := WriteReg32 hdr.FT_REG_DLSWAP hdr.FT_DLSWAP_FRAME s
  -- Start the display
  let s := FTHWRead hdr.FT_REG_GPIO_PORT 1 s
  let gpio := u8 env.regGpio ||| 0x80
  let s := WriteReg8 hdr.FT_REG_GPIO_PORT gpio s
  let s := WriteReg8 hdr.FT_REG_PCLK hdr.FT_DISPLAY_PCLK s
  -- Bring up the backlight
  let s := (List.range 129).foldl
    (fun s i => hw (.delayMS 10) (WriteReg8 hdr.FT_REG_PWM_DUTY i s)) s
  let s := hw (.setSpeed 1) s
  (0, s)

/-- The state of the program before `FTGLInitialize` has run: static storage
is zero and nothing has been sent to the transport. -/
def powerOn (env : Env) : FTGLInstance :=
  { cmdQueueReadIndex := 0
    cmdQueueWriteIndex := 0
    cmdQueueFreeSpace := 0
    graphicsContext := ⟨0, 0, 0, 0, 0, 0, 0, 0, 0, 0, 0, 0, 0, 0, 0, 0, 0, 0⟩
    commandContext := ⟨0, 0, 0, 0⟩
    bitmaps := List.replicate env.FTGL_MAX_BITMAPS ⟨0, 0, 0, 0, 0⟩
    bitmapIndex := 0
    bitmapHandles := List.replicate env.FTGL_NUM_BITMAP_HANDLES 0
    lastHandle := 0
    nextHandle := 0
    graphicsRamIndex := 0
    hasTouch := 0
    touchX := 0
    touchY := 0
    touchTag := 0
    bus := []
    regCmdWrite := 0
    waits := 0 }

/-! ## Programs: sequences of public calls -/

/-- A call to a public function of `ftgl.h` that writes to the command queue
or changes the bitmap tables, with its arguments. -/
inductive Call where
  | Begin (primitiveType : Nat)
  | Vertex2ii (x y handle cell : Nat)
  | Vertex2f (x y : Nat)
  | End
  | BitmapHandle (handle : Nat)
  | BitmapLayout (format linestride height : Nat)
  | BitmapSize (filter wrapx wrapy width height : Nat)
  | BitmapSource (sourceAddress : Nat)
  | BitmapCell (cell : Nat)
  | BitmapTransformA (a : Nat)
  | BitmapTransformB (b : Nat)
  | BitmapTransformC (c : Nat)
  | BitmapTransformD (d : Nat)
  | BitmapTransformE (e : Nat)
  | BitmapTransformF (f : Nat)
  | AlphaFunc (func refValue : Nat)
  | BlendFunc (src dst : Nat)
  | ClearColorA (alpha : Nat)
  | ClearColorRGB (color : Nat)
  | ClearColorRGBComponents (r g b : Nat)
  | ClearStencil (val : Nat)
  | ClearTag (tag : Nat)
  | Clear (flags : Nat)
  | ColorA (alpha : Nat)
  | ColorRGB (color : Nat)
  | ColorRGBComponents (r g b : Nat)
  | ColorMask (flags : Nat)
  | Display
  | CallDL (dest : Nat)
  | Return
  | Macro (m : Nat)
  | SaveContext
  | RestoreContext
  | LineWidth (width : Nat)
  | PointSize (size : Nat)
  | ScissorSize (width height : Nat)
  | ScissorXY (x y : Nat)
  | StencilFunc (func ref mask : Nat)
  | StencilOp (sfail spass : Nat)
  | Tag (tag : Nat)
  | TagMask (flag : Nat)
  | CmdDLStart
  | CmdSwap
  | CmdColdStart
  | CmdInflate (ptr : Nat) (data : List Nat) (count : Nat)
  | CmdLoadImage (ptr options : Nat) (data : List Nat) (count : Nat)
  | CmdButton (x y w h : Int) (font options : Nat) (str : List Nat) (len : Nat)
  | CmdClock (x y radius : Int) (options h m sec ms : Nat)
  | CmdFGColor (color : Nat)
  | CmdBGColor (color : Nat)
  | CmdGradColor (color : Nat)
  | CmdGauge (x y r : Int) (options major minor val range : Nat)
  | CmdGradient (x0 y0 : Int) (rgb0 : Nat) (x1 y1 : Int) (rgb1 : Nat)
  | CmdKeys (x y w h font : Int) (options : Nat) (str : List Nat) (len : Nat)
  | CmdProgress (x y w h : Int) (options val range : Nat)
  | CmdScrollbar (x y w h : Int) (options val size range : Nat)
  | CmdSlider (x y w h : Int) (options val range : Nat)
  | CmdDial (x y r : Int) (options val : Nat)
  | CmdToggle (x y w font : Int) (options state : Nat) (str : List Nat) (len : Nat)
  | CmdText (x y font : Int) (options : Nat) (str : List Nat) (len : Nat)
  | CmdNumber (x y font : Int) (options : Nat) (n : Int)
  | CmdLoadIdentity
  | CmdTranslate (tx ty : Int)
  | CmdScale (sx sy : Int)
  | CmdRotate (a : Int)
  | CmdSetMatrix
  | CmdSpinner (x y : Int) (style scale : Nat)
  | CmdScreensaver
  | CmdSketch (x y : Int) (w h ptr format : Nat)
  | CmdStop
  | CmdSetFont (font ptr : Nat)
  | CmdTrack (x y w h tag : Int)
  | CmdSnapshot (ptr : Nat)
  | CmdLogo
  | CreateBitmap (format : Nat) (widthInPixels heightInLines : Int)
  | SetBitmapParams (id : Int) (filter wrapx wrapy : Nat)
  | SetBitmapSize (id : Int) (renderWidth renderHeight : Nat)
  | CreateBitmapVerbose (format stride layoutHeight numCells filter wrapx wrapy
      renderWidth renderHeight : Nat)
  | CmdBitmap (id x y : Int)
  | CmdBitmapCell (id x y cell : Int)
  | UseBitmap (bitmapId : Int)
  | GetEmptyHandle
  | SetBitmapHandle (handle bitmapId : Int)
  | DrawBitmapInHandle (handle x y cell : Int)
  | BeginBuffer
  | SwapBuffers
  | RunCalibration

/-- The effect of one public call on the state (a returned value is dropped). -/
def exec (env : Env) : Call → FTGLInstance → Except Fault FTGLInstance
  | .Begin p, s => FTGLBegin env p s
  | .Vertex2ii x y h c, s => FTGLVertex2ii env x y h c s
  | .Vertex2f x y, s => FTGLVertex2f env x y s
  | .End, s => pure (FTGLEnd s)
  | .BitmapHandle h, s => FTGLBitmapHandle env h s
  | .BitmapLayout f l h, s => FTGLBitmapLayout env f l h s
  | .BitmapSize f wx wy w h, s => FTGLBitmapSize env f wx wy w h s
  | .BitmapSource a, s => FTGLBitmapSource env a s
  | .BitmapCell c, s => FTGLBitmapCell env c s
  | .BitmapTransformA a, s => FTGLBitmapTransformA env a s
  | .BitmapTransformB b, s => FTGLBitmapTransformB env b s
  | .BitmapTransformC c, s => FTGLBitmapTransformC env c s
  | .BitmapTransformD d, s => FTGLBitmapTransformD env d s
  | .BitmapTransformE e, s => FTGLBitmapTransformE env e s
  | .BitmapTransformF f, s => FTGLBitmapTransformF env f s
  | .AlphaFunc f r, s => FTGLAlphaFunc env f r s
  | .BlendFunc a b, s => FTGLBlendFunc env a b s
  | .ClearColorA a, s => FTGLClearColorA env a s
  | .ClearColorRGB c, s => FTGLClearColorRGB env c s
  | .ClearColorRGBComponents r g b, s => FTGLClearColorRGBComponents env r g b s
  | .ClearStencil v, s => FTGLClearStencil env v s
  | .ClearTag v, s => FTGLClearTag env v s
  | .Clear f, s => FTGLClear env f s
  | .ColorA a, s => FTGLColorA env a s
  | .ColorRGB c, s => FTGLColorRGB env c s
  | .ColorRGBComponents r g b, s => FTGLColorRGBComponents env r g b s
  | .ColorMask f, s => FTGLColorMask env f s
  | .Display, s => FTGLDisplay env s
  | .CallDL d, s => FTGLCall env d s
  | .Return, s => FTGLReturn env s
  | .Macro m, s => FTGLMacro env m s
  | .SaveContext, s => FTGLSaveContext env s
  | .RestoreContext, s => FTGLRestoreContext env s
  | .LineWidth w, s => FTGLLineWidth env w s
  | .PointSize z, s => FTGLPointSize env z s
  | .ScissorSize w h, s => FTGLScissorSize env w h s
  | .ScissorXY x y, s => FTGLScissorXY env x y s
  | .StencilFunc f r m, s => FTGLStencilFunc env f r m s
  | .StencilOp a b, s => FTGLStencilOp env a b s
  | .Tag v, s => FTGLTag env v s
  | .TagMask v, s => FTGLTagMask env v s
  | .CmdDLStart, s => FTGLCmdDLStart env s
  | .CmdSwap, s => FTGLCmdSwap env s
  | .CmdColdStart, s => FTGLCmdColdStart env s
  | .CmdInflate p d c, s => FTGLCmdInflate env p d c s
  | .CmdLoadImage p o d c, s => FTGLCmdLoadImage env p o d c s
  | .CmdButton x y w h f o str len, s => FTGLCmdButton env x y w h f o str len s
  | .CmdClock x y r o h m sec ms, s => FTGLCmdClock env x y r o h m sec ms s
  | .CmdFGColor c, s => FTGLCmdFGColor env c s
  | .CmdBGColor c, s => FTGLCmdBGColor env c s
  | .CmdGradColor c, s => FTGLCmdGradColor env c s
  | .CmdGauge x y r o ma mi v ra, s => FTGLCmdGauge env x y r o ma mi v ra s
  | .CmdGradient x0 y0 c0 x1 y1 c1, s => FTGLCmdGradient env x0 y0 c0 x1 y1 c1 s
  | .CmdKeys x y w h f o str len, s => FTGLCmdKeys env x y w h f o str len s
  | .CmdProgress x y w h o v r, s => FTGLCmdProgress env x y w h o v r s
  | .CmdScrollbar x y w h o v z r, s => FTGLCmdScrollbar env x y w h o v z r s
  | .CmdSlider x y w h o v r, s => FTGLCmdSlider env x y w h o v r s
  | .CmdDial x y r o v, s => FTGLCmdDial env x y r o v s
  | .CmdToggle x y w f o st str len, s => FTGLCmdToggle env x y w f o st str len s
  | .CmdText x y f o str len, s => FTGLCmdText env x y f o str len s
  | .CmdNumber x y f o n, s => FTGLCmdNumber env x y f o n s
  | .CmdLoadIdentity, s => FTGLCmdLoadIdentity env s
  | .CmdTranslate x y, s => FTGLCmdTranslate env x y s
  | .CmdScale x y, s => FTGLCmdScale env x y s
  | .CmdRotate a, s => FTGLCmdRotate env a s
  | .CmdSetMatrix, s => FTGLCmdSetMatrix env s
  | .CmdSpinner x y st sc, s => FTGLCmdSpinner env x y st sc s
  | .CmdScreensaver, s => FTGLCmdScreensaver env s
  | .CmdSketch x y w h p f, s => FTGLCmdSketch env x y w h p f s
  | .CmdStop, s => FTGLCmdStop env s
  | .CmdSetFont f p, s => FTGLCmdSetFont env f p s
  | .CmdTrack x y w h tg, s => FTGLCmdTrack env x y w h tg s
  | .CmdSnapshot p, s => FTGLCmdSnapshot env p s
  | .CmdLogo, s => FTGLCmdLogo env s
  | .CreateBitmap f w h, s => (FTGLCreateBitmap env f w h s).map Prod.snd
  | .SetBitmapParams id f wx wy, s => FTGLSetBitmapParams env id f wx wy s
  | .SetBitmapSize id w h, s => FTGLSetBitmapSize env id w h s
  | .CreateBitmapVerbose f st lh nc fi wx wy rw rh, s =>
    (FTGLCreateBitmapVerbose env f st lh nc fi wx wy rw rh s).map Prod.snd
  | .CmdBitmap id x y, s => FTGLCmdBitmap env id x y s
  | .CmdBitmapCell id x y c, s => FTGLCmdBitmapCell env id x y c s
  | .UseBitmap id, s => (FTGLUseBitmap env id s).map Prod.snd
  | .GetEmptyHandle, s => (FTGLGetEmptyHandle env s).map Prod.snd
  | .SetBitmapHandle h id, s => (FTGLSetBitmapHandle env h id s).map Prod.snd
  | .DrawBitmapInHandle h x y c, s => FTGLDrawBitmapInHandle env h x y c s
  | .BeginBuffer, s => FTGLBeginBuffer env s
  | .SwapBuffers, s => FTGLSwapBuffers env s
  | .RunCalibration, s => FTGLRunCalibration env s

/-- A sequence of public calls, run in order from the state `s`. -/
def run (env : Env) : List Call → FTGLInstance → Except Fault FTGLInstance
  | [], s => pure s
  | c :: cs, s => do
    let s ← exec env c s
    run env cs s

/-- The state in which `FTGLInitialize` leaves a program that has just been
started. -/
def initialized (env : Env) : FTGLInstance := (FTGLInitialize env (powerOn env)).2

/-! ## The context stack of a build with `FTGL_CONFIG_CONTEXT_STACK_DEPTH > 0` -/

/-- The state `g_Inst` of a build with the graphics context cached and
`FTGL_CONFIG_CONTEXT_STACK_DEPTH > 0`: the array
`graphicsContext[FTGL_CONTEXT_STACK_SIZE]` and the `uint8_t` field
`contextStackIndex`, next to the other fields of `g_Inst`, which are those of
`inst` (the single cached context of `inst` has no counterpart in such a
build and is not used). -/
structure StackedInstance where
  inst : FTGLInstance
  graphicsContext : List GraphicsContext
  contextStackIndex : Nat
  deriving DecidableEq, Repr

/-- The macro `WRITE_DLCMD(cache, value)` where `cache` is a field of
`GRAPHICS_CONTEXT(g_Inst)`, which is
`g_Inst.graphicsContext[g_Inst.contextStackIndex]` in such a build. -/
def StackedInstance.WRITE_DLCMD (env : Env) (cache : Group) (value : Nat) (k : StackedInstance) :
    Except Fault StackedInstance := do
  let computedValue := u32 value
  let live ← arrGet k.graphicsContext k.contextStackIndex
  if live.get cache ≠ computedValue then
    let contexts ← arrModify k.graphicsContext k.contextStackIndex fun c =>
      c.set cache computedValue
    let inst ← DLCommand env computedValue k.inst
    pure { k with inst := inst, graphicsContext := contexts }
  else pure k

/-- The function `FTGLSaveContext` of such a build. -/
def StackedInstance.FTGLSaveContext (env : Env) (k : StackedInstance) :
    Except Fault StackedInstance := do
  let k : StackedInstance := { k with contextStackIndex := u8 (k.contextStackIndex + 1) }
  let below ← arrGet k.graphicsContext ((k.contextStackIndex : Int) - 1)
  let contexts ← arrModify k.graphicsContext k.contextStackIndex fun _ => below
  let k : StackedInstance := { k with graphicsContext := contexts }
  let inst ← DLCommand env env.hdr.FT_SAVE_CONTEXT k.inst
  pure { k with inst := inst }

/-- The function `FTGLRestoreContext` of such a build. -/
def StackedInstance.FTGLRestoreContext (env : Env) (k : StackedInstance) :
    Except Fault StackedInstance := do
  let k : StackedInstance := { k with contextStackIndex := u8 (k.contextStackIndex + 255) }
  let inst ← DLCommand env env.hdr.FT_RESTORE_CONTEXT k.inst
  pure { k with inst := inst }

/-! ## The immediate-mode controls of `ftui.c` -/

/-- The struct `FTUIState` (the global `g_State`): `hadTouch`, `hasTouch` and
`lastTag` are `int8_t`, the other fields but the last `int16_t`, `numbersImage`
an `int`. -/
structure FTUIState where
  hadTouch : Int
  hasTouch : Int
  touchX : Int
  touchY : Int
  touchTag : Int
  lastTag : Int
  active : Int
  activeTag : Int
  numbersImage : Int
  deriving DecidableEq, Repr

/-- The constant `ftui_numbers_width` of `ftui_numbers.h`. -/
def ftui_numbers_width : Nat := 12

/-- The constant `ftui_numbers_height` of `ftui_numbers.h`. -/
def ftui_numbers_height : Nat := 160

/-- The constant `ftui_numbers_scanline_size` of `ftui_numbers.h`. -/
def ftui_numbers_scanline_size : Nat := 2

/-- The constant `ftui_numbers_num_scanlines` of `ftui_numbers.h`. -/
def ftui_numbers_num_scanlines : Nat := 160

/-- The table `ftui_numbers_data` of `ftui_numbers.h`. -/
def ftui_numbers_data : List Nat :=
  [
   63, 192, 127, 224, 224, 112, 192, 48, 192, 240, 193, 240, 195, 176, 199, 48,
   206, 48, 220, 48, 248, 48, 240, 48, 192, 48, 224, 112, 127, 224, 63, 192,
   6, 0, 14, 0, 30, 0, 62, 0, 62, 0, 6, 0, 6, 0, 6, 0,
   6, 0, 6, 0, 6, 0, 6, 0, 6, 0, 6, 0, 63, 192, 63, 192,
   63, 192, 127, 224, 224, 112, 192, 48, 192, 48, 0, 48, 0, 112, 63, 224,
   127, 192, 240, 0, 224, 0, 192, 0, 192, 0, 192, 0, 255, 240, 255, 240,
   63, 192, 127, 224, 224, 112, 192, 48, 0, 48, 0, 48, 0, 112, 31, 224,
   31, 224, 0, 112, 0, 48, 0, 48, 192, 48, 224, 112, 127, 224, 63, 192,
   0, 192, 1, 192, 3, 192, 7, 192, 14, 192, 28, 192, 56, 192, 112, 192,
   224, 192, 192, 192, 255, 240, 255, 240, 0, 192, 0, 192, 0, 192, 0, 192,
   255, 240, 255, 240, 192, 0, 192, 0, 255, 192, 255, 224, 0, 112, 0, 48,
   0, 48, 0, 48, 0, 48, 0, 48, 192, 48, 224, 112, 127, 224, 63, 192,
   63, 192, 127, 224, 224, 112, 192, 48, 192, 0, 192, 0, 192, 0, 255, 192,
   255, 224, 192, 112, 192, 48, 192, 48, 192, 48, 224, 112, 127, 224, 63, 192,
   255, 240, 255, 240, 0, 48, 0, 48, 0, 112, 0, 224, 1, 192, 3, 128,
   7, 0, 6, 0, 6, 0, 6, 0, 6, 0, 6, 0, 6, 0, 6, 0,
   63, 192, 127, 224, 224, 112, 192, 48, 192, 48, 192, 48, 224, 112, 127, 224,
   127, 224, 224, 112, 192, 48, 192, 48, 192, 48, 224, 112, 127, 224, 63, 192,
   63, 192, 127, 224, 224, 112, 192, 48, 192, 48, 192, 48, 224, 48, 127, 240,
   63, 240, 0, 48, 0, 48, 0, 48, 192, 48, 224, 112, 127, 224, 63, 192]

/-- The constant `LARGE_NUMBER_MAX_SCALE`. -/
def LARGE_NUMBER_MAX_SCALE : Nat := 4

/-- The loop of `FTUIInitialize` on a board (`ARDUINO` is defined): the bytes
of the table that are left are sent one at a time, `i` is the loop counter. -/
def loadNumbers (id : Int) : List Nat → Nat → FTGLInstance → Except Fault FTGLInstance
  | [], _, s => pure s
  | val :: rest, i, s => do
    let s ← FTGLBitmapBufferData id i [val] 1 s
    loadNumbers id rest (i + 1) s

/-- The function `FTUIInitialize`, from the state of a program that has just
been started. -/
def FTUIInitialize (env : Env) (s : FTGLInstance) : Except Fault (FTUIState × FTGLInstance) := do
  let g : FTUIState :=
    { hadTouch := 0, hasTouch := 0, touchX := 0, touchY := 0, touchTag := 0, lastTag := 0,
      active := 0, activeTag := 0, numbersImage := 0 }
  let g : FTUIState := { g with active := -1 }
  let (_, s) := FTGLInitialize env s
  let (id, s) ← FTGLCreateBitmapVerbose env env.hdr.FT_L1 ftui_numbers_scanline_size
    (ftui_numbers_num_scanlines / 10) 10 env.hdr.FT_NEAREST env.hdr.FT_BORDER env.hdr.FT_BORDER
    (ftui_numbers_width * LARGE_NUMBER_MAX_SCALE)
    ((ftui_numbers_height / 10) * LARGE_NUMBER_MAX_SCALE) s
  let g : FTUIState := { g with numbersImage := id }
  let s ← loadNumbers g.numbersImage
    (ftui_numbers_data.take (ftui_numbers_scanline_size * ftui_numbers_num_scanlines)) 0 s
  pure (g, s)

/-- The function `strlen` on the bytes at a pointer: the number of bytes before
the first zero byte.  For a buffer without a zero byte the result is its
length, and the terminator the callers add to the count lies outside it. -/
def strlen (str : List Nat) : Nat := (str.takeWhile fun c => c ≠ 0).length

/-- The function `FTUIClearActive`. -/
def FTUIClearActive (g : FTUIState) : FTUIState := { g with active := -1 }

/-- The function `FTUISetActive`. -/
def FTUISetActive (id : Int) (g : FTUIState) : FTUIState := { g with active := i16 id }

/-- The function `FTUIGetActive`. -/
def FTUIGetActive (g : FTUIState) : Int := g.active

/-- The function `FTUIClearActiveTag`. -/
def FTUIClearActiveTag (g : FTUIState) : FTUIState := { g with activeTag := -1 }

/-- The function `FTUISetActiveTag`. -/
def FTUISetActiveTag (id : Int) (g : FTUIState) : FTUIState := { g with activeTag := i16 id }

/-- The function `FTUIGetActiveTag`. -/
def FTUIGetActiveTag (g : FTUIState) : Int := g.activeTag

/-- The function `FTUIHasTouch`. -/
def FTUIHasTouch (g : FTUIState) : Int := g.hasTouch

/-- The function `FTUITouchX`. -/
def FTUITouchX (g : FTUIState) : Int := g.touchX

/-- The function `FTUITouchY`. -/
def FTUITouchY (g : FTUIState) : Int := g.touchY

/-- The function `FTUITouchTag`. -/
def FTUITouchTag (g : FTUIState) : Int := g.touchTag

/-- The function `FTUITouched`. -/
def FTUITouched (g : FTUIState) : Int :=
  if g.hasTouch ≠ 0 ∧ ¬ g.hadTouch ≠ 0 then 1 else 0

/-- The value is representable in `int`. -/
def IsInt (env : Env) (v : Int) : Prop :=
  -(2 ^ (8 * env.sizeofInt - 1) : Int) ≤ v ∧ v < 2 ^ (8 * env.sizeofInt - 1)

instance IsInt.decide (env : Env) (v : Int) : Decidable (IsInt env v) :=
  inferInstanceAs (Decidable (_ ∧ _))

/-- The result of an arithmetic operation on `int` operands, undefined when
it is not representable. -/
def intValue (env : Env) (v : Int) : Except Fault Int :=
  if IsInt env v then pure v else .error .overflow

/-- The value of the function `FTUIInRect`; the sums `x + w` and `y + h` are
those of `int` operands that do not overflow. -/
def FTUIInRect (g : FTUIState) (x y w h : Int) : Int :=
  if g.touchX < x then 0
  else if g.touchX > x + w then 0
  else if g.touchY < y then 0
  else if g.touchY > y + h then 0
  else 1

/-- The function `FTUIInRect` for all `int` arguments, as the controls call
it: a sum `x + w` or `y + h` that the function evaluates and that is not
representable in `int` is undefined.  The sum `x + w` is evaluated when the
first test does not return, the sum `y + h` when the first three do not. -/
def FTUIInRect.checked (env : Env) (g : FTUIState) (x y w h : Int) : Except Fault Int :=
  if g.touchX < x then pure 0
  else do
    let right ← intValue env (x + w)
    if g.touchX > right then pure 0
    else if g.touchY < y then pure 0
    else do
      let bottom ← intValue env (y + h)
      if g.touchY > bottom then pure 0
      else pure 1

/-- The function `FTUIBegin`. -/
def FTUIBegin (env : Env) (g : FTUIState) (s : FTGLInstance) :
    Except Fault (FTUIState × FTGLInstance) := do
  let s ← FTGLBeginBuffer env s
  pure (g, s)

/-- The function `FTUIEnd`. -/
def FTUIEnd (env : Env) (g : FTUIState) (s : FTGLInstance) :
    Except Fault (FTUIState × FTGLInstance) := do
  let s ← FTGLSwapBuffers env s
  let g : FTUIState := { g with hadTouch := g.hasTouch }
  let g : FTUIState := { g with hasTouch := i8 (FTGLHasTouch s) }
  let g : FTUIState :=
    if g.hasTouch ≠ 0 then
      { g with touchX := i16 (FTGLTouchX env s), touchY := i16 (FTGLTouchY env s) }
    else g
  let g : FTUIState := { g with lastTag := i8 g.touchTag }
  let g : FTUIState := { g with touchTag := i16 (FTGLTouchTag s) }
  pure (g, s)

/-- The block under `// Update state` of `FTUIButton` and of `FTUIBitmapButton`
(the same text in both); the result is `(hover, pressed)` and the new
`g_State`.  `FTUIInRect` is called where the tests before it let the
control reach it. -/
def buttonUpdate (env : Env) (id x y w h : Int) (g : FTUIState) :
    Except Fault (Int × Int × FTUIState) :=
  if g.active = id then
    -- This control is active
    if ¬ g.hasTouch ≠ 0 then do
      -- Drop focus when they lift finger
      let inside ← FTUIInRect.checked env g x y w h
      pure (0, if inside ≠ 0 then 1 else 0, { g with active := -1 })
    else do
      let inside ← FTUIInRect.checked env g x y w h
      if inside ≠ 0 then pure (1, 0, g) else pure (0, 0, g)
  else if FTUITouched g ≠ 0 then do
    let inside ← FTUIInRect.checked env g x y w h
    -- This control is now active
    if inside ≠ 0 then pure (1, 0, { g with active := i16 id }) else pure (0, 0, g)
  else pure (0, 0, g)

/-- The function `FTUIButton`; `text` is the memory at the pointer, the result
is the returned `pressed` with the two states. -/
def FTUIButton (env : Env) (id x y w h font : Int) (text : List Nat) (g : FTUIState)
    (s : FTGLInstance) : Except Fault (Int × FTUIState × FTGLInstance) := do
  let (hover, pressed, g) ← buttonUpdate env id x y w h g
  let s ← (if hover ≠ 0 then
      FTGLCmdButton env x y w h (toU16 font) env.hdr.FT_OPT_FLAT text (strlen text + 1) s
    else FTGLCmdButton env x y w h (toU16 font) 0 text (strlen text + 1) s)
  pure (pressed, g, s)

/-- The focus update of `FTUIKeyRow` and of `FTUIKeyRows` (the same text in
both); the result is `(hover, pressed)` and the new `g_State`.  `FTUIInRect`
is called where the three tests before it in the condition hold. -/
def keysUpdate (env : Env) (id x y w h : Int) (g : FTUIState) :
    Except Fault (Int × Int × FTUIState) :=
  if g.active = id then
    if g.touchTag = 0 then
      pure (0, if g.lastTag = g.activeTag then g.activeTag else 0,
        { g with active := -1, activeTag := -1 })
    else if g.touchTag = g.activeTag then pure (1, 0, g)
    else pure (0, 0, g)
  else if g.lastTag = 0 ∧ g.touchTag ≠ 0 ∧ g.touchTag ≠ 255 then do
    let inside ← FTUIInRect.checked env g x y w h
    if inside ≠ 0 then pure (1, 0, { g with active := i16 id, activeTag := g.touchTag })
    else pure (0, 0, g)
  else pure (0, 0, g)

/-- The function `FTUIKeyRow`; the options of the hovered row are the `int`
value `centered | g_State.touchTag` converted to `uint16_t`, the bitwise or of
the low 16 bits of the two operands. -/
def FTUIKeyRow (env : Env) (id x y w h font centered : Int) (row : List Nat) (g : FTUIState)
    (s : FTGLInstance) : Except Fault (Int × FTUIState × FTGLInstance) := do
  let (hover, pressed, g) ← keysUpdate env id x y w h g
  let s ← (if hover ≠ 0 then
      FTGLCmdKeys env x y w h font (toU16 centered ||| toU16 g.touchTag) row (strlen row + 1) s
    else FTGLCmdKeys env x y w h font (toU16 centered) row (strlen row + 1) s)
  pure (pressed, g, s)

/-- The drawing loop of `FTUIKeyRows` over the memory at `row`.  With
`atStart` the test `*row != 0` of the outer loop is next; without it the
inner loop is looking for the end of the row just drawn.  Reading beyond the
buffer is undefined, and so is a sum `currentY + (rowHeight + 3)` that is not
representable in `int`. -/
def keyRowsLoop (env : Env) (x w rowHeight font : Int) (options : Nat) :
    Bool → List Nat → Int → FTGLInstance → Except Fault FTGLInstance
  | _, [], _, _ => .error .outOfBounds
  | true, c :: rest, currentY, s =>
    if c = 0 then pure s
    else do
      let s ← FTGLCmdKeys env x currentY w rowHeight font options (c :: rest)
        (strlen (c :: rest) + 1) s
      keyRowsLoop env x w rowHeight font options false rest currentY s
  | false, c :: rest, currentY, s =>
    if c = 0 then do
      let step ← intValue env (rowHeight + 3)
      let currentY ← intValue env (currentY + step)
      keyRowsLoop env x w rowHeight font options true rest currentY s
    else keyRowsLoop env x w rowHeight font options false rest currentY s

/-- The function `FTUIKeyRows`; the height `(rowHeight + 3) * numRows - 3` is
computed in `int`. -/
def FTUIKeyRows (env : Env) (id x y w rowHeight font numRows : Int) (rows : List Nat)
    (g : FTUIState) (s : FTGLInstance) : Except Fault (Int × FTUIState × FTGLInstance) := do
  let h ← (if numRows = 1 then pure rowHeight
    else do
      let h ← intValue env (rowHeight + 3)
      let h ← intValue env (h * numRows)
      intValue env (h - 3))
  let (hover, pressed, g) ← keysUpdate env id x y w h g
  let s ← keyRowsLoop env x w rowHeight font (if hover ≠ 0 then toU16 g.touchTag else 0)
    true rows y s
  pure (pressed, g, s)

/-! ## The large digits of `ftui.c` -/

/-- The macro `FTUI_NUMBER_WIDTH` of `ftui.h`. -/
def FTUI_NUMBER_WIDTH : Int := 12

/-- The loop of `FTUILargeNumber` with `k` rounds left; `i`, `x` and `n` are
the variables of these names. -/
def largeNumberLoop (env : Env) (g : FTUIState) (y scale leadingZeros : Int) :
    Nat → Int → Int → Int → FTGLInstance → Except Fault FTGLInstance
  | 0, _, _, _, s => pure s
  | k + 1, i, x, n, s => do
    let step ← intValue env (FTUI_NUMBER_WIDTH * scale)
    let step ← intValue env (step + 4)
    let x ← intValue env (x - step)
    let s ← (if ¬ (n = 0 ∧ i ≠ 0) ∨ leadingZeros ≠ 0 then
        FTGLCmdBitmapCell env g.numbersImage x y (Int.tmod n 10) s
      else pure s)
    largeNumberLoop env g y scale leadingZeros k (i + 1) x (Int.tdiv n 10) s

/-- The function `FTUILargeNumber`; `n` is an `int32_t` value, the other
arguments are `int` values.  The division `256 / scale` is undefined for
`scale` 0. -/
def FTUILargeNumber (env : Env) (x y numDigits scale leadingZeros n : Int) (g : FTUIState)
    (s : FTGLInstance) : Except Fault FTGLInstance :=
  if scale = 0 then .error .overflow
  else do
    let s ← FTGLBitmapTransformA env (toU32 (Int.tdiv 256 scale)) s
    let s ← FTGLBitmapTransformE env (toU32 (Int.tdiv 256 scale)) s
    let step ← intValue env (FTUI_NUMBER_WIDTH * scale)
    let step ← intValue env (step + 4)
    let total ← intValue env (numDigits * step)
    let x ← intValue env (x + total)
    let s ← largeNumberLoop env g y scale leadingZeros numDigits.toNat 0 x n s
    let s ← FTGLBitmapTransformA env 256 s
    FTGLBitmapTransformE env 256 s

/-! ## The display-list functions without the graphics-context cache -/

/-- A call of a display-list function as `ftgl.c` writes its body: the macro
`WRITE_DLCMD(GRAPHICS_CONTEXT(g_Inst).g, word)` or the plain
`DLCommand(word)`. -/
inductive DLCall where
  | cached (g : Group) (word : Nat)
  | direct (word : Nat)
  deriving DecidableEq, Repr

/-- The command word of the call. -/
def DLCall.word : DLCall → Nat
  | .cached _ w => w
  | .direct w => w

/-- The macro `WRITE_DLCMD(cache, value)` in its second definition, the one
without the graphics-context cache: `DLCommand(value)`. -/
def WRITE_DLCMD.uncached (env : Env) (_cache : Group) (value : Nat) (s : FTGLInstance) :
    Except Fault FTGLInstance :=
  DLCommand env value s

/-- The call in the build that caches the graphics context. -/
def DLCall.exec (env : Env) : DLCall → FTGLInstance → Except Fault FTGLInstance
  | .cached g w, s => WRITE_DLCMD env g w s
  | .direct w, s => DLCommand env w s

/-- The call where `WRITE_DLCMD` is defined as `DLCommand`. -/
def DLCall.execUncached (env : Env) : DLCall → FTGLInstance → Except Fault FTGLInstance
  | .cached g w, s => WRITE_DLCMD.uncached env g w s
  | .direct w, s => DLCommand env w s

/-- The calls of `ds` in order, with the cache. -/
def runDL (env : Env) : List DLCall → FTGLInstance → Except Fault FTGLInstance
  | [], s => pure s
  | d :: ds, s => do
    let s ← d.exec env s
    runDL env ds s

/-- The calls of `ds` in order, without the cache. -/
def runDLUncached (env : Env) : List DLCall → FTGLInstance → Except Fault FTGLInstance
  | [], s => pure s
  | d :: ds, s => do
    let s ← d.execUncached env s
    runDLUncached env ds s

/-- The body of a public display-list function (the setters and the vertex
calls of `ftgl.c`, `FTGLSaveContext` and `FTGLRestoreContext` apart) as the
macro or `DLCommand` call it consists of; `FTGLEnd` has an empty body.  Other
calls have none. -/
def Call.displayList (env : Env) : Call → Option (List DLCall)
  | .Begin p => some [.direct (env.hdr.FT_BEGIN (u8 p))]
  | .Vertex2ii x y h c => some [.direct (env.hdr.FT_VERTEX2II (u16 x) (u16 y) (u8 h) (u8 c))]
  | .Vertex2f x y => some [.direct (env.hdr.FT_VERTEX2F (u16 x) (u16 y))]
  | .End => some []
  | .BitmapHandle h => some [.cached .bitmapHandle (env.hdr.FT_BITMAP_HANDLE (u8 h))]
  | .BitmapLayout f l h => some [.direct (env.hdr.FT_BITMAP_LAYOUT (u8 f) (u16 l) (u16 h))]
  | .BitmapSize f wx wy w h =>
    some [.direct (env.hdr.FT_BITMAP_SIZE (u8 f) (u8 wx) (u8 wy) (u16 w) (u16 h))]
  | .BitmapSource a => some [.direct (env.hdr.FT_BITMAP_SOURCE (u32 a))]
  | .BitmapCell c => some [.cached .bitmapCell (env.hdr.FT_CELL (u8 c))]
  | .BitmapTransformA a => some [.direct (env.hdr.FT_BITMAP_TRANSFORM_A (u32 a))]
  | .BitmapTransformB b => some [.direct (env.hdr.FT_BITMAP_TRANSFORM_B (u32 b))]
  | .BitmapTransformC c => some [.direct (env.hdr.FT_BITMAP_TRANSFORM_C (u32 c))]
  | .BitmapTransformD d => some [.direct (env.hdr.FT_BITMAP_TRANSFORM_D (u32 d))]
  | .BitmapTransformE e => some [.direct (env.hdr.FT_BITMAP_TRANSFORM_E (u32 e))]
  | .BitmapTransformF f => some [.direct (env.hdr.FT_BITMAP_TRANSFORM_F (u32 f))]
  | .AlphaFunc f r => some [.cached .alphaFunc (env.hdr.FT_ALPHA_FUNC (u8 f) (u8 r))]
  | .BlendFunc a b => some [.cached .blendFunc (env.hdr.FT_BLEND_FUNC (u8 a) (u8 b))]
  | .ClearColorA a => some [.cached .clearColorAlpha (env.hdr.FT_CLEAR_COLOR_A (u8 a))]
  | .ClearColorRGB c => some [.cached .clearColorRGB (FT_CLEAR_COLOR_RGB32 (u32 c))]
  | .ClearColorRGBComponents r g b =>
    some [.cached .clearColorRGB (env.hdr.FT_CLEAR_COLOR_RGB (u8 r) (u8 g) (u8 b))]
  | .ClearStencil v => some [.cached .clearStencil (env.hdr.FT_CLEAR_STENCIL (u8 v))]
  | .ClearTag v => some [.cached .clearTag (env.hdr.FT_CLEAR_TAG (u8 v))]
  | .Clear f => some [.direct (FT_CLEAR32 f)]
  | .ColorA a => some [.cached .colorAlpha (u8 a)]
  | .ColorRGB c => some [.cached .colorRGB (FT_COLOR_RGB32 (u32 c))]
  | .ColorRGBComponents r g b =>
    some [.cached .colorRGB (env.hdr.FT_COLOR_RGB (u8 r) (u8 g) (u8 b))]
  | .ColorMask f => some [.direct (FT_COLOR_MASK32 f)]
  | .Display => some [.direct env.hdr.FT_DISPLAY]
  | .CallDL d => some [.direct (env.hdr.FT_CALL (u16 d))]
  | .Return => some [.direct env.hdr.FT_RETURN]
  | .Macro m => some [.direct (env.hdr.FT_MACRO (u8 m))]
  | .LineWidth w => some [.cached .lineWidth (env.hdr.FT_LINE_WIDTH (u16 w))]
  | .PointSize z => some [.cached .pointSize (env.hdr.FT_POINT_SIZE (u32 z))]
  | .ScissorSize w h => some [.cached .scissorSize (env.hdr.FT_SCISSOR_SIZE (u16 w) (u16 h))]
  | .ScissorXY x y => some [.cached .scissorXY (env.hdr.FT_SCISSOR_XY (u16 x) (u16 y))]
  | .StencilFunc f r m =>
    some [.cached .stencilFunc (env.hdr.FT_STENCIL_FUNC (u8 f) (u8 r) (u8 m))]
  | .StencilOp a b => some [.cached .stencilOp (env.hdr.FT_STENCIL_OP (u8 a) (u8 b))]
  | .Tag v => some [.cached .tag (env.hdr.FT_TAG (u8 v))]
  | .TagMask v => some [.cached .tagMask (env.hdr.FT_TAG_MASK (u8 v))]
  | _ => none

/-- The bodies of a sequence of display-list calls, one after the other; none
when a call of the sequence is not a display-list call. -/
def displayListOf (env : Env) : List Call → Option (List DLCall)
  | [] => some []
  | c :: cs =>
    match c.displayList env, displayListOf env cs with
    | some d, some ds => some (d ++ ds)
    | _, _ => none

/-- One public call in the build without the graphics-context cache: a
display-list function runs its body with `WRITE_DLCMD` defined as
`DLCommand`; the other functions do not use the macro. -/
def execUncached (env : Env) (c : Call) (s : FTGLInstance) : Except Fault FTGLInstance :=
  match c.displayList env with
  | some ds => runDLUncached env ds s
  | none => exec env c s

/-- A sequence of public calls in the build without the cache. -/
def runUncached (env : Env) : List Call → FTGLInstance → Except Fault FTGLInstance
  | [], s => pure s
  | c :: cs, s => do
    let s ← execUncached env c s
    runUncached env cs s

/-! ## The Arduino transport `fthw_platform_arduino.cpp` -/

/-- What the Arduino transport does to its pins and to the SPI bus. -/
inductive WireEvent where
  | digitalWrite (pin value : Nat)
  | beginTransaction
  | transfer (byte : Nat)
  | endTransaction
  deriving DecidableEq, Repr

/-- The macro `SLAVE_SELECT_PIN` of `fthw_platform_arduino.cpp`. -/
def SLAVE_SELECT_PIN : Nat := 9

/-- The Arduino constant `LOW`. -/
def LOW : Nat := 0

/-- The Arduino constant `HIGH`. -/
def HIGH : Nat := 1

/-- The function `FTHWHostCommand` of `fthw_platform_arduino.cpp`; `wire` is
the log of what the transport has done so far, the result is the return value
and the log afterwards.  `SPI.transfer` takes a `uint8_t`. -/
def Arduino.FTHWHostCommand (commandId : Nat) (wire : List WireEvent) : Int × List WireEvent :=
  let commandId := u8 commandId
  let wire := wire ++ [.digitalWrite SLAVE_SELECT_PIN LOW]
  let wire := wire ++ [.beginTransaction]
  let wire := wire ++ [.transfer (u8 (if commandId = 0 then commandId else commandId ||| 0x40))]
  let wire := wire ++ [.transfer (u8 0)]
  let wire := wire ++ [.transfer (u8 0)]
  let wire := wire ++ [.endTransaction]
  let wire := wire ++ [.digitalWrite SLAVE_SELECT_PIN HIGH]
  (0, wire)

/-! ## A concrete target -/

/-- The values of the FT800 programmer's guide for the names of `FT800.h`,
with the display timings of the WQVGA panel: a concrete header on which the
definitions can be evaluated. -/
def ft800 : FT800 where
  FT_RAM_G := 0
  FT_RAM_CMD := 0x108000
  FT_RAM_DL := 0x100000
  FT_REG_ID := 0x102400
  FT_REG_CMD_READ := 0x1024E4
  FT_REG_CMD_WRITE := 0x1024E8
  FT_REG_TOUCH_TAG := 0x102518
  FT_REG_TOUCH_SCREEN_XY := 0x102510
  FT_REG_PCLK := 0x10246C
  FT_REG_PWM_DUTY := 0x1024C4
  FT_REG_VSYNC0 := 0x102448
  FT_REG_VSYNC1 := 0x10244C
  FT_REG_VOFFSET := 0x102440
  FT_REG_VCYCLE := 0x10243C
  FT_REG_HSYNC0 := 0x102434
  FT_REG_HSYNC1 := 0x102438
  FT_REG_HOFFSET := 0x10242C
  FT_REG_HCYCLE := 0x102428
  FT_REG_HSIZE := 0x102430
  FT_REG_VSIZE := 0x102444
  FT_REG_SWIZZLE := 0x102460
  FT_REG_PCLK_POL := 0x102468
  FT_REG_TOUCH_MODE := 0x1024F0
  FT_REG_TOUCH_RZTHRESH := 0x102504
  FT_REG_VOL_PB := 0x10247C
  FT_REG_VOL_SOUND := 0x102480
  FT_REG_SOUND := 0x102484
  FT_REG_DLSWAP := 0x102450
  FT_REG_GPIO_PORT := 0x102490
  FT_DISPLAY_VSYNC0 := 0
  FT_DISPLAY_VSYNC1 := 10
  FT_DISPLAY_VOFFSET := 12
  FT_DISPLAY_VCYCLE := 292
  FT_DISPLAY_HSYNC0 := 0
  FT_DISPLAY_HSYNC1 := 41
  FT_DISPLAY_HOFFSET := 43
  FT_DISPLAY_HCYCLE := 548
  FT_DISPLAY_HSIZE := 480
  FT_DISPLAY_VSIZE := 272
  FT_DISPLAY_SWIZZLE := 0
  FT_DISPLAY_PCLKPOL := 1
  FT_DISPLAY_PCLK := 5
  FT_HOSTCOMMAND_ACTIVE := 0x00
  FT_HOSTCOMMAND_CLKEXT := 0x44
  FT_HOSTCOMMAND_CLK48M := 0x62
  FT_ZERO := 0
  FT_TMODE_FRAME := 2
  FT_DLSWAP_FRAME := 2
  FT_ALWAYS := 7
  FT_SRC_ALPHA := 2
  FT_ONE_MINUS_SRC_ALPHA := 4
  FT_KEEP := 1
  FT_BITMAPS := 1
  FT_BILINEAR := 1
  FT_BORDER := 0
  FT_OPT_CENTER := 1536
  FT_OPT_FLAT := 256
  FT_OPT_SIGNED := 256
  FT_NEAREST := 0
  FT_L1 := 1
  FT_L4 := 2
  FT_L8 := 3
  FT_PALETTED := 8
  FT_TEXT8X8 := 9
  FT_TEXTVGA := 10
  FT_BARGRAPH := 11
  FT_RGB332 := 4
  FT_ARGB2 := 5
  FT_ARGB1555 := 0
  FT_ARGB4 := 6
  FT_RGB565 := 7
  FT_ALPHA_FUNC := fun func ref => (9 <<< 24) ||| ((func &&& 7) <<< 8) ||| (ref &&& 255)
  FT_STENCIL_FUNC := fun func ref mask =>
    (10 <<< 24) ||| ((func &&& 7) <<< 16) ||| ((ref &&& 255) <<< 8) ||| (mask &&& 255)
  FT_BLEND_FUNC := fun src dst => (11 <<< 24) ||| ((src &&& 7) <<< 3) ||| (dst &&& 7)
  FT_CELL := fun cell => (6 <<< 24) ||| (cell &&& 127)
  FT_COLOR_A := fun alpha => (16 <<< 24) ||| (alpha &&& 255)
  FT_COLOR_RGB := fun r g b =>
    (4 <<< 24) ||| ((r &&& 255) <<< 16) ||| ((g &&& 255) <<< 8) ||| (b &&& 255)
  FT_LINE_WIDTH := fun width => (14 <<< 24) ||| (width &&& 4095)
  FT_POINT_SIZE := fun size => (13 <<< 24) ||| (size &&& 8191)
  FT_SCISSOR_SIZE := fun w h => (28 <<< 24) ||| ((w &&& 1023) <<< 10) ||| (h &&& 1023)
  FT_SCISSOR_XY := fun x y => (27 <<< 24) ||| ((x &&& 511) <<< 9) ||| (y &&& 511)
  FT_BITMAP_HANDLE := fun handle => (5 <<< 24) ||| (handle &&& 31)
  FT_CLEAR_STENCIL := fun v => (17 <<< 24) ||| (v &&& 255)
  FT_CLEAR_TAG := fun v => (18 <<< 24) ||| (v &&& 255)
  FT_STENCIL_OP := fun sfail spass => (12 <<< 24) ||| ((sfail &&& 7) <<< 3) ||| (spass &&& 7)
  FT_TAG := fun v => (3 <<< 24) ||| (v &&& 255)
  FT_TAG_MASK := fun mask => (20 <<< 24) ||| (mask &&& 1)
  FT_CLEAR_COLOR_A := fun alpha => (15 <<< 24) ||| (alpha &&& 255)
  FT_CLEAR_COLOR_RGB := fun r g b =>
    (2 <<< 24) ||| ((r &&& 255) <<< 16) ||| ((g &&& 255) <<< 8) ||| (b &&& 255)
  FT_CLEAR := fun c st tg => (38 <<< 24) ||| ((c &&& 1) <<< 2) ||| ((st &&& 1) <<< 1) ||| (tg &&& 1)
  FT_DISPLAY := 0
  FT_BEGIN := fun prim => (31 <<< 24) ||| (prim &&& 15)
  FT_VERTEX2II := fun x y handle cell =>
    (2 <<< 30) ||| ((x &&& 511) <<< 21) ||| ((y &&& 511) <<< 12) ||| ((handle &&& 31) <<< 7)
      ||| (cell &&& 127)
  FT_VERTEX2F := fun x y => (1 <<< 30) ||| ((x &&& 32767) <<< 15) ||| (y &&& 32767)
  FT_BITMAP_LAYOUT := fun format linestride height =>
    (7 <<< 24) ||| ((format &&& 31) <<< 19) ||| ((linestride &&& 1023) <<< 9) ||| (height &&& 511)
  FT_BITMAP_SIZE := fun filter wrapx wrapy width height =>
    (8 <<< 24) ||| ((filter &&& 1) <<< 20) ||| ((wrapx &&& 1) <<< 19) ||| ((wrapy &&& 1) <<< 18)
      ||| ((width &&& 511) <<< 9) ||| (height &&& 511)
  FT_BITMAP_SOURCE := fun addr => (1 <<< 24) ||| (addr &&& 1048575)
  FT_BITMAP_TRANSFORM_A := fun a => (21 <<< 24) ||| (a &&& 131071)
  FT_BITMAP_TRANSFORM_B := fun b => (22 <<< 24) ||| (b &&& 131071)
  FT_BITMAP_TRANSFORM_C := fun c => (23 <<< 24) ||| (c &&& 16777215)
  FT_BITMAP_TRANSFORM_D := fun d => (24 <<< 24) ||| (d &&& 131071)
  FT_BITMAP_TRANSFORM_E := fun e => (25 <<< 24) ||| (e &&& 131071)
  FT_BITMAP_TRANSFORM_F := fun f => (26 <<< 24) ||| (f &&& 16777215)
  FT_CALL := fun dest => (29 <<< 24) ||| (dest &&& 65535)
  FT_RETURN := 36 <<< 24
  FT_MACRO := fun m => (37 <<< 24) ||| (m &&& 1)
  FT_SAVE_CONTEXT := 34 <<< 24
  FT_RESTORE_CONTEXT := 35 <<< 24
  FT_CMD_DLSTART := 0xFFFFFF00
  FT_CMD_SWAP := 0xFFFFFF01
  FT_CMD_STOP := 0xFFFFFF17
  FT_CMD_COLDSTART := 0xFFFFFF32
  FT_CMD_INFLATE := 0xFFFFFF22
  FT_CMD_LOADIMAGE := 0xFFFFFF24
  FT_CMD_BUTTON := 0xFFFFFF0D
  FT_CMD_CLOCK := 0xFFFFFF14
  FT_CMD_FGCOLOR := 0xFFFFFF0A
  FT_CMD_BGCOLOR := 0xFFFFFF09
  FT_CMD_GRADCOLOR := 0xFFFFFF34
  FT_CMD_GAUGE := 0xFFFFFF13
  FT_CMD_GRADIENT := 0xFFFFFF0B
  FT_CMD_KEYS := 0xFFFFFF0E
  FT_CMD_PROGRESS := 0xFFFFFF0F
  FT_CMD_SCROLLBAR := 0xFFFFFF11
  FT_CMD_SLIDER := 0xFFFFFF10
  FT_CMD_DIAL := 0xFFFFFF2D
  FT_CMD_TOGGLE := 0xFFFFFF12
  FT_CMD_TEXT := 0xFFFFFF0C
  FT_CMD_NUMBER := 0xFFFFFF2E
  FT_CMD_LOADIDENTITY := 0xFFFFFF26
  FT_CMD_TRANSLATE := 0xFFFFFF27
  FT_CMD_SCALE := 0xFFFFFF28
  FT_CMD_ROTATE := 0xFFFFFF29
  FT_CMD_SETMATRIX := 0xFFFFFF2A
  FT_CMD_SPINNER := 0xFFFFFF16
  FT_CMD_SCREENSAVER := 0xFFFFFF2F
  FT_CMD_SKETCH := 0xFFFFFF30
  FT_CMD_SETFONT := 0xFFFFFF2B
  FT_CMD_TRACK := 0xFFFFFF2C
  FT_CMD_SNAPSHOT := 0xFFFFFF1F
  FT_CMD_LOGO := 0xFFFFFF31
  FT_CMD_CALIBRATE := 0xFFFFFF15

/-- A device that answers every poll with both pointers at the value the host
committed, and reports no touch. -/
def idleDevice (hdr : FT800) (sizeofInt maxBitmaps numHandles : Nat) : Env where
  hdr := hdr
  sizeofInt := sizeofInt
  FTGL_MAX_BITMAPS := maxBitmaps
  FTGL_NUM_BITMAP_HANDLES := numHandles
  polls := fun _ c => [(c, c)]
  regTouchTag := fun _ => 0
  regTouchXY := fun _ => 0x80008000
  regId := 0x7C
  regGpio := 0

/-- The shipped build on an AVR board: `int` has two bytes, 16 bitmaps,
15 handles. -/
def avr : Env := idleDevice ft800 2 16 15

/-- The shipped build on an ARM board: `int` has four bytes. -/
def arm : Env := idleDevice ft800 4 16 15

/-! ## Statements about calls that may fail -/

/-- The call returns, and what it returns satisfies `P`. -/
def Returns {α : Type} (r : Except Fault α) (P : α → Prop) : Prop :=
  ∃ a, r = .ok a ∧ P a

/-- Whenever the call returns, what it returns satisfies `P`. -/
def IfReturns {α : Type} (r : Except Fault α) (P : α → Prop) : Prop :=
  ∀ a, r = .ok a → P a

instance Returns.decide {α : Type} (r : Except Fault α) (P : α → Prop) [∀ a, Decidable (P a)] :
    Decidable (Returns r P) :=
  match r with
  | .ok a => decidable_of_iff (P a)
      ⟨fun h => ⟨a, rfl, h⟩, fun ⟨_, e, h⟩ => (Except.ok.inj e) ▸ h⟩
  | .error _ => isFalse (fun ⟨_, e, _⟩ => Except.noConfusion e)

instance IfReturns.decide {α : Type} (r : Except Fault α) (P : α → Prop)
    [∀ a, Decidable (P a)] : Decidable (IfReturns r P) :=
  match r with
  | .ok a => decidable_of_iff (P a)
      ⟨fun h _ e => (Except.ok.inj e) ▸ h, fun h => h a rfl⟩
  | .error _ => isTrue (fun _ e => Except.noConfusion e)

instance exceptDecEq {ε α : Type} [DecidableEq ε] [DecidableEq α] : DecidableEq (Except ε α)
  | .ok a, .ok b =>
    if h : a = b then isTrue (congrArg _ h) else isFalse (fun h' => h (Except.ok.inj h'))
  | .error a, .error b =>
    if h : a = b then isTrue (congrArg _ h) else isFalse (fun h' => h (Except.error.inj h'))
  | .ok _, .error _ => isFalse (fun h => Except.noConfusion h)
  | .error _, .ok _ => isFalse (fun h => Except.noConfusion h)

/-- The bytes of a sequence of command words in stream order, each word sent
as `Append32` sends it. -/
def bytesOf : List Nat → List Nat
  | [] => []
  | w :: ws => le32 (u32 w) ++ bytesOf ws

/-- The setters that go through a cached word: a graphics-context group set
through `WRITE_DLCMD` (every public display-list setter is `WRITE_DLCMD` of one
group at the encoded value of its arguments) and the three coprocessor
colours. -/
inductive CachedSetter where
  | dl (g : Group)
  | fgColor
  | bgColor
  | gradColor
  deriving DecidableEq, Repr

/-- One call of the setter with the encoded value `v`. -/
def CachedSetter.call (env : Env) : CachedSetter → Nat → FTGLInstance → Except Fault FTGLInstance
  | .dl g, v, s => WRITE_DLCMD env g v s
  | .fgColor, v, s => FTGLCmdFGColor env v s
  | .bgColor, v, s => FTGLCmdBGColor env v s
  | .gradColor, v, s => FTGLCmdGradColor env v s

/-- The value the setter's cache holds. -/
def CachedSetter.cached : CachedSetter → FTGLInstance → Nat
  | .dl g, s => s.graphicsContext.get g
  | .fgColor, s => s.commandContext.fgColor
  | .bgColor, s => s.commandContext.bgColor
  | .gradColor, s => s.commandContext.gradColor

/-- The words of the one command that sets the value `v`. -/
def CachedSetter.command (env : Env) : CachedSetter → Nat → List Nat
  | .dl _, v => [v]
  | .fgColor, v => [env.hdr.FT_CMD_FGCOLOR, v]
  | .bgColor, v => [env.hdr.FT_CMD_BGCOLOR, v]
  | .gradColor, v => [env.hdr.FT_CMD_GRADCOLOR, v]

/-- Calls of one setter with the values `vs`, in order. -/
def CachedSetter.callAll (env : Env) (c : CachedSetter) :
    List Nat → FTGLInstance → Except Fault FTGLInstance
  | [], s => pure s
  | v :: vs, s => do
    let s ← c.call env v s
    c.callAll env vs s

/-- The number of positions of `vs` whose value differs from the value before
it, `v0` standing before the first. -/
def changeCount : Nat → List Nat → Nat
  | _, [] => 0
  | v0, v :: vs => (if v ≠ v0 then 1 else 0) + changeCount v vs

/-- The command words for the values of `vs` that differ from the value before
them, `v0` standing before the first. -/
def changeCommands (env : Env) (c : CachedSetter) : Nat → List Nat → List Nat
  | _, [] => []
  | v0, v :: vs => (if v ≠ v0 then c.command env v else []) ++ changeCommands env c v vs

/-- The write index is a multiple of four. -/
def Aligned4 (s : FTGLInstance) : Prop := s.cmdQueueWriteIndex % 4 = 0

instance Aligned4.decide (s : FTGLInstance) : Decidable (Aligned4 s) :=
  inferInstanceAs (Decidable (s.cmdQueueWriteIndex % 4 = 0))

/-- The state with the queue indices and the transport side erased: what is
left is the part of `g_Inst` that the queue primitives never touch. -/
def host (s : FTGLInstance) : FTGLInstance :=
  { s with
    cmdQueueReadIndex := 0
    cmdQueueWriteIndex := 0
    cmdQueueFreeSpace := 0
    bus := []
    regCmdWrite := 0
    waits := 0 }

/-- The two words of a bitmap draw. -/
def drawWords (hdr : FT800) (handle x y cell : Int) : List Nat :=
  [hdr.FT_BEGIN (u8 hdr.FT_BITMAPS),
   hdr.FT_VERTEX2II (u16 (toU16 x)) (u16 (toU16 y)) (u8 (toU8 (i8 handle))) (u8 (toU8 cell))]

/-- The three words that load a bitmap into the selected handle. -/
def bindWords (hdr : FT800) (b : BitmapInfo) : List Nat :=
  [hdr.FT_BITMAP_SOURCE b.bitmapAddress, b.bitmapLayout, b.bitmapSize]

/-- The handle-select word, present when it changes the cached word. -/
def selectWords (hdr : FT800) (cached : Nat) (handle : Int) : List Nat :=
  if cached ≠ u32 (hdr.FT_BITMAP_HANDLE (u8 (toU8 (i8 handle)))) then
    [hdr.FT_BITMAP_HANDLE (u8 (toU8 (i8 handle)))]
  else []

/-- The formats that `ComputeSizeAndStride` names in its `switch`. -/
def FT800.formats (hdr : FT800) : List Nat :=
  [hdr.FT_L1, hdr.FT_L4, hdr.FT_L8, hdr.FT_PALETTED, hdr.FT_TEXT8X8, hdr.FT_TEXTVGA,
   hdr.FT_BARGRAPH, hdr.FT_RGB332, hdr.FT_ARGB2, hdr.FT_ARGB1555, hdr.FT_ARGB4, hdr.FT_RGB565]

/-- The multiplier and divisor of a format as the specification lists them. -/
def formatRatio (hdr : FT800) (format : Nat) : Nat × Nat :=
  if format = hdr.FT_L1 then (1, 8)
  else if format = hdr.FT_L4 then (1, 2)
  else if format = hdr.FT_ARGB1555 ∨ format = hdr.FT_ARGB4 ∨ format = hdr.FT_RGB565 then (2, 1)
  else (1, 1)

/-- The row size of the specification: `w * m / d` rounded up. -/
def rowBytes (hdr : FT800) (format w : Nat) : Nat :=
  (w * (formatRatio hdr format).1 + (formatRatio hdr format).2 - 1) / (formatRatio hdr format).2

/-- A request for graphics RAM: one of the two allocating calls with its arguments. -/
inductive Alloc where
  | create (format : Nat) (widthInPixels heightInLines : Int)
  | createVerbose (format stride layoutHeight numCells filter wrapx wrapy
      renderWidth renderHeight : Nat)

/-- The allocating call a request stands for. -/
def Alloc.call (env : Env) : Alloc → FTGLInstance → Except Fault (Int × FTGLInstance)
  | .create f w h, s => FTGLCreateBitmap env f w h s
  | .createVerbose f st lh nc fi wx wy rw rh, s =>
    FTGLCreateBitmapVerbose env f st lh nc fi wx wy rw rh s

/-- A sequence of allocations, in order; the result lists the returned ids. -/
def allocAll (env : Env) : List Alloc → FTGLInstance → Except Fault (List Int × FTGLInstance)
  | [], s => pure ([], s)
  | a :: rest, s => do
    let (id, s) ← a.call env s
    let (ids, s) ← allocAll env rest s
    pure (id :: ids, s)

/-- The address recorded in descriptor `id` (0 for an id outside the table). -/
def recordedAddress (s : FTGLInstance) (id : Int) : Nat :=
  match arrGet s.bitmaps id with
  | .ok b => b.bitmapAddress
  | .error _ => 0

/-- The data size recorded in descriptor `id` (0 for an id outside the table). -/
def recordedSize (s : FTGLInstance) (id : Int) : Nat :=
  match arrGet s.bitmaps id with
  | .ok b => b.bitmapDataSize
  | .error _ => 0

/-- The state of the AVR build after one 8 by 8 bitmap has been created and
drawn once. -/
def drawnOnce : FTGLInstance :=
  match run avr [.CreateBitmap ft800.FT_L8 8 8, .CmdBitmap 0 10 10] (initialized avr) with
  | .ok s => s
  | .error _ => initialized avr

/-- The descriptor of an 8 by 8 `FT_L8` bitmap created first. -/
def firstBitmap : BitmapInfo :=
  { bitmapAddress := 0
    bitmapDataSize := 64
    bitmapLayout := u32 (ft800.FT_BITMAP_LAYOUT ft800.FT_L8 8 8)
    bitmapSize := u32 (ft800.FT_BITMAP_SIZE ft800.FT_BILINEAR ft800.FT_BORDER ft800.FT_BORDER 8 8)
    activeHandle := -1 }

/-- The descriptor of a 16 by 16 `FT_L8` bitmap created second. -/
def secondBitmap : BitmapInfo :=
  { bitmapAddress := 64
    bitmapDataSize := 256
    bitmapLayout := u32 (ft800.FT_BITMAP_LAYOUT ft800.FT_L8 16 16)
    bitmapSize :=
      u32 (ft800.FT_BITMAP_SIZE ft800.FT_BILINEAR ft800.FT_BORDER ft800.FT_BORDER 16 16)
    activeHandle := -1 }

/-- A build with only two bitmap handles. -/
def twoSlots : Env := idleDevice ft800 2 16 2

/-- The state of the two-handle build after two bitmaps have been created. -/
def twoBitmaps : FTGLInstance :=
  match run twoSlots [.CreateBitmap ft800.FT_L8 8 8, .CreateBitmap ft800.FT_L8 16 16]
      (initialized twoSlots) with
  | .ok s => s
  | .error _ => initialized twoSlots

/-- A device like the idle one of the shipped build whose touch registers
return `xy k` and `tag k` when they are read after drain wait `k`. -/
def touchDevice (sizeofInt : Nat) (xy tag : Nat → Nat) : Env :=
  { idleDevice ft800 sizeofInt 16 15 with regTouchXY := xy, regTouchTag := tag }

/-- What a call that replaces the size word of bitmap `id` by `size` leaves
behind, where `b` is the descriptor before the call, `s` the state before and
`s'` the state after: the descriptor has the new size word and no handle, the
slot it referred to is empty, every other descriptor and slot and the rest of
the state are as before, and a following managed draw of the bitmap sends
its source, layout and size words again. -/
def Invalidated (env : Env) (id : Int) (b : BitmapInfo) (size : Nat) (s s' : FTGLInstance) :
    Prop :=
  arrGet s'.bitmaps id = .ok { b with bitmapSize := size, activeHandle := -1 } ∧
  (∀ j, j ≠ id → arrGet s'.bitmaps j = arrGet s.bitmaps j) ∧
  (0 ≤ b.activeHandle → arrGet s'.bitmapHandles b.activeHandle = .ok (-1)) ∧
  (∀ t, t ≠ b.activeHandle → arrGet s'.bitmapHandles t = arrGet s.bitmapHandles t) ∧
  s' = { s with bitmaps := s'.bitmaps, bitmapHandles := s'.bitmapHandles } ∧
  ∀ x y, IfReturns (FTGLCmdBitmap env id x y s') (fun s'' =>
    ∃ before after, appended s''.bus = appended s'.bus ++ before ++
      bytesOf (bindWords env.hdr { b with bitmapSize := size }) ++ after)

/-- The last known touch point lies in the rectangle, edges included. -/
def Inside (g : FTUIState) (x y w h : Int) : Prop :=
  x ≤ g.touchX ∧ g.touchX ≤ x + w ∧ y ≤ g.touchY ∧ g.touchY ≤ y + h

instance Inside.decide (g : FTUIState) (x y w h : Int) : Decidable (Inside g x y w h) :=
  inferInstanceAs (Decidable (_ ∧ _ ∧ _ ∧ _))

/-- The bytes of a `CMD_BUTTON` command up to the padding: the command word,
the six 16-bit arguments and the `len` bytes of the label. -/
def buttonBytes (hdr : FT800) (x y w h : Int) (font options : Nat) (str : List Nat)
    (len : Nat) : List Nat :=
  le32 (u32 hdr.FT_CMD_BUTTON) ++ le16 (u16 (toU16 x)) ++ le16 (u16 (toU16 y)) ++
    le16 (u16 (toU16 w)) ++ le16 (u16 (toU16 h)) ++ le16 (u16 font) ++ le16 (u16 options) ++
    str.take (u16 len)

/-- Between `s` and `s'` the command stream grew by one `CMD_BUTTON` command
with the given options and label, padded to a multiple of four bytes, and
by nothing else before it. -/
def DrawnButton (hdr : FT800) (x y w h font : Int) (options : Nat) (str : List Nat) (len : Nat)
    (s s' : FTGLInstance) : Prop :=
  ∃ pad after, pad < 4 ∧ appended s'.bus = appended s.bus ++
    buttonBytes hdr x y w h (toU16 font) options str len ++ List.replicate pad 0 ++ after

/-- A main loop with one control, run for a number of frames: each frame calls
`FTUIBegin`, the control and `FTUIEnd`.  The result lists, frame by frame,
what the control returned and the active id and active tag it left. -/
def frames (env : Env)
    (ctl : FTUIState → FTGLInstance → Except Fault (Int × FTUIState × FTGLInstance)) :
    Nat → FTUIState → FTGLInstance → Except Fault (List (Int × Int × Int) × FTUIState × FTGLInstance)
  | 0, g, s => pure ([], g, s)
  | n + 1, g, s => do
    let (g, s) ← FTUIBegin env g s
    let (pressed, g, s) ← ctl g s
    let seen := (pressed, FTUIGetActive g, FTUIGetActiveTag g)
    let (g, s) ← FTUIEnd env g s
    let (rest, g, s) ← frames env ctl n g s
    pure (seen :: rest, g, s)

/-- The program after `FTUIInitialize` on the device `env` (the two states of
a program that has just been started where the call does not return). -/
def started (env : Env) : FTUIState × FTGLInstance :=
  match FTUIInitialize env (powerOn env) with
  | .ok r => r
  | .error _ =>
    ({ hadTouch := 0, hasTouch := 0, touchX := 0, touchY := 0, touchTag := 0, lastTag := 0,
       active := 0, activeTag := 0, numbersImage := 0 }, powerOn env)

/-- Bitmap `id` can be drawn by the managed path: it is loaded in a handle, or
the slot the eviction policy looks at next is an empty one that was not the
last one drawn. -/
def Drawable (env : Env) (id : Int) (s : FTGLInstance) : Prop :=
  match arrGet s.bitmaps id with
  | .ok b =>
    0 ≤ b.activeHandle ∨
      (1 ≤ env.FTGL_NUM_BITMAP_HANDLES ∧ s.nextHandle ≠ s.lastHandle ∧
        arrGet s.bitmapHandles s.nextHandle = .ok (-1) ∧ i8 s.nextHandle = s.nextHandle)
  | .error _ => False

instance Drawable.decide (env : Env) (id : Int) (s : FTGLInstance) :
    Decidable (Drawable env id s) :=
  match h : arrGet s.bitmaps id with
  | .ok b => decidable_of_iff
      (0 ≤ b.activeHandle ∨
        (1 ≤ env.FTGL_NUM_BITMAP_HANDLES ∧ s.nextHandle ≠ s.lastHandle ∧
          arrGet s.bitmapHandles s.nextHandle = .ok (-1) ∧ i8 s.nextHandle = s.nextHandle))
      (by unfold Drawable; rw [h])
  | .error _ => isFalse (by unfold Drawable; rw [h]; exact fun k => k)

/-- A device on which a finger is down at the point (20, 20) when the first
and the second frame end and lifted afterwards; no tag is reported. -/
def tapDevice (sizeofInt : Nat) : Env :=
  touchDevice sizeofInt (fun k => if k = 1 ∨ k = 2 then 0x00140014 else 0x80008000) (fun _ => 0)

/-- A device on which a finger is down at the point (20, 20) when the first
and the second frame end and lifted afterwards; the tag `t` is reported when
the second frame ends, the tag 0 at every other time. -/
def keyDevice (t : Nat) : Env :=
  touchDevice 2 (fun k => if k = 1 ∨ k = 2 then 0x00140014 else 0x80008000)
    (fun k => if k = 2 then t else 0)

/-- The state of the controls when a finger has just come down at the point
(20, 20) and no control is active. -/
def fingerDown : FTUIState :=
  { hadTouch := 0, hasTouch := 1, touchX := 20, touchY := 20, touchTag := 0, lastTag := 0,
    active := -1, activeTag := 0, numbersImage := 0 }

/-- Calls of cached graphics-context setters, in order: each is `WRITE_DLCMD`
of a group at the encoded value of the setter's arguments. -/
def setAll (env : Env) : List (Group × Nat) → FTGLInstance → Except Fault FTGLInstance
  | [], s => pure s
  | (g, v) :: cs, s => do
    let s ← WRITE_DLCMD env g v s
    setAll env cs s

/-- The same calls in a build with a context stack. -/
def StackedInstance.setAll (env : Env) :
    List (Group × Nat) → StackedInstance → Except Fault StackedInstance
  | [], k => pure k
  | (g, v) :: cs, k => do
    let k ← k.WRITE_DLCMD env g v
    StackedInstance.setAll env cs k

/-- The cached context after the setter calls `cs`, from the context `c`. -/
def settled (c : GraphicsContext) (cs : List (Group × Nat)) : GraphicsContext :=
  cs.foldl (fun c gv => c.set gv.1 (u32 gv.2)) c

/-- The words the setter calls `cs` send, from the cached context `c`: a call
sends its word when it changes the cached word. -/
def settledWords : GraphicsContext → List (Group × Nat) → List Nat
  | _, [] => []
  | c, (g, v) :: cs =>
    (if c.get g ≠ u32 v then [v] else []) ++ settledWords (c.set g (u32 v)) cs

/-- A device whose identity register reads 0 instead of 0x7C: no FT800
answers on the bus. -/
def silentDevice : Env := { avr with regId := 0 }

/-- Every call in the log is an `FTHWAppendWrite`. -/
def OnlyAppends (es : List BusEvent) : Prop :=
  ∀ e ∈ es, ∃ d, e = .appendWrite d

/-- A command that reserves `space` bytes and then sends `sent` bytes: from the
state `s` the call `EnsureSpace(space)` runs first, and every call to the
transport after it appends data, `sent` bytes in all, with no drain wait. -/
def ReservesThenSends (env : Env) (space sent : Nat) (s s' : FTGLInstance) : Prop :=
  ∃ s1 es, EnsureSpace env space s = .ok s1 ∧ s'.bus = s1.bus ++ es ∧ OnlyAppends es ∧
    (appended es).length = sent ∧ s'.waits = s1.waits

/-- The state after `FTGLInitialize` of a build of the AVR target with
`FTGL_CONFIG_CONTEXT_STACK_DEPTH` set to 1: both entries of the context array
hold the defaults and the stack index is 0. -/
def stackedStart : StackedInstance :=
  { inst := initialized avr
    graphicsContext := [defaultGraphicsContext ft800, defaultGraphicsContext ft800]
    contextStackIndex := 0 }

/-- A manager state of the shipped build with a bitmap in every slot, the
cursor at slot 1 and slot 0 the last one drawn. -/
def everySlotLoaded : FTGLInstance :=
  { initialized avr with bitmapHandles := List.replicate 15 0, lastHandle := 0, nextHandle := 1 }

/-- From `s` to `s'` the transport is only asked to append data, `n` bytes in
all, with no drain wait, and the write index advances by `n` modulo 4. -/
def Sends (n : Nat) (s s' : FTGLInstance) : Prop :=
  ∃ es, s'.bus = s.bus ++ es ∧ OnlyAppends es ∧ (appended es).length = n ∧
    s'.waits = s.waits ∧ s'.cmdQueueWriteIndex % 4 = (s.cmdQueueWriteIndex + n) % 4

/-- The word a call sets for the group `g`, if it sets one. -/
def DLCall.sets (g : Group) : DLCall → Option Nat
  | .cached g' w => if g' = g then some (u32 w) else none
  | .direct _ => none

/-- The word most recently sent for the group `g` by the calls `pre` where
every call sends its word, or the seed of the group when `pre` has no call for
it. -/
def recent (seed : GraphicsContext) (pre : List DLCall) (g : Group) : Nat :=
  ((pre.reverse.filterMap (DLCall.sets g)).head?).getD (seed.get g)

/-- The call keeps its word in the cached stream: it is a plain `DLCommand`,
or its word differs from the most recent word of its group. -/
def kept (seed : GraphicsContext) (pre : List DLCall) : DLCall → Bool
  | .cached g w => decide (u32 w ≠ recent seed pre g)
  | .direct _ => true

/-- The words of `ds`, in order, without the words of the calls that are not
kept; `pre` is the sequence of calls before `ds`. -/
def elide (seed : GraphicsContext) : List DLCall → List DLCall → List Nat
  | _, [] => []
  | pre, d :: ds => (if kept seed pre d then [d.word] else []) ++ elide seed (pre ++ [d]) ds

/-- A call of one of the four functions that start or stop a continuous
coprocessor command. -/
inductive ContinuousCall where
  | spinner (x y : Int) (style scale : Nat)
  | screensaver
  | sketch (x y : Int) (w h ptr format : Nat)
  | stop
  deriving DecidableEq, Repr

/-- The public call. -/
def ContinuousCall.toCall : ContinuousCall → Call
  | .spinner x y style scale => .CmdSpinner x y style scale
  | .screensaver => .CmdScreensaver
  | .sketch x y w h ptr format => .CmdSketch x y w h ptr format
  | .stop => .CmdStop

/-- The call starts a continuous command (`FTGLCmdStop` does not). -/
def ContinuousCall.isStart : ContinuousCall → Bool
  | .stop => false
  | _ => true

/-- The bytes of the coprocessor command itself: the command word and its
arguments. -/
def ContinuousCall.bytes (hdr : FT800) : ContinuousCall → List Nat
  | .spinner x y style scale =>
    le32 (u32 hdr.FT_CMD_SPINNER) ++ le16 (u16 (toU16 x)) ++ le16 (u16 (toU16 y)) ++
      le16 (u16 style) ++ le16 (u16 scale)
  | .screensaver => le32 (u32 hdr.FT_CMD_SCREENSAVER)
  | .sketch x y w h ptr format =>
    le32 (u32 hdr.FT_CMD_SKETCH) ++ le16 (u16 (toU16 x)) ++ le16 (u16 (toU16 y)) ++
      le16 (u16 w) ++ le16 (u16 h) ++ le32 (u32 ptr) ++ le16 (u16 format) ++ le16 (u16 0)
  | .stop => le32 (u32 hdr.FT_CMD_STOP)

/-- The commands a sequence of calls puts into the stream when a start that
finds a continuous command active (`active`) is preceded by a stop. -/
def emittedCommands : Bool → List ContinuousCall → List ContinuousCall
  | _, [] => []
  | active, c :: cs =>
    if c.isStart then (if active then [.stop] else []) ++ c :: emittedCommands true cs
    else c :: emittedCommands false cs

/-- No start command directly follows another start command. -/
def StartsSeparated (l : List ContinuousCall) : Prop :=
  l.Chain' fun a b => ¬ (a.isStart = true ∧ b.isStart = true)

/-- The flag after the calls: set by a start, cleared by a stop. -/
def flagAfter : Nat → List ContinuousCall → Nat
  | flag, [] => flag
  | _, c :: cs => flagAfter (if c.isStart then 1 else 0) cs

/-- Sixteen 8 by 8 bitmaps created one after the other. -/
def sixteenBitmaps : List Call := List.replicate 16 (.CreateBitmap ft800.FT_L8 8 8)

/-- The bitmaps 0 to `n - 1` drawn in this order with `FTGLCmdBitmap`. -/
def drawFirst (n : Nat) : List Call := (List.range n).map fun k => .CmdBitmap k 0 0

/-- The request can be computed: the products of `FTGLCreateBitmapVerbose`
do not overflow `int`. -/
def Alloc.Defined (env : Env) : Alloc → Prop
  | .create _ _ _ => True
  | .createVerbose _ st lh nc _ _ _ _ _ =>
    ∃ p q, mulPromoted env (u16 st) (u16 lh) = .ok p ∧ mulPromoted env p (u16 nc) = .ok q

/-- The digit positions that are drawn, least significant first: position `i`
is drawn when leading zeros are asked for, when it is position 0, or when
`n / 10^i` is not 0; the entry is the x coordinate and the bitmap cell. -/
def largeNumberDigits (x numDigits scale leadingZeros n : Int) : List (Int × Int) :=
  ((List.range numDigits.toNat).filter fun (i : Nat) =>
      decide (leadingZeros ≠ 0 ∨ i = 0 ∨ n / 10 ^ i ≠ 0)).map
    fun (i : Nat) => (x + (numDigits - 1 - (i : Int)) * (12 * scale + 4), (n / 10 ^ i) % 10)

/-- Draws of cells of bitmap `id` at the height `y`, one call of
`FTGLCmdBitmapCell` for each entry, in order. -/
def drawDigits (env : Env) (id y : Int) : List (Int × Int) → FTGLInstance →
    Except Fault FTGLInstance
  | [], s => pure s
  | (px, cell) :: rest, s => do
    let s ← FTGLCmdBitmapCell env id px y cell s
    drawDigits env id y rest s

/-- The bytes transferred on the SPI bus, in order. -/
def transferred : List WireEvent → List Nat
  | [] => []
  | .transfer b :: es => b :: transferred es
  | _ :: es => transferred es

/-! ## Basic facts -/

theorem bind_eq_ok {α β : Type} {x : Except Fault α} {f : α → Except Fault β} {b : β} :
    (x >>= f) = .ok b ↔ ∃ a, x = .ok a ∧ f a = .ok b := by
  cases x <;> simp [bind, Except.bind]

theorem pure_eq_ok {α : Type} {a b : α} : (pure a : Except Fault α) = .ok b ↔ a = b := by
  simp [pure, Except.pure]

theorem map_eq_ok {α β : Type} {x : Except Fault α} {f : α → β} {b : β} :
    x.map f = .ok b ↔ ∃ a, x = .ok a ∧ f a = b := by
  cases x <;> simp [Except.map]

@[simp] theorem appended_append (a b : List BusEvent) :
    appended (a ++ b) = appended a ++ appended b := by
  induction a with
  | nil => rfl
  | cons e es ih => cases e <;> simp [appended, ih]

theorem land_mask (n : Nat) : n &&& FTGL_QUEUE_MASK = n % 4096 := by
  have h : FTGL_QUEUE_MASK = 2 ^ 12 - 1 := rfl
  rw [h, Nat.and_pow_two_sub_one_eq_mod]

theorem land_three (n : Nat) : n &&& 3 = n % 4 := by
  have h : (3 : Nat) = 2 ^ 2 - 1 := rfl
  rw [h, Nat.and_pow_two_sub_one_eq_mod]

/-! ## The queue primitives -/

theorem host_eq_fields {s s' : FTGLInstance} (h : host s' = host s) :
    s'.graphicsContext = s.graphicsContext ∧ s'.commandContext = s.commandContext ∧
    s'.bitmaps = s.bitmaps ∧ s'.bitmapIndex = s.bitmapIndex ∧
    s'.bitmapHandles = s.bitmapHandles ∧ s'.lastHandle = s.lastHandle ∧
    s'.nextHandle = s.nextHandle ∧ s'.graphicsRamIndex = s.graphicsRamIndex ∧
    s'.hasTouch = s.hasTouch ∧ s'.touchX = s.touchX ∧ s'.touchY = s.touchY ∧
    s'.touchTag = s.touchTag := by
  simp only [host, FTGLInstance.mk.injEq] at h
  tauto

@[simp] theorem host_Append32 (v : Nat) (s : FTGLInstance) : host (Append32 v s) = host s := rfl

@[simp] theorem host_Append16 (v : Nat) (s : FTGLInstance) : host (Append16 v s) = host s := rfl

@[simp] theorem host_AlignBuffer (s : FTGLInstance) : host (AlignBuffer s) = host s := by
  simp only [AlignBuffer]
  split <;> rfl

@[simp] theorem appended_Append32 (v : Nat) (s : FTGLInstance) :
    appended (Append32 v s).bus = appended s.bus ++ le32 (u32 v) := by
  simp [Append32, FTHWAppendWrite, appended]

@[simp] theorem appended_Append16 (v : Nat) (s : FTGLInstance) :
    appended (Append16 v s).bus = appended s.bus ++ le16 (u16 v) := by
  simp [Append16, FTHWAppendWrite, appended]

@[simp] theorem writeIndex_Append32 (v : Nat) (s : FTGLInstance) :
    (Append32 v s).cmdQueueWriteIndex = (s.cmdQueueWriteIndex + 4) % 4096 := by
  simp [Append32, FTHWAppendWrite, land_mask]

@[simp] theorem writeIndex_Append16 (v : Nat) (s : FTGLInstance) :
    (Append16 v s).cmdQueueWriteIndex = (s.cmdQueueWriteIndex + 2) % 4096 := by
  simp [Append16, FTHWAppendWrite, land_mask]

@[simp] theorem freeSpace_Append32 (v : Nat) (s : FTGLInstance) :
    (Append32 v s).cmdQueueFreeSpace = (s.cmdQueueFreeSpace + 65536 - 4) % 65536 := by
  simp [Append32, FTHWAppendWrite, u16]

@[simp] theorem freeSpace_Append16 (v : Nat) (s : FTGLInstance) :
    (Append16 v s).cmdQueueFreeSpace = (s.cmdQueueFreeSpace + 65536 - 2) % 65536 := by
  simp [Append16, FTHWAppendWrite, u16]

theorem aligned_AlignBuffer (s : FTGLInstance) : Aligned4 (AlignBuffer s) := by
  unfold AlignBuffer Aligned4
  simp only [land_three, land_mask, FTHWAppendWrite]
  split
  · dsimp only
    omega
  · omega

theorem AppendString_ok {data : List Nat} {count : Nat} {s s' : FTGLInstance}
    (h : AppendString data count s = .ok s') :
    host s' = host s ∧ appended s'.bus = appended s.bus ++ data.take (u16 count) ∧
    s'.cmdQueueWriteIndex = (s.cmdQueueWriteIndex + u16 count) % 4096 ∧
    s'.cmdQueueFreeSpace = (s.cmdQueueFreeSpace + 65536 - u16 count) % 65536 ∧
    u16 count ≤ data.length := by
  simp only [AppendString] at h
  split at h
  · rw [pure_eq_ok] at h
    subst h
    simp [FTHWAppendWrite, appended, land_mask, u16, host]
    assumption
  · cases h

theorem pollQueue_ok (hdr : FT800) (ps : List (Nat × Nat)) :
    ∀ {s s' : FTGLInstance}, pollQueue hdr ps s = .ok s' →
      host s' = host s ∧ appended s'.bus = appended s.bus ∧
      s'.cmdQueueReadIndex = s'.cmdQueueWriteIndex ∧
      s'.cmdQueueFreeSpace = s.cmdQueueFreeSpace ∧
      s'.regCmdWrite = s.regCmdWrite ∧ s'.waits = s.waits ∧
      ∃ p ∈ ps, s'.cmdQueueWriteIndex = u16 p.2 := by
  induction ps with
  | nil => intro s s' h; cases h
  | cons p rest ih =>
    intro s s' h
    obtain ⟨r, w⟩ := p
    simp only [pollQueue] at h
    split at h
    · obtain ⟨h1, h2, h3, h4, h5, h6, q, hq, h7⟩ := ih h
      refine ⟨?_, ?_, h3, ?_, ?_, ?_, q, List.mem_cons_of_mem _ hq, h7⟩
      · rw [h1]; rfl
      · rw [h2]; simp [FTHWRead, appended]
      · rw [h4]; rfl
      · rw [h5]; rfl
      · rw [h6]; rfl
    · rename_i hne
      simp only [ne_eq, Decidable.not_not] at hne
      cases h
      refine ⟨rfl, ?_, hne, rfl, rfl, rfl, (r, w), List.mem_cons_self _ _, rfl⟩
      simp [FTHWRead, appended]

theorem pollQueue_drains (hdr : FT800) (ps : List (Nat × Nat))
    (h : ∃ p ∈ ps, u16 p.1 = u16 p.2) (s : FTGLInstance) : ∃ s', pollQueue hdr ps s = .ok s' := by
  induction ps generalizing s with
  | nil => obtain ⟨p, hp, _⟩ := h; cases hp
  | cons p rest ih =>
    obtain ⟨r, w⟩ := p
    simp only [pollQueue]
    split
    · rename_i hne
      apply ih
      obtain ⟨q, hq, he⟩ := h
      rcases List.mem_cons.mp hq with rfl | hq
      · exact absurd he hne
      · exact ⟨q, hq, he⟩
    · exact ⟨_, rfl⟩

theorem WaitForQueueEmpty_ok {env : Env} {s s' : FTGLInstance}
    (h : WaitForQueueEmpty env s = .ok s') :
    host s' = host s ∧ appended s'.bus = appended s.bus ∧
    s'.cmdQueueReadIndex = s'.cmdQueueWriteIndex ∧
    s'.cmdQueueFreeSpace = FTGL_CMD_QUEUE_SIZE ∧
    s'.regCmdWrite = s.regCmdWrite ∧ s'.waits = s.waits + 1 ∧
    ∃ p ∈ env.polls s.waits s.regCmdWrite, s'.cmdQueueWriteIndex = u16 p.2 := by
  unfold WaitForQueueEmpty at h
  rw [bind_eq_ok] at h
  obtain ⟨s1, h1, h2⟩ := h
  rw [pure_eq_ok] at h2
  subst h2
  obtain ⟨a1, a2, a3, _, a5, a6, a7⟩ := pollQueue_ok _ _ h1
  refine ⟨?_, a2, a3, rfl, a5, ?_, a7⟩
  · rw [← a1]; rfl
  · simp [a6]

theorem WaitForQueueEmpty_returns {env : Env} (hd : env.Drains) (s : FTGLInstance) :
    ∃ s', WaitForQueueEmpty env s = .ok s' := by
  obtain ⟨s1, h1⟩ := pollQueue_drains env.hdr _ (hd s.waits s.regCmdWrite) s
  unfold WaitForQueueEmpty
  rw [h1]
  exact ⟨_, rfl⟩

theorem FlushCommands_ok {env : Env} {s s' : FTGLInstance} (h : FlushCommands env s = .ok s') :
    host s' = host s ∧ appended s'.bus = appended s.bus ∧
    s'.cmdQueueReadIndex = s'.cmdQueueWriteIndex ∧
    s'.cmdQueueFreeSpace = FTGL_CMD_QUEUE_SIZE ∧
    (env.ReadsBack → s'.cmdQueueWriteIndex = u16 s.cmdQueueWriteIndex) := by
  unfold FlushCommands at h
  simp only [bind_eq_ok, pure_eq_ok] at h
  obtain ⟨s1, h1, rfl⟩ := h
  obtain ⟨a1, a2, a3, a4, _, _, p, hp, a7⟩ := WaitForQueueEmpty_ok h1
  refine ⟨?_, ?_, a3, a4, ?_⟩
  · show host s1 = host s
    rw [a1]; simp only [WriteReg16, FTHWWrite, FTHWEndAppendWrite]; split <;> rfl
  · show appended (s1.bus ++ _) = _
    rw [appended_append, a2]
    simp only [WriteReg16, FTHWWrite, FTHWEndAppendWrite]
    split <;> simp [appended]
  · intro hr
    show s1.cmdQueueWriteIndex = _
    rw [a7, hr _ _ p hp]
    simp [WriteReg16, FTHWWrite, FTHWEndAppendWrite, u16]

theorem FlushCommands_returns {env : Env} (hd : env.Drains) (s : FTGLInstance) :
    ∃ s', FlushCommands env s = .ok s' := by
  obtain ⟨s1, h1⟩ := WaitForQueueEmpty_returns hd
    (WriteReg16 env.hdr env.hdr.FT_REG_CMD_WRITE (FTHWEndAppendWrite s).cmdQueueWriteIndex
      (FTHWEndAppendWrite s))
  simp only [FlushCommands]
  rw [h1]
  exact ⟨_, rfl⟩

theorem EnsureSpace_ok {env : Env} {amt : Nat} {s s' : FTGLInstance}
    (h : EnsureSpace env amt s = .ok s') :
    host s' = host s ∧ appended s'.bus = appended s.bus ∧
    (env.ReadsBack → s'.cmdQueueWriteIndex = u16 s.cmdQueueWriteIndex ∨
      s'.cmdQueueWriteIndex = s.cmdQueueWriteIndex) ∧
    (env.sizeofInt ≤ s.cmdQueueFreeSpace → s' = s) := by
  unfold EnsureSpace at h
  split at h
  · obtain ⟨a1, a2, _, _, a5⟩ := FlushCommands_ok h
    exact ⟨a1, a2, fun hr => Or.inl (a5 hr), fun hle => by omega⟩
  · rw [pure_eq_ok] at h
    subst h
    exact ⟨rfl, rfl, fun _ => Or.inr rfl, fun _ => rfl⟩

theorem EnsureSpace_returns {env : Env} (hd : env.Drains) (amt : Nat) (s : FTGLInstance) :
    ∃ s', EnsureSpace env amt s = .ok s' := by
  unfold EnsureSpace
  split
  · exact FlushCommands_returns hd s
  · exact ⟨s, rfl⟩

theorem EnsureSpace_aligned {env : Env} (hr : env.ReadsBack) {amt : Nat} {s s' : FTGLInstance}
    (h : EnsureSpace env amt s = .ok s') (ha : Aligned4 s) : Aligned4 s' := by
  obtain ⟨_, _, a3, _⟩ := EnsureSpace_ok h
  unfold Aligned4 at *
  rcases a3 hr with e | e <;> rw [e]
  · unfold u16; omega
  · exact ha

theorem DLCommand_ok {env : Env} {val : Nat} {s s' : FTGLInstance}
    (h : DLCommand env val s = .ok s') :
    host s' = host s ∧ appended s'.bus = appended s.bus ++ le32 (u32 val) := by
  unfold DLCommand at h
  simp only [bind_eq_ok, pure_eq_ok] at h
  obtain ⟨s1, h1, rfl⟩ := h
  obtain ⟨a1, a2, _⟩ := EnsureSpace_ok h1
  simp [a1, a2]

theorem DLCommand_returns {env : Env} (hd : env.Drains) (val : Nat) (s : FTGLInstance) :
    ∃ s', DLCommand env val s = .ok s' := by
  obtain ⟨s1, h1⟩ := EnsureSpace_returns hd 4 s
  unfold DLCommand
  rw [h1]
  exact ⟨_, rfl⟩

theorem DLCommand_aligned {env : Env} (hr : env.ReadsBack) {val : Nat} {s s' : FTGLInstance}
    (h : DLCommand env val s = .ok s') (ha : Aligned4 s) : Aligned4 s' := by
  unfold DLCommand at h
  simp only [bind_eq_ok, pure_eq_ok] at h
  obtain ⟨s1, h1, rfl⟩ := h
  have := EnsureSpace_aligned hr h1 ha
  unfold Aligned4 at *
  simp only [writeIndex_Append32]
  omega

/-! ## The state cache -/

@[simp] theorem u32_u32 (n : Nat) : u32 (u32 n) = u32 n := by
  unfold u32; omega

theorem get_set_self (c : GraphicsContext) (g : Group) (v : Nat) : (c.set g v).get g = v := by
  cases g <;> rfl

theorem bytesOf_append (a b : List Nat) : bytesOf (a ++ b) = bytesOf a ++ bytesOf b := by
  induction a with
  | nil => rfl
  | cons w ws ih => simp [bytesOf, ih]

theorem length_bytesOf (ws : List Nat) : (bytesOf ws).length = 4 * ws.length := by
  induction ws with
  | nil => rfl
  | cons w ws ih => simp [bytesOf, le32, ih]; omega

theorem CachedSetter.call_ok {env : Env} {c : CachedSetter} {v : Nat} {s s' : FTGLInstance}
    (h : c.call env v s = .ok s') :
    c.cached s' = u32 v ∧
    appended s'.bus = appended s.bus ++
      bytesOf (if u32 v ≠ c.cached s then c.command env (u32 v) else []) := by
  cases c with
  | dl g =>
    simp only [CachedSetter.call, WRITE_DLCMD] at h
    simp only [CachedSetter.cached, CachedSetter.command]
    split at h
    · rename_i hne
      obtain ⟨a1, a2⟩ := DLCommand_ok h
      obtain ⟨g1, _⟩ := host_eq_fields a1
      rw [g1, a2, if_pos (Ne.symm hne)]
      simp [get_set_self, bytesOf]
    · rename_i he
      simp only [ne_eq, Decidable.not_not] at he
      rw [pure_eq_ok] at h
      subst h
      simp [he, bytesOf]
  | fgColor =>
    simp only [CachedSetter.call, FTGLCmdFGColor] at h
    simp only [CachedSetter.cached, CachedSetter.command]
    split at h
    · rename_i hne
      simp only [bind_eq_ok, pure_eq_ok] at h
      obtain ⟨s1, h1, rfl⟩ := h
      obtain ⟨a1, a2, _⟩ := EnsureSpace_ok h1
      obtain ⟨_, g1, _⟩ := host_eq_fields a1
      have e : (Append32 (u32 v) (Append32 env.hdr.FT_CMD_FGCOLOR s1)).commandContext
          = s1.commandContext := rfl
      rw [e, g1, if_pos (Ne.symm hne)]
      simp [a2, bytesOf]
    · rename_i he
      simp only [ne_eq, Decidable.not_not] at he
      rw [pure_eq_ok] at h
      subst h
      simp [he, bytesOf]
  | bgColor =>
    simp only [CachedSetter.call, FTGLCmdBGColor] at h
    simp only [CachedSetter.cached, CachedSetter.command]
    split at h
    · rename_i hne
      simp only [bind_eq_ok, pure_eq_ok] at h
      obtain ⟨s1, h1, rfl⟩ := h
      obtain ⟨a1, a2, _⟩ := EnsureSpace_ok h1
      obtain ⟨_, g1, _⟩ := host_eq_fields a1
      have e : (Append32 (u32 v) (Append32 env.hdr.FT_CMD_BGCOLOR s1)).commandContext
          = s1.commandContext := rfl
      rw [e, g1, if_pos (Ne.symm hne)]
      simp [a2, bytesOf]
    · rename_i he
      simp only [ne_eq, Decidable.not_not] at he
      rw [pure_eq_ok] at h
      subst h
      simp [he, bytesOf]
  | gradColor =>
    simp only [CachedSetter.call, FTGLCmdGradColor] at h
    simp only [CachedSetter.cached, CachedSetter.command]
    split at h
    · rename_i hne
      simp only [bind_eq_ok, pure_eq_ok] at h
      obtain ⟨s1, h1, rfl⟩ := h
      obtain ⟨a1, a2, _⟩ := EnsureSpace_ok h1
      obtain ⟨_, g1, _⟩ := host_eq_fields a1
      have e : (Append32 (u32 v) (Append32 env.hdr.FT_CMD_GRADCOLOR s1)).commandContext
          = s1.commandContext := rfl
      rw [e, g1, if_pos (Ne.symm hne)]
      simp [a2, bytesOf]
    · rename_i he
      simp only [ne_eq, Decidable.not_not] at he
      rw [pure_eq_ok] at h
      subst h
      simp [he, bytesOf]

theorem CachedSetter.call_same (env : Env) (c : CachedSetter) (v : Nat) (s : FTGLInstance)
    (h : u32 v = c.cached s) : c.call env v s = .ok s := by
  cases c <;>
    simp [CachedSetter.call, CachedSetter.cached, WRITE_DLCMD, FTGLCmdFGColor, FTGLCmdBGColor,
      FTGLCmdGradColor, pure, Except.pure] at h ⊢ <;> exact fun hne => absurd h.symm hne

theorem CachedSetter.call_returns {env : Env} (hd : env.Drains) (c : CachedSetter) (v : Nat)
    (s : FTGLInstance) : ∃ s', c.call env v s = .ok s' := by
  cases c with
  | dl g =>
    simp only [CachedSetter.call, WRITE_DLCMD]
    split
    · exact DLCommand_returns hd _ _
    · exact ⟨s, rfl⟩
  | fgColor =>
    simp only [CachedSetter.call, FTGLCmdFGColor]
    split
    · obtain ⟨s1, h1⟩ := EnsureSpace_returns hd (4 * 2)
        { s with commandContext := { s.commandContext with fgColor := u32 v } }
      rw [h1]; exact ⟨_, rfl⟩
    · exact ⟨s, rfl⟩
  | bgColor =>
    simp only [CachedSetter.call, FTGLCmdBGColor]
    split
    · obtain ⟨s1, h1⟩ := EnsureSpace_returns hd (4 * 2)
        { s with commandContext := { s.commandContext with bgColor := u32 v } }
      rw [h1]; exact ⟨_, rfl⟩
    · exact ⟨s, rfl⟩
  | gradColor =>
    simp only [CachedSetter.call, FTGLCmdGradColor]
    split
    · obtain ⟨s1, h1⟩ := EnsureSpace_returns hd (4 * 2)
        { s with commandContext := { s.commandContext with gradColor := u32 v } }
      rw [h1]; exact ⟨_, rfl⟩
    · exact ⟨s, rfl⟩

theorem length_command (env : Env) (c : CachedSetter) (v : Nat) :
    (c.command env v).length = (c.command env 0).length := by
  cases c <;> rfl

theorem length_changeCommands (env : Env) (c : CachedSetter) (v0 : Nat) (vs : List Nat) :
    (changeCommands env c v0 vs).length = (c.command env 0).length * changeCount v0 vs := by
  induction vs generalizing v0 with
  | nil => rfl
  | cons v vs ih =>
    simp only [changeCommands, changeCount, List.length_append, ih]
    split
    · rw [length_command env c v, Nat.mul_add, Nat.mul_one]
    · simp

theorem CachedSetter.callAll_ok (env : Env) (c : CachedSetter) (vs : List Nat) :
    ∀ {s s' : FTGLInstance}, c.callAll env vs s = .ok s' →
      appended s'.bus = appended s.bus ++
        bytesOf (changeCommands env c (c.cached s) (vs.map u32)) := by
  induction vs with
  | nil =>
    intro s s' h
    simp only [CachedSetter.callAll, pure_eq_ok] at h
    subst h
    simp [changeCommands, bytesOf]
  | cons v vs ih =>
    intro s s' h
    simp only [CachedSetter.callAll, bind_eq_ok] at h
    obtain ⟨s1, h1, h2⟩ := h
    obtain ⟨a1, a2⟩ := CachedSetter.call_ok h1
    rw [ih h2, a2, a1]
    simp [changeCommands, bytesOf_append]

theorem CachedSetter.callAll_returns {env : Env} (hd : env.Drains) (c : CachedSetter)
    (vs : List Nat) : ∀ s : FTGLInstance, ∃ s', c.callAll env vs s = .ok s' := by
  induction vs with
  | nil => intro s; exact ⟨s, rfl⟩
  | cons v vs ih =>
    intro s
    obtain ⟨s1, h1⟩ := CachedSetter.call_returns hd c v s
    obtain ⟨s2, h2⟩ := ih s1
    exact ⟨s2, by simp only [CachedSetter.callAll, bind_eq_ok]; exact ⟨s1, h1, h2⟩⟩

/-- C1: for each cached state group (a graphics-context group set through
`WRITE_DLCMD`, or one of the coprocessor colours) and every sequence of calls
of that one setter with encoded values `vs`, the stream receives exactly one
command for every value that differs from the value before it (the first is
compared with the cached value), so the number of commands sent is the number
of changes; a call at the cached value returns the state unchanged; and on a
device that drains its queue the calls do return. -/
theorem cache_emits_once_per_change (env : Env) (c : CachedSetter) (vs : List Nat)
    (s : FTGLInstance) :
    IfReturns (c.callAll env vs s) (fun s' =>
      appended s'.bus =
        appended s.bus ++ bytesOf (changeCommands env c (c.cached s) (vs.map u32)) ∧
      (changeCommands env c (c.cached s) (vs.map u32)).length =
        (c.command env 0).length * changeCount (c.cached s) (vs.map u32)) ∧
    (∀ v, u32 v = c.cached s → c.call env v s = .ok s) ∧
    (env.Drains → ∃ s', c.callAll env vs s = .ok s') :=
  ⟨fun _ h => ⟨CachedSetter.callAll_ok env c vs h, length_changeCommands env c _ _⟩,
    fun v h => CachedSetter.call_same env c v s h,
    fun hd => CachedSetter.callAll_returns hd c vs s⟩

/-! ## Arrays, the eviction loop and alignment -/

theorem arrGet_ok {α : Type} {xs : List α} {i : Int} {a : α} (h : arrGet xs i = .ok a) :
    0 ≤ i ∧ i.toNat < xs.length ∧ xs.get? i.toNat = some a := by
  unfold arrGet at h
  split at h
  · split at h
    · rename_i x hx
      cases h
      exact ⟨by assumption, (List.get?_eq_some.mp hx).1, hx⟩
    · cases h
  · cases h

theorem arrModify_ok {α : Type} {xs ys : List α} {i : Int} {f : α → α}
    (h : arrModify xs i f = .ok ys) :
    0 ≤ i ∧ i.toNat < xs.length ∧ ∃ a, xs.get? i.toNat = some a ∧ ys = xs.set i.toNat (f a) := by
  unfold arrModify at h
  split at h
  · split at h
    · rename_i x hx
      cases h
      exact ⟨by assumption, (List.get?_eq_some.mp hx).1, x, hx, rfl⟩
    · cases h
  · cases h

theorem WRITE_DLCMD_aligned {env : Env} (hr : env.ReadsBack) {g : Group} {v : Nat}
    {s s' : FTGLInstance} (h : WRITE_DLCMD env g v s = .ok s') (ha : Aligned4 s) : Aligned4 s' := by
  simp only [WRITE_DLCMD] at h
  split at h
  · exact DLCommand_aligned hr h ha
  · rw [pure_eq_ok] at h; subst h; exact ha

theorem i8_succ_ne (x : Int) : i8 (x + 1) ≠ x := by
  unfold i8; omega

theorem pickLoop_ok (env : Env) : ∀ (k : Nat) (sel : Int) (s : FTGLInstance) (r : Int × FTGLInstance),
    pickLoop env k sel s = .ok r →
    r.2 = { s with nextHandle := r.2.nextHandle } ∧
    ((r.1 ≠ s.lastHandle ∧ 0 ≤ r.1 ∧ r.1.toNat < s.bitmapHandles.length) ∨
      (r.1 = sel ∧ (k = 0 ∨ (k = 1 ∧ s.nextHandle = s.lastHandle)))) := by
  intro k
  induction k with
  | zero =>
    intro sel s r h
    simp only [pickLoop, pure_eq_ok] at h
    subst h
    exact ⟨rfl, Or.inr ⟨rfl, Or.inl rfl⟩⟩
  | succ k ih =>
    intro sel s r h
    simp only [pickLoop] at h
    split at h
    · rename_i heq
      obtain ⟨a1, a2⟩ := ih _ _ _ h
      refine ⟨?_, ?_⟩
      · rw [a1]
      · rcases a2 with a2 | ⟨a2, a3⟩
        · exact Or.inl a2
        · rcases a3 with a3 | ⟨a3, a4⟩
          · subst a3; exact Or.inr ⟨a2, Or.inr ⟨rfl, heq⟩⟩
          · exfalso
            simp only at a4
            rw [← heq] at a4
            exact i8_succ_ne _ a4
    · rename_i hne
      simp only [bind_eq_ok] at h
      obtain ⟨loaded, h1, h2⟩ := h
      obtain ⟨b1, b2, _⟩ := arrGet_ok h1
      split at h2
      · rw [pure_eq_ok] at h2
        subst h2
        exact ⟨rfl, Or.inl ⟨hne, b1, b2⟩⟩
      · obtain ⟨a1, a2⟩ := ih _ _ _ h2
        refine ⟨?_, ?_⟩
        · rw [a1]; split <;> rfl
        · rcases a2 with a2 | ⟨a2, _⟩
          · left
            revert a2
            split <;> exact id
          · left
            rw [a2]
            exact ⟨hne, b1, b2⟩

theorem stopIfActive_aligned {env : Env} (hr : env.ReadsBack) {s s' : FTGLInstance}
    (h : (if s.commandContext.continuousCommandActive ≠ 0 then FTGLCmdStop env s else pure s)
      = .ok s') (ha : Aligned4 s) : Aligned4 s' := by
  split at h
  · exact DLCommand_aligned hr h ha
  · rw [pure_eq_ok] at h; subst h; exact ha

theorem commitWait_aligned {env : Env} (hr : env.ReadsBack) {s s' : FTGLInstance}
    (h : WaitForQueueEmpty env
      (WriteReg16 env.hdr env.hdr.FT_REG_CMD_WRITE (FTHWEndAppendWrite s).cmdQueueWriteIndex
        (FTHWEndAppendWrite s)) = .ok s') (ha : Aligned4 s) : Aligned4 s' := by
  obtain ⟨_, _, _, _, _, _, p, hp, a7⟩ := WaitForQueueEmpty_ok h
  have e := hr _ _ p hp
  unfold Aligned4 at *
  rw [a7, e]
  simp only [WriteReg16, FTHWWrite, FTHWEndAppendWrite, if_true, u16]
  omega

theorem clearActiveHandle_ok {id : Int} {s s' : FTGLInstance}
    (h : clearActiveHandle id s = .ok s') : s' = { s with bitmaps := s'.bitmaps } := by
  simp only [clearActiveHandle, bind_eq_ok, pure_eq_ok] at h
  obtain ⟨b, _, rfl⟩ := h
  rfl

theorem FTGLSetBitmapHandle_aligned {env : Env} (hr : env.ReadsBack) {handle id : Int}
    {s : FTGLInstance} {r : Int × FTGLInstance}
    (h : FTGLSetBitmapHandle env handle id s = .ok r) (ha : Aligned4 s) : Aligned4 r.2 := by
  simp only [FTGLSetBitmapHandle, bind_eq_ok, pure_eq_ok] at h
  obtain ⟨old, _, s1, h1, s2, h2, s3, h3, b, _, bm, _, rfl⟩ := h
  have a1 : Aligned4 s1 := by
    split at h1
    · rw [clearActiveHandle_ok h1]; exact ha
    · rw [pure_eq_ok] at h1; subst h1; exact ha
  have a2 := WRITE_DLCMD_aligned hr h2 a1
  have a3 := EnsureSpace_aligned hr h3 a2
  unfold Aligned4 at *
  simp only [writeIndex_Append32]
  omega

theorem PickHandleToEvict_frame {env : Env} {s : FTGLInstance} {r : Int × FTGLInstance}
    (h : PickHandleToEvict env s = .ok r) : r.2 = { s with nextHandle := r.2.nextHandle } := by
  simp only [PickHandleToEvict, bind_eq_ok, pure_eq_ok] at h
  obtain ⟨r0, h0, rfl⟩ := h
  exact (pickLoop_ok env _ _ _ _ h0).1

theorem FTGLUseBitmap_aligned {env : Env} (hr : env.ReadsBack) {id : Int}
    {s : FTGLInstance} {r : Int × FTGLInstance}
    (h : FTGLUseBitmap env id s = .ok r) (ha : Aligned4 s) : Aligned4 r.2 := by
  simp only [FTGLUseBitmap, bind_eq_ok] at h
  obtain ⟨r0, h0, h1⟩ := h
  refine FTGLSetBitmapHandle_aligned hr h1 ?_
  rw [PickHandleToEvict_frame h0]; exact ha

theorem FTGLDrawBitmapInHandle_aligned {env : Env} (hr : env.ReadsBack) {handle x y cell : Int}
    {s s' : FTGLInstance}
    (h : FTGLDrawBitmapInHandle env handle x y cell s = .ok s') (ha : Aligned4 s) :
    Aligned4 s' := by
  simp only [FTGLDrawBitmapInHandle, bind_eq_ok, pure_eq_ok] at h
  obtain ⟨s1, h1, s2, h2, rfl⟩ := h
  have a2 : Aligned4 s2 := DLCommand_aligned hr h2 (DLCommand_aligned hr h1 ha)
  exact a2

theorem FTGLCmdBitmapCell_aligned {env : Env} (hr : env.ReadsBack) {id x y cell : Int}
    {s s' : FTGLInstance}
    (h : FTGLCmdBitmapCell env id x y cell s = .ok s') (ha : Aligned4 s) : Aligned4 s' := by
  simp only [FTGLCmdBitmapCell, bind_eq_ok] at h
  obtain ⟨b, _, r, h1, h2⟩ := h
  refine FTGLDrawBitmapInHandle_aligned hr h2 ?_
  split at h1
  · exact FTGLUseBitmap_aligned hr h1 ha
  · rw [pure_eq_ok] at h1; subst h1; exact ha

theorem exec_aligned_text {env : Env} {x y font : Int} {options : Nat}
    {str : List Nat} {len : Nat} {s s' : FTGLInstance}
    (h : FTGLCmdText env x y font options str len s = .ok s') : Aligned4 s' := by
  simp only [FTGLCmdText, bind_eq_ok, pure_eq_ok] at h
  obtain ⟨s1, _, s2, _, rfl⟩ := h
  exact aligned_AlignBuffer _

theorem exec_aligned {env : Env} (hr : env.ReadsBack) (c : Call) {s s' : FTGLInstance}
    (h : exec env c s = .ok s') (ha : Aligned4 s) : Aligned4 s' := by
  cases c with
  | Begin => exact DLCommand_aligned hr h ha
  | Vertex2ii => exact DLCommand_aligned hr h ha
  | Vertex2f => exact DLCommand_aligned hr h ha
  | BitmapLayout => exact DLCommand_aligned hr h ha
  | BitmapSize => exact DLCommand_aligned hr h ha
  | BitmapSource => exact DLCommand_aligned hr h ha
  | BitmapTransformA => exact DLCommand_aligned hr h ha
  | BitmapTransformB => exact DLCommand_aligned hr h ha
  | BitmapTransformC => exact DLCommand_aligned hr h ha
  | BitmapTransformD => exact DLCommand_aligned hr h ha
  | BitmapTransformE => exact DLCommand_aligned hr h ha
  | BitmapTransformF => exact DLCommand_aligned hr h ha
  | Clear => exact DLCommand_aligned hr h ha
  | ColorMask => exact DLCommand_aligned hr h ha
  | Display => exact DLCommand_aligned hr h ha
  | CallDL => exact DLCommand_aligned hr h ha
  | Return => exact DLCommand_aligned hr h ha
  | Macro => exact DLCommand_aligned hr h ha
  | SaveContext => exact DLCommand_aligned hr h ha
  | RestoreContext => exact DLCommand_aligned hr h ha
  | CmdDLStart => exact DLCommand_aligned hr h ha
  | CmdSwap => exact DLCommand_aligned hr h ha
  | CmdLoadIdentity => exact DLCommand_aligned hr h ha
  | CmdSetMatrix => exact DLCommand_aligned hr h ha
  | CmdStop => exact DLCommand_aligned hr h ha
  | CmdLogo => exact DLCommand_aligned hr h ha
  | BitmapHandle => exact WRITE_DLCMD_aligned hr h ha
  | BitmapCell => exact WRITE_DLCMD_aligned hr h ha
  | AlphaFunc => exact WRITE_DLCMD_aligned hr h ha
  | BlendFunc => exact WRITE_DLCMD_aligned hr h ha
  | ClearColorA => exact WRITE_DLCMD_aligned hr h ha
  | ClearColorRGB => exact WRITE_DLCMD_aligned hr h ha
  | ClearColorRGBComponents => exact WRITE_DLCMD_aligned hr h ha
  | ClearStencil => exact WRITE_DLCMD_aligned hr h ha
  | ClearTag => exact WRITE_DLCMD_aligned hr h ha
  | ColorA => exact WRITE_DLCMD_aligned hr h ha
  | ColorRGB => exact WRITE_DLCMD_aligned hr h ha
  | ColorRGBComponents => exact WRITE_DLCMD_aligned hr h ha
  | LineWidth => exact WRITE_DLCMD_aligned hr h ha
  | PointSize => exact WRITE_DLCMD_aligned hr h ha
  | ScissorSize => exact WRITE_DLCMD_aligned hr h ha
  | ScissorXY => exact WRITE_DLCMD_aligned hr h ha
  | StencilFunc => exact WRITE_DLCMD_aligned hr h ha
  | StencilOp => exact WRITE_DLCMD_aligned hr h ha
  | Tag => exact WRITE_DLCMD_aligned hr h ha
  | TagMask => exact WRITE_DLCMD_aligned hr h ha
  | End => cases h; exact ha
  | CmdColdStart =>
    simp only [exec, FTGLCmdColdStart, bind_eq_ok, pure_eq_ok] at h
    obtain ⟨s1, h1, rfl⟩ := h
    have := EnsureSpace_aligned hr h1 ha
    unfold Aligned4 at *
    simp only [writeIndex_Append32, writeIndex_Append16]
    omega
  | CmdClock =>
    simp only [exec, FTGLCmdClock, bind_eq_ok, pure_eq_ok] at h
    obtain ⟨s1, h1, rfl⟩ := h
    have := EnsureSpace_aligned hr h1 ha
    unfold Aligned4 at *
    simp only [writeIndex_Append32, writeIndex_Append16]
    omega
  | CmdGauge =>
    simp only [exec, FTGLCmdGauge, bind_eq_ok, pure_eq_ok] at h
    obtain ⟨s1, h1, rfl⟩ := h
    have := EnsureSpace_aligned hr h1 ha
    unfold Aligned4 at *
    simp only [writeIndex_Append32, writeIndex_Append16]
    omega
  | CmdGradient =>
    simp only [exec, FTGLCmdGradient, bind_eq_ok, pure_eq_ok] at h
    obtain ⟨s1, h1, rfl⟩ := h
    have := EnsureSpace_aligned hr h1 ha
    unfold Aligned4 at *
    simp only [writeIndex_Append32, writeIndex_Append16]
    omega
  | CmdProgress =>
    simp only [exec, FTGLCmdProgress, bind_eq_ok, pure_eq_ok] at h
    obtain ⟨s1, h1, rfl⟩ := h
    have := EnsureSpace_aligned hr h1 ha
    unfold Aligned4 at *
    simp only [writeIndex_Append32, writeIndex_Append16]
    omega
  | CmdScrollbar =>
    simp only [exec, FTGLCmdScrollbar, bind_eq_ok, pure_eq_ok] at h
    obtain ⟨s1, h1, rfl⟩ := h
    have := EnsureSpace_aligned hr h1 ha
    unfold Aligned4 at *
    simp only [writeIndex_Append32, writeIndex_Append16]
    omega
  | CmdSlider =>
    simp only [exec, FTGLCmdSlider, bind_eq_ok, pure_eq_ok] at h
    obtain ⟨s1, h1, rfl⟩ := h
    have := EnsureSpace_aligned hr h1 ha
    unfold Aligned4 at *
    simp only [writeIndex_Append32, writeIndex_Append16]
    omega
  | CmdDial =>
    simp only [exec, FTGLCmdDial, bind_eq_ok, pure_eq_ok] at h
    obtain ⟨s1, h1, rfl⟩ := h
    have := EnsureSpace_aligned hr h1 ha
    unfold Aligned4 at *
    simp only [writeIndex_Append32, writeIndex_Append16]
    omega
  | CmdNumber =>
    simp only [exec, FTGLCmdNumber, bind_eq_ok, pure_eq_ok] at h
    obtain ⟨s1, h1, rfl⟩ := h
    have := EnsureSpace_aligned hr h1 ha
    unfold Aligned4 at *
    simp only [writeIndex_Append32, writeIndex_Append16]
    omega
  | CmdTranslate =>
    simp only [exec, FTGLCmdTranslate, bind_eq_ok, pure_eq_ok] at h
    obtain ⟨s1, h1, rfl⟩ := h
    have := EnsureSpace_aligned hr h1 ha
    unfold Aligned4 at *
    simp only [writeIndex_Append32, writeIndex_Append16]
    omega
  | CmdScale =>
    simp only [exec, FTGLCmdScale, bind_eq_ok, pure_eq_ok] at h
    obtain ⟨s1, h1, rfl⟩ := h
    have := EnsureSpace_aligned hr h1 ha
    unfold Aligned4 at *
    simp only [writeIndex_Append32, writeIndex_Append16]
    omega
  | CmdRotate =>
    simp only [exec, FTGLCmdRotate, bind_eq_ok, pure_eq_ok] at h
    obtain ⟨s1, h1, rfl⟩ := h
    have := EnsureSpace_aligned hr h1 ha
    unfold Aligned4 at *
    simp only [writeIndex_Append32, writeIndex_Append16]
    omega
  | CmdSetFont =>
    simp only [exec, FTGLCmdSetFont, bind_eq_ok, pure_eq_ok] at h
    obtain ⟨s1, h1, rfl⟩ := h
    have := EnsureSpace_aligned hr h1 ha
    unfold Aligned4 at *
    simp only [writeIndex_Append32, writeIndex_Append16]
    omega
  | CmdTrack =>
    simp only [exec, FTGLCmdTrack, bind_eq_ok, pure_eq_ok] at h
    obtain ⟨s1, h1, rfl⟩ := h
    have := EnsureSpace_aligned hr h1 ha
    unfold Aligned4 at *
    simp only [writeIndex_Append32, writeIndex_Append16]
    omega
  | CmdSnapshot =>
    simp only [exec, FTGLCmdSnapshot, bind_eq_ok, pure_eq_ok] at h
    obtain ⟨s1, h1, rfl⟩ := h
    have := EnsureSpace_aligned hr h1 ha
    unfold Aligned4 at *
    simp only [writeIndex_Append32, writeIndex_Append16]
    omega
  | CmdFGColor =>
    simp only [exec, FTGLCmdFGColor] at h
    split at h
    · simp only [bind_eq_ok, pure_eq_ok] at h
      obtain ⟨s1, h1, rfl⟩ := h
      have := EnsureSpace_aligned hr h1 ha
      unfold Aligned4 at *
      simp only [writeIndex_Append32]
      omega
    · rw [pure_eq_ok] at h; subst h; exact ha
  | CmdBGColor =>
    simp only [exec, FTGLCmdBGColor] at h
    split at h
    · simp only [bind_eq_ok, pure_eq_ok] at h
      obtain ⟨s1, h1, rfl⟩ := h
      have := EnsureSpace_aligned hr h1 ha
      unfold Aligned4 at *
      simp only [writeIndex_Append32]
      omega
    · rw [pure_eq_ok] at h; subst h; exact ha
  | CmdGradColor =>
    simp only [exec, FTGLCmdGradColor] at h
    split at h
    · simp only [bind_eq_ok, pure_eq_ok] at h
      obtain ⟨s1, h1, rfl⟩ := h
      have := EnsureSpace_aligned hr h1 ha
      unfold Aligned4 at *
      simp only [writeIndex_Append32]
      omega
    · rw [pure_eq_ok] at h; subst h; exact ha
  | CmdInflate =>
    simp only [exec, FTGLCmdInflate, bind_eq_ok, pure_eq_ok] at h
    obtain ⟨s1, _, s2, _, rfl⟩ := h
    exact aligned_AlignBuffer _
  | CmdLoadImage =>
    simp only [exec, FTGLCmdLoadImage, bind_eq_ok, pure_eq_ok] at h
    obtain ⟨s1, _, s2, _, rfl⟩ := h
    exact aligned_AlignBuffer _
  | CmdButton =>
    simp only [exec, FTGLCmdButton, bind_eq_ok, pure_eq_ok] at h
    obtain ⟨s1, _, s2, _, rfl⟩ := h
    exact aligned_AlignBuffer _
  | CmdKeys =>
    simp only [exec, FTGLCmdKeys, bind_eq_ok, pure_eq_ok] at h
    obtain ⟨s1, _, s2, _, rfl⟩ := h
    exact aligned_AlignBuffer _
  | CmdToggle =>
    simp only [exec, FTGLCmdToggle, bind_eq_ok, pure_eq_ok] at h
    obtain ⟨s1, _, s2, _, rfl⟩ := h
    exact aligned_AlignBuffer _
  | CmdText =>
    simp only [exec, FTGLCmdText, bind_eq_ok, pure_eq_ok] at h
    obtain ⟨s1, _, s2, _, rfl⟩ := h
    exact aligned_AlignBuffer _
  | CmdSpinner =>
    simp only [exec, FTGLCmdSpinner, bind_eq_ok, pure_eq_ok] at h
    obtain ⟨s0, h0, s1, h1, rfl⟩ := h
    have a0 := stopIfActive_aligned hr h0 ha
    have := EnsureSpace_aligned hr h1 a0
    unfold Aligned4 at *
    simp only [writeIndex_Append32, writeIndex_Append16]
    omega
  | CmdScreensaver =>
    simp only [exec, FTGLCmdScreensaver, bind_eq_ok] at h
    obtain ⟨s0, h0, h1⟩ := h
    have a0 : Aligned4 s0 := stopIfActive_aligned hr h0 ha
    exact DLCommand_aligned hr h1 a0
  | CmdSketch =>
    simp only [exec, FTGLCmdSketch, bind_eq_ok, pure_eq_ok] at h
    obtain ⟨s0, h0, s1, h1, rfl⟩ := h
    have a0 := stopIfActive_aligned hr h0 ha
    have := EnsureSpace_aligned hr h1 a0
    unfold Aligned4 at *
    simp only [writeIndex_Append32, writeIndex_Append16]
    omega
  | CreateBitmap =>
    simp only [exec, map_eq_ok, FTGLCreateBitmap, bind_eq_ok, pure_eq_ok] at h
    obtain ⟨r, ⟨bm, _, rfl⟩, rfl⟩ := h
    exact ha
  | CreateBitmapVerbose =>
    simp only [exec, map_eq_ok, FTGLCreateBitmapVerbose, bind_eq_ok, pure_eq_ok] at h
    obtain ⟨r, ⟨p1, _, p2, _, bm, _, rfl⟩, rfl⟩ := h
    exact ha
  | SetBitmapParams =>
    simp only [exec, FTGLSetBitmapParams, bind_eq_ok] at h
    obtain ⟨bm, _, b, _, h3⟩ := h
    split at h3
    · simp only [bind_eq_ok] at h3
      obtain ⟨hs, _, h4⟩ := h3
      rw [clearActiveHandle_ok h4]; exact ha
    · rw [pure_eq_ok] at h3; subst h3; exact ha
  | SetBitmapSize =>
    simp only [exec, FTGLSetBitmapSize, bind_eq_ok] at h
    obtain ⟨bm, _, b, _, h3⟩ := h
    split at h3
    · simp only [bind_eq_ok] at h3
      obtain ⟨hs, _, h4⟩ := h3
      rw [clearActiveHandle_ok h4]; exact ha
    · rw [pure_eq_ok] at h3; subst h3; exact ha
  | CmdBitmap => exact FTGLCmdBitmapCell_aligned hr h ha
  | CmdBitmapCell => exact FTGLCmdBitmapCell_aligned hr h ha
  | UseBitmap =>
    simp only [exec, map_eq_ok] at h
    obtain ⟨r, h1, rfl⟩ := h
    exact FTGLUseBitmap_aligned hr h1 ha
  | GetEmptyHandle =>
    simp only [exec, map_eq_ok, FTGLGetEmptyHandle, bind_eq_ok, pure_eq_ok] at h
    obtain ⟨r, ⟨r0, h0, old, _, s1, h1, hs, _, rfl⟩, rfl⟩ := h
    have a0 : Aligned4 r0.2 := by rw [PickHandleToEvict_frame h0]; exact ha
    split at h1
    · rw [clearActiveHandle_ok h1]; exact a0
    · rw [pure_eq_ok] at h1; subst h1; exact a0
  | SetBitmapHandle =>
    simp only [exec, map_eq_ok] at h
    obtain ⟨r, h1, rfl⟩ := h
    exact FTGLSetBitmapHandle_aligned hr h1 ha
  | DrawBitmapInHandle => exact FTGLDrawBitmapInHandle_aligned hr h ha
  | BeginBuffer =>
    simp only [exec, FTGLBeginBuffer, bind_eq_ok] at h
    obtain ⟨s1, h1, h2⟩ := h
    exact DLCommand_aligned hr h2 (DLCommand_aligned hr h1 ha)
  | SwapBuffers =>
    simp only [exec, FTGLSwapBuffers, bind_eq_ok] at h
    obtain ⟨s1, h1, s2, h2, s3, h3, h4⟩ := h
    have a3 := commitWait_aligned hr h3 (DLCommand_aligned hr h2 (DLCommand_aligned hr h1 ha))
    split at h4 <;> (rw [pure_eq_ok] at h4; subst h4; exact a3)
  | RunCalibration =>
    simp only [exec, FTGLRunCalibration, bind_eq_ok] at h
    obtain ⟨s1, h1, s2, h2, s3, h3, h4⟩ := h
    have a2 : Aligned4 s2 := exec_aligned_text h2
    have a3 := EnsureSpace_aligned hr h3 a2
    refine commitWait_aligned hr h4 ?_
    unfold Aligned4 at *
    simp only [writeIndex_Append32]
    omega

theorem run_aligned {env : Env} (hr : env.ReadsBack) (cs : List Call) :
    ∀ {s s' : FTGLInstance}, run env cs s = .ok s' → Aligned4 s → Aligned4 s' := by
  induction cs with
  | nil => intro s s' h ha; cases h; exact ha
  | cons c cs ih =>
    intro s s' h ha
    simp only [run, bind_eq_ok] at h
    obtain ⟨s1, h1, h2⟩ := h
    exact ih h2 (exec_aligned hr c h1 ha)

/-! ## The flow control of the queue -/

/-- C2 (the code departs from the claim): a frame that begins and inflates
4000 bytes of image data leaves 76 bytes free; `EnsureSpace(112)`, the request
of a text command with a 100-byte string, then returns the state as it is, with
76 < 112 bytes free and nothing flushed, on a target with two-byte `int` and
on one with four-byte `int`. -/
theorem EnsureSpace_leaves_too_little :
    Returns (run avr [.BeginBuffer, .CmdInflate 0 (List.replicate 4000 0) 4000] (initialized avr))
      (fun s => s.cmdQueueFreeSpace = 76 ∧ EnsureSpace avr 112 s = .ok s) ∧
    Returns (run arm [.BeginBuffer, .CmdInflate 0 (List.replicate 4000 0) 4000] (initialized arm))
      (fun s => s.cmdQueueFreeSpace = 76 ∧ EnsureSpace arm 112 s = .ok s) := by
  decide!

/-- C3 (the code departs from the claim): after `FTGLInitialize`, a frame that
begins and inflates 4000 bytes has 76 bytes free; a text command with a
100-byte string then appends its 112 bytes without a flush, and the 16-bit
free-space counter wraps around to 65500. -/
theorem freeSpace_wraps_around :
    Returns (run avr [.BeginBuffer, .CmdInflate 0 (List.replicate 4000 0) 4000] (initialized avr))
      (fun s => s.cmdQueueFreeSpace = 76) ∧
    Returns (run avr [.BeginBuffer, .CmdInflate 0 (List.replicate 4000 0) 4000,
        .CmdText 0 0 27 0 (List.replicate 100 65) 100] (initialized avr))
      (fun s => s.cmdQueueFreeSpace = 65500 ∧ s.waits = 0) := by
  decide!

/-- C4: if the write index is a multiple of four before a public call, it is a
multiple of four when the call returns, for every public function that writes
to the command queue (the string-carrying commands for every payload and every
length), and so after every sequence of such calls, provided the device's
write-pointer register reads back the value last committed to it. -/
theorem writeIndex_stays_aligned (env : Env) (hr : env.ReadsBack) (s : FTGLInstance)
    (ha : Aligned4 s) :
    (∀ c : Call, IfReturns (exec env c s) Aligned4) ∧
    (∀ cs : List Call, IfReturns (run env cs s) Aligned4) :=
  ⟨fun c _ h => exec_aligned hr c h ha, fun cs _ h => run_aligned hr cs h ha⟩

theorem avr_readsBack : avr.ReadsBack := by
  intro k c p hp
  simp only [avr, idleDevice, List.mem_singleton] at hp
  subst hp
  rfl

/-- Witness of C4: a button with a five-byte label sent right after
`FTGLInitialize` on the AVR build returns with the write index aligned. -/
theorem writeIndex_stays_aligned_witness :
    avr.ReadsBack ∧ Aligned4 (initialized avr) ∧
    Returns (exec avr (.CmdButton 10 10 80 30 27 0 [72, 101, 108, 108, 111] 5) (initialized avr))
      Aligned4 ∧
    ((∀ c : Call, IfReturns (exec avr c (initialized avr)) Aligned4) ∧
      (∀ cs : List Call, IfReturns (run avr cs (initialized avr)) Aligned4)) :=
  ⟨avr_readsBack, by decide!, by decide!,
    writeIndex_stays_aligned avr avr_readsBack (initialized avr) (by decide!)⟩

/-! ## The initial state -/

@[simp] theorem host_hw (e : BusEvent) (s : FTGLInstance) : host (hw e s) = host s := rfl

@[simp] theorem host_FTHWRead (a c : Nat) (s : FTGLInstance) : host (FTHWRead a c s) = host s := rfl

@[simp] theorem host_WriteReg8 (a v : Nat) (s : FTGLInstance) : host (WriteReg8 a v s) = host s :=
  rfl

@[simp] theorem host_WriteReg32 (a v : Nat) (s : FTGLInstance) :
    host (WriteReg32 a v s) = host s := rfl

@[simp] theorem host_WriteReg16 (hdr : FT800) (a v : Nat) (s : FTGLInstance) :
    host (WriteReg16 hdr a v s) = host s := by
  simp only [WriteReg16]
  split <;> rfl

theorem host_backlight (hdr : FT800) (l : List Nat) : ∀ s : FTGLInstance,
    host (l.foldl (fun s i => hw (.delayMS 10) (WriteReg8 hdr.FT_REG_PWM_DUTY i s)) s)
      = host s := by
  induction l with
  | nil => intro s; rfl
  | cons i l ih => intro s; rw [List.foldl_cons, ih]; rfl

theorem host_initialized (env : Env) :
    host (initialized env) = host
      { powerOn env with
        cmdQueueFreeSpace := FTGL_CMD_QUEUE_SIZE
        graphicsContext := defaultGraphicsContext env.hdr
        commandContext :=
          { bgColor := 0x002040, fgColor := 0x003870, gradColor := 0xffffff
            continuousCommandActive := 0 }
        bitmaps := List.replicate env.FTGL_MAX_BITMAPS
          { bitmapAddress := 0, bitmapDataSize := 0, bitmapLayout := 0, bitmapSize := 0
            activeHandle := -1 }
        bitmapHandles := List.replicate env.FTGL_NUM_BITMAP_HANDLES (-1)
        lastHandle := -1
        graphicsRamIndex := u32 env.hdr.FT_RAM_G } := by
  unfold initialized FTGLInitialize
  dsimp only
  rw [host_hw, host_backlight]
  simp only [host_hw, host_WriteReg8, host_WriteReg16, host_WriteReg32, host_FTHWRead]
  rfl

theorem initialized_graphicsRamIndex (env : Env) :
    (initialized env).graphicsRamIndex = u32 env.hdr.FT_RAM_G :=
  (host_eq_fields (host_initialized env)).2.2.2.2.2.2.2.1

/-! ## The bitmap-handle manager -/

theorem bind_ok {α β : Type} (a : α) (f : α → Except Fault β) :
    ((Except.ok a : Except Fault α) >>= f) = f a := rfl

theorem host_with_bitmaps {a b : FTGLInstance} (h : host a = host b) (B : List BitmapInfo) :
    host { a with bitmaps := B } = host { b with bitmaps := B } := by
  obtain ⟨h1, h2, h3, h4, h5, h6, h7, h8, h9, h10, h11, h12⟩ := host_eq_fields h
  simp only [host, FTGLInstance.mk.injEq]
  simp [*]

theorem host_with_lastHandle {a b : FTGLInstance} (h : host a = host b) (l : Int) :
    host { a with lastHandle := l } = host { b with lastHandle := l } := by
  obtain ⟨h1, h2, h3, h4, h5, h6, h7, h8, h9, h10, h11, h12⟩ := host_eq_fields h
  simp only [host, FTGLInstance.mk.injEq]
  simp [*]

theorem set_get_self (c : GraphicsContext) (g : Group) : c.set g (c.get g) = c := by
  cases g <;> rfl

theorem WRITE_DLCMD_ok {env : Env} {g : Group} {v : Nat} {s s' : FTGLInstance}
    (h : WRITE_DLCMD env g v s = .ok s') :
    host s' = host { s with graphicsContext := s.graphicsContext.set g (u32 v) } ∧
    appended s'.bus = appended s.bus ++
      bytesOf (if s.graphicsContext.get g ≠ u32 v then [v] else []) := by
  simp only [WRITE_DLCMD] at h
  split at h
  · rename_i hne
    obtain ⟨a1, a2⟩ := DLCommand_ok h
    rw [a1, a2, if_pos hne]
    simp [bytesOf]
  · rename_i he
    simp only [ne_eq, Decidable.not_not] at he
    rw [pure_eq_ok] at h
    subst h
    rw [← he, set_get_self]
    simp [he, bytesOf]

theorem WRITE_DLCMD_returns {env : Env} (hd : env.Drains) (g : Group) (v : Nat)
    (s : FTGLInstance) : ∃ s', WRITE_DLCMD env g v s = .ok s' := by
  simp only [WRITE_DLCMD]
  split
  · exact DLCommand_returns hd _ _
  · exact ⟨s, rfl⟩

theorem arrGet_of_get? {α : Type} {xs : List α} {i : Int} {a : α} (hi : 0 ≤ i)
    (h : xs.get? i.toNat = some a) : arrGet xs i = .ok a := by
  unfold arrGet
  rw [if_pos hi, h]

theorem arrModify_of_get? {α : Type} {xs : List α} {i : Int} {a : α} (f : α → α) (hi : 0 ≤ i)
    (h : xs.get? i.toNat = some a) : arrModify xs i f = .ok (xs.set i.toNat (f a)) := by
  unfold arrModify
  rw [if_pos hi, h]

theorem FTGLDrawBitmapInHandle_ok {env : Env} {handle x y cell : Int} {s s' : FTGLInstance}
    (h : FTGLDrawBitmapInHandle env handle x y cell s = .ok s') :
    host s' = host { s with lastHandle := i8 handle } ∧
    appended s'.bus = appended s.bus ++ bytesOf (drawWords env.hdr handle x y cell) := by
  simp only [FTGLDrawBitmapInHandle, FTGLBegin, FTGLVertex2ii, FTGLEnd, bind_eq_ok, pure_eq_ok] at h
  obtain ⟨s1, h1, s2, h2, rfl⟩ := h
  obtain ⟨a1, a2⟩ := DLCommand_ok h1
  obtain ⟨b1, b2⟩ := DLCommand_ok h2
  refine ⟨?_, ?_⟩
  · exact host_with_lastHandle (b1.trans a1) _
  · show appended s2.bus = _
    rw [b2, a2]
    simp [drawWords, bytesOf]

theorem FTGLDrawBitmapInHandle_returns {env : Env} (hd : env.Drains) (handle x y cell : Int)
    (s : FTGLInstance) : ∃ s', FTGLDrawBitmapInHandle env handle x y cell s = .ok s' := by
  obtain ⟨s1, h1⟩ := DLCommand_returns hd (env.hdr.FT_BEGIN (u8 env.hdr.FT_BITMAPS)) s
  obtain ⟨s2, h2⟩ := DLCommand_returns hd (env.hdr.FT_VERTEX2II (u16 (toU16 x)) (u16 (toU16 y))
    (u8 (toU8 (i8 handle))) (u8 (toU8 cell))) s1
  simp only [FTGLDrawBitmapInHandle, FTGLBegin, FTGLVertex2ii, FTGLEnd, h1, h2, bind_ok]
  exact ⟨_, rfl⟩

theorem pickLoop_first_empty (env : Env) (k : Nat) (sel : Int) (s : FTGLInstance)
    (hne : s.nextHandle ≠ s.lastHandle) (hslot : arrGet s.bitmapHandles s.nextHandle = .ok (-1)) :
    pickLoop env (k + 1) sel s =
      .ok (s.nextHandle, { s with nextHandle := i8 (s.nextHandle + 1) }) := by
  simp only [pickLoop, if_neg hne, hslot, bind_ok]
  rfl

theorem FTGLSetBitmapHandle_empty_ok {env : Env} {handle id : Int} {s : FTGLInstance}
    {r : Int × FTGLInstance} {b : BitmapInfo}
    (h : FTGLSetBitmapHandle env handle id s = .ok r)
    (hslot : arrGet s.bitmapHandles (i8 handle) = .ok (-1))
    (hb : arrGet s.bitmaps id = .ok b) :
    r.1 = i8 handle ∧
    host r.2 = host { s with
      graphicsContext := s.graphicsContext.set .bitmapHandle
        (u32 (env.hdr.FT_BITMAP_HANDLE (u8 (toU8 (i8 handle)))))
      bitmaps := s.bitmaps.set id.toNat { b with activeHandle := i8 handle } } ∧
    appended r.2.bus = appended s.bus ++
      bytesOf (selectWords env.hdr s.graphicsContext.bitmapHandle handle ++ bindWords env.hdr b) := by
  simp only [FTGLSetBitmapHandle, hslot, bind_ok, bind_eq_ok, pure_eq_ok] at h
  have e8 : ¬ (i8 (-1) ≥ 0) := by decide
  rw [if_neg e8] at h
  obtain ⟨s0, h0, s1, h1, s2, h2, b', hb', bm, hbm, rfl⟩ := h
  rw [pure_eq_ok] at h0
  subst h0
  obtain ⟨a1, a2⟩ := WRITE_DLCMD_ok h1
  obtain ⟨c1, c2, _⟩ := EnsureSpace_ok h2
  have e : host s2 = _ := c1.trans a1
  obtain ⟨_, _, f3, _⟩ := host_eq_fields e
  rw [f3] at hb'
  simp only at hb'
  rw [hb] at hb'
  cases hb'
  have hbm' : (Append32 b.bitmapSize (Append32 b.bitmapLayout
      (Append32 (env.hdr.FT_BITMAP_SOURCE b.bitmapAddress) s2))).bitmaps = s.bitmaps := f3
  rw [hbm'] at hbm
  obtain ⟨i0, _, g0⟩ := arrGet_ok hb
  rw [arrModify_of_get? _ i0 g0] at hbm
  cases hbm
  refine ⟨rfl, ?_, ?_⟩
  · exact host_with_bitmaps (a := Append32 b.bitmapSize (Append32 b.bitmapLayout
      (Append32 (env.hdr.FT_BITMAP_SOURCE b.bitmapAddress) s2))) e _
  · simp only [appended_Append32, c2, a2, selectWords, bindWords, FTGLBitmapHandle]
    simp only [GraphicsContext.get, bytesOf_append, bytesOf, u32_u32, List.append_assoc,
      List.append_nil]

theorem FTGLSetBitmapHandle_empty_returns {env : Env} (hd : env.Drains) {handle id : Int}
    {s : FTGLInstance} {b : BitmapInfo}
    (hslot : arrGet s.bitmapHandles (i8 handle) = .ok (-1))
    (hb : arrGet s.bitmaps id = .ok b) :
    ∃ r, FTGLSetBitmapHandle env handle id s = .ok r := by
  have e8 : ¬ (i8 (-1) ≥ 0) := by decide
  obtain ⟨s1, h1⟩ := WRITE_DLCMD_returns hd .bitmapHandle
    (env.hdr.FT_BITMAP_HANDLE (u8 (toU8 (i8 handle)))) s
  obtain ⟨s2, h2⟩ := EnsureSpace_returns hd (4 * 3) s1
  obtain ⟨a1, _⟩ := WRITE_DLCMD_ok h1
  obtain ⟨c1, _⟩ := EnsureSpace_ok h2
  obtain ⟨_, _, f3, _⟩ := host_eq_fields (c1.trans a1)
  simp only at f3
  obtain ⟨i0, _, g0⟩ := arrGet_ok hb
  have hb2 : arrGet s2.bitmaps id = .ok b := by rw [f3]; exact hb
  have hm : arrModify (Append32 b.bitmapSize (Append32 b.bitmapLayout
      (Append32 (env.hdr.FT_BITMAP_SOURCE b.bitmapAddress) s2))).bitmaps id
      (fun b => { b with activeHandle := i8 handle })
      = .ok (s.bitmaps.set id.toNat { b with activeHandle := i8 handle }) := by
    have : (Append32 b.bitmapSize (Append32 b.bitmapLayout
      (Append32 (env.hdr.FT_BITMAP_SOURCE b.bitmapAddress) s2))).bitmaps = s.bitmaps := f3
    rw [this]
    exact arrModify_of_get? _ i0 g0
  simp only [FTGLSetBitmapHandle, hslot, bind_ok, if_neg e8, FTGLBitmapHandle, h1, h2, hb2, hm,
    pure, Except.pure]
  exact ⟨_, rfl⟩

theorem PickHandleToEvict_first_empty (env : Env) (s : FTGLInstance)
    (hN : 1 ≤ env.FTGL_NUM_BITMAP_HANDLES)
    (hne : s.nextHandle ≠ s.lastHandle) (hslot : arrGet s.bitmapHandles s.nextHandle = .ok (-1)) :
    PickHandleToEvict env s =
      .ok (i8 s.nextHandle, { s with nextHandle := i8 (s.nextHandle + 1) }) := by
  obtain ⟨k, hk⟩ : ∃ k, env.FTGL_NUM_BITMAP_HANDLES = k + 1 := ⟨_, (Nat.sub_add_cancel hN).symm⟩
  simp only [PickHandleToEvict, hk, pickLoop_first_empty env k (-1) s hne hslot, bind_ok]
  rfl

theorem i8_i8 (x : Int) : i8 (i8 x) = i8 x := by
  unfold i8; omega

theorem FTGLCmdBitmapCell_miss {env : Env} {id x y cell : Int} {s : FTGLInstance}
    {b : BitmapInfo} (hN : 1 ≤ env.FTGL_NUM_BITMAP_HANDLES)
    (hb : arrGet s.bitmaps id = .ok b) (hneg : b.activeHandle < 0)
    (hne : s.nextHandle ≠ s.lastHandle) (hslot : arrGet s.bitmapHandles s.nextHandle = .ok (-1))
    (h8 : i8 s.nextHandle = s.nextHandle) :
    IfReturns (FTGLCmdBitmapCell env id x y cell s) (fun s' =>
      host s' = host { s with
        graphicsContext := s.graphicsContext.set .bitmapHandle
          (u32 (env.hdr.FT_BITMAP_HANDLE (u8 (toU8 s.nextHandle))))
        bitmaps := s.bitmaps.set id.toNat { b with activeHandle := s.nextHandle }
        nextHandle := i8 (s.nextHandle + 1)
        lastHandle := s.nextHandle } ∧
      appended s'.bus = appended s.bus ++
        bytesOf (selectWords env.hdr s.graphicsContext.bitmapHandle s.nextHandle ++
          bindWords env.hdr b ++ drawWords env.hdr s.nextHandle x y cell)) ∧
    (env.Drains → ∃ s', FTGLCmdBitmapCell env id x y cell s = .ok s') := by
  have hpick := PickHandleToEvict_first_empty env s hN hne hslot
  have hslot' : arrGet ({ s with nextHandle := i8 (s.nextHandle + 1) } : FTGLInstance).bitmapHandles
      (i8 (i8 s.nextHandle)) = .ok (-1) := by rw [i8_i8, h8]; exact hslot
  have hb' : arrGet ({ s with nextHandle := i8 (s.nextHandle + 1) } : FTGLInstance).bitmaps id
      = .ok b := hb
  constructor
  · intro s' h
    simp only [FTGLCmdBitmapCell, hb, bind_ok, if_pos hneg, FTGLUseBitmap, hpick, bind_eq_ok] at h
    obtain ⟨r, h1, h2⟩ := h
    obtain ⟨a1, a2, a3⟩ := FTGLSetBitmapHandle_empty_ok h1 hslot' hb'
    obtain ⟨b1, b2⟩ := FTGLDrawBitmapInHandle_ok h2
    rw [a1] at b1 b2
    simp only [i8_i8, h8] at a2 a3 b1 b2
    refine ⟨?_, ?_⟩
    · rw [b1]
      exact host_with_lastHandle a2 _
    · rw [b2, a3]
      simp only [bytesOf_append, List.append_assoc, selectWords, bindWords, drawWords, h8, i8_i8]
  · intro hd
    obtain ⟨r, h1⟩ := @FTGLSetBitmapHandle_empty_returns env hd _ _ _ _ hslot' hb'
    obtain ⟨s2, h2⟩ := FTGLDrawBitmapInHandle_returns hd r.1 x y cell r.2
    exact ⟨s2, by
      simp only [FTGLCmdBitmapCell, hb, bind_ok, if_pos hneg, FTGLUseBitmap, hpick, h1]
      exact h2⟩

theorem FTGLCmdBitmapCell_hit {env : Env} {id x y cell : Int} {s : FTGLInstance}
    {b : BitmapInfo} (hb : arrGet s.bitmaps id = .ok b) (hpos : 0 ≤ b.activeHandle) :
    IfReturns (FTGLCmdBitmapCell env id x y cell s) (fun s' =>
      host s' = host { s with lastHandle := i8 b.activeHandle } ∧
      appended s'.bus = appended s.bus ++ bytesOf (drawWords env.hdr b.activeHandle x y cell)) ∧
    (env.Drains → ∃ s', FTGLCmdBitmapCell env id x y cell s = .ok s') := by
  have hn : ¬ b.activeHandle < 0 := not_lt.mpr hpos
  constructor
  · intro s' h
    simp only [FTGLCmdBitmapCell, hb, bind_ok, if_neg hn, pure, Except.pure] at h
    exact FTGLDrawBitmapInHandle_ok h
  · intro hd
    obtain ⟨s2, h2⟩ := FTGLDrawBitmapInHandle_returns hd b.activeHandle x y cell s
    exact ⟨s2, by
      simp only [FTGLCmdBitmapCell, hb, bind_ok, if_neg hn, pure, Except.pure]
      exact h2⟩

theorem arrGet_set_same {α : Type} {xs : List α} {i : Int} {a0 : α} (a : α)
    (h : arrGet xs i = .ok a0) : arrGet (xs.set i.toNat a) i = .ok a := by
  obtain ⟨h0, h1, _⟩ := arrGet_ok h
  apply arrGet_of_get? h0
  simp [List.get?_eq_getElem?, h1]

theorem arrGet_set_other {α : Type} (xs : List α) {i j : Int} (a : α) (hi : 0 ≤ i) (hj : 0 ≤ j)
    (hne : i ≠ j) : arrGet (xs.set j.toNat a) i = arrGet xs i := by
  have hn : j.toNat ≠ i.toNat := by omega
  unfold arrGet
  simp [List.get?_eq_getElem?, List.getElem?_set_ne hn]

theorem arrGet_replicate {α : Type} (n : Nat) (a : α) (i : Int) (h0 : 0 ≤ i) (h1 : i.toNat < n) :
    arrGet (List.replicate n a) i = .ok a := by
  apply arrGet_of_get? h0
  simp [List.get?_eq_getElem?, List.getElem?_replicate, h1]

/-- C8: starting from an initialised manager (every slot empty, no slot drawn
yet, the cursor at slot 0, neither bitmap loaded) with at least two slots,
drawing two distinct bitmaps X, Y, X, Y through `FTGLCmdBitmap` sends exactly
this stream: the words that load X into slot 0 and its draw, the words that load
Y into slot 1 and its draw, then the two words of a draw from slot 0 and the
two words of a draw from slot 1.  The source, layout and size words of X and of
Y are each sent once (a handle-select word precedes them when it changes the
cached one); on a device that drains the four calls return. -/
theorem alternating_draws_bind_once (env : Env) (s : FTGLInstance) (X Y : Int) (bX bY : BitmapInfo)
    (x1 y1 x2 y2 x3 y3 x4 y4 : Int)
    (hN : 2 ≤ env.FTGL_NUM_BITMAP_HANDLES)
    (hslots : s.bitmapHandles = List.replicate env.FTGL_NUM_BITMAP_HANDLES (-1))
    (hlast : s.lastHandle = -1) (hnext : s.nextHandle = 0)
    (hX : arrGet s.bitmaps X = .ok bX) (hY : arrGet s.bitmaps Y = .ok bY)
    (hXa : bX.activeHandle = -1) (hYa : bY.activeHandle = -1) (hXY : X ≠ Y) :
    IfReturns (run env [.CmdBitmap X x1 y1, .CmdBitmap Y x2 y2, .CmdBitmap X x3 y3,
        .CmdBitmap Y x4 y4] s) (fun s' =>
      appended s'.bus = appended s.bus ++ bytesOf (
        selectWords env.hdr s.graphicsContext.bitmapHandle 0 ++ bindWords env.hdr bX ++
        drawWords env.hdr 0 x1 y1 0 ++
        selectWords env.hdr (u32 (env.hdr.FT_BITMAP_HANDLE 0)) 1 ++ bindWords env.hdr bY ++
        drawWords env.hdr 1 x2 y2 0 ++
        drawWords env.hdr 0 x3 y3 0 ++ drawWords env.hdr 1 x4 y4 0)) ∧
    (env.Drains → ∃ s', run env [.CmdBitmap X x1 y1, .CmdBitmap Y x2 y2, .CmdBitmap X x3 y3,
        .CmdBitmap Y x4 y4] s = .ok s') := by
  obtain ⟨hX0, _, _⟩ := arrGet_ok hX
  obtain ⟨hY0, _, _⟩ := arrGet_ok hY
  -- first draw: a miss, slot 0
  have m1 := @FTGLCmdBitmapCell_miss env X x1 y1 0
    s bX (by omega) hX (by rw [hXa]; decide) (by rw [hnext, hlast]; decide)
    (by rw [hnext, hslots]; exact arrGet_replicate _ _ _ (by decide) (by simp; omega))
    (by rw [hnext]; decide)
  simp only [hnext] at m1
  have step1 : ∀ s1, FTGLCmdBitmapCell env X x1 y1 0 s = .ok s1 →
      arrGet s1.bitmaps Y = .ok bY ∧
      arrGet s1.bitmaps X = .ok { bX with activeHandle := 0 } ∧
      s1.nextHandle = 1 ∧ s1.lastHandle = 0 ∧
      s1.bitmapHandles = List.replicate env.FTGL_NUM_BITMAP_HANDLES (-1) ∧
      s1.graphicsContext.bitmapHandle = u32 (env.hdr.FT_BITMAP_HANDLE 0) := by
    intro s1 h1
    obtain ⟨e1, _⟩ := m1.1 s1 h1
    obtain ⟨f1, _, f3, _, f5, f6, f7, _⟩ := host_eq_fields e1
    simp only at f1 f3 f5 f6 f7
    refine ⟨?_, ?_, ?_, f6, f5.trans hslots, ?_⟩
    · rw [f3, arrGet_set_other _ _ hY0 hX0 (Ne.symm hXY)]; exact hY
    · rw [f3]; exact arrGet_set_same _ hX
    · rw [f7]; decide
    · rw [f1]; rfl
  -- second draw: a miss, slot 1
  have step2 : ∀ s1, FTGLCmdBitmapCell env X x1 y1 0 s = .ok s1 →
      (IfReturns (FTGLCmdBitmapCell env Y x2 y2 0 s1) (fun s2 =>
        arrGet s2.bitmaps X = .ok { bX with activeHandle := 0 } ∧
        arrGet s2.bitmaps Y = .ok { bY with activeHandle := 1 } ∧
        appended s2.bus = appended s1.bus ++ bytesOf (
          selectWords env.hdr (u32 (env.hdr.FT_BITMAP_HANDLE 0)) 1 ++ bindWords env.hdr bY ++
          drawWords env.hdr 1 x2 y2 0))) ∧
      (env.Drains → ∃ s2, FTGLCmdBitmapCell env Y x2 y2 0 s1 = .ok s2) := by
    intro s1 h1
    obtain ⟨g1, g2, g3, g4, g5, g6⟩ := step1 s1 h1
    have m2 := @FTGLCmdBitmapCell_miss env Y x2 y2 0
      s1 bY (by omega) g1 (by rw [hYa]; decide) (by rw [g3, g4]; decide)
      (by rw [g3, g5]; exact arrGet_replicate _ _ _ (by decide) (by simp; omega))
      (by rw [g3]; decide)
    simp only [g3, g6] at m2
    refine ⟨?_, m2.2⟩
    intro s2 h2
    obtain ⟨e2, a2⟩ := m2.1 s2 h2
    obtain ⟨_, _, f3, _⟩ := host_eq_fields e2
    simp only at f3
    refine ⟨?_, ?_, a2⟩
    · rw [f3, arrGet_set_other _ _ hX0 hY0 hXY]; exact g2
    · rw [f3]; exact arrGet_set_same _ g1
  -- third and fourth draw: hits
  have step3 : ∀ s2, arrGet s2.bitmaps X = .ok { bX with activeHandle := 0 } →
      arrGet s2.bitmaps Y = .ok { bY with activeHandle := 1 } →
      (IfReturns (FTGLCmdBitmapCell env X x3 y3 0 s2) (fun s3 =>
        arrGet s3.bitmaps Y = .ok { bY with activeHandle := 1 } ∧
        appended s3.bus = appended s2.bus ++ bytesOf (drawWords env.hdr 0 x3 y3 0))) ∧
      (env.Drains → ∃ s3, FTGLCmdBitmapCell env X x3 y3 0 s2 = .ok s3) := by
    intro s2 k1 k2
    have m3 := @FTGLCmdBitmapCell_hit env X x3 y3 0
      s2 _ k1 (by simp)
    refine ⟨?_, m3.2⟩
    intro s3 h3
    obtain ⟨e3, a3⟩ := m3.1 s3 h3
    obtain ⟨_, _, f3, _⟩ := host_eq_fields e3
    simp only at f3
    exact ⟨by rw [f3]; exact k2, a3⟩
  have step4 : ∀ s3, arrGet s3.bitmaps Y = .ok { bY with activeHandle := 1 } →
      (IfReturns (FTGLCmdBitmapCell env Y x4 y4 0 s3) (fun s4 =>
        appended s4.bus = appended s3.bus ++ bytesOf (drawWords env.hdr 1 x4 y4 0))) ∧
      (env.Drains → ∃ s4, FTGLCmdBitmapCell env Y x4 y4 0 s3 = .ok s4) := by
    intro s3 k2
    have m4 := @FTGLCmdBitmapCell_hit env Y x4 y4 0
      s3 _ k2 (by simp)
    exact ⟨fun s4 h4 => (m4.1 s4 h4).2, m4.2⟩
  constructor
  · intro s' h
    simp only [run, exec, FTGLCmdBitmap, bind_eq_ok, pure_eq_ok] at h
    obtain ⟨s1, h1, s2, h2, s3, h3, s4, h4, rfl⟩ := h
    obtain ⟨_, a1⟩ := m1.1 s1 h1
    obtain ⟨k1, k2, a2⟩ := (step2 s1 h1).1 s2 h2
    obtain ⟨k3, a3⟩ := (step3 s2 k1 k2).1 s3 h3
    have a4 := (step4 s3 k3).1 s4 h4
    rw [a4, a3, a2, a1]
    simp only [bytesOf_append, List.append_assoc]
  · intro hd
    obtain ⟨s1, h1⟩ := m1.2 hd
    obtain ⟨s2, h2⟩ := (step2 s1 h1).2 hd
    obtain ⟨k1, k2, _⟩ := (step2 s1 h1).1 s2 h2
    obtain ⟨s3, h3⟩ := (step3 s2 k1 k2).2 hd
    obtain ⟨k3, _⟩ := (step3 s2 k1 k2).1 s3 h3
    obtain ⟨s4, h4⟩ := (step4 s3 k3).2 hd
    exact ⟨s4, by
      simp only [run, exec, FTGLCmdBitmap, bind_eq_ok, pure_eq_ok]
      exact ⟨s1, h1, s2, h2, s3, h3, s4, h4, rfl⟩⟩

theorem i8_small {x : Int} (h0 : 0 ≤ x) (h1 : x < 128) : i8 x = x := by
  unfold i8; omega

theorem PickHandleToEvict_ok {env : Env} {s : FTGLInstance} {r : Int × FTGLInstance}
    (hN : 2 ≤ env.FTGL_NUM_BITMAP_HANDLES) (hlen : s.bitmapHandles.length ≤ 128)
    (h : PickHandleToEvict env s = .ok r) :
    r.1 ≠ s.lastHandle ∧ 0 ≤ r.1 ∧ r.1.toNat < s.bitmapHandles.length ∧
    r.2 = { s with nextHandle := r.2.nextHandle } := by
  have hf := PickHandleToEvict_frame h
  simp only [PickHandleToEvict, bind_eq_ok, pure_eq_ok] at h
  obtain ⟨r0, h0, rfl⟩ := h
  obtain ⟨_, a2⟩ := pickLoop_ok env _ _ _ _ h0
  rcases a2 with ⟨b1, b2, b3⟩ | ⟨_, b⟩
  · have e : i8 r0.1 = r0.1 := i8_small b2 (by omega)
    simp only [e]
    exact ⟨b1, b2, b3, hf⟩
  · omega

theorem FTGLSetBitmapHandle_fst {env : Env} {handle id : Int} {s : FTGLInstance}
    {r : Int × FTGLInstance} (h : FTGLSetBitmapHandle env handle id s = .ok r) :
    r.1 = i8 handle := by
  simp only [FTGLSetBitmapHandle, bind_eq_ok, pure_eq_ok] at h
  obtain ⟨_, _, _, _, _, _, _, _, _, _, _, _, rfl⟩ := h
  rfl

/-- C7: with at least two slots (and slot numbers that fit the `int8_t` they are
held in), whatever `PickHandleToEvict` returns differs from the slot recorded
as last drawn, and so does what `FTGLUseBitmap` and `FTGLGetEmptyHandle`
return. -/
theorem pick_never_last_used (env : Env) (s : FTGLInstance) (bitmapId : Int)
    (hN : 2 ≤ env.FTGL_NUM_BITMAP_HANDLES) (hlen : s.bitmapHandles.length ≤ 128) :
    IfReturns (PickHandleToEvict env s) (fun r => r.1 ≠ s.lastHandle) ∧
    IfReturns (FTGLUseBitmap env bitmapId s) (fun r => r.1 ≠ s.lastHandle) ∧
    IfReturns (FTGLGetEmptyHandle env s) (fun r => r.1 ≠ s.lastHandle) := by
  refine ⟨fun r h => (PickHandleToEvict_ok hN hlen h).1, ?_, ?_⟩
  · intro r h
    simp only [FTGLUseBitmap, bind_eq_ok] at h
    obtain ⟨r0, h0, h1⟩ := h
    obtain ⟨a1, a2, a3, _⟩ := PickHandleToEvict_ok hN hlen h0
    rw [FTGLSetBitmapHandle_fst h1, i8_small a2 (by omega)]
    exact a1
  · intro r h
    simp only [FTGLGetEmptyHandle, bind_eq_ok, pure_eq_ok] at h
    obtain ⟨r0, h0, _, _, _, _, _, _, rfl⟩ := h
    obtain ⟨a1, a2, a3, _⟩ := PickHandleToEvict_ok hN hlen h0
    simp only [i8_small a2 (by omega : r0.1 < 128)]
    exact a1

/-! ## Allocation of graphics RAM -/

theorem arrGet_set_self {α : Type} {xs : List α} {i : Int} (a : α)
    (h0 : 0 ≤ i) (h1 : i.toNat < xs.length) : arrGet (xs.set i.toNat a) i = .ok a := by
  apply arrGet_of_get? h0
  simp [List.get?_eq_getElem?, h1]

theorem arrGet_set_ne {α : Type} (xs : List α) {i j : Int} (a : α) (hj : 0 ≤ j)
    (hne : i ≠ j) : arrGet (xs.set j.toNat a) i = arrGet xs i := by
  unfold arrGet
  by_cases hi : 0 ≤ i
  · have hn : j.toNat ≠ i.toNat := by omega
    simp [List.get?_eq_getElem?, List.getElem?_set_ne hn]
  · simp [hi]

theorem Alloc.alloc_step_ok {env : Env} {a : Alloc} {s : FTGLInstance} {r : Int × FTGLInstance}
    (h : a.call env s = .ok r) :
    ∃ D : BitmapInfo, r.1 = s.bitmapIndex ∧ 0 ≤ r.1 ∧ r.1.toNat < s.bitmaps.length ∧
      r.2.bitmaps = s.bitmaps.set r.1.toNat D ∧ D.bitmapAddress = s.graphicsRamIndex ∧
      r.2.graphicsRamIndex = u32 (s.graphicsRamIndex + D.bitmapDataSize) ∧
      r.2.bitmapIndex = i16 (s.bitmapIndex + 1) := by
  cases a with
  | create f w hh =>
    simp only [Alloc.call, FTGLCreateBitmap, bind_eq_ok, pure_eq_ok] at h
    obtain ⟨bm, hbm, rfl⟩ := h
    obtain ⟨h0, h1, a0, _, rfl⟩ := arrModify_ok hbm
    exact ⟨_, rfl, h0, h1, rfl, rfl, rfl, rfl⟩
  | createVerbose f st lh nc fi wx wy rw rh =>
    simp only [Alloc.call, FTGLCreateBitmapVerbose, bind_eq_ok, pure_eq_ok] at h
    obtain ⟨p1, _, p2, _, bm, hbm, rfl⟩ := h
    obtain ⟨h0, h1, a0, _, rfl⟩ := arrModify_ok hbm
    exact ⟨_, rfl, h0, h1, rfl, rfl, rfl, rfl⟩

theorem recorded_of_arrGet {s : FTGLInstance} {id : Int} {D : BitmapInfo}
    (h : arrGet s.bitmaps id = .ok D) :
    recordedAddress s id = D.bitmapAddress ∧ recordedSize s id = D.bitmapDataSize := by
  simp [recordedAddress, recordedSize, h]

theorem recorded_congr {s s' : FTGLInstance} {id : Int}
    (h : arrGet s'.bitmaps id = arrGet s.bitmaps id) :
    recordedAddress s' id = recordedAddress s id ∧ recordedSize s' id = recordedSize s id := by
  simp [recordedAddress, recordedSize, h]

theorem allocAll_ok (env : Env) (reqs : List Alloc) :
    ∀ (s : FTGLInstance) (r : List Int × FTGLInstance), s.bitmaps.length ≤ 32767 →
      allocAll env reqs s = .ok r →
      r.2.bitmaps.length = s.bitmaps.length ∧
      (∀ n : Int, n < s.bitmapIndex → arrGet r.2.bitmaps n = arrGet s.bitmaps n) ∧
      (∀ a ∈ r.1, s.bitmapIndex ≤ a ∧ ∃ D, arrGet r.2.bitmaps a = .ok D) ∧
      (s.graphicsRamIndex + (r.1.map (recordedSize r.2)).sum < 2 ^ 32 →
        r.2.graphicsRamIndex = s.graphicsRamIndex + (r.1.map (recordedSize r.2)).sum ∧
        ∀ t, t < r.1.length → recordedAddress r.2 (r.1.getD t 0) =
          s.graphicsRamIndex + ((r.1.take t).map (recordedSize r.2)).sum) := by
  induction reqs with
  | nil =>
    intro s r _ h
    simp only [allocAll, pure_eq_ok] at h
    subst h
    refine ⟨rfl, fun _ _ => rfl, ?_, fun _ => ?_⟩
    · intro a ha
      simp at ha
    · simp
  | cons a rest ih =>
    intro s r hlen h
    simp only [allocAll, bind_eq_ok, pure_eq_ok] at h
    obtain ⟨r1, h1, r2, h2, rfl⟩ := h
    obtain ⟨D, e1, e2, e3, e4, e5, e6, e7⟩ := Alloc.alloc_step_ok h1
    have hlen1 : r1.2.bitmaps.length ≤ 32767 := by rw [e4]; simpa using hlen
    obtain ⟨i1, i2, i3, i4⟩ := ih r1.2 r2 hlen1 h2
    have hidx : r1.2.bitmapIndex = s.bitmapIndex + 1 := by
      rw [e7]; unfold i16; omega
    have hD1 : arrGet r1.2.bitmaps r1.1 = .ok D := by
      rw [e4]; exact arrGet_set_self _ e2 e3
    have hD : arrGet r2.2.bitmaps r1.1 = .ok D := by
      rw [i2 r1.1 (by rw [hidx, e1]; omega)]; exact hD1
    obtain ⟨hDa, hDs⟩ := recorded_of_arrGet hD
    refine ⟨?_, ?_, ?_, ?_⟩
    · rw [i1, e4]; simp
    · intro n hn
      rw [i2 n (by rw [hidx]; omega), e4]
      exact arrGet_set_ne _ _ e2 (by rw [e1]; omega)
    · intro b hb
      rcases List.mem_cons.mp hb with rfl | hb
      · exact ⟨by rw [e1], D, hD⟩
      · obtain ⟨j1, j2⟩ := i3 b hb
        exact ⟨by rw [hidx] at j1; omega, j2⟩
    · intro hsum
      simp only [List.map_cons, List.sum_cons, hDs] at hsum ⊢
      have hg : r1.2.graphicsRamIndex = s.graphicsRamIndex + D.bitmapDataSize := by
        rw [e6]; unfold u32; omega
      obtain ⟨k1, k2⟩ := i4 (by rw [hg]; omega)
      refine ⟨?_, ?_⟩
      · rw [k1, hg]; omega
      · intro t ht
        cases t with
        | zero => simp [hDa, e5]
        | succ t =>
          simp only [List.length_cons, Nat.add_lt_add_iff_right] at ht
          simp only [List.getD_cons_succ, List.take_succ_cons, List.map_cons, List.sum_cons, hDs]
          rw [k2 t ht, hg]; omega

theorem sum_take_succ (f : Int → Nat) : ∀ (l : List Int) (i : Nat), i < l.length →
    ((l.take (i + 1)).map f).sum = ((l.take i).map f).sum + f (l.getD i 0) := by
  intro l
  induction l with
  | nil => intro i hi; simp at hi
  | cons a l ih =>
    intro i hi
    cases i with
    | zero => simp
    | succ i =>
      simp only [List.length_cons, Nat.add_lt_add_iff_right] at hi
      simp only [List.take_succ_cons, List.map_cons, List.sum_cons, List.getD_cons_succ,
        ih i hi]
      omega

theorem sum_take_le (f : Int → Nat) (l : List Int) (i : Nat) : ∀ j, i ≤ j → j ≤ l.length →
    ((l.take i).map f).sum ≤ ((l.take j).map f).sum := by
  intro j hij
  induction j, hij using Nat.le_induction with
  | base => intro _; exact le_rfl
  | succ j _ ih =>
    intro hj
    rw [sum_take_succ f l j (by omega)]
    have := ih (by omega)
    omega

/-- C9: for every sequence of allocations by `FTGLCreateBitmap` and
`FTGLCreateBitmapVerbose` whose recorded sizes, added to the starting cursor,
stay below 2^32: an allocation made later starts at or after the end (address
plus recorded data size) of one made earlier, an allocation starts exactly at
the end of the one made just before it, the first starts at the cursor, and
`FTGLInitialize` sets the cursor to `FT_RAM_G`. -/
theorem allocations_do_not_overlap (env : Env) (reqs : List Alloc) (s : FTGLInstance)
    (hlen : s.bitmaps.length ≤ 32767) :
    IfReturns (allocAll env reqs s) (fun r =>
      s.graphicsRamIndex + (r.1.map (recordedSize r.2)).sum < 2 ^ 32 →
      (∀ i j, i < j → j < r.1.length →
        recordedAddress r.2 (r.1.getD i 0) + recordedSize r.2 (r.1.getD i 0) ≤
          recordedAddress r.2 (r.1.getD j 0)) ∧
      (∀ i, i + 1 < r.1.length →
        recordedAddress r.2 (r.1.getD (i + 1) 0) =
          recordedAddress r.2 (r.1.getD i 0) + recordedSize r.2 (r.1.getD i 0)) ∧
      (0 < r.1.length → recordedAddress r.2 (r.1.getD 0 0) = s.graphicsRamIndex)) ∧
    (initialized env).graphicsRamIndex = u32 env.hdr.FT_RAM_G := by
  refine ⟨?_, initialized_graphicsRamIndex env⟩
  intro r h hsum
  obtain ⟨_, _, _, i4⟩ := allocAll_ok env reqs s r hlen h
  obtain ⟨_, k2⟩ := i4 hsum
  refine ⟨?_, ?_, ?_⟩
  · intro i j hij hj
    rw [k2 i (by omega), k2 j hj]
    have h1 := sum_take_succ (recordedSize r.2) r.1 i (by omega)
    have h2 := sum_take_le (recordedSize r.2) r.1 (i + 1) j (by omega) (by omega)
    omega
  · intro i hi
    rw [k2 i (by omega), k2 (i + 1) hi, sum_take_succ (recordedSize r.2) r.1 i (by omega)]
    omega
  · intro h0
    rw [k2 0 h0]
    simp

theorem nodup_facts (hdr : FT800) (hnd : hdr.formats.Nodup) :
    hdr.FT_L1 ≠ hdr.FT_L4 ∧ hdr.FT_L1 ≠ hdr.FT_ARGB1555 ∧ hdr.FT_L1 ≠ hdr.FT_ARGB4 ∧
    hdr.FT_L1 ≠ hdr.FT_RGB565 ∧ hdr.FT_L4 ≠ hdr.FT_ARGB1555 ∧ hdr.FT_L4 ≠ hdr.FT_ARGB4 ∧
    hdr.FT_L4 ≠ hdr.FT_RGB565 ∧
    hdr.FT_L8 ≠ hdr.FT_ARGB1555 ∧ hdr.FT_L8 ≠ hdr.FT_ARGB4 ∧ hdr.FT_L8 ≠ hdr.FT_RGB565 ∧
    hdr.FT_PALETTED ≠ hdr.FT_ARGB1555 ∧ hdr.FT_PALETTED ≠ hdr.FT_ARGB4 ∧
    hdr.FT_PALETTED ≠ hdr.FT_RGB565 ∧
    hdr.FT_TEXT8X8 ≠ hdr.FT_ARGB1555 ∧ hdr.FT_TEXT8X8 ≠ hdr.FT_ARGB4 ∧
    hdr.FT_TEXT8X8 ≠ hdr.FT_RGB565 ∧
    hdr.FT_TEXTVGA ≠ hdr.FT_ARGB1555 ∧ hdr.FT_TEXTVGA ≠ hdr.FT_ARGB4 ∧
    hdr.FT_TEXTVGA ≠ hdr.FT_RGB565 ∧
    hdr.FT_BARGRAPH ≠ hdr.FT_ARGB1555 ∧ hdr.FT_BARGRAPH ≠ hdr.FT_ARGB4 ∧
    hdr.FT_BARGRAPH ≠ hdr.FT_RGB565 ∧
    hdr.FT_RGB332 ≠ hdr.FT_ARGB1555 ∧ hdr.FT_RGB332 ≠ hdr.FT_ARGB4 ∧
    hdr.FT_RGB332 ≠ hdr.FT_RGB565 ∧
    hdr.FT_ARGB2 ≠ hdr.FT_ARGB1555 ∧ hdr.FT_ARGB2 ≠ hdr.FT_ARGB4 ∧
    hdr.FT_ARGB2 ≠ hdr.FT_RGB565 := by
  simp only [FT800.formats, List.nodup_cons, List.mem_cons, List.mem_singleton, not_or,
    List.not_mem_nil, not_false_eq_true, List.nodup_nil, and_true] at hnd
  tauto

/-- The multiplier and divisor that the `switch` of `ComputeSizeAndStride` selects. -/
theorem switch_eq_formatRatio (hdr : FT800) (format : Nat) (hnd : hdr.formats.Nodup) :
    (if format = hdr.FT_L1 then ((1, 8) : Nat × Nat)
    else if format = hdr.FT_L4 then (1, 2)
    else if format = hdr.FT_L8 then (1, 1)
    else if format = hdr.FT_PALETTED then (1, 1)
    else if format = hdr.FT_TEXT8X8 then (1, 1)
    else if format = hdr.FT_TEXTVGA then (1, 1)
    else if format = hdr.FT_BARGRAPH then (1, 1)
    else if format = hdr.FT_RGB332 then (1, 1)
    else if format = hdr.FT_ARGB2 then (1, 1)
    else if format = hdr.FT_ARGB1555 then (2, 1)
    else if format = hdr.FT_ARGB4 then (2, 1)
    else if format = hdr.FT_RGB565 then (2, 1)
    else (1, 1)) = formatRatio hdr format := by
  have hf := nodup_facts hdr hnd
  unfold formatRatio
  by_cases h1 : format = hdr.FT_L1
  · simp only [if_pos h1]
  by_cases h2 : format = hdr.FT_L4
  · simp only [if_neg h1, if_pos h2]
  by_cases h3 : format = hdr.FT_ARGB1555 ∨ format = hdr.FT_ARGB4 ∨ format = hdr.FT_RGB565
  · rw [if_neg h1, if_neg h2, if_neg h1, if_neg h2, if_pos h3]
    have n1 : format ≠ hdr.FT_L8 := by rintro rfl; tauto
    have n2 : format ≠ hdr.FT_PALETTED := by rintro rfl; tauto
    have n3 : format ≠ hdr.FT_TEXT8X8 := by rintro rfl; tauto
    have n4 : format ≠ hdr.FT_TEXTVGA := by rintro rfl; tauto
    have n5 : format ≠ hdr.FT_BARGRAPH := by rintro rfl; tauto
    have n6 : format ≠ hdr.FT_RGB332 := by rintro rfl; tauto
    have n7 : format ≠ hdr.FT_ARGB2 := by rintro rfl; tauto
    rw [if_neg n1, if_neg n2, if_neg n3, if_neg n4, if_neg n5, if_neg n6, if_neg n7]
    rcases h3 with h | h | h
    · rw [if_pos h]
    · by_cases h' : format = hdr.FT_ARGB1555
      · rw [if_pos h']
      · rw [if_neg h', if_pos h]
    · by_cases h' : format = hdr.FT_ARGB1555
      · rw [if_pos h']
      · by_cases h'' : format = hdr.FT_ARGB4
        · rw [if_neg h', if_pos h'']
        · rw [if_neg h', if_neg h'', if_pos h]
  · rw [if_neg h1, if_neg h2, if_neg h1, if_neg h2, if_neg h3]
    simp only [not_or] at h3
    rw [if_neg h3.1, if_neg h3.2.1, if_neg h3.2.2]
    split_ifs <;> rfl

theorem ratio_cases (hdr : FT800) (format : Nat) :
    formatRatio hdr format = (1, 8) ∨ formatRatio hdr format = (1, 2) ∨
    formatRatio hdr format = (2, 1) ∨ formatRatio hdr format = (1, 1) := by
  unfold formatRatio
  split_ifs <;> simp

theorem ComputeSizeAndStride_eq (hdr : FT800) (format w h : Nat) (hnd : hdr.formats.Nodup)
    (hw : w < 2 ^ 31) (hsz : rowBytes hdr format w * h < 2 ^ 32) :
    ComputeSizeAndStride hdr format w h = (rowBytes hdr format w * h, rowBytes hdr format w) := by
  unfold ComputeSizeAndStride
  rw [switch_eq_formatRatio hdr format hnd]
  have hs : (let multiplier := (formatRatio hdr format).1
      let divider := (formatRatio hdr format).2
      let multiplied := u32 (multiplier * w)
      let linestride := multiplied / divider
      if u32 (linestride * divider) < multiplied then u32 (linestride + 1) else linestride)
      = rowBytes hdr format w := by
    unfold rowBytes u32
    rcases ratio_cases hdr format with e | e | e | e <;> rw [e] <;> simp only [] <;>
      split <;> omega
  simp only [] at hs ⊢
  rw [hs]
  simp only [u32, Prod.mk.injEq, and_true]
  exact Nat.mod_eq_of_lt hsz

theorem rowBytes_least (hdr : FT800) (format w : Nat) :
    w * (formatRatio hdr format).1 ≤ rowBytes hdr format w * (formatRatio hdr format).2 ∧
    ∀ n, w * (formatRatio hdr format).1 ≤ n * (formatRatio hdr format).2 →
      rowBytes hdr format w ≤ n := by
  unfold rowBytes
  rcases ratio_cases hdr format with e | e | e | e <;> rw [e] <;> simp only [] <;>
    refine ⟨by omega, fun n hn => by omega⟩

/-- C10: for a format that fits `uint8_t`, non-negative `int` dimensions and a
data size that fits 32 bits, `FTGLCreateBitmap(format, w, h)` returns the next
free id and leaves in that descriptor the current RAM cursor as address, the
row size `ceil(w * m / d)` in its layout word, `rowBytes * h` as data size and
no active handle, where `(m, d)` is (1, 8) for `FT_L1`, (1, 2) for `FT_L4`,
(2, 1) for `FT_ARGB1555`, `FT_ARGB4`, `FT_RGB565` and (1, 1) otherwise; the
row size is the least number of bytes `n` with `w * m <= n * d`.  The case
labels of the `switch` are pairwise distinct, as C requires. -/
theorem FTGLCreateBitmap_records (env : Env) (format w h : Nat) (s : FTGLInstance)
    (hnd : env.hdr.formats.Nodup) (hf : format < 256) (hw : w < 2 ^ 31) (hh : h < 2 ^ 31)
    (hsz : rowBytes env.hdr format w * h < 2 ^ 32)
    (hid0 : 0 ≤ s.bitmapIndex) (hid1 : s.bitmapIndex.toNat < s.bitmaps.length) :
    Returns (FTGLCreateBitmap env format w h s) (fun r =>
      r.1 = s.bitmapIndex ∧
      arrGet r.2.bitmaps r.1 = .ok
        { bitmapAddress := s.graphicsRamIndex
          bitmapDataSize := rowBytes env.hdr format w * h
          bitmapLayout := u32 (env.hdr.FT_BITMAP_LAYOUT format (rowBytes env.hdr format w) h)
          bitmapSize := u32 (env.hdr.FT_BITMAP_SIZE env.hdr.FT_BILINEAR env.hdr.FT_BORDER
            env.hdr.FT_BORDER w h)
          activeHandle := -1 }) ∧
    (w * (formatRatio env.hdr format).1 ≤
        rowBytes env.hdr format w * (formatRatio env.hdr format).2 ∧
      ∀ n, w * (formatRatio env.hdr format).1 ≤ n * (formatRatio env.hdr format).2 →
        rowBytes env.hdr format w ≤ n) := by
  refine ⟨?_, rowBytes_least env.hdr format w⟩
  have e1 : u8 format = format := Nat.mod_eq_of_lt hf
  have e2 : toU32 (w : Int) = w := by unfold toU32; omega
  have e3 : toU32 (h : Int) = h := by unfold toU32; omega
  obtain ⟨a, ha⟩ : ∃ a, s.bitmaps.get? s.bitmapIndex.toNat = some a := by
    rw [List.get?_eq_getElem?]
    exact ⟨_, List.getElem?_eq_getElem hid1⟩
  simp only [FTGLCreateBitmap, e1, e2, e3, ComputeSizeAndStride_eq env.hdr format w h hnd hw hsz]
  unfold arrModify
  rw [if_pos hid0, ha]
  exact ⟨_, rfl, rfl, arrGet_set_self _ hid0 hid1⟩

/-! ## Concrete runs -/

/-- C5 (the code departs from the claim): after `FTGLInitialize`, creating a
bitmap and drawing it once leaves bitmap 0 with recorded handle 0 while slot 0
of the handle table still holds -1: the bitmap claims the slot, the slot does
not hold the bitmap. -/
theorem slot_table_misses_binding :
    Returns (run avr [.CreateBitmap ft800.FT_L8 8 8, .CmdBitmap 0 10 10] (initialized avr))
      (fun s =>
        (arrGet s.bitmaps 0).map (fun b => b.activeHandle) = .ok 0 ∧
        arrGet s.bitmapHandles 0 = .ok (-1)) := by
  decide!

/-- C6 (the code departs from the claim): two bitmaps are created (at
addresses 0 and 64), bitmap 0 is loaded into handle 0, then bitmap 1 is loaded
into handle 0, then bitmap 0 is drawn through `FTGLCmdBitmapCell`.  The stream
is: source, layout and size of bitmap 0; source, layout and size of bitmap 1;
`BEGIN(BITMAPS)`; `VERTEX2II` with handle 0.  The draw of bitmap 0 uses handle
0, whose last programmed source is the address of bitmap 1, and both
descriptors still record handle 0. -/
theorem managed_draw_uses_rebound_handle :
    Returns (run avr [.CreateBitmap ft800.FT_L8 8 8, .CreateBitmap ft800.FT_L8 16 16,
        .SetBitmapHandle 0 0, .SetBitmapHandle 0 1, .CmdBitmapCell 0 5 5 0] (initialized avr))
      (fun s =>
        appended s.bus = bytesOf
          [ft800.FT_BITMAP_SOURCE 0, ft800.FT_BITMAP_LAYOUT ft800.FT_L8 8 8,
           ft800.FT_BITMAP_SIZE 1 0 0 8 8,
           ft800.FT_BITMAP_SOURCE 64, ft800.FT_BITMAP_LAYOUT ft800.FT_L8 16 16,
           ft800.FT_BITMAP_SIZE 1 0 0 16 16,
           ft800.FT_BEGIN ft800.FT_BITMAPS, ft800.FT_VERTEX2II 5 5 0 0] ∧
        recordedAddress s 0 = 0 ∧ recordedAddress s 1 = 64 ∧
        (arrGet s.bitmaps 0).map (fun b => b.activeHandle) = .ok 0 ∧
        (arrGet s.bitmaps 1).map (fun b => b.activeHandle) = .ok 0) := by
  decide!

/-- Witness of C7: on the AVR build, after one bitmap has been drawn from slot
0, the eviction policy returns slot 1. -/
theorem pick_never_last_used_witness :
    2 ≤ avr.FTGL_NUM_BITMAP_HANDLES ∧ drawnOnce.bitmapHandles.length ≤ 128 ∧
    drawnOnce.lastHandle = 0 ∧
    Returns (PickHandleToEvict avr drawnOnce) (fun r => r.1 = 1) ∧
    Returns (FTGLUseBitmap avr 0 drawnOnce) (fun r => r.1 = 1) ∧
    (IfReturns (PickHandleToEvict avr drawnOnce) (fun r => r.1 ≠ drawnOnce.lastHandle) ∧
      IfReturns (FTGLUseBitmap avr 0 drawnOnce) (fun r => r.1 ≠ drawnOnce.lastHandle) ∧
      IfReturns (FTGLGetEmptyHandle avr drawnOnce) (fun r => r.1 ≠ drawnOnce.lastHandle)) :=
  ⟨by decide!, by decide!, by decide!, by decide!, by decide!,
    pick_never_last_used avr drawnOnce 0 (by decide!) (by decide!)⟩

theorem twoSlots_drains : twoSlots.Drains := by
  intro k c
  exact ⟨(c, c), by simp [twoSlots, idleDevice], rfl⟩

/-- Witness of C8: the build with exactly two handles, two bitmaps created
after `FTGLInitialize`, drawn in the order 0, 1, 0, 1. -/
theorem alternating_draws_bind_once_witness :
    Returns (run twoSlots [.CmdBitmap 0 10 10, .CmdBitmap 1 50 10, .CmdBitmap 0 10 10,
        .CmdBitmap 1 50 10] twoBitmaps) (fun s' =>
      appended s'.bus = appended twoBitmaps.bus ++ bytesOf
        [ft800.FT_BITMAP_SOURCE 0, ft800.FT_BITMAP_LAYOUT ft800.FT_L8 8 8,
         ft800.FT_BITMAP_SIZE 1 0 0 8 8,
         ft800.FT_BEGIN ft800.FT_BITMAPS, ft800.FT_VERTEX2II 10 10 0 0,
         ft800.FT_BITMAP_HANDLE 1,
         ft800.FT_BITMAP_SOURCE 64, ft800.FT_BITMAP_LAYOUT ft800.FT_L8 16 16,
         ft800.FT_BITMAP_SIZE 1 0 0 16 16,
         ft800.FT_BEGIN ft800.FT_BITMAPS, ft800.FT_VERTEX2II 50 10 1 0,
         ft800.FT_BEGIN ft800.FT_BITMAPS, ft800.FT_VERTEX2II 10 10 0 0,
         ft800.FT_BEGIN ft800.FT_BITMAPS, ft800.FT_VERTEX2II 50 10 1 0]) ∧
    (IfReturns (run twoSlots [.CmdBitmap 0 10 10, .CmdBitmap 1 50 10, .CmdBitmap 0 10 10,
        .CmdBitmap 1 50 10] twoBitmaps) (fun s' =>
      appended s'.bus = appended twoBitmaps.bus ++ bytesOf (
        selectWords twoSlots.hdr twoBitmaps.graphicsContext.bitmapHandle 0 ++
        bindWords twoSlots.hdr firstBitmap ++
        drawWords twoSlots.hdr 0 10 10 0 ++
        selectWords twoSlots.hdr (u32 (twoSlots.hdr.FT_BITMAP_HANDLE 0)) 1 ++
        bindWords twoSlots.hdr secondBitmap ++
        drawWords twoSlots.hdr 1 50 10 0 ++
        drawWords twoSlots.hdr 0 10 10 0 ++ drawWords twoSlots.hdr 1 50 10 0)) ∧
      (twoSlots.Drains → ∃ s', run twoSlots [.CmdBitmap 0 10 10, .CmdBitmap 1 50 10,
        .CmdBitmap 0 10 10, .CmdBitmap 1 50 10] twoBitmaps = .ok s')) :=
  ⟨by decide!,
    alternating_draws_bind_once twoSlots twoBitmaps 0 1 firstBitmap
      secondBitmap 10 10 50 10 10 10 50 10
      (by decide!) (by decide!) (by decide!) (by decide!) (by decide!) (by decide!)
      (by decide!) (by decide!) (by decide!)⟩

/-- Witness of C9: three allocations on the AVR build right after
`FTGLInitialize` get the ids 0, 1, 2, the addresses 0, 64, 464 and the sizes
64, 400, 6. -/
theorem allocations_do_not_overlap_witness :
    (initialized avr).bitmaps.length ≤ 32767 ∧
    Returns (allocAll avr [.create ft800.FT_L8 8 8, .createVerbose ft800.FT_RGB565 20 10 2
        0 0 0 10 10, .create ft800.FT_L1 9 3] (initialized avr)) (fun r =>
      r.1 = [0, 1, 2] ∧ r.1.map (recordedAddress r.2) = [0, 64, 464] ∧
      r.1.map (recordedSize r.2) = [64, 400, 6]) ∧
    (IfReturns (allocAll avr [.create ft800.FT_L8 8 8, .createVerbose ft800.FT_RGB565 20 10 2
        0 0 0 10 10, .create ft800.FT_L1 9 3] (initialized avr)) (fun r =>
      (initialized avr).graphicsRamIndex + (r.1.map (recordedSize r.2)).sum < 2 ^ 32 →
      (∀ i j, i < j → j < r.1.length →
        recordedAddress r.2 (r.1.getD i 0) + recordedSize r.2 (r.1.getD i 0) ≤
          recordedAddress r.2 (r.1.getD j 0)) ∧
      (∀ i, i + 1 < r.1.length →
        recordedAddress r.2 (r.1.getD (i + 1) 0) =
          recordedAddress r.2 (r.1.getD i 0) + recordedSize r.2 (r.1.getD i 0)) ∧
      (0 < r.1.length → recordedAddress r.2 (r.1.getD 0 0) = (initialized avr).graphicsRamIndex)) ∧
    (initialized avr).graphicsRamIndex = u32 avr.hdr.FT_RAM_G) :=
  ⟨by decide!, by decide!,
    allocations_do_not_overlap avr _ (initialized avr) (by decide!)⟩

/-- Witness of C10: a one-bit-per-pixel bitmap 9 pixels wide and 3 lines high,
created right after `FTGLInitialize` on the AVR build, gets 2 bytes per row and
6 bytes in all. -/
theorem FTGLCreateBitmap_records_witness :
    avr.hdr.formats.Nodup ∧ ft800.FT_L1 < 256 ∧ 9 < 2 ^ 31 ∧ 3 < 2 ^ 31 ∧
    rowBytes avr.hdr ft800.FT_L1 9 * 3 < 2 ^ 32 ∧
    0 ≤ (initialized avr).bitmapIndex ∧
    (initialized avr).bitmapIndex.toNat < (initialized avr).bitmaps.length ∧
    rowBytes avr.hdr ft800.FT_L1 9 = 2 ∧
    (Returns (FTGLCreateBitmap avr ft800.FT_L1 (9 : Nat) (3 : Nat) (initialized avr)) (fun r =>
      r.1 = (initialized avr).bitmapIndex ∧
      arrGet r.2.bitmaps r.1 = .ok
        { bitmapAddress := (initialized avr).graphicsRamIndex
          bitmapDataSize := rowBytes avr.hdr ft800.FT_L1 9 * 3
          bitmapLayout :=
            u32 (avr.hdr.FT_BITMAP_LAYOUT ft800.FT_L1 (rowBytes avr.hdr ft800.FT_L1 9) 3)
          bitmapSize := u32 (avr.hdr.FT_BITMAP_SIZE avr.hdr.FT_BILINEAR avr.hdr.FT_BORDER
            avr.hdr.FT_BORDER 9 3)
          activeHandle := -1 }) ∧
      (9 * (formatRatio avr.hdr ft800.FT_L1).1 ≤
          rowBytes avr.hdr ft800.FT_L1 9 * (formatRatio avr.hdr ft800.FT_L1).2 ∧
        ∀ n, 9 * (formatRatio avr.hdr ft800.FT_L1).1 ≤ n * (formatRatio avr.hdr ft800.FT_L1).2 →
          rowBytes avr.hdr ft800.FT_L1 9 ≤ n)) :=
  ⟨by decide!, by decide!, by decide!, by decide!, by decide!, by decide!, by decide!, by decide!,
    FTGLCreateBitmap_records avr ft800.FT_L1 9 3 (initialized avr) (by decide!) (by decide!)
      (by decide!) (by decide!) (by decide!) (by decide!) (by decide!)⟩

/-! ## The wire format and the flush -/

theorem load32_le32 (v : Nat) (h : v < 2 ^ 32) : load32 (le32 v) = v := by
  simp only [load32, le32, List.getD_cons_zero, List.getD_cons_succ, u8]
  omega

theorem load16_le16 (v : Nat) (h : v < 2 ^ 16) : load16 (le16 v) = v := by
  simp only [load16, le16, List.getD_cons_zero, List.getD_cons_succ, u8]
  omega

/-- C20: the bytes that `WriteReg32` and `Append32` put on the wire for a
32-bit value decode through `ReadReg32` to the same value, and the same for
16-bit values with `WriteReg16`, `Append16` and `ReadReg16`; in particular
for 0, 0xFFFFFFFF and 0x80008000. -/
theorem wire_round_trip :
    (∀ v, v < 2 ^ 32 → ReadReg32 (wire32 v) = v) ∧
    (∀ v, v < 2 ^ 16 → ReadReg16 (wire16 v) = v) ∧
    (∀ addr v s, (WriteReg32 addr v s).bus = s.bus ++ [.write addr (wire32 v)]) ∧
    (∀ v s, appended (Append32 v s).bus = appended s.bus ++ wire32 v) ∧
    (∀ hdr addr v s, (WriteReg16 hdr addr v s).bus = s.bus ++ [.write addr (wire16 v)]) ∧
    (∀ v s, appended (Append16 v s).bus = appended s.bus ++ wire16 v) ∧
    ReadReg32 (wire32 0) = 0 ∧ ReadReg32 (wire32 0xFFFFFFFF) = 0xFFFFFFFF ∧
    ReadReg32 (wire32 0x80008000) = 0x80008000 := by
  refine ⟨?_, ?_, ?_, ?_, ?_, ?_, by decide, by decide, by decide⟩
  · intro v h
    have e : u32 v = v := Nat.mod_eq_of_lt h
    simp only [ReadReg32, wire32, FT_TO_HOST_ULONG, HOST_TO_FT_ULONG, e]
    exact load32_le32 v h
  · intro v h
    have e : u16 v = v := Nat.mod_eq_of_lt h
    simp only [ReadReg16, wire16, FT_TO_HOST_USHORT, HOST_TO_FT_USHORT, e]
    exact load16_le16 v h
  · intro addr v s; rfl
  · intro v s; exact appended_Append32 v s
  · intro hdr addr v s
    simp only [WriteReg16, FTHWWrite, wire16, HOST_TO_FT_USHORT]
    split <;> rfl
  · intro v s; exact appended_Append16 v s

/-- C19: when `FlushCommands` returns, the free space is the whole queue and
the read index equals the write index; if the device reads back the committed
write pointer and the write index was a `uint16_t` multiple of four, the write
index is unchanged, still a multiple of four, and the last transport call
opens an append sequence at `FT_RAM_CMD + writeIndex`.  A device that drains
its queue makes the call return. -/
theorem FlushCommands_resets (env : Env) (s : FTGLInstance) :
    IfReturns (FlushCommands env s) (fun s' =>
      s'.cmdQueueFreeSpace = FTGL_CMD_QUEUE_SIZE ∧
      s'.cmdQueueReadIndex = s'.cmdQueueWriteIndex ∧
      s'.bus.getLast? = some (.beginAppendWrite (env.hdr.FT_RAM_CMD + s'.cmdQueueWriteIndex)) ∧
      (env.ReadsBack → s.cmdQueueWriteIndex < 65536 → Aligned4 s →
        s'.cmdQueueWriteIndex = s.cmdQueueWriteIndex ∧ Aligned4 s')) ∧
    (env.Drains → ∃ s', FlushCommands env s = .ok s') := by
  refine ⟨?_, fun hd => FlushCommands_returns hd s⟩
  intro s' h
  obtain ⟨_, _, a3, a4, a5⟩ := FlushCommands_ok h
  refine ⟨a4, a3, ?_, ?_⟩
  · unfold FlushCommands at h
    simp only [bind_eq_ok, pure_eq_ok] at h
    obtain ⟨s1, _, rfl⟩ := h
    simp [FTHWBeginAppendWrite]
  · intro hr hlt ha
    have e : s'.cmdQueueWriteIndex = s.cmdQueueWriteIndex := by
      rw [a5 hr]; exact Nat.mod_eq_of_lt hlt
    refine ⟨e, ?_⟩
    unfold Aligned4 at *
    rw [e]; exact ha

/-! ## The size word of a bitmap -/

theorem clearActiveHandle_get (hdr : FT800) {j id : Int} {s s' : FTGLInstance} {b : BitmapInfo}
    (h : clearActiveHandle j s = .ok s') (hb : arrGet s.bitmaps id = .ok b) :
    ∃ b', arrGet s'.bitmaps id = .ok b' ∧ bindWords hdr b' = bindWords hdr b := by
  simp only [clearActiveHandle, bind_eq_ok, pure_eq_ok] at h
  obtain ⟨bm, h1, rfl⟩ := h
  obtain ⟨j0, _, a, ha, rfl⟩ := arrModify_ok h1
  obtain ⟨i0, i1, hg⟩ := arrGet_ok hb
  by_cases e : id = j
  · subst e
    rw [hg] at ha
    cases ha
    exact ⟨_, arrGet_set_self _ i0 i1, rfl⟩
  · exact ⟨b, by rw [show ({ s with bitmaps := s.bitmaps.set j.toNat _ } : FTGLInstance).bitmaps
      = s.bitmaps.set j.toNat _ from rfl, arrGet_set_ne _ _ j0 e]; exact hb, rfl⟩

theorem FTGLSetBitmapHandle_rebinds {env : Env} {handle id : Int} {s : FTGLInstance}
    {r : Int × FTGLInstance} {b : BitmapInfo}
    (h : FTGLSetBitmapHandle env handle id s = .ok r)
    (hb : arrGet s.bitmaps id = .ok b) :
    ∃ pre, appended r.2.bus = appended s.bus ++ pre ++ bytesOf (bindWords env.hdr b) := by
  simp only [FTGLSetBitmapHandle, bind_eq_ok, pure_eq_ok] at h
  obtain ⟨old, _, s0, h0, s1, h1, s2, h2, b', hb', bm, hbm, rfl⟩ := h
  have k0 : appended s0.bus = appended s.bus ∧
      ∃ b0, arrGet s0.bitmaps id = .ok b0 ∧ bindWords env.hdr b0 = bindWords env.hdr b := by
    split at h0
    · have e := clearActiveHandle_ok h0
      refine ⟨by rw [e], clearActiveHandle_get env.hdr h0 hb⟩
    · rw [pure_eq_ok] at h0
      subst h0
      exact ⟨rfl, b, hb, rfl⟩
  obtain ⟨k1, b0, k2, k3⟩ := k0
  obtain ⟨a1, a2⟩ := WRITE_DLCMD_ok h1
  obtain ⟨c1, c2, _⟩ := EnsureSpace_ok h2
  obtain ⟨_, _, f3, _⟩ := host_eq_fields (c1.trans a1)
  simp only at f3
  rw [f3, k2] at hb'
  cases hb'
  generalize bytesOf _ = X at a2
  refine ⟨X, ?_⟩
  simp only [appended_Append32, c2, a2, k1]
  rw [← k3]
  simp only [bindWords, bytesOf, List.append_assoc, List.append_nil]

theorem FTGLCmdBitmapCell_rebinds {env : Env} {id x y cell : Int} {s : FTGLInstance}
    {b : BitmapInfo} (hb : arrGet s.bitmaps id = .ok b) (hneg : b.activeHandle < 0) :
    IfReturns (FTGLCmdBitmapCell env id x y cell s) (fun s' =>
      ∃ pre post, appended s'.bus =
        appended s.bus ++ pre ++ bytesOf (bindWords env.hdr b) ++ post) := by
  intro s' h
  simp only [FTGLCmdBitmapCell, hb, bind_ok, if_pos hneg, FTGLUseBitmap, bind_eq_ok] at h
  obtain ⟨r, ⟨p, hp, h1⟩, h2⟩ := h
  have e := PickHandleToEvict_frame hp
  have hb1 : arrGet p.2.bitmaps id = .ok b := by rw [e]; exact hb
  obtain ⟨pre, a⟩ := FTGLSetBitmapHandle_rebinds h1 hb1
  obtain ⟨_, b2⟩ := FTGLDrawBitmapInHandle_ok h2
  have eb : p.2.bus = s.bus := by rw [e]
  exact ⟨pre, _, by rw [b2, a, eb]⟩

theorem invalidated_of_eq {env : Env} {id : Int} {b : BitmapInfo} {size : Nat}
    {s s' : FTGLInstance} (hb : arrGet s.bitmaps id = .ok b)
    (hlen : b.activeHandle < s.bitmapHandles.length)
    (e : s' = { s with
      bitmaps := s.bitmaps.set id.toNat { b with bitmapSize := size, activeHandle := -1 }
      bitmapHandles :=
        if 0 ≤ b.activeHandle then s.bitmapHandles.set b.activeHandle.toNat (-1)
        else s.bitmapHandles }) :
    Invalidated env id b size s s' := by
  obtain ⟨i0, i1, g0⟩ := arrGet_ok hb
  subst e
  have k : arrGet (s.bitmaps.set id.toNat { b with bitmapSize := size, activeHandle := -1 }) id
      = .ok { b with bitmapSize := size, activeHandle := -1 } := arrGet_set_self _ i0 i1
  refine ⟨k, ?_, ?_, ?_, rfl, ?_⟩
  · intro j hj
    exact arrGet_set_ne _ _ i0 hj
  · intro h0
    simp only [if_pos h0]
    exact arrGet_set_self _ h0 (by omega)
  · intro t ht
    dsimp only
    split
    · rename_i h0
      exact arrGet_set_ne _ _ h0 ht
    · rfl
  · intro x y s'' h
    obtain ⟨pre, post, e⟩ := @FTGLCmdBitmapCell_rebinds env id x y 0 _
      { b with bitmapSize := size, activeHandle := -1 } k (by simp) s'' h
    exact ⟨pre, post, e⟩

theorem FTGLSetBitmapSize_eq (env : Env) (id : Int) (w h : Nat) {s : FTGLInstance}
    {b : BitmapInfo} (hb : arrGet s.bitmaps id = .ok b) (hh : -1 ≤ b.activeHandle)
    (hlen : b.activeHandle < s.bitmapHandles.length) :
    FTGLSetBitmapSize env id w h s = .ok { s with
      bitmaps := s.bitmaps.set id.toNat { b with
        bitmapSize := u32 (env.hdr.FT_BITMAP_SIZE 0 0 0 (u16 w) (u16 h)) |||
          (b.bitmapSize &&& 0xFFFE0000)
        activeHandle := -1 }
      bitmapHandles :=
        if 0 ≤ b.activeHandle then s.bitmapHandles.set b.activeHandle.toNat (-1)
        else s.bitmapHandles } := by
  obtain ⟨i0, i1, g0⟩ := arrGet_ok hb
  simp only [FTGLSetBitmapSize, arrModify_of_get? _ i0 g0, bind_ok, arrGet_set_self _ i0 i1]
  by_cases h0 : 0 ≤ b.activeHandle
  · have h1 : b.activeHandle.toNat < s.bitmapHandles.length := by omega
    obtain ⟨a, ha⟩ : ∃ a, s.bitmapHandles.get? b.activeHandle.toNat = some a :=
      ⟨_, List.get?_eq_get h1⟩
    have i1' : id.toNat < (s.bitmaps.set id.toNat { b with
        bitmapSize := u32 (env.hdr.FT_BITMAP_SIZE 0 0 0 (u16 w) (u16 h)) |||
          (b.bitmapSize &&& 0xFFFE0000) }).length := by simpa using i1
    simp only [ge_iff_le, if_pos h0, arrModify_of_get? _ h0 ha, bind_ok, clearActiveHandle,
      arrModify_of_get? _ i0 (List.get?_eq_get i1'), List.get_eq_getElem, List.getElem_set_self,
      List.set_set, pure, Except.pure]
  · have e : b.activeHandle = -1 := by omega
    simp only [ge_iff_le, if_neg h0, pure, Except.pure]
    congr 3
    cases b
    simp only at e
    subst e
    rfl

theorem FTGLSetBitmapParams_eq (env : Env) (id : Int) (filter wrapx wrapy : Nat)
    {s : FTGLInstance} {b : BitmapInfo} (hb : arrGet s.bitmaps id = .ok b)
    (hh : -1 ≤ b.activeHandle) (hlen : b.activeHandle < s.bitmapHandles.length) :
    FTGLSetBitmapParams env id filter wrapx wrapy s = .ok { s with
      bitmaps := s.bitmaps.set id.toNat { b with
        bitmapSize := u32 (env.hdr.FT_BITMAP_SIZE (u8 filter) (u8 wrapx) (u8 wrapy) 0 0) |||
          (b.bitmapSize &&& 0x1FFFF)
        activeHandle := -1 }
      bitmapHandles :=
        if 0 ≤ b.activeHandle then s.bitmapHandles.set b.activeHandle.toNat (-1)
        else s.bitmapHandles } := by
  obtain ⟨i0, i1, g0⟩ := arrGet_ok hb
  simp only [FTGLSetBitmapParams, arrModify_of_get? _ i0 g0, bind_ok, arrGet_set_self _ i0 i1]
  by_cases h0 : 0 ≤ b.activeHandle
  · have h1 : b.activeHandle.toNat < s.bitmapHandles.length := by omega
    obtain ⟨a, ha⟩ : ∃ a, s.bitmapHandles.get? b.activeHandle.toNat = some a :=
      ⟨_, List.get?_eq_get h1⟩
    have i1' : id.toNat < (s.bitmaps.set id.toNat { b with
        bitmapSize := u32 (env.hdr.FT_BITMAP_SIZE (u8 filter) (u8 wrapx) (u8 wrapy) 0 0) |||
          (b.bitmapSize &&& 0x1FFFF) }).length := by simpa using i1
    simp only [ge_iff_le, if_pos h0, arrModify_of_get? _ h0 ha, bind_ok, clearActiveHandle,
      arrModify_of_get? _ i0 (List.get?_eq_get i1'), List.get_eq_getElem, List.getElem_set_self,
      List.set_set, pure, Except.pure]
  · have e : b.activeHandle = -1 := by omega
    simp only [ge_iff_le, if_neg h0, pure, Except.pure]
    congr 3
    cases b
    simp only at e
    subst e
    rfl

/-- C11: for a bitmap `id` whose descriptor refers to no handle or to a handle
of the table, `FTGLSetBitmapParams` and `FTGLSetBitmapSize` return, and leave
the descriptor with the new size word and no handle, the slot it referred to
empty, every other descriptor and slot and the rest of the state unchanged; a
following `FTGLCmdBitmap(id)` sends the source, layout and size words again. -/
theorem size_setters_invalidate (env : Env) (id : Int) (s : FTGLInstance) (b : BitmapInfo)
    (filter wrapx wrapy w h : Nat) (hb : arrGet s.bitmaps id = .ok b)
    (hh : -1 ≤ b.activeHandle) (hlen : b.activeHandle < s.bitmapHandles.length) :
    Returns (FTGLSetBitmapParams env id filter wrapx wrapy s)
      (Invalidated env id b
        (u32 (env.hdr.FT_BITMAP_SIZE (u8 filter) (u8 wrapx) (u8 wrapy) 0 0) |||
          (b.bitmapSize &&& 0x1FFFF)) s) ∧
    Returns (FTGLSetBitmapSize env id w h s)
      (Invalidated env id b
        (u32 (env.hdr.FT_BITMAP_SIZE 0 0 0 (u16 w) (u16 h)) |||
          (b.bitmapSize &&& 0xFFFE0000)) s) :=
  ⟨⟨_, FTGLSetBitmapParams_eq env id filter wrapx wrapy hb hh hlen,
      invalidated_of_eq hb hlen rfl⟩,
    ⟨_, FTGLSetBitmapSize_eq env id w h hb hh hlen, invalidated_of_eq hb hlen rfl⟩⟩

/-- C12 (the code departs from the claim): a bitmap is created 300 pixels wide
and 10 lines high, then `FTGLSetBitmapSize(id, 10, 10)` is called;
`FTGLGetBitmapSize` then reports the width 266, not 10: the mask `~0x1FFFF`
keeps bit 17 of the old size word, which is the top bit of the old width. -/
theorem FTGLSetBitmapSize_keeps_a_width_bit :
    Returns (do
        let (id, s) ← FTGLCreateBitmap avr ft800.FT_L8 300 10 (initialized avr)
        let s ← FTGLSetBitmapSize avr id 10 10 s
        FTGLGetBitmapSize id s)
      (fun r => r = (266, 10)) := by
  decide!

/-- C13 (the code departs from the claim): a bitmap is created 300 pixels wide
and 10 lines high, then `FTGLSetBitmapParams(id, FT_NEAREST, FT_BORDER,
FT_BORDER)` is called; `FTGLGetBitmapSize` reported (300, 10) before the call
and reports (44, 10) after it: the mask `0x1FFFF` drops bit 17 of the size
word, which is the top bit of the width. -/
theorem FTGLSetBitmapParams_drops_a_width_bit :
    Returns (do
        let (id, s) ← FTGLCreateBitmap avr ft800.FT_L8 300 10 (initialized avr)
        let before ← FTGLGetBitmapSize id s
        let s ← FTGLSetBitmapParams avr id ft800.FT_NEAREST ft800.FT_BORDER ft800.FT_BORDER s
        let after ← FTGLGetBitmapSize id s
        pure (before, after))
      (fun r => r = ((300, 10), (44, 10))) := by
  decide!

/-! ## The touch sample -/

theorem land_ffff (n : Nat) : n &&& 0xFFFF = n % 65536 := by
  have h : (0xFFFF : Nat) = 2 ^ 16 - 1 := rfl
  rw [h, Nat.and_pow_two_sub_one_eq_mod]

theorem FTGLSwapBuffers_ok {env : Env} {s s' : FTGLInstance}
    (h : FTGLSwapBuffers env s = .ok s') :
    s'.touchTag = u8 (u16 (env.regTouchTag s'.waits)) ∧
    (u32 (env.regTouchXY s'.waits) = 0x80008000 →
      s'.hasTouch = 0 ∧ s'.touchX = s.touchX ∧ s'.touchY = s.touchY) ∧
    (u32 (env.regTouchXY s'.waits) ≠ 0x80008000 →
      s'.hasTouch = 1 ∧ s'.touchY = u32 (env.regTouchXY s'.waits) % 65536 ∧
      s'.touchX = u32 (env.regTouchXY s'.waits) / 65536) ∧
    s'.bitmaps = s.bitmaps ∧ s'.bitmapHandles = s.bitmapHandles ∧
    s'.lastHandle = s.lastHandle ∧ s'.nextHandle = s.nextHandle ∧
    s'.bitmapIndex = s.bitmapIndex ∧ s'.graphicsRamIndex = s.graphicsRamIndex ∧
    s'.graphicsContext = s.graphicsContext ∧ s'.commandContext = s.commandContext := by
  simp only [FTGLSwapBuffers, bind_eq_ok] at h
  obtain ⟨s1, h1, s2, h2, s3, h3, h4⟩ := h
  obtain ⟨a1, _⟩ := DLCommand_ok h1
  obtain ⟨a2, _⟩ := DLCommand_ok h2
  obtain ⟨a3, _⟩ := WaitForQueueEmpty_ok h3
  have a4 : host s3 = host s := by
    rw [a3, ← a1, ← a2]
    simp only [WriteReg16, FTHWWrite, FTHWEndAppendWrite]
    split <;> rfl
  obtain ⟨b1, b2, b3, b4, b5, b6, b7, b8, b9, b10, b11, b12⟩ := host_eq_fields a4
  have hx : ∀ v, v < 2 ^ 32 → (v >>> 16) &&& 0xFFFF = v / 65536 := by
    intro v hv
    rw [land_ffff, Nat.shiftRight_eq_div_pow]
    apply Nat.mod_eq_of_lt
    have : v / 2 ^ 16 < 65536 := by omega
    exact this
  have hv : u32 (env.regTouchXY s3.waits) < 2 ^ 32 := Nat.mod_lt _ (by decide)
  split at h4
  · rename_i hs
    rw [pure_eq_ok] at h4
    subst h4
    refine ⟨rfl, fun _ => ⟨rfl, b10, b11⟩, fun hne => absurd hs hne, b3, b5, b6, b7, b4, b8, b1, b2⟩
  · rename_i hs
    rw [pure_eq_ok] at h4
    subst h4
    refine ⟨rfl, fun he => absurd he hs, fun _ => ⟨rfl, ?_, ?_⟩, b3, b5, b6, b7, b4, b8, b1, b2⟩
    · exact land_ffff _
    · exact hx _ hv

theorem FTGLSwapBuffers_returns {env : Env} (hd : env.Drains) (s : FTGLInstance) :
    ∃ s', FTGLSwapBuffers env s = .ok s' := by
  obtain ⟨s1, h1⟩ := DLCommand_returns hd env.hdr.FT_DISPLAY s
  obtain ⟨s2, h2⟩ := DLCommand_returns hd env.hdr.FT_CMD_SWAP s1
  obtain ⟨s3, h3⟩ := WaitForQueueEmpty_returns hd
    (WriteReg16 env.hdr env.hdr.FT_REG_CMD_WRITE (FTHWEndAppendWrite s2).cmdQueueWriteIndex
      (FTHWEndAppendWrite s2))
  simp only [FTGLSwapBuffers, FTGLDisplay, FTGLCmdSwap, h1, h2, h3, bind_ok]
  split <;> exact ⟨_, rfl⟩

/-- C14 (the code departs from the claim where `int` is wider than 16 bits):
after `FTGLSwapBuffers` has read the value `val` of the touch register,
`FTGLHasTouch` is 0 for 0x80008000 and 1 for every other value, and the
fields `touchY` and `touchX` hold the low and the high half of `val`.  Where
`int` has 16 bits `FTGLTouchY` and `FTGLTouchX` return the halves read as
signed 16-bit integers; where it is wider they return them as unsigned values:
on the ARM build the register value 0x0000FFFF gives `FTGLTouchY() = 65535`,
not -1, and 0xFFFE0005 gives `FTGLTouchX() = 65534`, not -2. -/
theorem touch_getters_drop_the_sign :
    (∀ env s, IfReturns (FTGLSwapBuffers env s) (fun s' =>
      (u32 (env.regTouchXY s'.waits) = 0x80008000 → FTGLHasTouch s' = 0) ∧
      (u32 (env.regTouchXY s'.waits) ≠ 0x80008000 →
        FTGLHasTouch s' = 1 ∧
        s'.touchY = u32 (env.regTouchXY s'.waits) % 65536 ∧
        s'.touchX = u32 (env.regTouchXY s'.waits) / 65536 ∧
        (env.sizeofInt = 2 →
          FTGLTouchY env s' = i16 (u32 (env.regTouchXY s'.waits) % 65536 : Nat) ∧
          FTGLTouchX env s' = i16 (u32 (env.regTouchXY s'.waits) / 65536 : Nat))))) ∧
    (∀ env s, env.Drains → ∃ s', FTGLSwapBuffers env s = .ok s') ∧
    Returns (FTGLSwapBuffers (touchDevice 4 (fun _ => 0x0000FFFF) (fun _ => 0))
        (initialized (touchDevice 4 (fun _ => 0x0000FFFF) (fun _ => 0))))
      (fun s' => FTGLHasTouch s' = 1 ∧
        FTGLTouchY (touchDevice 4 (fun _ => 0x0000FFFF) (fun _ => 0)) s' = 65535 ∧
        i16 (0x0000FFFF % 65536 : Nat) = -1) ∧
    Returns (FTGLSwapBuffers (touchDevice 4 (fun _ => 0xFFFE0005) (fun _ => 0))
        (initialized (touchDevice 4 (fun _ => 0xFFFE0005) (fun _ => 0))))
      (fun s' => FTGLHasTouch s' = 1 ∧
        FTGLTouchX (touchDevice 4 (fun _ => 0xFFFE0005) (fun _ => 0)) s' = 65534 ∧
        i16 (0xFFFE0005 / 65536 : Nat) = -2) := by
  refine ⟨?_, fun env s hd => FTGLSwapBuffers_returns hd s, by decide!, by decide!⟩
  intro env s s' h
  obtain ⟨_, a2, a3, _⟩ := FTGLSwapBuffers_ok h
  refine ⟨fun he => ?_, fun hne => ?_⟩
  · simp [FTGLHasTouch, (a2 he).1]
  · obtain ⟨c1, c2, c3⟩ := a3 hne
    refine ⟨by simp [FTGLHasTouch, c1], c2, c3, fun h2 => ?_⟩
    simp [FTGLTouchY, FTGLTouchX, intOfU16, h2, c2, c3]

/-! ## The controls -/

theorem u16_u16 (n : Nat) : u16 (u16 n) = u16 n := by
  unfold u16; omega

theorem appended_AlignBuffer (s : FTGLInstance) :
    ∃ pad, pad < 4 ∧ appended (AlignBuffer s).bus = appended s.bus ++ List.replicate pad 0 := by
  unfold AlignBuffer
  simp only [land_three, FTHWAppendWrite]
  split
  · exact ⟨4 - s.cmdQueueWriteIndex % 4, by omega, by simp [appended]⟩
  · exact ⟨0, by omega, by simp⟩

theorem FTGLCmdButton_ok {env : Env} {x y w h : Int} {font options : Nat} {str : List Nat}
    {len : Nat} {s s' : FTGLInstance}
    (e : FTGLCmdButton env x y w h font options str len s = .ok s') :
    host s' = host s ∧ ∃ pad, pad < 4 ∧ appended s'.bus = appended s.bus ++
      buttonBytes env.hdr x y w h font options str len ++ List.replicate pad 0 := by
  simp only [FTGLCmdButton, bind_eq_ok, pure_eq_ok] at e
  obtain ⟨s1, h1, s2, h2, rfl⟩ := e
  obtain ⟨a1, a2, _⟩ := EnsureSpace_ok h1
  obtain ⟨b1, b2, _⟩ := AppendString_ok h2
  obtain ⟨pad, hp, c⟩ := appended_AlignBuffer s2
  refine ⟨?_, pad, hp, ?_⟩
  · rw [host_AlignBuffer, b1]
    simp only [host_Append16, host_Append32, a1]
  · rw [c, b2]
    simp only [appended_Append16, appended_Append32, a2, buttonBytes, List.append_assoc, u16_u16]

theorem FTGLCmdButton_returns {env : Env} (hd : env.Drains) (x y w h : Int) (font options : Nat)
    {str : List Nat} {len : Nat} (hl : u16 len ≤ str.length) (s : FTGLInstance) :
    ∃ s', FTGLCmdButton env x y w h font options str len s = .ok s' := by
  obtain ⟨s1, h1⟩ := EnsureSpace_returns hd (Aligned (4 + 2 * 6 + u16 len)) s
  simp only [FTGLCmdButton, h1, bind_ok, AppendString, u16_u16, if_pos hl, pure, Except.pure]
  exact ⟨_, rfl⟩

theorem strlen_le (str : List Nat) : strlen str ≤ str.length :=
  (List.takeWhile_sublist _).length_le

theorem FTUIEnd_ok {env : Env} {g : FTUIState} {s : FTGLInstance} {e : FTUIState × FTGLInstance}
    (h : FTUIEnd env g s = .ok e) :
    FTGLSwapBuffers env s = .ok e.2 ∧
    e.1.hadTouch = g.hasTouch ∧ e.1.hasTouch = i8 (FTGLHasTouch e.2) ∧
    (e.1.hasTouch ≠ 0 →
      e.1.touchX = i16 (FTGLTouchX env e.2) ∧ e.1.touchY = i16 (FTGLTouchY env e.2)) ∧
    (e.1.hasTouch = 0 → e.1.touchX = g.touchX ∧ e.1.touchY = g.touchY) ∧
    e.1.lastTag = i8 g.touchTag ∧ e.1.touchTag = i16 (FTGLTouchTag e.2) ∧
    e.1.active = g.active ∧ e.1.activeTag = g.activeTag ∧
    e.1.numbersImage = g.numbersImage := by
  simp only [FTUIEnd, bind_eq_ok, pure_eq_ok] at h
  obtain ⟨s1, h1, rfl⟩ := h
  refine ⟨h1, ?_⟩
  dsimp only
  by_cases c : i8 (FTGLHasTouch s1) ≠ 0
  · rw [if_pos c]
    exact ⟨rfl, rfl, fun _ => ⟨rfl, rfl⟩, fun h0 => absurd h0 c, rfl, rfl, rfl, rfl, rfl⟩
  · rw [if_neg c]
    exact ⟨rfl, rfl, fun h0 => absurd h0 c, fun _ => ⟨rfl, rfl⟩, rfl, rfl, rfl, rfl, rfl⟩

theorem FTUIEnd_returns {env : Env} (hd : env.Drains) (g : FTUIState) (s : FTGLInstance) :
    ∃ e, FTUIEnd env g s = .ok e := by
  obtain ⟨s1, h1⟩ := FTGLSwapBuffers_returns hd s
  simp only [FTUIEnd, h1, bind_ok]
  exact ⟨_, rfl⟩

theorem intValue_ok {env : Env} {v : Int} (h : IsInt env v) : intValue env v = .ok v := by
  unfold intValue
  rw [if_pos h]
  rfl

theorem isInt_between {env : Env} {a b v : Int} (ha : IsInt env a) (hb : IsInt env b)
    (h1 : a ≤ v) (h2 : v ≤ b) : IsInt env v := by
  unfold IsInt at *
  omega

theorem intValue_eq_ok {env : Env} {v r : Int} (e : intValue env v = .ok r) :
    IsInt env v ∧ r = v := by
  unfold intValue at e
  by_cases c : IsInt env v
  · rw [if_pos c] at e
    exact ⟨c, (pure_eq_ok.mp e).symm⟩
  · rw [if_neg c] at e
    cases e

theorem inRect_iff (g : FTUIState) (x y w h : Int) :
    (FTUIInRect g x y w h ≠ 0 ↔ Inside g x y w h) ∧
    (FTUIInRect g x y w h = 1 ↔ Inside g x y w h) ∧
    (FTUIInRect g x y w h = 0 ↔ ¬ Inside g x y w h) := by
  unfold FTUIInRect Inside
  split_ifs <;> simp <;> omega

theorem FTUIInRect_checked_eq {env : Env} {g : FTUIState} {x y w h : Int}
    (hx : IsInt env (x + w)) (hy : IsInt env (y + h)) :
    FTUIInRect.checked env g x y w h = .ok (FTUIInRect g x y w h) := by
  unfold FTUIInRect.checked FTUIInRect
  simp only [intValue_ok hx, intValue_ok hy, bind_ok]
  split_ifs <;> rfl

theorem FTUIInRect_checked_ok {env : Env} {g : FTUIState} {x y w h r : Int}
    (e : FTUIInRect.checked env g x y w h = .ok r) : r = FTUIInRect g x y w h := by
  unfold FTUIInRect.checked at e
  unfold FTUIInRect
  by_cases c1 : g.touchX < x
  · rw [if_pos c1] at e ⊢
    exact (pure_eq_ok.mp e).symm
  · rw [if_neg c1] at e ⊢
    obtain ⟨right, hr, e⟩ := bind_eq_ok.mp e
    obtain ⟨_, rfl⟩ := intValue_eq_ok hr
    by_cases c2 : g.touchX > x + w
    · rw [if_pos c2] at e ⊢
      exact (pure_eq_ok.mp e).symm
    · rw [if_neg c2] at e ⊢
      by_cases c3 : g.touchY < y
      · rw [if_pos c3] at e ⊢
        exact (pure_eq_ok.mp e).symm
      · rw [if_neg c3] at e ⊢
        obtain ⟨bottom, hb, e⟩ := bind_eq_ok.mp e
        obtain ⟨_, rfl⟩ := intValue_eq_ok hb
        by_cases c4 : g.touchY > y + h
        · rw [if_pos c4] at e ⊢
          exact (pure_eq_ok.mp e).symm
        · rw [if_neg c4] at e ⊢
          exact (pure_eq_ok.mp e).symm

theorem buttonUpdate_returns {env : Env} (id : Int) {x y w h : Int} (g : FTUIState)
    (hx : IsInt env (x + w)) (hy : IsInt env (y + h)) :
    ∃ u, buttonUpdate env id x y w h g = .ok u := by
  unfold buttonUpdate
  simp only [FTUIInRect_checked_eq hx hy, bind_ok]
  split_ifs <;> exact ⟨_, rfl⟩

theorem buttonUpdate_release {env : Env} {id x y w h : Int} {g : FTUIState}
    {u : Int × Int × FTUIState} (ha : g.active = id) (hn : g.hasTouch = 0)
    (e : buttonUpdate env id x y w h g = .ok u) :
    u = (0, if Inside g x y w h then 1 else 0, { g with active := -1 }) := by
  have k := (inRect_iff g x y w h).1
  unfold buttonUpdate at e
  rw [if_pos ha, if_pos (by simp [hn])] at e
  obtain ⟨r, hr, e⟩ := bind_eq_ok.mp e
  rw [FTUIInRect_checked_ok hr] at e
  by_cases c : Inside g x y w h
  · rw [if_pos (k.mpr c)] at e
    rw [if_pos c]
    exact (pure_eq_ok.mp e).symm
  · rw [if_neg (fun q => c (k.mp q))] at e
    rw [if_neg c]
    exact (pure_eq_ok.mp e).symm

theorem buttonUpdate_hold {env : Env} {id x y w h : Int} {g : FTUIState}
    {u : Int × Int × FTUIState} (ha : g.active = id) (ht : g.hasTouch ≠ 0)
    (e : buttonUpdate env id x y w h g = .ok u) :
    u = (if Inside g x y w h then 1 else 0, 0, g) := by
  have k := (inRect_iff g x y w h).1
  unfold buttonUpdate at e
  rw [if_pos ha, if_neg (by simp [ht])] at e
  obtain ⟨r, hr, e⟩ := bind_eq_ok.mp e
  rw [FTUIInRect_checked_ok hr] at e
  by_cases c : Inside g x y w h
  · rw [if_pos (k.mpr c)] at e
    rw [if_pos c]
    exact (pure_eq_ok.mp e).symm
  · rw [if_neg (fun q => c (k.mp q))] at e
    rw [if_neg c]
    exact (pure_eq_ok.mp e).symm

theorem touched_iff (g : FTUIState) :
    FTUITouched g ≠ 0 ↔ g.hasTouch ≠ 0 ∧ g.hadTouch = 0 := by
  unfold FTUITouched
  by_cases c : g.hasTouch ≠ 0 ∧ ¬ g.hadTouch ≠ 0
  · rw [if_pos c]
    exact ⟨fun _ => ⟨c.1, by simpa using c.2⟩, fun _ => by decide⟩
  · rw [if_neg c]
    exact ⟨fun q => absurd rfl q, fun q => absurd ⟨q.1, by simp [q.2]⟩ c⟩

theorem buttonUpdate_activate {env : Env} {id x y w h : Int} {g : FTUIState}
    {u : Int × Int × FTUIState} (ha : g.active ≠ id)
    (ht : g.hasTouch ≠ 0) (hh : g.hadTouch = 0) (hi : Inside g x y w h)
    (e : buttonUpdate env id x y w h g = .ok u) :
    u = (1, 0, { g with active := i16 id }) := by
  have k := (inRect_iff g x y w h).1
  unfold buttonUpdate at e
  rw [if_neg ha, if_pos ((touched_iff g).mpr ⟨ht, hh⟩)] at e
  obtain ⟨r, hr, e⟩ := bind_eq_ok.mp e
  rw [FTUIInRect_checked_ok hr, if_pos (k.mpr hi)] at e
  exact (pure_eq_ok.mp e).symm

theorem buttonUpdate_idle {env : Env} {id x y w h : Int} {g : FTUIState}
    {u : Int × Int × FTUIState} (ha : g.active ≠ id)
    (hc : ¬ (g.hasTouch ≠ 0 ∧ g.hadTouch = 0 ∧ Inside g x y w h))
    (e : buttonUpdate env id x y w h g = .ok u) : u = (0, 0, g) := by
  have k := (inRect_iff g x y w h).1
  unfold buttonUpdate at e
  rw [if_neg ha] at e
  by_cases t : FTUITouched g ≠ 0
  · rw [if_pos t] at e
    obtain ⟨r, hr, e⟩ := bind_eq_ok.mp e
    obtain ⟨t1, t2⟩ := (touched_iff g).mp t
    rw [FTUIInRect_checked_ok hr, if_neg (fun q => hc ⟨t1, t2, k.mp q⟩)] at e
    exact (pure_eq_ok.mp e).symm
  · rw [if_neg t] at e
    exact (pure_eq_ok.mp e).symm

theorem FTUIButton_ok {env : Env} {id x y w h font : Int} {text : List Nat} {g : FTUIState}
    {s : FTGLInstance} {r : Int × FTUIState × FTGLInstance}
    (e : FTUIButton env id x y w h font text g s = .ok r) :
    ∃ u, buttonUpdate env id x y w h g = .ok u ∧
      r.1 = u.2.1 ∧ r.2.1 = u.2.2 ∧ host r.2.2 = host s ∧
      DrawnButton env.hdr x y w h font (if u.1 ≠ 0 then env.hdr.FT_OPT_FLAT else 0) text
        (strlen text + 1) s r.2.2 := by
  unfold FTUIButton at e
  obtain ⟨u, hu, e⟩ := bind_eq_ok.mp e
  obtain ⟨hover, pressed, g1⟩ := u
  dsimp only at e
  obtain ⟨s1, h1, e⟩ := bind_eq_ok.mp e
  obtain rfl := pure_eq_ok.mp e
  refine ⟨_, hu, rfl, rfl, ?_⟩
  dsimp only
  split at h1
  · rename_i c
    obtain ⟨a1, pad, hp, a2⟩ := FTGLCmdButton_ok h1
    rw [if_pos c]
    exact ⟨a1, pad, [], hp, by rw [a2, List.append_nil]⟩
  · rename_i c
    obtain ⟨a1, pad, hp, a2⟩ := FTGLCmdButton_ok h1
    rw [if_neg c]
    exact ⟨a1, pad, [], hp, by rw [a2, List.append_nil]⟩

theorem FTUIButton_returns {env : Env} (hd : env.Drains) (id : Int) {x y w h : Int} (font : Int)
    {text : List Nat} (ht : strlen text < text.length) (g : FTUIState) (s : FTGLInstance)
    (hx : IsInt env (x + w)) (hy : IsInt env (y + h)) :
    ∃ r, FTUIButton env id x y w h font text g s = .ok r := by
  have hl : u16 (strlen text + 1) ≤ text.length := by
    have : u16 (strlen text + 1) ≤ strlen text + 1 := Nat.mod_le _ _
    omega
  obtain ⟨⟨hover, pressed, g1⟩, hu⟩ := buttonUpdate_returns id g hx hy
  unfold FTUIButton
  rw [hu, bind_ok]
  dsimp only
  split
  · obtain ⟨s1, h1⟩ := FTGLCmdButton_returns hd x y w h (toU16 font) env.hdr.FT_OPT_FLAT hl s
    rw [h1]; exact ⟨_, rfl⟩
  · obtain ⟨s1, h1⟩ := FTGLCmdButton_returns hd x y w h (toU16 font) 0 hl s
    rw [h1]; exact ⟨_, rfl⟩

theorem i16_small {x : Int} (h0 : -32768 ≤ x) (h1 : x ≤ 32767) : i16 x = x := by
  unfold i16; omega

theorem drawable_iff {env : Env} {id : Int} {s : FTGLInstance} :
    Drawable env id s ↔ ∃ b, arrGet s.bitmaps id = .ok b ∧
      (0 ≤ b.activeHandle ∨
        (1 ≤ env.FTGL_NUM_BITMAP_HANDLES ∧ s.nextHandle ≠ s.lastHandle ∧
          arrGet s.bitmapHandles s.nextHandle = .ok (-1) ∧ i8 s.nextHandle = s.nextHandle)) := by
  unfold Drawable
  cases h : arrGet s.bitmaps id with
  | ok b => simp
  | error e => simp

theorem FTGLCmdBitmapCell_drawable {env : Env} (hd : env.Drains) {id x y cell : Int}
    {s : FTGLInstance} (hb : Drawable env id s) :
    Returns (FTGLCmdBitmapCell env id x y cell s) (fun s' =>
      (∃ b, arrGet s'.bitmaps id = .ok b ∧ 0 ≤ b.activeHandle) ∧
      ∃ after, appended s'.bus = appended s.bus ++ after) := by
  obtain ⟨b, hg, hc⟩ := drawable_iff.mp hb
  by_cases hpos : 0 ≤ b.activeHandle
  · obtain ⟨p1, p2⟩ := @FTGLCmdBitmapCell_hit env id x y cell s b hg hpos
    obtain ⟨s', e⟩ := p2 hd
    obtain ⟨a1, a2⟩ := p1 s' e
    obtain ⟨_, _, f3, _⟩ := host_eq_fields a1
    exact ⟨s', e, ⟨b, by rw [f3]; exact hg, hpos⟩, _, a2⟩
  · rcases hc with hc | ⟨hN, hne, hslot, h8⟩
    · exact absurd hc hpos
    · obtain ⟨p1, p2⟩ := @FTGLCmdBitmapCell_miss env id x y cell s b hN hg (by omega) hne hslot h8
      obtain ⟨s', e⟩ := p2 hd
      obtain ⟨a1, a2⟩ := p1 s' e
      obtain ⟨_, _, f3, _⟩ := host_eq_fields a1
      obtain ⟨i0, i1, _⟩ := arrGet_ok hg
      obtain ⟨n0, _, _⟩ := arrGet_ok hslot
      refine ⟨s', e, ⟨{ b with activeHandle := s.nextHandle }, ?_, ?_⟩, _, a2⟩
      · rw [f3]; exact arrGet_set_self _ i0 i1
      · exact n0

/-- C16 (amended): for a control id in the range of `int16_t` and a
rectangle whose sums `x + w` and `y + h` are representable in `int`,
`FTUIButton` makes exactly this transition.  With `id` active and no touch it
returns 1 if the last touch point is inside the rectangle and 0 if not, and
leaves no control active.  With `id` active and a touch it returns 0, changes
nothing and draws with `FT_OPT_FLAT` exactly when the point is inside.  With
another control or none active it returns 0; if the touch began this frame
inside the rectangle it makes `id` active and draws with `FT_OPT_FLAT`,
otherwise it changes nothing and draws with options 0.  The state of the
graphics layer outside the queue is unchanged, and on a device that drains its
queue the call returns for a terminated label. -/
theorem FTUIButton_transition (env : Env) (id x y w h font : Int) (text : List Nat)
    (g : FTUIState) (s : FTGLInstance) (hid0 : -32768 ≤ id) (hid1 : id ≤ 32767)
    (hxw : IsInt env (x + w)) (hyh : IsInt env (y + h)) :
    IfReturns (FTUIButton env id x y w h font text g s) (fun r =>
      host r.2.2 = host s ∧
      (g.active = id → g.hasTouch = 0 →
        r.1 = (if Inside g x y w h then 1 else 0) ∧ r.2.1 = { g with active := -1 } ∧
        DrawnButton env.hdr x y w h font 0 text (strlen text + 1) s r.2.2) ∧
      (g.active = id → g.hasTouch ≠ 0 →
        r.1 = 0 ∧ r.2.1 = g ∧
        DrawnButton env.hdr x y w h font (if Inside g x y w h then env.hdr.FT_OPT_FLAT else 0)
          text (strlen text + 1) s r.2.2) ∧
      (g.active ≠ id → g.hasTouch ≠ 0 ∧ g.hadTouch = 0 ∧ Inside g x y w h →
        r.1 = 0 ∧ r.2.1 = { g with active := id } ∧
        DrawnButton env.hdr x y w h font env.hdr.FT_OPT_FLAT text (strlen text + 1) s r.2.2) ∧
      (g.active ≠ id → ¬ (g.hasTouch ≠ 0 ∧ g.hadTouch = 0 ∧ Inside g x y w h) →
        r.1 = 0 ∧ r.2.1 = g ∧
        DrawnButton env.hdr x y w h font 0 text (strlen text + 1) s r.2.2)) ∧
    (env.Drains → strlen text < text.length →
      ∃ r, FTUIButton env id x y w h font text g s = .ok r) := by
  have h16 : i16 id = id := i16_small hid0 hid1
  refine ⟨?_, fun hd ht => FTUIButton_returns hd id font ht g s hxw hyh⟩
  intro r hr
  obtain ⟨u, hu, a1, a2, a3, a4⟩ := FTUIButton_ok hr
  refine ⟨a3, ?_, ?_, ?_, ?_⟩
  · intro ha hn
    rw [buttonUpdate_release ha hn hu] at a1 a2 a4
    exact ⟨a1, a2, a4⟩
  · intro ha ht
    rw [buttonUpdate_hold ha ht hu] at a1 a2 a4
    refine ⟨a1, a2, ?_⟩
    by_cases c : Inside g x y w h
    · rw [if_pos c] at a4 ⊢; exact a4
    · rw [if_neg c] at a4 ⊢; exact a4
  · rintro ha ⟨t, hh, hi⟩
    rw [buttonUpdate_activate ha t hh hi hu, h16] at a1 a2 a4
    exact ⟨a1, a2, a4⟩
  · intro ha hc
    rw [buttonUpdate_idle ha hc hu] at a1 a2 a4
    exact ⟨a1, a2, a4⟩

/-! ## Concrete runs of the controls -/

theorem touchDevice_drains (n : Nat) (xy tag : Nat → Nat) : (touchDevice n xy tag).Drains := by
  intro k c
  exact ⟨(c, c), by simp [touchDevice, idleDevice], rfl⟩

/-- Witness of C11: on the AVR build, after one bitmap has been drawn from
handle 0, `FTGLSetBitmapSize(0, 4, 4)` followed by `FTGLCmdBitmap(0, 1, 1)`
selects handle 1 and sends the source, the layout and the new size word
before the draw. -/
theorem size_setters_invalidate_witness :
    arrGet drawnOnce.bitmaps 0 = .ok { firstBitmap with activeHandle := 0 } ∧
    Returns (run avr [.SetBitmapSize 0 4 4, .CmdBitmap 0 1 1] drawnOnce) (fun s =>
      appended s.bus = appended drawnOnce.bus ++ bytesOf [ft800.FT_BITMAP_HANDLE 1,
        ft800.FT_BITMAP_SOURCE 0, ft800.FT_BITMAP_LAYOUT ft800.FT_L8 8 8,
        ft800.FT_BITMAP_SIZE 1 0 0 4 4, ft800.FT_BEGIN ft800.FT_BITMAPS,
        ft800.FT_VERTEX2II 1 1 1 0]) ∧
    (Returns (FTGLSetBitmapParams avr 0 0 1 1 drawnOnce)
      (Invalidated avr 0 { firstBitmap with activeHandle := 0 }
        (u32 (avr.hdr.FT_BITMAP_SIZE (u8 0) (u8 1) (u8 1) 0 0) |||
          (({ firstBitmap with activeHandle := 0 } : BitmapInfo).bitmapSize &&& 0x1FFFF))
        drawnOnce) ∧
    Returns (FTGLSetBitmapSize avr 0 4 4 drawnOnce)
      (Invalidated avr 0 { firstBitmap with activeHandle := 0 }
        (u32 (avr.hdr.FT_BITMAP_SIZE 0 0 0 (u16 4) (u16 4)) |||
          (({ firstBitmap with activeHandle := 0 } : BitmapInfo).bitmapSize &&& 0xFFFE0000))
        drawnOnce)) :=
  ⟨by decide!, by decide!,
    size_setters_invalidate avr 0 drawnOnce { firstBitmap with activeHandle := 0 } 0 1 1 4 4
      (by decide!) (by decide!) (by decide!)⟩

/-- Witness of C16: with a finger just down at (20, 20) and no control active,
the button with id 1 at (10, 10, 50, 50) returns 0 and becomes the active
control. -/
theorem FTUIButton_transition_witness :
    Returns (FTUIButton (tapDevice 2) 1 10 10 50 50 27 [79, 75, 0] fingerDown
        (started (tapDevice 2)).2)
      (fun r => r.1 = 0 ∧ r.2.1 = { fingerDown with active := 1 }) := by
  obtain ⟨h1, h2⟩ := FTUIButton_transition (tapDevice 2) 1 10 10 50 50 27 [79, 75, 0] fingerDown
    (started (tapDevice 2)).2 (by decide) (by decide) (by decide) (by decide)
  obtain ⟨r, hr⟩ := h2 (touchDevice_drains _ _ _) (by decide)
  obtain ⟨_, _, _, c, _⟩ := h1 r hr
  obtain ⟨a, b, _⟩ := c (by decide) (by decide)
  exact ⟨r, hr, a, b⟩

/-- Counterexample to C16 as stated: where `int` has four bytes, with a finger
just down inside the rectangle and no control active, `FTUIButton` with the id
40000 leaves -25536 as the active id, not 40000.  And where `int` has two
bytes, with the finger just down at (20, 20), `FTUIButton` with the id 1 and
the rectangle (10, 10, 32760, 50) computes `x + w` = 32770, which is not
representable in `int`, so the call is undefined. -/
theorem FTUIButton_truncates_id_40000 :
    Returns (FTUIButton (tapDevice 4) 40000 10 10 50 50 27 [79, 75, 0] fingerDown
        (started (tapDevice 4)).2)
      (fun r => r.1 = 0 ∧ FTUIGetActive r.2.1 = -25536 ∧
        r.2.1 ≠ { fingerDown with active := 40000 }) ∧
    FTUIButton (tapDevice 2) 1 10 10 32760 50 27 [79, 75, 0] fingerDown
        (started (tapDevice 2)).2 = .error .overflow :=
  ⟨by decide!, by decide!⟩

/-- C17 (the code departs from the claim): a key row with the keys 65, 200 and
67 is drawn for four frames while the device reports tag 0, then tag 200, then
tag 0.  The third call activates the control with sub-tag 200; the fourth call
releases it and returns 0, not 200, because `lastTag` is an `int8_t` and holds
-56 for the tag 200.  `FTUIKeyRows` does the same.  With the tag 65 the fourth
call returns 65. -/
theorem key_press_lost_for_tag_200 :
    Returns (frames (keyDevice 200) (FTUIKeyRow (keyDevice 200) 1 10 10 200 50 27 0
        [65, 200, 67, 0]) 4 (started (keyDevice 200)).1 (started (keyDevice 200)).2)
      (fun r => r.1 = [(0, -1, 0), (0, -1, 0), (0, 1, 200), (0, -1, -1)]) ∧
    Returns (frames (keyDevice 200) (FTUIKeyRows (keyDevice 200) 1 10 10 200 50 27 2
        [65, 200, 67, 0, 68, 69, 0, 0]) 4 (started (keyDevice 200)).1 (started (keyDevice 200)).2)
      (fun r => r.1 = [(0, -1, 0), (0, -1, 0), (0, 1, 200), (0, -1, -1)]) ∧
    Returns (frames (keyDevice 65) (FTUIKeyRow (keyDevice 65) 1 10 10 200 50 27 0
        [65, 200, 67, 0]) 4 (started (keyDevice 65)).1 (started (keyDevice 65)).2)
      (fun r => r.1 = [(0, -1, 0), (0, -1, 0), (0, 1, 65), (65, -1, -1)]) := by
  refine ⟨by decide!, by decide!, by decide!⟩

/-- C18 (the code departs from the claim): after three frames in which the
device reports tag 0, then tag 200, then tag 0, the key rows with id 1 are
active with the remembered sub-tag 200, the current tag is 0 and the tag of
the previous frame was 200, but `lastTag` holds -56.  The next call releases
the control and reports no press. -/
theorem key_release_compares_truncated_tag :
    Returns (frames (keyDevice 200) (FTUIKeyRows (keyDevice 200) 1 10 10 200 50 27 2
        [65, 200, 67, 0, 68, 69, 0, 0]) 3 (started (keyDevice 200)).1 (started (keyDevice 200)).2)
      (fun r =>
        FTUIGetActive r.2.1 = 1 ∧ FTUIGetActiveTag r.2.1 = 200 ∧ FTUITouchTag r.2.1 = 0 ∧
        r.2.1.lastTag = -56 ∧
        Returns (FTUIKeyRows (keyDevice 200) 1 10 10 200 50 27 2 [65, 200, 67, 0, 68, 69, 0, 0]
            r.2.1 r.2.2)
          (fun q => q.1 = 0 ∧ FTUIGetActive q.2.1 = -1 ∧ FTUIGetActiveTag q.2.1 = -1)) := by
  decide!

/-! ## The result of `FTGLInitialize` and the padding of `AlignBuffer` -/

/-- C21 (the code departs from the claim): `FTGLInitialize` returns 0 whatever
the identity register reads back; on a device whose register reads 0 instead
of 0x7C it returns 0, not -1, and goes on to configure the display. -/
theorem FTGLInitialize_always_succeeds :
    (∀ env s, (FTGLInitialize env s).1 = 0) ∧
    u8 silentDevice.regId ≠ 0x7C ∧
    (FTGLInitialize silentDevice (powerOn silentDevice)).1 = 0 ∧
    (FTGLInitialize silentDevice (powerOn silentDevice)).2 =
      (FTGLInitialize avr (powerOn avr)).2 :=
  ⟨fun _ _ => rfl, by decide, rfl, by decide!⟩

/-- C28: `AlignBuffer` appends `(4 - writeIndex mod 4) mod 4` bytes, all zero,
and leaves the write index a multiple of four; in a state whose write index
is a multiple of four it changes nothing, so a second call changes nothing. -/
theorem AlignBuffer_pads_with_zeros (s : FTGLInstance) :
    appended (AlignBuffer s).bus =
      appended s.bus ++ List.replicate ((4 - s.cmdQueueWriteIndex % 4) % 4) 0 ∧
    (AlignBuffer s).cmdQueueWriteIndex % 4 = 0 ∧
    (s.cmdQueueWriteIndex % 4 = 0 → AlignBuffer s = s) ∧
    AlignBuffer (AlignBuffer s) = AlignBuffer s := by
  have hz : s.cmdQueueWriteIndex % 4 = 0 → AlignBuffer s = s := by
    intro h
    unfold AlignBuffer
    simp only [land_three, h, ne_eq, not_true_eq_false, if_false]
  have ha : (AlignBuffer s).cmdQueueWriteIndex % 4 = 0 := aligned_AlignBuffer s
  refine ⟨?_, ha, hz, ?_⟩
  · by_cases h : s.cmdQueueWriteIndex % 4 = 0
    · rw [hz h, h]; simp
    · unfold AlignBuffer
      simp only [land_three, ne_eq, h, not_false_eq_true, if_true, FTHWAppendWrite]
      have e : (4 - s.cmdQueueWriteIndex % 4) % 4 = 4 - s.cmdQueueWriteIndex % 4 := by omega
      rw [e]
      simp [appended]
  · unfold AlignBuffer at ha ⊢
    simp only [land_three] at ha ⊢
    split
    · rename_i h
      rw [if_pos h] at ha
      rw [if_neg (by simpa using ha)]
    · rfl

/-! ## Saving and restoring the graphics context -/

theorem setAll_ok {env : Env} : ∀ (cs : List (Group × Nat)) {s s' : FTGLInstance},
    setAll env cs s = .ok s' →
    host s' = host { s with graphicsContext := settled s.graphicsContext cs } ∧
    appended s'.bus = appended s.bus ++ bytesOf (settledWords s.graphicsContext cs) := by
  intro cs
  induction cs with
  | nil =>
    intro s s' h
    simp only [setAll, pure_eq_ok] at h
    subst h
    exact ⟨rfl, by simp [settledWords, bytesOf]⟩
  | cons gv cs ih =>
    intro s s' h
    obtain ⟨g, v⟩ := gv
    simp only [setAll, bind_eq_ok] at h
    obtain ⟨s1, h1, h2⟩ := h
    obtain ⟨a1, a2⟩ := WRITE_DLCMD_ok h1
    obtain ⟨b1, b2⟩ := ih h2
    obtain ⟨f1, _⟩ := host_eq_fields a1
    simp only at f1
    constructor
    · rw [b1, f1]
      obtain ⟨g1, g2, g3, g4, g5, g6, g7, g8, g9, g10, g11, g12⟩ := host_eq_fields a1
      simp only [host, FTGLInstance.mk.injEq, settled, List.foldl_cons]
      simp only at g1 g2 g3 g4 g5 g6 g7 g8 g9 g10 g11 g12
      simp [*]
    · rw [b2, a2, f1]
      simp only [settledWords, bytesOf_append, List.append_assoc]

theorem setAll_returns {env : Env} (hd : env.Drains) : ∀ (cs : List (Group × Nat))
    (s : FTGLInstance), ∃ s', setAll env cs s = .ok s' := by
  intro cs
  induction cs with
  | nil => intro s; exact ⟨s, rfl⟩
  | cons gv cs ih =>
    intro s
    obtain ⟨g, v⟩ := gv
    obtain ⟨s1, h1⟩ := WRITE_DLCMD_returns hd g v s
    obtain ⟨s2, h2⟩ := ih s1
    exact ⟨s2, by simp only [setAll, h1, bind_ok]; exact h2⟩

theorem stacked_write_ok {env : Env} {g : Group} {v : Nat} {k k' : StackedInstance}
    {c : GraphicsContext} (h : k.WRITE_DLCMD env g v = .ok k')
    (hc : arrGet k.graphicsContext k.contextStackIndex = .ok c) :
    k'.contextStackIndex = k.contextStackIndex ∧
    arrGet k'.graphicsContext k.contextStackIndex = .ok (c.set g (u32 v)) ∧
    (∀ j : Int, j ≠ k.contextStackIndex →
      arrGet k'.graphicsContext j = arrGet k.graphicsContext j) ∧
    appended k'.inst.bus = appended k.inst.bus ++
      bytesOf (if c.get g ≠ u32 v then [v] else []) := by
  obtain ⟨i0, i1, g0⟩ := arrGet_ok hc
  simp only [StackedInstance.WRITE_DLCMD, hc, bind_ok] at h
  split at h
  · rename_i hne
    rw [arrModify_of_get? _ i0 g0] at h
    simp only [bind_ok, bind_eq_ok, pure_eq_ok] at h
    obtain ⟨inst, h1, rfl⟩ := h
    obtain ⟨_, a2⟩ := DLCommand_ok h1
    refine ⟨rfl, arrGet_set_self _ i0 i1, fun j hj => arrGet_set_ne _ _ i0 hj, ?_⟩
    rw [a2, if_pos hne]
    simp [bytesOf]
  · rename_i heq
    rw [pure_eq_ok] at h
    subst h
    have e : c.get g = u32 v := by simpa using heq
    refine ⟨rfl, ?_, fun _ _ => rfl, ?_⟩
    · rw [← e, set_get_self]; exact hc
    · rw [if_neg heq]; simp [bytesOf]

theorem stacked_write_returns {env : Env} (hd : env.Drains) (g : Group) (v : Nat)
    {k : StackedInstance} {c : GraphicsContext}
    (hc : arrGet k.graphicsContext k.contextStackIndex = .ok c) :
    ∃ k', k.WRITE_DLCMD env g v = .ok k' := by
  obtain ⟨i0, i1, g0⟩ := arrGet_ok hc
  simp only [StackedInstance.WRITE_DLCMD, hc, bind_ok]
  split
  · obtain ⟨inst, h1⟩ := DLCommand_returns hd (u32 v) k.inst
    rw [arrModify_of_get? _ i0 g0]
    simp only [bind_ok, h1]
    exact ⟨_, rfl⟩
  · exact ⟨k, rfl⟩

theorem stacked_setAll_ok {env : Env} : ∀ (cs : List (Group × Nat)) {k k' : StackedInstance}
    {c : GraphicsContext}, StackedInstance.setAll env cs k = .ok k' →
    arrGet k.graphicsContext k.contextStackIndex = .ok c →
    k'.contextStackIndex = k.contextStackIndex ∧
    arrGet k'.graphicsContext k.contextStackIndex = .ok (settled c cs) ∧
    (∀ j : Int, j ≠ k.contextStackIndex →
      arrGet k'.graphicsContext j = arrGet k.graphicsContext j) ∧
    appended k'.inst.bus = appended k.inst.bus ++ bytesOf (settledWords c cs) := by
  intro cs
  induction cs with
  | nil =>
    intro k k' c h hc
    simp only [StackedInstance.setAll, pure_eq_ok] at h
    subst h
    exact ⟨rfl, hc, fun _ _ => rfl, by simp [settledWords, bytesOf]⟩
  | cons gv cs ih =>
    intro k k' c h hc
    obtain ⟨g, v⟩ := gv
    simp only [StackedInstance.setAll, bind_eq_ok] at h
    obtain ⟨k1, h1, h2⟩ := h
    obtain ⟨a1, a2, a3, a4⟩ := stacked_write_ok h1 hc
    rw [← a1] at a2
    obtain ⟨b1, b2, b3, b4⟩ := ih h2 a2
    rw [a1] at b1 b2 b3
    refine ⟨b1, b2, fun j hj => (b3 j hj).trans (a3 j hj), ?_⟩
    rw [b4, a4]
    simp only [settledWords, bytesOf_append, List.append_assoc]

theorem stacked_setAll_returns {env : Env} (hd : env.Drains) : ∀ (cs : List (Group × Nat))
    {k : StackedInstance} {c : GraphicsContext},
    arrGet k.graphicsContext k.contextStackIndex = .ok c →
    ∃ k', StackedInstance.setAll env cs k = .ok k' := by
  intro cs
  induction cs with
  | nil => intro k c _; exact ⟨k, rfl⟩
  | cons gv cs ih =>
    intro k c hc
    obtain ⟨g, v⟩ := gv
    obtain ⟨k1, h1⟩ := stacked_write_returns hd g v hc
    obtain ⟨a1, a2, _, _⟩ := stacked_write_ok h1 hc
    rw [← a1] at a2
    obtain ⟨k2, h2⟩ := ih a2
    exact ⟨k2, by simp only [StackedInstance.setAll, h1, bind_ok]; exact h2⟩

theorem stacked_save_ok {env : Env} {k k' : StackedInstance} {c : GraphicsContext}
    (h : k.FTGLSaveContext env = .ok k')
    (hroom : k.contextStackIndex + 1 < k.graphicsContext.length)
    (h8 : k.contextStackIndex + 1 < 256)
    (hc : arrGet k.graphicsContext k.contextStackIndex = .ok c) :
    k'.contextStackIndex = k.contextStackIndex + 1 ∧
    arrGet k'.graphicsContext (k.contextStackIndex + 1 : Nat) = .ok c ∧
    arrGet k'.graphicsContext k.contextStackIndex = .ok c ∧
    k'.graphicsContext.length = k.graphicsContext.length ∧
    appended k'.inst.bus = appended k.inst.bus ++ bytesOf [env.hdr.FT_SAVE_CONTEXT] := by
  have e8 : u8 (k.contextStackIndex + 1) = k.contextStackIndex + 1 := Nat.mod_eq_of_lt h8
  have eb : (((k.contextStackIndex + 1 : Nat) : Int) - 1) = (k.contextStackIndex : Int) := by
    push_cast; ring
  have i0 : (0 : Int) ≤ ((k.contextStackIndex + 1 : Nat) : Int) := Int.natCast_nonneg _
  have g1 : k.graphicsContext.get? ((k.contextStackIndex + 1 : Nat) : Int).toNat =
      some (k.graphicsContext.get ⟨k.contextStackIndex + 1, hroom⟩) := by
    rw [Int.toNat_natCast]; exact List.get?_eq_get hroom
  simp only [StackedInstance.FTGLSaveContext, e8, eb, hc, bind_ok, arrModify_of_get? _ i0 g1,
    bind_eq_ok, pure_eq_ok] at h
  obtain ⟨inst, h1, rfl⟩ := h
  obtain ⟨_, a2⟩ := DLCommand_ok h1
  refine ⟨rfl, ?_, ?_, ?_, ?_⟩
  · exact arrGet_set_self _ i0 (by rw [Int.toNat_natCast]; exact hroom)
  · show arrGet (k.graphicsContext.set _ c) _ = _
    rw [arrGet_set_ne _ _ i0 (by push_cast; omega)]
    exact hc
  · show (k.graphicsContext.set _ c).length = _
    simp
  · rw [a2]; simp [bytesOf]

theorem stacked_save_returns {env : Env} (hd : env.Drains) {k : StackedInstance}
    {c : GraphicsContext} (hroom : k.contextStackIndex + 1 < k.graphicsContext.length)
    (h8 : k.contextStackIndex + 1 < 256)
    (hc : arrGet k.graphicsContext k.contextStackIndex = .ok c) :
    ∃ k', k.FTGLSaveContext env = .ok k' := by
  have e8 : u8 (k.contextStackIndex + 1) = k.contextStackIndex + 1 := Nat.mod_eq_of_lt h8
  have eb : (((k.contextStackIndex + 1 : Nat) : Int) - 1) = (k.contextStackIndex : Int) := by
    push_cast; ring
  have i0 : (0 : Int) ≤ ((k.contextStackIndex + 1 : Nat) : Int) := Int.natCast_nonneg _
  have g1 : k.graphicsContext.get? ((k.contextStackIndex + 1 : Nat) : Int).toNat =
      some (k.graphicsContext.get ⟨k.contextStackIndex + 1, hroom⟩) := by
    rw [Int.toNat_natCast]; exact List.get?_eq_get hroom
  obtain ⟨inst, h1⟩ := DLCommand_returns hd env.hdr.FT_SAVE_CONTEXT k.inst
  simp only [StackedInstance.FTGLSaveContext, e8, eb, hc, bind_ok, arrModify_of_get? _ i0 g1, h1]
  exact ⟨_, rfl⟩

theorem stacked_restore_ok {env : Env} {k k' : StackedInstance}
    (h : k.FTGLRestoreContext env = .ok k') :
    k'.contextStackIndex = u8 (k.contextStackIndex + 255) ∧
    k'.graphicsContext = k.graphicsContext ∧
    appended k'.inst.bus = appended k.inst.bus ++ bytesOf [env.hdr.FT_RESTORE_CONTEXT] := by
  simp only [StackedInstance.FTGLRestoreContext, bind_eq_ok, pure_eq_ok] at h
  obtain ⟨inst, h1, rfl⟩ := h
  obtain ⟨_, a2⟩ := DLCommand_ok h1
  exact ⟨rfl, rfl, by rw [a2]; simp [bytesOf]⟩

theorem stacked_restore_returns {env : Env} (hd : env.Drains) (k : StackedInstance) :
    ∃ k', k.FTGLRestoreContext env = .ok k' := by
  obtain ⟨inst, h1⟩ := DLCommand_returns hd env.hdr.FT_RESTORE_CONTEXT k.inst
  simp only [StackedInstance.FTGLRestoreContext, h1, bind_ok]
  exact ⟨_, rfl⟩

/-- C22 (amended): in a build with a context stack
(`FTGL_CONFIG_CONTEXT_STACK_DEPTH > 0`) and a free entry above the live one,
after `FTGLSaveContext`, any sequence of cached setter calls and
`FTGLRestoreContext` the stack index and the live cached context are those
from before the save.  In the shipped build (depth 0) the cached context after
the three steps is the one the setter calls left.  In both builds the command
stream is the save command, the words of the setters that changed the cache,
and the restore command, and on a device that drains its queue every call
returns. -/
theorem save_restore_context (env : Env) (cs : List (Group × Nat)) (s : FTGLInstance)
    (k : StackedInstance) (c : GraphicsContext)
    (hroom : k.contextStackIndex + 1 < k.graphicsContext.length)
    (h8 : k.contextStackIndex + 1 < 256)
    (hc : arrGet k.graphicsContext k.contextStackIndex = .ok c) :
    (IfReturns (do
        let k1 ← k.FTGLSaveContext env
        let k2 ← StackedInstance.setAll env cs k1
        k2.FTGLRestoreContext env)
      (fun k' =>
        k'.contextStackIndex = k.contextStackIndex ∧
        arrGet k'.graphicsContext k'.contextStackIndex = .ok c ∧
        appended k'.inst.bus = appended k.inst.bus ++
          bytesOf ([env.hdr.FT_SAVE_CONTEXT] ++ settledWords c cs ++
            [env.hdr.FT_RESTORE_CONTEXT])) ∧
      (env.Drains → ∃ k', (do
        let k1 ← k.FTGLSaveContext env
        let k2 ← StackedInstance.setAll env cs k1
        k2.FTGLRestoreContext env) = .ok k')) ∧
    (IfReturns (do
        let s1 ← FTGLSaveContext env s
        let s2 ← setAll env cs s1
        FTGLRestoreContext env s2)
      (fun s' =>
        s'.graphicsContext = settled s.graphicsContext cs ∧
        appended s'.bus = appended s.bus ++
          bytesOf ([env.hdr.FT_SAVE_CONTEXT] ++ settledWords s.graphicsContext cs ++
            [env.hdr.FT_RESTORE_CONTEXT])) ∧
      (env.Drains → ∃ s', (do
        let s1 ← FTGLSaveContext env s
        let s2 ← setAll env cs s1
        FTGLRestoreContext env s2) = .ok s')) := by
  refine ⟨⟨?_, ?_⟩, ⟨?_, ?_⟩⟩
  · intro k' h
    simp only [bind_eq_ok] at h
    obtain ⟨k1, h1, k2, h2, h3⟩ := h
    obtain ⟨a1, a2, a3, _, a5⟩ := stacked_save_ok h1 hroom h8 hc
    rw [← a1] at a2
    obtain ⟨b1, b2, b3, b4⟩ := stacked_setAll_ok cs h2 a2
    obtain ⟨c1, c2, c3⟩ := stacked_restore_ok h3
    have e : k'.contextStackIndex = k.contextStackIndex := by
      rw [c1, b1, a1]
      unfold u8; omega
    refine ⟨e, ?_, ?_⟩
    · rw [e, c2, b3 _ (by rw [a1]; push_cast; omega)]
      exact a3
    · rw [c3, b4, a5]
      simp only [bytesOf_append, List.append_assoc]
  · intro hd
    obtain ⟨k1, h1⟩ := stacked_save_returns hd hroom h8 hc
    obtain ⟨a1, a2, _⟩ := stacked_save_ok h1 hroom h8 hc
    rw [← a1] at a2
    obtain ⟨k2, h2⟩ := stacked_setAll_returns hd cs a2
    obtain ⟨k3, h3⟩ := stacked_restore_returns hd k2
    exact ⟨k3, by simp only [h1, h2, bind_ok]; exact h3⟩
  · intro s' h
    simp only [bind_eq_ok, FTGLSaveContext, FTGLRestoreContext] at h
    obtain ⟨s1, h1, s2, h2, h3⟩ := h
    obtain ⟨a1, a2⟩ := DLCommand_ok h1
    obtain ⟨b1, b2⟩ := setAll_ok cs h2
    obtain ⟨c1, c2⟩ := DLCommand_ok h3
    obtain ⟨f1, _⟩ := host_eq_fields a1
    obtain ⟨g1, _⟩ := host_eq_fields (c1.trans b1)
    simp only at g1
    refine ⟨by rw [g1, f1], ?_⟩
    rw [c2, b2, a2, f1]
    simp [bytesOf_append, bytesOf]
  · intro hd
    obtain ⟨s1, h1⟩ := DLCommand_returns hd env.hdr.FT_SAVE_CONTEXT s
    obtain ⟨s2, h2⟩ := setAll_returns hd cs s1
    obtain ⟨s3, h3⟩ := DLCommand_returns hd env.hdr.FT_RESTORE_CONTEXT s2
    exact ⟨s3, by simp only [FTGLSaveContext, FTGLRestoreContext, h1, h2, bind_ok]; exact h3⟩

/-- Witness of C22: in the build with stack depth 1, right after
initialisation, a save, a change of the colour to red and a restore leave the
stack index 0 and the default context live; the stream is the save word, the
colour word and the restore word. -/
theorem save_restore_context_witness :
    Returns (do
        let k1 ← stackedStart.FTGLSaveContext avr
        let k2 ← StackedInstance.setAll avr [(.colorRGB, FT_COLOR_RGB32 0xFF0000)] k1
        k2.FTGLRestoreContext avr)
      (fun k' =>
        k'.contextStackIndex = 0 ∧
        arrGet k'.graphicsContext k'.contextStackIndex = .ok (defaultGraphicsContext ft800) ∧
        appended k'.inst.bus = appended stackedStart.inst.bus ++
          bytesOf [0x22000000, 0x04FF0000, 0x23000000]) := by
  obtain ⟨⟨h1, h2⟩, _⟩ := save_restore_context avr [(.colorRGB, FT_COLOR_RGB32 0xFF0000)]
    (initialized avr) stackedStart (defaultGraphicsContext ft800) (by decide) (by decide)
    (by decide!)
  obtain ⟨k', hk⟩ := h2 (fun k c => ⟨(c, c), by simp [avr, idleDevice], rfl⟩)
  obtain ⟨a1, a2, a3⟩ := h1 k' hk
  refine ⟨k', hk, a1, a2, ?_⟩
  rw [a3]
  decide!

/-- Counterexample to C22 as stated: in the shipped build, after a save, a
change of the colour to red and a restore the cached colour is red, not the
white that was cached before the save; a further call that sets the colour to
red sends nothing, although the device has restored white. -/
theorem restore_leaves_cache_changed :
    Returns (run avr [.SaveContext, .ColorRGB 0xFF0000, .RestoreContext] (initialized avr))
      (fun s =>
        s.graphicsContext.colorRGB = 0x04FF0000 ∧
        (initialized avr).graphicsContext.colorRGB = 0x04FFFFFF ∧
        s.graphicsContext ≠ (initialized avr).graphicsContext ∧
        Returns (FTGLColorRGB avr 0xFF0000 s) (fun s' => appended s'.bus = appended s.bus)) := by
  decide!

/-! ## The start of a frame -/

theorem pollQueue_bus (hdr : FT800) (ps : List (Nat × Nat)) :
    ∀ {s s' : FTGLInstance}, pollQueue hdr ps s = .ok s' →
      ∃ es, s'.bus = s.bus ++ es ∧ appended es = [] := by
  induction ps with
  | nil => intro s s' h; cases h
  | cons p rest ih =>
    intro s s' h
    obtain ⟨r, w⟩ := p
    simp only [pollQueue] at h
    split at h
    · obtain ⟨es, h1, h2⟩ := ih h
      refine ⟨[.read hdr.FT_REG_CMD_READ 2, .read hdr.FT_REG_CMD_WRITE 2] ++ es, ?_, ?_⟩
      · rw [h1]; simp [FTHWRead]
      · simp [appended, h2]
    · cases h
      exact ⟨[.read hdr.FT_REG_CMD_READ 2, .read hdr.FT_REG_CMD_WRITE 2], by simp [FTHWRead],
        by simp [appended]⟩

theorem FlushCommands_bus {env : Env} {s s' : FTGLInstance} (h : FlushCommands env s = .ok s') :
    ∃ es, s'.bus = s.bus ++ es ∧ appended es = [] := by
  unfold FlushCommands at h
  simp only [bind_eq_ok, pure_eq_ok] at h
  obtain ⟨s1, h1, rfl⟩ := h
  unfold WaitForQueueEmpty at h1
  simp only [bind_eq_ok, pure_eq_ok] at h1
  obtain ⟨s0, h0, rfl⟩ := h1
  obtain ⟨es, e1, e2⟩ := pollQueue_bus _ _ h0
  refine ⟨[.endAppendWrite, .write env.hdr.FT_REG_CMD_WRITE (le16 (u16 s.cmdQueueWriteIndex))] ++
    es ++ [.beginAppendWrite (env.hdr.FT_RAM_CMD + s0.cmdQueueWriteIndex)], ?_, ?_⟩
  · simp only [FTHWBeginAppendWrite, e1, WriteReg16, FTHWWrite, FTHWEndAppendWrite]
    split <;> simp
  · simp [appended, e2]

theorem EnsureSpace_bus {env : Env} {amt : Nat} {s s' : FTGLInstance}
    (h : EnsureSpace env amt s = .ok s') : ∃ es, s'.bus = s.bus ++ es ∧ appended es = [] := by
  unfold EnsureSpace at h
  split at h
  · exact FlushCommands_bus h
  · rw [pure_eq_ok] at h
    subst h
    exact ⟨[], by simp, rfl⟩

theorem DLCommand_bus {env : Env} {val : Nat} {s s' : FTGLInstance}
    (h : DLCommand env val s = .ok s') :
    ∃ es, s'.bus = s.bus ++ es ∧ appended es = le32 (u32 val) := by
  unfold DLCommand at h
  simp only [bind_eq_ok, pure_eq_ok] at h
  obtain ⟨s1, h1, rfl⟩ := h
  obtain ⟨es, e1, e2⟩ := EnsureSpace_bus h1
  refine ⟨es ++ [.appendWrite (le32 (u32 val))], ?_, ?_⟩
  · simp [Append32, FTHWAppendWrite, e1]
  · simp [appended, e2]

/-- C26 (amended): `FTGLBeginBuffer` opens the append sequence at
`FT_RAM_CMD + writeIndex` and sends exactly two words, `CMD_DLSTART` and a
`CLEAR` word in which only the colour flag `FT_CLEAR_C` is set (0x26000004);
nothing of `g_Inst` outside the queue changes, and on a device that drains its
queue the call returns. -/
theorem FTGLBeginBuffer_clears_colour_only (env : Env) (s : FTGLInstance) :
    IfReturns (FTGLBeginBuffer env s) (fun s' =>
      (∃ rest, s'.bus =
          s.bus ++ .beginAppendWrite (env.hdr.FT_RAM_CMD + s.cmdQueueWriteIndex) :: rest ∧
        appended rest = bytesOf [env.hdr.FT_CMD_DLSTART, FT_CLEAR32 FT_CLEAR_C]) ∧
      appended s'.bus = appended s.bus ++ bytesOf [env.hdr.FT_CMD_DLSTART, FT_CLEAR32 FT_CLEAR_C] ∧
      host s' = host s) ∧
    FT_CLEAR32 FT_CLEAR_C = 0x26000004 ∧
    (env.Drains → ∃ s', FTGLBeginBuffer env s = .ok s') := by
  refine ⟨?_, by decide, ?_⟩
  · intro s' h
    simp only [FTGLBeginBuffer, FTGLCmdDLStart, FTGLClear, bind_eq_ok] at h
    obtain ⟨s1, h1, h2⟩ := h
    obtain ⟨es1, a1, a2⟩ := DLCommand_bus h1
    obtain ⟨es2, b1, b2⟩ := DLCommand_bus h2
    obtain ⟨c1, c2⟩ := DLCommand_ok h1
    obtain ⟨d1, d2⟩ := DLCommand_ok h2
    refine ⟨⟨es1 ++ es2, ?_, ?_⟩, ?_, ?_⟩
    · rw [b1, a1]; simp [FTHWBeginAppendWrite]
    · simp [a2, b2, bytesOf]
    · rw [d2, c2]; simp [FTHWBeginAppendWrite, appended, bytesOf]
    · rw [d1, c1]; rfl
  · intro hd
    obtain ⟨s1, h1⟩ := DLCommand_returns hd env.hdr.FT_CMD_DLSTART
      (FTHWBeginAppendWrite (env.hdr.FT_RAM_CMD + s.cmdQueueWriteIndex) s)
    obtain ⟨s2, h2⟩ := DLCommand_returns hd (FT_CLEAR32 FT_CLEAR_C) s1
    exact ⟨s2, by simp only [FTGLBeginBuffer, FTGLCmdDLStart, FTGLClear, h1, bind_ok]; exact h2⟩

/-- Counterexample to C26 as stated: right after `FTGLInitialize` on the AVR
build `FTGLBeginBuffer` sends the words 0xFFFFFF00 and 0x26000004; the full
clear of colour, stencil and tag is the word 0x26000007. -/
theorem FTGLBeginBuffer_sends_no_full_clear :
    Returns (FTGLBeginBuffer avr (initialized avr)) (fun s =>
      appended s.bus = bytesOf [0xFFFFFF00, 0x26000004] ∧
      FT_CLEAR32 (FT_CLEAR_C ||| FT_CLEAR_S ||| FT_CLEAR_T) = 0x26000007 ∧
      appended s.bus ≠ bytesOf [0xFFFFFF00, 0x26000007]) := by
  decide!

/-! ## The append primitives -/

theorem land_ff (n : Nat) : n &&& 0xFF = n % 256 := by
  have h : (0xFF : Nat) = 2 ^ 8 - 1 := rfl
  rw [h, Nat.and_pow_two_sub_one_eq_mod]

theorem le32_bytes (v : Nat) :
    le32 v = [v &&& 0xFF, (v >>> 8) &&& 0xFF, (v >>> 16) &&& 0xFF, (v >>> 24) &&& 0xFF] := by
  simp only [le32, land_ff, Nat.shiftRight_eq_div_pow]

theorem le16_bytes (v : Nat) : le16 v = [v &&& 0xFF, (v >>> 8) &&& 0xFF] := by
  simp only [le16, land_ff, Nat.shiftRight_eq_div_pow]

theorem AlignBuffer_unaligned (s : FTGLInstance) (h : s.cmdQueueWriteIndex % 4 ≠ 0) :
    appended (AlignBuffer s).bus =
      appended s.bus ++ List.replicate (4 - s.cmdQueueWriteIndex % 4) 0 ∧
    (AlignBuffer s).cmdQueueWriteIndex =
      (s.cmdQueueWriteIndex + (4 - s.cmdQueueWriteIndex % 4)) % 4096 ∧
    (AlignBuffer s).cmdQueueFreeSpace =
      (s.cmdQueueFreeSpace + 65536 - (4 - s.cmdQueueWriteIndex % 4)) % 65536 := by
  unfold AlignBuffer
  simp only [land_three, land_mask, FTHWAppendWrite, u16, ne_eq, h, not_false_eq_true, if_true]
  simp [appended]

/-- C27 (amended): `Append32` appends the four bytes of its value low byte
first and `Append16` the two bytes low byte first; `Append32`, `Append16`,
`AppendString` and `AlignBuffer` advance the write index by the number of
bytes written modulo 4096 (`FTGL_QUEUE_MASK + 1`, the size of the ring) and
take the same number from the free space in `uint16_t` arithmetic.  A flush
restores the free space to `FTGL_CMD_QUEUE_SIZE`, which is 4092, not 4096. -/
theorem append_primitives_advance (v : Nat) (data : List Nat) (count : Nat) (s : FTGLInstance) :
    (appended (Append32 v s).bus = appended s.bus ++
        [u32 v &&& 0xFF, (u32 v >>> 8) &&& 0xFF, (u32 v >>> 16) &&& 0xFF,
          (u32 v >>> 24) &&& 0xFF] ∧
      (Append32 v s).cmdQueueWriteIndex = (s.cmdQueueWriteIndex + 4) % 4096 ∧
      (Append32 v s).cmdQueueFreeSpace = (s.cmdQueueFreeSpace + 65536 - 4) % 65536) ∧
    (appended (Append16 v s).bus = appended s.bus ++ [u16 v &&& 0xFF, (u16 v >>> 8) &&& 0xFF] ∧
      (Append16 v s).cmdQueueWriteIndex = (s.cmdQueueWriteIndex + 2) % 4096 ∧
      (Append16 v s).cmdQueueFreeSpace = (s.cmdQueueFreeSpace + 65536 - 2) % 65536) ∧
    IfReturns (AppendString data count s) (fun s' =>
      appended s'.bus = appended s.bus ++ data.take (u16 count) ∧
      (data.take (u16 count)).length = u16 count ∧
      s'.cmdQueueWriteIndex = (s.cmdQueueWriteIndex + u16 count) % 4096 ∧
      s'.cmdQueueFreeSpace = (s.cmdQueueFreeSpace + 65536 - u16 count) % 65536) ∧
    (u16 count ≤ data.length → ∃ s', AppendString data count s = .ok s') ∧
    (s.cmdQueueWriteIndex % 4 ≠ 0 →
      appended (AlignBuffer s).bus =
        appended s.bus ++ List.replicate (4 - s.cmdQueueWriteIndex % 4) 0 ∧
      (AlignBuffer s).cmdQueueWriteIndex =
        (s.cmdQueueWriteIndex + (4 - s.cmdQueueWriteIndex % 4)) % 4096 ∧
      (AlignBuffer s).cmdQueueFreeSpace =
        (s.cmdQueueFreeSpace + 65536 - (4 - s.cmdQueueWriteIndex % 4)) % 65536) ∧
    (s.cmdQueueWriteIndex % 4 = 0 → AlignBuffer s = s) ∧
    FTGL_QUEUE_MASK + 1 = 4096 ∧ FTGL_CMD_QUEUE_SIZE = 4092 ∧
    ∀ env, IfReturns (FlushCommands env s) (fun s' =>
      s'.cmdQueueFreeSpace = FTGL_CMD_QUEUE_SIZE) := by
  refine ⟨⟨?_, writeIndex_Append32 v s, freeSpace_Append32 v s⟩,
    ⟨?_, writeIndex_Append16 v s, freeSpace_Append16 v s⟩, ?_, ?_,
    AlignBuffer_unaligned s, ?_, rfl, rfl, ?_⟩
  · rw [appended_Append32, le32_bytes]
  · rw [appended_Append16, le16_bytes]
  · intro s' h
    obtain ⟨_, a2, a3, a4, a5⟩ := AppendString_ok h
    exact ⟨a2, by simp [List.length_take, a5], a3, a4⟩
  · intro h
    simp only [AppendString, if_pos h]
    exact ⟨_, rfl⟩
  · intro h
    unfold AlignBuffer
    simp only [land_three, h, ne_eq, not_true_eq_false, if_false]
  · intro env s' h
    exact (FlushCommands_ok h).2.2.2.1

/-- Counterexample to C27 as stated: after `FTGLInitialize`, `FTGLBeginBuffer`
and an inflate command with 4072 bytes of data the write index is 4088; the
next `Append32` leaves it at 4092, where a step modulo the queue capacity
`FTGL_CMD_QUEUE_SIZE` would leave 0. -/
theorem writeIndex_wraps_at_4096 :
    Returns (run avr [.BeginBuffer, .CmdInflate 0 (List.replicate 4072 0) 4072] (initialized avr))
      (fun s => s.cmdQueueWriteIndex = 4088 ∧
        (Append32 0 s).cmdQueueWriteIndex = 4092 ∧
        (s.cmdQueueWriteIndex + 4) % FTGL_CMD_QUEUE_SIZE = 0) := by
  decide!

/-! ## The unmanaged handle, rebinding a handle and the eviction scan -/

theorem arrModify_beyond {α : Type} (xs : List α) (i : Int) (f : α → α)
    (h : (xs.length : Int) ≤ i) : arrModify xs i f = .error .outOfBounds := by
  unfold arrModify
  split
  · have : xs.get? i.toNat = none := by
      rw [List.get?_eq_none]; omega
    rw [this]
  · rfl

/-- C23: `FTGLGetEmptyHandle` keeps the bitmap id of the chosen slot in a
`uint8_t`, so the test `oldBitmapId >= 0` always holds and the -1 of an empty
slot becomes 255: whenever the chosen slot is empty and the call returns,
descriptor 255 has been written (its handle reference set to -1), where the
claim says that no descriptor is touched.  In the shipped build, with 16
descriptors, the first call after initialisation picks the empty slot 0 and
writes beyond the descriptor table. -/
theorem FTGLGetEmptyHandle_writes_descriptor_255 :
    (∀ (env : Env) (s : FTGLInstance) (p : Int × FTGLInstance),
      PickHandleToEvict env s = .ok p → arrGet p.2.bitmapHandles p.1 = .ok (-1) →
      IfReturns (FTGLGetEmptyHandle env s) (fun r =>
        ∃ b, arrGet p.2.bitmaps 255 = .ok b ∧
          r.2.bitmaps = p.2.bitmaps.set 255 { b with activeHandle := -1 })) ∧
    toU8 (-1) = 255 ∧
    Returns (PickHandleToEvict avr (initialized avr)) (fun p =>
      p.1 = 0 ∧ arrGet p.2.bitmapHandles p.1 = .ok (-1) ∧ p.2.bitmaps.length = 16) ∧
    FTGLGetEmptyHandle avr (initialized avr) = .error .outOfBounds := by
  refine ⟨?_, by decide, by decide!, by decide!⟩
  intro env s p hp hslot r h
  simp only [FTGLGetEmptyHandle, hp, bind_ok, hslot, bind_eq_ok, pure_eq_ok] at h
  obtain ⟨s1, h1, hs, _, rfl⟩ := h
  have e : toU8 (-1) = 255 := by decide
  rw [e] at h1
  rw [if_pos (by decide)] at h1
  simp only [clearActiveHandle, bind_eq_ok, pure_eq_ok] at h1
  obtain ⟨bm, h2, rfl⟩ := h1
  obtain ⟨_, _, b, hb, rfl⟩ := arrModify_ok h2
  exact ⟨b, arrGet_of_get? (by decide) hb, rfl⟩

/-- C24: in the shipped build, after `FTGLSetBitmapHandle(h, A)` and then
`FTGLSetBitmapHandle(h, B)` for two bitmaps A = 0 and B = 1 created after
initialisation, and for each of the fifteen handles h, bitmap A still refers to
h (its `activeHandle` is h, not -1), bitmap B refers to h too, and slot h of the
table is still -1: the first call does not record A in the slot table, so the
second call finds no bitmap to evict. -/
theorem rebinding_keeps_old_reference :
    ∀ h : Fin 15,
      Returns (run avr [.CreateBitmap ft800.FT_L8 8 8, .CreateBitmap ft800.FT_L8 16 16,
          .SetBitmapHandle h.val 0, .SetBitmapHandle h.val 1] (initialized avr)) (fun s =>
        (arrGet s.bitmaps 0).map (fun b => b.activeHandle) = .ok (h.val : Int) ∧
        (arrGet s.bitmaps 1).map (fun b => b.activeHandle) = .ok (h.val : Int) ∧
        arrGet s.bitmapHandles h.val = .ok (-1)) := by
  decide!

/-- C30: two runs of `PickHandleToEvict` in the shipped build (15 slots).
After fourteen `FTGLUseBitmap` calls and a draw from handle 14 the cursor and
the last-used slot are both 14 with every slot empty; the scan the claim
describes returns slot 0, but the skip branch increments the cursor without
wrapping it, so the code reads `bitmapHandles[15]`, beyond the table.  With a
bitmap in every slot, the cursor at 1 and slot 0 last used, the claim's answer
is slot 1, the first slot visited; the code returns slot 14, the last one
visited, and leaves the cursor at 1. -/
theorem PickHandleToEvict_leaves_table :
    Returns (run avr ([.CreateBitmap ft800.FT_L8 8 8] ++ List.replicate 14 (.UseBitmap 0) ++
        [.DrawBitmapInHandle 14 0 0 0]) (initialized avr)) (fun s =>
      s.nextHandle = 14 ∧ s.lastHandle = 14 ∧ s.bitmapHandles = List.replicate 15 (-1) ∧
      PickHandleToEvict avr s = .error .outOfBounds) ∧
    Returns (PickHandleToEvict avr everySlotLoaded) (fun p =>
      p.1 = 14 ∧ p.1 ≠ everySlotLoaded.nextHandle ∧ p.2.nextHandle = 1) := by
  refine ⟨by decide!, by decide!⟩

/-! ## A managed draw -/

theorem clearActiveHandle_frame {j : Int} {s s' : FTGLInstance}
    (h : clearActiveHandle j s = .ok s') : s' = { s with bitmaps := s'.bitmaps } := by
  simp only [clearActiveHandle, bind_eq_ok, pure_eq_ok] at h
  obtain ⟨bm, _, rfl⟩ := h
  rfl

theorem FTGLSetBitmapHandle_binds {env : Env} {handle id : Int} {s : FTGLInstance}
    {r : Int × FTGLInstance} {b : BitmapInfo}
    (h : FTGLSetBitmapHandle env handle id s = .ok r)
    (hb : arrGet s.bitmaps id = .ok b) :
    r.1 = i8 handle ∧
    (∃ b', arrGet r.2.bitmaps id = .ok b' ∧ b'.activeHandle = i8 handle) ∧
    r.2.bitmapHandles = s.bitmapHandles ∧ r.2.nextHandle = s.nextHandle ∧
    r.2.lastHandle = s.lastHandle ∧
    appended r.2.bus = appended s.bus ++
      bytesOf (selectWords env.hdr s.graphicsContext.bitmapHandle handle ++
        bindWords env.hdr b) := by
  simp only [FTGLSetBitmapHandle, bind_eq_ok, pure_eq_ok] at h
  obtain ⟨old, _, s0, h0, s1, h1, s2, h2, b', hb', bm, hbm, rfl⟩ := h
  have k0 : s0 = { s with bitmaps := s0.bitmaps } ∧
      ∃ b0, arrGet s0.bitmaps id = .ok b0 ∧ bindWords env.hdr b0 = bindWords env.hdr b := by
    split at h0
    · exact ⟨clearActiveHandle_frame h0, clearActiveHandle_get env.hdr h0 hb⟩
    · rw [pure_eq_ok] at h0
      subst h0
      exact ⟨rfl, b, hb, rfl⟩
  obtain ⟨k1, b0, k2, k3⟩ := k0
  obtain ⟨a1, a2⟩ := WRITE_DLCMD_ok h1
  obtain ⟨c1, c2, _⟩ := EnsureSpace_ok h2
  obtain ⟨_, _, f3, _, f5, f6, f7, _⟩ := host_eq_fields (c1.trans a1)
  simp only at f3 f5 f6 f7
  rw [f3, k2] at hb'
  cases hb'
  have e1 : s0.bitmapHandles = s.bitmapHandles := by rw [k1]
  have e2 : s0.nextHandle = s.nextHandle := by rw [k1]
  have e3 : s0.lastHandle = s.lastHandle := by rw [k1]
  have e4 : s0.graphicsContext = s.graphicsContext := by rw [k1]
  have e5 : s0.bus = s.bus := by rw [k1]
  obtain ⟨_, _, b1, hb1, rfl⟩ := arrModify_ok hbm
  obtain ⟨i0, i1, _⟩ := arrGet_ok hb
  refine ⟨rfl, ⟨_, arrGet_set_self _ i0 ?_, rfl⟩, ?_, ?_, ?_, ?_⟩
  · obtain ⟨_, i2, _⟩ := arrGet_ok k2
    show id.toNat < s2.bitmaps.length
    rw [f3]; exact i2
  · show s2.bitmapHandles = _
    rw [f5, e1]
  · show s2.nextHandle = _
    rw [f7, e2]
  · show s2.lastHandle = _
    rw [f6, e3]
  · simp only [appended_Append32, c2, a2, e5, e4, selectWords, FTGLBitmapHandle]
    rw [← k3]
    simp only [GraphicsContext.get, bindWords, bytesOf_append, bytesOf, u32_u32,
      List.append_assoc, List.append_nil]

theorem PickHandleToEvict_i8 {env : Env} {s : FTGLInstance} {p : Int × FTGLInstance}
    (h : PickHandleToEvict env s = .ok p) : i8 p.1 = p.1 := by
  simp only [PickHandleToEvict, bind_eq_ok, pure_eq_ok] at h
  obtain ⟨r0, _, rfl⟩ := h
  exact i8_i8 _

/-- C25: let `b` be the descriptor of bitmap `id`, its handle reference an
`int8_t`.  When `b` refers to a slot (`activeHandle >= 0`),
`FTGLCmdBitmapCell(id, x, y, cell)` appends exactly the two words
`BEGIN(BITMAPS)` and `VERTEX2II(x, y, slot, cell)`, leaves the descriptors, the
slot table, the eviction cursor and the cached graphics context as they were,
and sets the last-used marker to that slot; on a device that drains it returns.
When `b` refers to no slot, the call runs `PickHandleToEvict`, and with `p` what
that returned the stream appended is the handle-select word (when it changes
the cached one), the source, layout and size words of `b` and the two words of
a draw from slot `p`; afterwards the descriptor refers to slot `p`, the cursor
is where the pick left it, the slot table is unchanged and the last-used marker
is `p`.  That call returns on a device that drains when the slot at the cursor
is empty and was not the last one drawn. -/
theorem FTGLCmdBitmapCell_draws (env : Env) (id x y cell : Int) (s : FTGLInstance)
    (b : BitmapInfo) (hb : arrGet s.bitmaps id = .ok b)
    (h8 : i8 b.activeHandle = b.activeHandle) :
    (0 ≤ b.activeHandle →
      IfReturns (FTGLCmdBitmapCell env id x y cell s) (fun s' =>
        appended s'.bus = appended s.bus ++
          bytesOf [env.hdr.FT_BEGIN (u8 env.hdr.FT_BITMAPS),
            env.hdr.FT_VERTEX2II (u16 (toU16 x)) (u16 (toU16 y)) (u8 (toU8 b.activeHandle))
              (u8 (toU8 cell))] ∧
        s'.bitmaps = s.bitmaps ∧ s'.bitmapHandles = s.bitmapHandles ∧
        s'.nextHandle = s.nextHandle ∧ s'.graphicsContext = s.graphicsContext ∧
        s'.lastHandle = b.activeHandle) ∧
      (env.Drains → ∃ s', FTGLCmdBitmapCell env id x y cell s = .ok s')) ∧
    (b.activeHandle < 0 →
      IfReturns (FTGLCmdBitmapCell env id x y cell s) (fun s' =>
        ∃ p, PickHandleToEvict env s = .ok p ∧
          appended s'.bus = appended s.bus ++
            bytesOf (selectWords env.hdr s.graphicsContext.bitmapHandle p.1 ++
              bindWords env.hdr b ++ drawWords env.hdr p.1 x y cell) ∧
          (∃ b', arrGet s'.bitmaps id = .ok b' ∧ b'.activeHandle = p.1) ∧
          s'.bitmapHandles = s.bitmapHandles ∧ s'.nextHandle = p.2.nextHandle ∧
          s'.lastHandle = p.1) ∧
      (env.Drains → 1 ≤ env.FTGL_NUM_BITMAP_HANDLES → s.nextHandle ≠ s.lastHandle →
        arrGet s.bitmapHandles s.nextHandle = .ok (-1) → i8 s.nextHandle = s.nextHandle →
        ∃ s', FTGLCmdBitmapCell env id x y cell s = .ok s')) := by
  refine ⟨fun hpos => ?_, fun hneg => ?_⟩
  · obtain ⟨p1, p2⟩ := @FTGLCmdBitmapCell_hit env id x y cell s b hb hpos
    refine ⟨fun s' h => ?_, p2⟩
    obtain ⟨a1, a2⟩ := p1 s' h
    obtain ⟨f1, _, f3, _, f5, f6, f7, _⟩ := host_eq_fields a1
    simp only at f1 f3 f5 f6 f7
    rw [h8] at f6
    refine ⟨?_, f3, f5, f7, f1, f6⟩
    rw [a2]
    simp only [drawWords, h8]
  · refine ⟨fun s' h => ?_, fun hd hN hne hslot hn8 =>
      (@FTGLCmdBitmapCell_miss env id x y cell s b hN hb hneg hne hslot hn8).2 hd⟩
    simp only [FTGLCmdBitmapCell, hb, bind_ok, if_pos hneg, FTGLUseBitmap, bind_eq_ok] at h
    obtain ⟨r, ⟨p, hp, h1⟩, h2⟩ := h
    have e := PickHandleToEvict_frame hp
    have p8 := PickHandleToEvict_i8 hp
    have hb1 : arrGet p.2.bitmaps id = .ok b := by rw [e]; exact hb
    obtain ⟨a1, ⟨b', a2, a3⟩, a4, a5, _, a7⟩ := FTGLSetBitmapHandle_binds h1 hb1
    obtain ⟨d1, d2⟩ := FTGLDrawBitmapInHandle_ok h2
    obtain ⟨_, _, f3, _, f5, f6, f7, _⟩ := host_eq_fields d1
    simp only at f3 f5 f6 f7
    have eb : p.2.bus = s.bus := by rw [e]
    have eg : p.2.graphicsContext = s.graphicsContext := by rw [e]
    have eh : p.2.bitmapHandles = s.bitmapHandles := by rw [e]
    rw [a1, i8_i8, p8] at f6
    rw [p8] at a3
    refine ⟨p, hp, ?_, ⟨b', by rw [f3]; exact a2, a3⟩, by rw [f5, a4, eh], by rw [f7, a5], f6⟩
    rw [d2, a7, eb, eg, a1]
    simp only [bytesOf_append, List.append_assoc, drawWords, i8_i8]

theorem avr_drains : avr.Drains := by
  intro k c
  exact ⟨(c, c), by simp [avr, idleDevice], rfl⟩

/-- Witness of C25: on the AVR build, after bitmap 0 has been drawn once from
handle 0, `FTGLCmdBitmapCell(0, 20, 30, 0)` returns, appends the two words
`BEGIN(BITMAPS)` and `VERTEX2II(20, 30, 0, 0)` and nothing else, changes no
descriptor, no slot and not the cursor, and leaves 0 as the last-used slot. -/
theorem FTGLCmdBitmapCell_draws_witness :
    arrGet drawnOnce.bitmaps 0 = .ok { firstBitmap with activeHandle := 0 } ∧
    Returns (FTGLCmdBitmapCell avr 0 20 30 0 drawnOnce) (fun s' =>
      appended s'.bus = appended drawnOnce.bus ++
        bytesOf [ft800.FT_BEGIN ft800.FT_BITMAPS, ft800.FT_VERTEX2II 20 30 0 0] ∧
      s'.bitmaps = drawnOnce.bitmaps ∧ s'.bitmapHandles = drawnOnce.bitmapHandles ∧
      s'.nextHandle = drawnOnce.nextHandle ∧ s'.lastHandle = 0) := by
  have hb : arrGet drawnOnce.bitmaps 0 = .ok { firstBitmap with activeHandle := 0 } := by decide!
  obtain ⟨h1, h2⟩ := (FTGLCmdBitmapCell_draws avr 0 20 30 0 drawnOnce
    { firstBitmap with activeHandle := 0 } hb (by decide)).1 (by decide)
  obtain ⟨s', hs⟩ := h2 avr_drains
  obtain ⟨a, b, c, d, _, e⟩ := h1 s' hs
  exact ⟨hb, s', hs, a, b, c, d, e⟩

/-! ## The space the variable-length commands reserve -/

theorem sends_step {n : Nat} {s s1 s2 : FTGLInstance} (d : List Nat) (k : Nat)
    (c : Sends n s s1) (hb : s2.bus = s1.bus ++ [.appendWrite d]) (hk : d.length = k)
    (hw : s2.waits = s1.waits)
    (hi : s2.cmdQueueWriteIndex = (s1.cmdQueueWriteIndex + k) % 4096) :
    Sends (n + k) s s2 := by
  obtain ⟨es, e1, e2, e3, e4, e5⟩ := c
  refine ⟨es ++ [.appendWrite d], ?_, ?_, ?_, ?_, ?_⟩
  · rw [hb, e1, List.append_assoc]
  · intro e he
    rcases List.mem_append.mp he with h | h
    · exact e2 e h
    · exact ⟨d, by simpa using h⟩
  · rw [appended_append, List.length_append, e3]
    simp [appended, hk]
  · rw [hw, e4]
  · rw [hi]
    omega

theorem sends_start (s : FTGLInstance) : Sends 0 s s := by
  refine ⟨[], by simp, ?_, rfl, rfl, rfl⟩
  intro e he
  cases he

theorem sends_Append32 {n : Nat} {s s1 : FTGLInstance} (v : Nat) (c : Sends n s s1) :
    Sends (n + 4) s (Append32 v s1) :=
  sends_step (le32 (u32 v)) 4 c rfl rfl rfl (writeIndex_Append32 v s1)

theorem sends_Append16 {n : Nat} {s s1 : FTGLInstance} (v : Nat) (c : Sends n s s1) :
    Sends (n + 2) s (Append16 v s1) :=
  sends_step (le16 (u16 v)) 2 c rfl rfl rfl (writeIndex_Append16 v s1)

theorem sends_AppendString {n count : Nat} {data : List Nat} {s s1 s2 : FTGLInstance}
    (h : AppendString data count s1 = .ok s2) (c : Sends n s s1) :
    Sends (n + u16 count) s s2 := by
  simp only [AppendString] at h
  split at h
  · rename_i hle
    rw [pure_eq_ok] at h
    subst h
    exact sends_step (data.take (u16 count)) (u16 count) c rfl
      (by rw [List.length_take]; exact Nat.min_eq_left hle) rfl
      (by simp [FTHWAppendWrite, land_mask])
  · cases h

theorem sends_AlignBuffer {n : Nat} {s s1 : FTGLInstance} (c : Sends n s s1) :
    Sends (n + (4 - s1.cmdQueueWriteIndex % 4) % 4) s (AlignBuffer s1) := by
  unfold AlignBuffer
  simp only [land_three]
  split
  · rename_i hne
    have e : (4 - s1.cmdQueueWriteIndex % 4) % 4 = 4 - s1.cmdQueueWriteIndex % 4 := by omega
    rw [e]
    exact sends_step (List.replicate (4 - s1.cmdQueueWriteIndex % 4) 0) _ c rfl
      (by simp) rfl (by simp [FTHWAppendWrite, land_mask])
  · rename_i he
    simp only [ne_eq, Decidable.not_not] at he
    rw [he]
    exact c

theorem Aligned_eq (n : Nat) (h : n + 3 < 65536) : Aligned n = n + (4 - n % 4) % 4 := by
  unfold Aligned
  have e : u16 n = n := Nat.mod_eq_of_lt (by omega)
  simp only [e, land_three]
  split
  · unfold u16
    rw [Nat.mod_eq_of_lt (by omega)]
    omega
  · omega

theorem reserves_of_sends {env : Env} {space n m : Nat} {s s1 s2 : FTGLInstance}
    (h1 : EnsureSpace env space s = .ok s1) (c : Sends n s1 s2) (e : n = m) :
    ReservesThenSends env space m s s2 := by
  obtain ⟨es, e1, e2, e3, e4, _⟩ := c
  exact ⟨s1, es, h1, e1, e2, e3.trans e, e4⟩

theorem sent_total {n : Nat} {s0 s1 : FTGLInstance} {m : Nat}
    (c : Sends n s0 s1) (hwi : s0.cmdQueueWriteIndex % 4 = 0)
    (hn : n + 3 < 65536) (hm : m = n) :
    n + (4 - s1.cmdQueueWriteIndex % 4) % 4 = Aligned m := by
  obtain ⟨_, _, _, _, _, e5⟩ := c
  rw [hm, Aligned_eq n hn, e5]
  omega

theorem AppendString_returns {data : List Nat} {count : Nat} (s : FTGLInstance)
    (h : u16 count ≤ data.length) : ∃ s', AppendString data count s = .ok s' := by
  simp only [AppendString, if_pos h]
  exact ⟨_, rfl⟩

theorem FTGLCmdInflate_reserves {env : Env} (hr : env.ReadsBack) (ptr : Nat) (data : List Nat)
    {count : Nat} {s : FTGLInstance} (ha : Aligned4 s) (hl : count + 19 < 65536) :
    IfReturns (FTGLCmdInflate env ptr data count s)
      (ReservesThenSends env (Aligned (4 * 2 + count)) (Aligned (4 * 2 + count)) s) := by
  intro s' h
  have el : u32 count = count := Nat.mod_eq_of_lt (by omega)
  have e16 : u16 count = count := Nat.mod_eq_of_lt (by omega)
  simp only [FTGLCmdInflate, bind_eq_ok, pure_eq_ok, el] at h
  obtain ⟨s1, h1, s2, h2, rfl⟩ := h
  have a1 := EnsureSpace_aligned hr h1 ha
  have c := sends_AppendString h2 (sends_Append32 ptr (sends_Append32 env.hdr.FT_CMD_INFLATE
    (sends_start s1)))
  rw [e16] at c
  exact reserves_of_sends h1 (sends_AlignBuffer c) (sent_total c a1 (by omega) (by omega))

theorem FTGLCmdLoadImage_reserves {env : Env} (hr : env.ReadsBack) (ptr options : Nat)
    (data : List Nat) {count : Nat} {s : FTGLInstance} (ha : Aligned4 s)
    (hl : count + 19 < 65536) :
    IfReturns (FTGLCmdLoadImage env ptr options data count s)
      (ReservesThenSends env (Aligned (4 * 3 + count)) (Aligned (4 * 3 + count)) s) := by
  intro s' h
  have el : u32 count = count := Nat.mod_eq_of_lt (by omega)
  have e16 : u16 count = count := Nat.mod_eq_of_lt (by omega)
  simp only [FTGLCmdLoadImage, bind_eq_ok, pure_eq_ok, el] at h
  obtain ⟨s1, h1, s2, h2, rfl⟩ := h
  have a1 := EnsureSpace_aligned hr h1 ha
  have c := sends_AppendString h2 (sends_Append32 options (sends_Append32 ptr
    (sends_Append32 env.hdr.FT_CMD_LOADIMAGE (sends_start s1))))
  rw [e16] at c
  exact reserves_of_sends h1 (sends_AlignBuffer c) (sent_total c a1 (by omega) (by omega))

theorem FTGLCmdButton_reserves {env : Env} (hr : env.ReadsBack) (x y w h : Int)
    (font options : Nat) (str : List Nat) {len : Nat} {s : FTGLInstance} (ha : Aligned4 s)
    (hl : len + 19 < 65536) :
    IfReturns (FTGLCmdButton env x y w h font options str len s)
      (ReservesThenSends env (Aligned (4 + 2 * 6 + len)) (Aligned (4 + 2 * 6 + len)) s) := by
  intro s' h0
  have e16 : u16 len = len := Nat.mod_eq_of_lt (by omega)
  simp only [FTGLCmdButton, bind_eq_ok, pure_eq_ok, e16] at h0
  obtain ⟨s1, h1, s2, h2, rfl⟩ := h0
  have a1 := EnsureSpace_aligned hr h1 ha
  have c := sends_AppendString h2 (sends_Append16 options (sends_Append16 font
    (sends_Append16 (toU16 h) (sends_Append16 (toU16 w) (sends_Append16 (toU16 y)
    (sends_Append16 (toU16 x) (sends_Append32 env.hdr.FT_CMD_BUTTON (sends_start s1))))))))
  rw [e16] at c
  exact reserves_of_sends h1 (sends_AlignBuffer c) (sent_total c a1 (by omega) (by omega))

theorem FTGLCmdKeys_reserves {env : Env} (hr : env.ReadsBack) (x y w h font : Int)
    (options : Nat) (str : List Nat) {len : Nat} {s : FTGLInstance} (ha : Aligned4 s)
    (hl : len + 19 < 65536) :
    IfReturns (FTGLCmdKeys env x y w h font options str len s)
      (ReservesThenSends env (Aligned (4 + 2 * 6 + len)) (Aligned (4 + 2 * 6 + len)) s) := by
  intro s' h0
  have e16 : u16 len = len := Nat.mod_eq_of_lt (by omega)
  simp only [FTGLCmdKeys, bind_eq_ok, pure_eq_ok, e16] at h0
  obtain ⟨s1, h1, s2, h2, rfl⟩ := h0
  have a1 := EnsureSpace_aligned hr h1 ha
  have c := sends_AppendString h2 (sends_Append16 options (sends_Append16 (toU16 font)
    (sends_Append16 (toU16 h) (sends_Append16 (toU16 w) (sends_Append16 (toU16 y)
    (sends_Append16 (toU16 x) (sends_Append32 env.hdr.FT_CMD_KEYS (sends_start s1))))))))
  rw [e16] at c
  exact reserves_of_sends h1 (sends_AlignBuffer c) (sent_total c a1 (by omega) (by omega))

theorem FTGLCmdText_reserves {env : Env} (hr : env.ReadsBack) (x y font : Int)
    (options : Nat) (str : List Nat) {len : Nat} {s : FTGLInstance} (ha : Aligned4 s)
    (hl : len + 19 < 65536) :
    IfReturns (FTGLCmdText env x y font options str len s)
      (ReservesThenSends env (Aligned (4 + 2 * 4 + len)) (Aligned (4 + 2 * 4 + len)) s) := by
  intro s' h0
  have e16 : u16 len = len := Nat.mod_eq_of_lt (by omega)
  simp only [FTGLCmdText, bind_eq_ok, pure_eq_ok, e16] at h0
  obtain ⟨s1, h1, s2, h2, rfl⟩ := h0
  have a1 := EnsureSpace_aligned hr h1 ha
  have c := sends_AppendString h2 (sends_Append16 options (sends_Append16 (toU16 font)
    (sends_Append16 (toU16 y) (sends_Append16 (toU16 x)
    (sends_Append32 env.hdr.FT_CMD_TEXT (sends_start s1))))))
  rw [e16] at c
  exact reserves_of_sends h1 (sends_AlignBuffer c) (sent_total c a1 (by omega) (by omega))

theorem FTGLCmdToggle_reserves {env : Env} (hr : env.ReadsBack) (x y w font : Int)
    (options state : Nat) (str : List Nat) {len : Nat} {s : FTGLInstance} (ha : Aligned4 s)
    (hl : len + 19 < 65536) :
    IfReturns (FTGLCmdToggle env x y w font options state str len s)
      (ReservesThenSends env (Aligned (4 + 2 * 6 + len)) (Aligned (4 + 2 * 5 + len)) s) := by
  intro s' h0
  have e16 : u16 len = len := Nat.mod_eq_of_lt (by omega)
  simp only [FTGLCmdToggle, bind_eq_ok, pure_eq_ok, e16] at h0
  obtain ⟨s1, h1, s2, h2, rfl⟩ := h0
  have a1 := EnsureSpace_aligned hr h1 ha
  have c := sends_AppendString h2 (sends_Append16 options (sends_Append16 (toU16 font)
    (sends_Append16 (toU16 w) (sends_Append16 (toU16 y)
    (sends_Append16 (toU16 x) (sends_Append32 env.hdr.FT_CMD_TOGGLE (sends_start s1)))))))
  rw [e16] at c
  exact reserves_of_sends h1 (sends_AlignBuffer c) (sent_total c a1 (by omega) (by omega))

theorem variable_commands_return {env : Env} (hd : env.Drains) (x y w h font : Int)
    (ptr options state font16 : Nat) (str : List Nat) (len : Nat) (s : FTGLInstance)
    (hl : len + 19 < 65536) (hs : len ≤ str.length) :
    (∃ s', FTGLCmdInflate env ptr str len s = .ok s') ∧
    (∃ s', FTGLCmdLoadImage env ptr options str len s = .ok s') ∧
    (∃ s', FTGLCmdButton env x y w h font16 options str len s = .ok s') ∧
    (∃ s', FTGLCmdKeys env x y w h font options str len s = .ok s') ∧
    (∃ s', FTGLCmdText env x y font options str len s = .ok s') ∧
    (∃ s', FTGLCmdToggle env x y w font options state str len s = .ok s') := by
  have el : u32 len = len := Nat.mod_eq_of_lt (by omega)
  have e16 : u16 len = len := Nat.mod_eq_of_lt (by omega)
  have hs16 : u16 len ≤ str.length := by rw [e16]; exact hs
  refine ⟨?_, ?_, ?_, ?_, ?_, ?_⟩
  · obtain ⟨s1, h1⟩ := EnsureSpace_returns hd (Aligned (4 * 2 + u32 len)) s
    obtain ⟨s2, h2⟩ := @AppendString_returns str (u32 len)
      (Append32 ptr (Append32 env.hdr.FT_CMD_INFLATE s1)) (by rw [el]; exact hs16)
    exact ⟨AlignBuffer s2, by simp only [FTGLCmdInflate, h1, bind_ok, h2]; rfl⟩
  · obtain ⟨s1, h1⟩ := EnsureSpace_returns hd (Aligned (4 * 3 + u32 len)) s
    obtain ⟨s2, h2⟩ := @AppendString_returns str (u32 len)
      (Append32 options (Append32 ptr (Append32 env.hdr.FT_CMD_LOADIMAGE s1)))
      (by rw [el]; exact hs16)
    exact ⟨AlignBuffer s2, by simp only [FTGLCmdLoadImage, h1, bind_ok, h2]; rfl⟩
  · exact FTGLCmdButton_returns hd x y w h font16 options hs16 s
  · obtain ⟨s1, h1⟩ := EnsureSpace_returns hd (Aligned (4 + 2 * 6 + u16 len)) s
    obtain ⟨s2, h2⟩ := @AppendString_returns str (u16 len)
      (Append16 options (Append16 (toU16 font) (Append16 (toU16 h) (Append16 (toU16 w)
        (Append16 (toU16 y) (Append16 (toU16 x) (Append32 env.hdr.FT_CMD_KEYS s1)))))))
      (by rw [u16_u16]; exact hs16)
    exact ⟨AlignBuffer s2, by simp only [FTGLCmdKeys, h1, bind_ok, h2]; rfl⟩
  · obtain ⟨s1, h1⟩ := EnsureSpace_returns hd (Aligned (4 + 2 * 4 + u16 len)) s
    obtain ⟨s2, h2⟩ := @AppendString_returns str (u16 len)
      (Append16 options (Append16 (toU16 font)
        (Append16 (toU16 y) (Append16 (toU16 x) (Append32 env.hdr.FT_CMD_TEXT s1)))))
      (by rw [u16_u16]; exact hs16)
    exact ⟨AlignBuffer s2, by simp only [FTGLCmdText, h1, bind_ok, h2]; rfl⟩
  · obtain ⟨s1, h1⟩ := EnsureSpace_returns hd (Aligned (4 + 2 * 6 + u16 len)) s
    obtain ⟨s2, h2⟩ := @AppendString_returns str (u16 len)
      (Append16 options (Append16 (toU16 font) (Append16 (toU16 w)
        (Append16 (toU16 y) (Append16 (toU16 x) (Append32 env.hdr.FT_CMD_TOGGLE s1))))))
      (by rw [u16_u16]; exact hs16)
    exact ⟨AlignBuffer s2, by simp only [FTGLCmdToggle, h1, bind_ok, h2]; rfl⟩

/-- C29: `FTGLCmdToggle` passes `Aligned(4 + 2*6 + len)` to `EnsureSpace`, the
size of a command with six 16-bit fields, but sends only five (its parameter
`state` is never appended), so it appends `Aligned(4 + 2*5 + len)` bytes: for a
payload of 1 or 2 bytes modulo 4 the two differ, and for the one-byte string
"" it reserves 20 bytes and sends 16.  The other five variable-length commands
do what the claim says: called with an aligned write index, a payload without
16-bit truncation and a write pointer that reads back, each runs `EnsureSpace`
first with the size it then appends (header, fixed fields and payload, rounded
up to a multiple of 4), and nothing but appends follows, with no wait for the
queue; on a device that drains, with the payload inside its buffer, all six
return. -/
theorem FTGLCmdToggle_reserves_more_than_it_sends :
    (∀ (env : Env) (s : FTGLInstance) (x y w h font : Int) (ptr options state font16 : Nat)
        (str : List Nat) (len : Nat),
      env.ReadsBack → Aligned4 s → len + 19 < 65536 →
      IfReturns (FTGLCmdInflate env ptr str len s)
        (ReservesThenSends env (Aligned (4 * 2 + len)) (Aligned (4 * 2 + len)) s) ∧
      IfReturns (FTGLCmdLoadImage env ptr options str len s)
        (ReservesThenSends env (Aligned (4 * 3 + len)) (Aligned (4 * 3 + len)) s) ∧
      IfReturns (FTGLCmdButton env x y w h font16 options str len s)
        (ReservesThenSends env (Aligned (4 + 2 * 6 + len)) (Aligned (4 + 2 * 6 + len)) s) ∧
      IfReturns (FTGLCmdKeys env x y w h font options str len s)
        (ReservesThenSends env (Aligned (4 + 2 * 6 + len)) (Aligned (4 + 2 * 6 + len)) s) ∧
      IfReturns (FTGLCmdText env x y font options str len s)
        (ReservesThenSends env (Aligned (4 + 2 * 4 + len)) (Aligned (4 + 2 * 4 + len)) s) ∧
      IfReturns (FTGLCmdToggle env x y w font options state str len s)
        (ReservesThenSends env (Aligned (4 + 2 * 6 + len)) (Aligned (4 + 2 * 5 + len)) s) ∧
      (Aligned (4 + 2 * 6 + len) ≠ Aligned (4 + 2 * 5 + len) ↔ len % 4 = 1 ∨ len % 4 = 2) ∧
      (env.Drains → len ≤ str.length →
        (∃ s', FTGLCmdInflate env ptr str len s = .ok s') ∧
        (∃ s', FTGLCmdLoadImage env ptr options str len s = .ok s') ∧
        (∃ s', FTGLCmdButton env x y w h font16 options str len s = .ok s') ∧
        (∃ s', FTGLCmdKeys env x y w h font options str len s = .ok s') ∧
        (∃ s', FTGLCmdText env x y font options str len s = .ok s') ∧
        (∃ s', FTGLCmdToggle env x y w font options state str len s = .ok s'))) ∧
    Aligned (4 + 2 * 6 + 1) = 20 ∧ Aligned (4 + 2 * 5 + 1) = 16 ∧
    Returns (FTGLCmdToggle avr 10 10 40 27 0 1 [0] 1 (initialized avr)) (fun s' =>
      ReservesThenSends avr 20 16 (initialized avr) s' ∧
      appended s'.bus = appended (initialized avr).bus ++
        [18, 255, 255, 255, 10, 0, 10, 0, 40, 0, 27, 0, 0, 0, 0, 0]) := by
  refine ⟨?_, by decide, by decide, ?_⟩
  · intro env s x y w h font ptr options state font16 str len hr ha hl
    refine ⟨FTGLCmdInflate_reserves hr ptr str ha hl, FTGLCmdLoadImage_reserves hr ptr options str ha hl,
      FTGLCmdButton_reserves hr x y w h font16 options str ha hl,
      FTGLCmdKeys_reserves hr x y w h font options str ha hl,
      FTGLCmdText_reserves hr x y font options str ha hl,
      FTGLCmdToggle_reserves hr x y w font options state str ha hl, ?_,
      fun hd hs => variable_commands_return hd x y w h font ptr options state font16 str len s hl hs⟩
    rw [Aligned_eq _ (by omega), Aligned_eq _ (by omega)]
    omega
  · have e : Returns (FTGLCmdToggle avr 10 10 40 27 0 1 [0] 1 (initialized avr)) (fun s' =>
        appended s'.bus = appended (initialized avr).bus ++
          [18, 255, 255, 255, 10, 0, 10, 0, 40, 0, 27, 0, 0, 0, 0, 0]) := by
      decide!
    obtain ⟨s', h1, h2⟩ := e
    exact ⟨s', h1, @FTGLCmdToggle_reserves avr avr_readsBack 10 10 40 27 0 1 [0] 1
      (initialized avr) (by decide!) (by decide) s' h1, h2⟩

/-! ## Loading a bitmap into a handle -/

theorem clearActiveHandle_descriptor {j id : Int} {s s' : FTGLInstance} {b : BitmapInfo}
    (h : clearActiveHandle j s = .ok s') (hb : arrGet s.bitmaps id = .ok b) :
    ∃ b0, arrGet s'.bitmaps id = .ok b0 ∧
      ∀ a, ({ b0 with activeHandle := a } : BitmapInfo) = { b with activeHandle := a } := by
  simp only [clearActiveHandle, bind_eq_ok, pure_eq_ok] at h
  obtain ⟨bm, h1, rfl⟩ := h
  obtain ⟨j0, _, a, ha, rfl⟩ := arrModify_ok h1
  obtain ⟨i0, i1, hg⟩ := arrGet_ok hb
  by_cases e : id = j
  · subst e
    rw [hg] at ha
    cases ha
    exact ⟨_, arrGet_set_self _ i0 i1, fun _ => rfl⟩
  · exact ⟨b, by rw [show ({ s with bitmaps := s.bitmaps.set j.toNat _ } : FTGLInstance).bitmaps
      = s.bitmaps.set j.toNat _ from rfl, arrGet_set_ne _ _ j0 e]; exact hb, fun _ => rfl⟩

theorem FTGLSetBitmapHandle_descriptor {env : Env} {handle id : Int} {s : FTGLInstance}
    {r : Int × FTGLInstance} {b : BitmapInfo}
    (h : FTGLSetBitmapHandle env handle id s = .ok r)
    (hb : arrGet s.bitmaps id = .ok b) :
    arrGet r.2.bitmaps id = .ok { b with activeHandle := i8 handle } ∧
    r.2.graphicsContext.bitmapHandle = u32 (env.hdr.FT_BITMAP_HANDLE (u8 (toU8 (i8 handle)))) := by
  simp only [FTGLSetBitmapHandle, bind_eq_ok, pure_eq_ok] at h
  obtain ⟨old, _, s0, h0, s1, h1, s2, h2, b', hb', bm, hbm, rfl⟩ := h
  have k0 : s0.graphicsContext = s.graphicsContext ∧ ∃ b0, arrGet s0.bitmaps id = .ok b0 ∧
      ∀ a, ({ b0 with activeHandle := a } : BitmapInfo) = { b with activeHandle := a } := by
    split at h0
    · have e := clearActiveHandle_frame h0
      exact ⟨by rw [e], clearActiveHandle_descriptor h0 hb⟩
    · rw [pure_eq_ok] at h0
      subst h0
      exact ⟨rfl, b, hb, fun _ => rfl⟩
  obtain ⟨kg, b0, k2, k3⟩ := k0
  obtain ⟨a1, _⟩ := WRITE_DLCMD_ok h1
  obtain ⟨c1, _, _⟩ := EnsureSpace_ok h2
  obtain ⟨f1, _, f3, _⟩ := host_eq_fields (c1.trans a1)
  simp only at f1 f3
  rw [f3, k2] at hb'
  cases hb'
  obtain ⟨i0, _, b1, hb1, rfl⟩ := arrModify_ok hbm
  obtain ⟨_, i2, hg⟩ := arrGet_ok k2
  have e3 : (Append32 b'.bitmapSize (Append32 b'.bitmapLayout
      (Append32 (env.hdr.FT_BITMAP_SOURCE b'.bitmapAddress) s2))).bitmaps = s0.bitmaps := f3
  rw [e3, hg] at hb1
  cases hb1
  refine ⟨?_, ?_⟩
  · show arrGet (List.set _ _ _) id = _
    rw [e3, k3]
    exact arrGet_set_self _ i0 i2
  · show s2.graphicsContext.bitmapHandle = _
    rw [f1]
    rfl

theorem FTGLSetBitmapHandle_returns {env : Env} (hd : env.Drains) {handle id old : Int}
    {s : FTGLInstance} {b : BitmapInfo}
    (hslot : arrGet s.bitmapHandles (i8 handle) = .ok old)
    (hold : i8 old < 0 ∨ ∃ b0, arrGet s.bitmaps (i8 old) = .ok b0)
    (hb : arrGet s.bitmaps id = .ok b) :
    ∃ r, FTGLSetBitmapHandle env handle id s = .ok r := by
  obtain ⟨s0, h0, hb0⟩ : ∃ s0, (if i8 old ≥ 0 then clearActiveHandle (i8 old) s else pure s) = .ok s0 ∧
      ∃ b0, arrGet s0.bitmaps id = .ok b0 := by
    by_cases c : i8 old ≥ 0
    · rw [if_pos c]
      rcases hold with hn | ⟨b0, hb0⟩
      · omega
      · obtain ⟨j0, _, hg⟩ := arrGet_ok hb0
        have e : clearActiveHandle (i8 old) s =
            .ok { s with bitmaps := s.bitmaps.set (i8 old).toNat { b0 with activeHandle := -1 } } := by
          simp only [clearActiveHandle, arrModify_of_get? _ j0 hg, bind_ok]
          rfl
        obtain ⟨b1, k1, _⟩ := clearActiveHandle_descriptor e hb
        exact ⟨_, e, b1, k1⟩
    · rw [if_neg c]
      exact ⟨s, rfl, b, hb⟩
  obtain ⟨b0, hb0⟩ := hb0
  obtain ⟨s1, h1⟩ := WRITE_DLCMD_returns hd .bitmapHandle
    (env.hdr.FT_BITMAP_HANDLE (u8 (toU8 (i8 handle)))) s0
  obtain ⟨s2, h2⟩ := EnsureSpace_returns hd (4 * 3) s1
  obtain ⟨a1, _⟩ := WRITE_DLCMD_ok h1
  obtain ⟨c1, _⟩ := EnsureSpace_ok h2
  obtain ⟨_, _, f3, _⟩ := host_eq_fields (c1.trans a1)
  simp only at f3
  obtain ⟨i0, _, g0⟩ := arrGet_ok hb0
  have hb2 : arrGet s2.bitmaps id = .ok b0 := by rw [f3]; exact hb0
  have hm : arrModify (Append32 b0.bitmapSize (Append32 b0.bitmapLayout
      (Append32 (env.hdr.FT_BITMAP_SOURCE b0.bitmapAddress) s2))).bitmaps id
      (fun b => { b with activeHandle := i8 handle })
      = .ok (s0.bitmaps.set id.toNat { b0 with activeHandle := i8 handle }) := by
    have : (Append32 b0.bitmapSize (Append32 b0.bitmapLayout
      (Append32 (env.hdr.FT_BITMAP_SOURCE b0.bitmapAddress) s2))).bitmaps = s0.bitmaps := f3
    rw [this]
    exact arrModify_of_get? _ i0 g0
  simp only [FTGLSetBitmapHandle, hslot, bind_ok]
  rw [h0]
  simp only [bind_ok, FTGLBitmapHandle, h1, h2, hb2, hm]
  exact ⟨_, rfl⟩

/-- C31: for a handle `h` that is an `int8_t` value and a bitmap `id` whose
descriptor `b` lies in the table, `FTGLSetBitmapHandle(h, id)` returns `h`,
appends the handle-select word `BITMAP_HANDLE(h)` if and only if it differs
from the cached handle word, and then exactly the three words
`BITMAP_SOURCE(b.bitmapAddress)`, `b.bitmapLayout`, `b.bitmapSize` in this
order; afterwards the cached handle word is `BITMAP_HANDLE(h)` and the
descriptor of `id` is `b` with its handle reference set to `h`.  On a device
that drains its queue the call returns when slot `h` of the table is empty or
names a descriptor inside the table. -/
theorem FTGLSetBitmapHandle_emits (env : Env) (handle id : Int) (s : FTGLInstance)
    (b : BitmapInfo) (h8 : i8 handle = handle) (hb : arrGet s.bitmaps id = .ok b) :
    IfReturns (FTGLSetBitmapHandle env handle id s) (fun r =>
      r.1 = handle ∧
      arrGet r.2.bitmaps id = .ok { b with activeHandle := handle } ∧
      appended r.2.bus = appended s.bus ++ bytesOf (
        (if s.graphicsContext.bitmapHandle ≠ u32 (env.hdr.FT_BITMAP_HANDLE (u8 (toU8 handle)))
          then [env.hdr.FT_BITMAP_HANDLE (u8 (toU8 handle))] else []) ++
        [env.hdr.FT_BITMAP_SOURCE b.bitmapAddress, b.bitmapLayout, b.bitmapSize]) ∧
      r.2.graphicsContext.bitmapHandle = u32 (env.hdr.FT_BITMAP_HANDLE (u8 (toU8 handle)))) ∧
    (env.Drains → ∀ old, arrGet s.bitmapHandles handle = .ok old →
      (i8 old < 0 ∨ ∃ b0, arrGet s.bitmaps (i8 old) = .ok b0) →
      ∃ r, FTGLSetBitmapHandle env handle id s = .ok r) := by
  refine ⟨fun r h => ?_, fun hd old hslot hold =>
    FTGLSetBitmapHandle_returns hd (by rw [h8]; exact hslot) hold hb⟩
  obtain ⟨a1, _, _, _, _, a6⟩ := FTGLSetBitmapHandle_binds h hb
  obtain ⟨d1, d2⟩ := FTGLSetBitmapHandle_descriptor h hb
  rw [h8] at a1 d1 d2
  refine ⟨a1, d1, ?_, d2⟩
  rw [a6]
  simp only [selectWords, bindWords, h8]

/-- Witness of C31: on the AVR build, after bitmap 0 has been drawn once from
handle 0, `FTGLSetBitmapHandle(3, 0)` returns 3 and appends `BITMAP_HANDLE(3)`,
the source word of address 0 and the layout and size words of the 8 by 8
bitmap; the handle reference of bitmap 0 is then 3. -/
theorem FTGLSetBitmapHandle_emits_witness :
    arrGet drawnOnce.bitmaps 0 = .ok { firstBitmap with activeHandle := 0 } ∧
    Returns (FTGLSetBitmapHandle avr 3 0 drawnOnce) (fun r =>
      r.1 = 3 ∧ arrGet r.2.bitmaps 0 = .ok { firstBitmap with activeHandle := 3 } ∧
      appended r.2.bus = appended drawnOnce.bus ++ bytesOf [ft800.FT_BITMAP_HANDLE 3,
        ft800.FT_BITMAP_SOURCE 0, ft800.FT_BITMAP_LAYOUT ft800.FT_L8 8 8,
        ft800.FT_BITMAP_SIZE 1 0 0 8 8]) := by
  have hb : arrGet drawnOnce.bitmaps 0 = .ok { firstBitmap with activeHandle := 0 } := by decide!
  obtain ⟨h1, h2⟩ := FTGLSetBitmapHandle_emits avr 3 0 drawnOnce
    { firstBitmap with activeHandle := 0 } (by decide) hb
  obtain ⟨r, hr⟩ := h2 avr_drains (-1) (by decide!) (Or.inl (by decide))
  obtain ⟨a, b, c, _⟩ := h1 r hr
  refine ⟨hb, r, hr, a, b, ?_⟩
  rw [c]
  decide!

/-! ## The alpha setter -/

/-- C32: `FTGLColorA(alpha)` compares the cached word with the bare `alpha`
and sends the bare `alpha` as the command word, not `FT_COLOR_A(alpha)`:
whenever the call returns the stream has grown by the word `alpha` unless the
cached word is `alpha`, and the cache then holds `alpha`.  `FTGLInitialize`
seeds the cache with `FT_COLOR_A(0)` = 0x10000000, so `FTGLColorA(0)` directly
after it sends the word 0x00000000 (where nothing should be sent), and
`FTGLColorA(128)` sends 0x00000080, whose top byte is 0 and not the opcode
0x10 of `FT_COLOR_A(128)` = 0x10000080. -/
theorem FTGLColorA_sends_bare_alpha :
    (∀ (env : Env) (alpha : Nat) (s : FTGLInstance),
      IfReturns (FTGLColorA env alpha s) (fun s' =>
        appended s'.bus = appended s.bus ++
          bytesOf (if s.graphicsContext.colorAlpha ≠ u8 alpha then [u8 alpha] else []) ∧
        s'.graphicsContext.colorAlpha = u8 alpha)) ∧
    (initialized avr).graphicsContext.colorAlpha = ft800.FT_COLOR_A 0 ∧
    ft800.FT_COLOR_A 0 = 0x10000000 ∧ ft800.FT_COLOR_A 128 = 0x10000080 ∧
    Returns (FTGLColorA avr 0 (initialized avr)) (fun s' =>
      appended s'.bus = appended (initialized avr).bus ++ [0, 0, 0, 0] ∧
      s'.graphicsContext.colorAlpha = 0) ∧
    Returns (FTGLColorA avr 128 (initialized avr)) (fun s' =>
      appended s'.bus = appended (initialized avr).bus ++ [0x80, 0, 0, 0] ∧
      appended s'.bus ≠ appended (initialized avr).bus ++ bytesOf [ft800.FT_COLOR_A 128]) := by
  refine ⟨?_, by decide!, by decide, by decide, by decide!, by decide!⟩
  intro env alpha s s' h
  have e : u32 (u8 alpha) = u8 alpha := by
    unfold u32 u8
    omega
  obtain ⟨a1, a2⟩ := WRITE_DLCMD_ok h
  obtain ⟨f1, _⟩ := host_eq_fields a1
  simp only at f1
  rw [e] at a2 f1
  exact ⟨a2, by rw [f1]; rfl⟩

/-! ## The cache against the build without it -/

theorem recent_snoc (seed : GraphicsContext) (pre : List DLCall) (d : DLCall) (g : Group) :
    recent seed (pre ++ [d]) g = (d.sets g).getD (recent seed pre g) := by
  unfold recent
  rw [List.reverse_append]
  cases h : d.sets g with
  | none => simp [List.filterMap_cons, h]
  | some v => simp [List.filterMap_cons, h]

theorem get_set_other (c : GraphicsContext) {g g' : Group} (v : Nat) (h : g' ≠ g) :
    (c.set g v).get g' = c.get g' := by
  cases g <;> cases g' <;> first | rfl | exact absurd rfl h

theorem runDL_append (env : Env) (a b : List DLCall) (s : FTGLInstance) :
    runDL env (a ++ b) s = (runDL env a s >>= runDL env b) := by
  induction a generalizing s with
  | nil => rfl
  | cons d ds ih =>
    simp only [List.cons_append, runDL]
    cases d.exec env s with
    | error e => rfl
    | ok s1 => exact ih s1

theorem runDLUncached_append (env : Env) (a b : List DLCall) (s : FTGLInstance) :
    runDLUncached env (a ++ b) s = (runDLUncached env a s >>= runDLUncached env b) := by
  induction a generalizing s with
  | nil => rfl
  | cons d ds ih =>
    simp only [List.cons_append, runDLUncached]
    cases d.execUncached env s with
    | error e => rfl
    | ok s1 => exact ih s1

theorem runDL_single (env : Env) (d : DLCall) (s : FTGLInstance) :
    runDL env [d] s = d.exec env s := by
  simp only [runDL]
  cases d.exec env s <;> rfl

theorem exec_displayList {env : Env} {c : Call} {ds : List DLCall}
    (h : c.displayList env = some ds) (s : FTGLInstance) : exec env c s = runDL env ds s := by
  cases c <;> cases h <;> first | (rw [runDL_single]; rfl) | rfl

theorem run_displayList {env : Env} : ∀ {cs : List Call} {ds : List DLCall},
    displayListOf env cs = some ds → ∀ s, run env cs s = runDL env ds s ∧
      runUncached env cs s = runDLUncached env ds s := by
  intro cs
  induction cs with
  | nil =>
    intro ds h s
    simp only [displayListOf, Option.some.injEq] at h
    subst h
    exact ⟨rfl, rfl⟩
  | cons c cs ih =>
    intro ds h s
    simp only [displayListOf] at h
    cases hc : c.displayList env with
    | none => simp [hc] at h
    | some d =>
      cases hr : displayListOf env cs with
      | none => simp [hc, hr] at h
      | some rest =>
        simp only [hc, hr, Option.some.injEq] at h
        subst h
        refine ⟨?_, ?_⟩
        · simp only [run, exec_displayList hc, runDL_append]
          cases runDL env d s with
          | error e => rfl
          | ok s1 => exact (ih hr s1).1
        · simp only [runUncached, execUncached, hc, runDLUncached_append]
          cases runDLUncached env d s with
          | error e => rfl
          | ok s1 => exact (ih hr s1).2

theorem runDL_ok {env : Env} (seed : GraphicsContext) : ∀ (ds pre : List DLCall)
    {s s' : FTGLInstance}, (∀ g, s.graphicsContext.get g = recent seed pre g) →
    runDL env ds s = .ok s' →
    appended s'.bus = appended s.bus ++ bytesOf (elide seed pre ds) ∧
    ∀ g, s'.graphicsContext.get g = recent seed (pre ++ ds) g := by
  intro ds
  induction ds with
  | nil =>
    intro pre s s' inv h
    simp only [runDL, pure_eq_ok] at h
    subst h
    simp [elide, bytesOf, inv]
  | cons d ds ih =>
    intro pre s s' inv h
    simp only [runDL, bind_eq_ok] at h
    obtain ⟨s1, h1, h2⟩ := h
    have step : appended s1.bus = appended s.bus ++
        bytesOf (if kept seed pre d then [d.word] else []) ∧
        ∀ g, s1.graphicsContext.get g = recent seed (pre ++ [d]) g := by
      cases d with
      | cached g w =>
        obtain ⟨a1, a2⟩ := WRITE_DLCMD_ok h1
        obtain ⟨f1, _⟩ := host_eq_fields a1
        simp only at f1
        refine ⟨?_, ?_⟩
        · rw [a2, inv g]
          simp only [kept, DLCall.word, decide_eq_true_eq]
          by_cases c : recent seed pre g = u32 w
          · rw [if_neg (by simpa using c), if_neg (by simpa using c.symm)]
          · rw [if_pos c, if_pos (fun e => c e.symm)]
        · intro g'
          rw [f1, recent_snoc]
          by_cases e : g' = g
          · subst e
            simp [DLCall.sets, get_set_self]
          · have e' : ¬ g = g' := fun k => e k.symm
            simp [DLCall.sets, e', get_set_other _ _ e, inv g']
      | direct w =>
        obtain ⟨a1, a2⟩ := DLCommand_ok h1
        obtain ⟨f1, _⟩ := host_eq_fields a1
        refine ⟨?_, ?_⟩
        · rw [a2]
          simp [kept, DLCall.word, bytesOf]
        · intro g'
          rw [f1, recent_snoc]
          simp [DLCall.sets, inv g']
    obtain ⟨b1, b2⟩ := ih (pre ++ [d]) step.2 h2
    refine ⟨?_, ?_⟩
    · rw [b1, step.1]
      simp only [elide, bytesOf_append, List.append_assoc]
    · intro g
      rw [b2 g]
      simp

theorem runDLUncached_ok {env : Env} : ∀ (ds : List DLCall) {s s' : FTGLInstance},
    runDLUncached env ds s = .ok s' →
    appended s'.bus = appended s.bus ++ bytesOf (ds.map DLCall.word) := by
  intro ds
  induction ds with
  | nil =>
    intro s s' h
    simp only [runDLUncached, pure_eq_ok] at h
    subst h
    simp [bytesOf]
  | cons d ds ih =>
    intro s s' h
    simp only [runDLUncached, bind_eq_ok] at h
    obtain ⟨s1, h1, h2⟩ := h
    have step : appended s1.bus = appended s.bus ++ bytesOf [d.word] := by
      cases d with
      | cached g w =>
        obtain ⟨_, a2⟩ := DLCommand_ok h1
        rw [a2]
        simp [DLCall.word, bytesOf]
      | direct w =>
        obtain ⟨_, a2⟩ := DLCommand_ok h1
        rw [a2]
        simp [DLCall.word, bytesOf]
    rw [ih h2, step]
    simp [bytesOf, List.append_assoc]

theorem runDL_returns {env : Env} (hd : env.Drains) : ∀ (ds : List DLCall) (s : FTGLInstance),
    (∃ s', runDL env ds s = .ok s') ∧ ∃ s', runDLUncached env ds s = .ok s' := by
  intro ds
  induction ds with
  | nil => intro s; exact ⟨⟨s, rfl⟩, ⟨s, rfl⟩⟩
  | cons d ds ih =>
    intro s
    refine ⟨?_, ?_⟩
    · obtain ⟨s1, h1⟩ : ∃ s1, d.exec env s = .ok s1 := by
        cases d with
        | cached g w => exact WRITE_DLCMD_returns hd g w s
        | direct w => exact DLCommand_returns hd w s
      obtain ⟨s2, h2⟩ := (ih s1).1
      exact ⟨s2, by simp only [runDL, h1, bind_ok, h2]⟩
    · obtain ⟨s1, h1⟩ : ∃ s1, d.execUncached env s = .ok s1 := by
        cases d with
        | cached g w => exact DLCommand_returns hd w s
        | direct w => exact DLCommand_returns hd w s
      obtain ⟨s2, h2⟩ := (ih s1).2
      exact ⟨s2, by simp only [runDLUncached, h1, bind_ok, h2]⟩

theorem elide_sublist (seed : GraphicsContext) : ∀ (ds pre : List DLCall),
    (elide seed pre ds).Sublist (ds.map DLCall.word) := by
  intro ds
  induction ds with
  | nil => intro pre; exact List.Sublist.slnil
  | cons d ds ih =>
    intro pre
    simp only [elide, List.map_cons]
    split
    · exact (ih _).cons₂ _
    · exact (ih _).cons _

/-- C33: let `cs` be a sequence of display-list setter and draw calls (no
context save or restore) and `ds` the macro and `DLCommand` calls their bodies
consist of.  Run from the same state, the build with the graphics-context
cache appends the words `elide seed [] ds`, with `seed` the cached context at
the start, and the build with `WRITE_DLCMD` defined as `DLCommand` appends the
word of every call; the first list is a subsequence of the second, in the same
order, and a call whose word is left out is a cached setter whose word equals
the word most recently sent for its group by the calls before it, or the seed
of the group when there is none.  On a device that drains its queue both runs
return. -/
theorem cache_only_elides (env : Env) (cs : List Call) (ds : List DLCall) (s : FTGLInstance)
    (hcs : displayListOf env cs = some ds) :
    IfReturns (run env cs s) (fun s1 =>
      appended s1.bus = appended s.bus ++ bytesOf (elide s.graphicsContext [] ds)) ∧
    IfReturns (runUncached env cs s) (fun s2 =>
      appended s2.bus = appended s.bus ++ bytesOf (ds.map DLCall.word)) ∧
    (elide s.graphicsContext [] ds).Sublist (ds.map DLCall.word) ∧
    (∀ pre d, kept s.graphicsContext pre d = false →
      ∃ g w, d = .cached g w ∧ u32 w = recent s.graphicsContext pre g) ∧
    (env.Drains → (∃ s1, run env cs s = .ok s1) ∧ ∃ s2, runUncached env cs s = .ok s2) := by
  obtain ⟨e1, e2⟩ := run_displayList hcs s
  refine ⟨?_, ?_, elide_sublist _ ds [], ?_, ?_⟩
  · intro s1 h
    rw [e1] at h
    exact (runDL_ok s.graphicsContext ds [] (fun g => by simp [recent]) h).1
  · intro s2 h
    rw [e2] at h
    exact runDLUncached_ok ds h
  · intro pre d h
    cases d with
    | cached g w =>
      refine ⟨g, w, rfl, ?_⟩
      simpa [kept] using h
    | direct w => simp [kept] at h
  · intro hd
    rw [e1, e2]
    exact runDL_returns hd ds s

/-- Witness of C33: on the AVR build right after initialisation (white cached
as the colour), the calls colour white, colour red, begin, colour red, vertex,
end send the colour word for red, the begin word and the vertex word with the
cache, and all five words without it. -/
theorem cache_only_elides_witness :
    displayListOf avr [.ColorRGB 0xFFFFFF, .ColorRGB 0xFF0000, .Begin 1, .ColorRGB 0xFF0000,
      .Vertex2ii 10 10 0 0, .End] =
      some [.cached .colorRGB 0x04FFFFFF, .cached .colorRGB 0x04FF0000,
        .direct (ft800.FT_BEGIN 1), .cached .colorRGB 0x04FF0000,
        .direct (ft800.FT_VERTEX2II 10 10 0 0)] ∧
    Returns (run avr [.ColorRGB 0xFFFFFF, .ColorRGB 0xFF0000, .Begin 1, .ColorRGB 0xFF0000,
        .Vertex2ii 10 10 0 0, .End] (initialized avr)) (fun s1 =>
      appended s1.bus = appended (initialized avr).bus ++
        bytesOf [0x04FF0000, ft800.FT_BEGIN 1, ft800.FT_VERTEX2II 10 10 0 0]) ∧
    Returns (runUncached avr [.ColorRGB 0xFFFFFF, .ColorRGB 0xFF0000, .Begin 1,
        .ColorRGB 0xFF0000, .Vertex2ii 10 10 0 0, .End] (initialized avr)) (fun s2 =>
      appended s2.bus = appended (initialized avr).bus ++
        bytesOf [0x04FFFFFF, 0x04FF0000, ft800.FT_BEGIN 1, 0x04FF0000,
          ft800.FT_VERTEX2II 10 10 0 0]) := by
  have hcs : displayListOf avr [.ColorRGB 0xFFFFFF, .ColorRGB 0xFF0000, .Begin 1,
      .ColorRGB 0xFF0000, .Vertex2ii 10 10 0 0, .End] =
      some [.cached .colorRGB 0x04FFFFFF, .cached .colorRGB 0x04FF0000,
        .direct (ft800.FT_BEGIN 1), .cached .colorRGB 0x04FF0000,
        .direct (ft800.FT_VERTEX2II 10 10 0 0)] := by decide
  obtain ⟨h1, h2, _, _, h5⟩ := cache_only_elides avr _ _ (initialized avr) hcs
  obtain ⟨⟨s1, r1⟩, ⟨s2, r2⟩⟩ := h5 avr_drains
  exact ⟨hcs, ⟨s1, r1, (h1 s1 r1).trans (by decide!)⟩, ⟨s2, r2, (h2 s2 r2).trans (by decide!)⟩⟩

/-! ## Continuous coprocessor commands -/

theorem stopIfActive_ok {env : Env} {s s' : FTGLInstance}
    (h : (if s.commandContext.continuousCommandActive ≠ 0 then FTGLCmdStop env s else pure s)
      = .ok s') :
    appended s'.bus = appended s.bus ++
      (if s.commandContext.continuousCommandActive ≠ 0 then le32 (u32 env.hdr.FT_CMD_STOP)
        else []) := by
  by_cases k : s.commandContext.continuousCommandActive ≠ 0
  · rw [if_pos k] at h
    rw [if_pos k]
    obtain ⟨_, a2⟩ := DLCommand_ok h
    rw [a2]
  · rw [if_neg k, pure_eq_ok] at h
    subst h
    rw [if_neg k, List.append_nil]

theorem continuous_step {env : Env} (c : ContinuousCall) {s s' : FTGLInstance}
    (h : exec env c.toCall s = .ok s') :
    appended s'.bus = appended s.bus ++
      ((emittedCommands (decide (s.commandContext.continuousCommandActive ≠ 0)) [c]).map
        (ContinuousCall.bytes env.hdr)).flatten ∧
    s'.commandContext.continuousCommandActive = (if c.isStart then 1 else 0) := by
  cases c with
  | spinner x y style scale =>
    simp only [ContinuousCall.toCall, exec, FTGLCmdSpinner, bind_eq_ok, pure_eq_ok] at h
    obtain ⟨s0, h0, s1, h1, rfl⟩ := h
    have a0 := stopIfActive_ok h0
    obtain ⟨c1, c2, _⟩ := EnsureSpace_ok h1
    obtain ⟨_, f2, _⟩ := host_eq_fields c1
    refine ⟨?_, ?_⟩
    · simp only [appended_Append16, appended_Append32, c2, a0, emittedCommands,
        ContinuousCall.isStart, if_true]
      by_cases k : s.commandContext.continuousCommandActive ≠ 0
      · simp [k, ContinuousCall.bytes]
      · simp [k, ContinuousCall.bytes]
    · show s1.commandContext.continuousCommandActive = _
      rw [f2]
      rfl
  | screensaver =>
    simp only [ContinuousCall.toCall, exec, FTGLCmdScreensaver, bind_eq_ok] at h
    obtain ⟨s0, h0, h1⟩ := h
    have a0 := stopIfActive_ok h0
    obtain ⟨c1, c2⟩ := DLCommand_ok h1
    obtain ⟨_, f2, _⟩ := host_eq_fields c1
    refine ⟨?_, ?_⟩
    · rw [c2]
      simp only [a0, emittedCommands, ContinuousCall.isStart, if_true]
      by_cases k : s.commandContext.continuousCommandActive ≠ 0
      · simp [k, ContinuousCall.bytes]
      · simp [k, ContinuousCall.bytes]
    · rw [f2]
      rfl
  | sketch x y w hh ptr format =>
    simp only [ContinuousCall.toCall, exec, FTGLCmdSketch, bind_eq_ok, pure_eq_ok] at h
    obtain ⟨s0, h0, s1, h1, rfl⟩ := h
    have a0 := stopIfActive_ok h0
    obtain ⟨c1, c2, _⟩ := EnsureSpace_ok h1
    obtain ⟨_, f2, _⟩ := host_eq_fields c1
    refine ⟨?_, ?_⟩
    · simp only [appended_Append16, appended_Append32, c2, a0, emittedCommands,
        ContinuousCall.isStart, if_true]
      by_cases k : s.commandContext.continuousCommandActive ≠ 0
      · simp [k, ContinuousCall.bytes]
      · simp [k, ContinuousCall.bytes]
    · show s1.commandContext.continuousCommandActive = _
      rw [f2]
      rfl
  | stop =>
    simp only [ContinuousCall.toCall, exec, FTGLCmdStop] at h
    obtain ⟨c1, c2⟩ := DLCommand_ok h
    obtain ⟨_, f2, _⟩ := host_eq_fields c1
    refine ⟨?_, ?_⟩
    · rw [c2]
      simp [emittedCommands, ContinuousCall.isStart, ContinuousCall.bytes]
    · rw [f2]
      rfl

theorem emittedCommands_cons (f : Bool) (c : ContinuousCall) (cs : List ContinuousCall) :
    emittedCommands f (c :: cs) = emittedCommands f [c] ++ emittedCommands c.isStart cs := by
  cases c <;> cases f <;> simp [emittedCommands, ContinuousCall.isStart]

theorem continuous_run {env : Env} : ∀ (cs : List ContinuousCall) {s s' : FTGLInstance},
    run env (cs.map ContinuousCall.toCall) s = .ok s' →
    appended s'.bus = appended s.bus ++
      ((emittedCommands (decide (s.commandContext.continuousCommandActive ≠ 0)) cs).map
        (ContinuousCall.bytes env.hdr)).flatten ∧
    s'.commandContext.continuousCommandActive =
      flagAfter s.commandContext.continuousCommandActive cs := by
  intro cs
  induction cs with
  | nil =>
    intro s s' h
    simp only [List.map_nil, run, pure_eq_ok] at h
    subst h
    simp [emittedCommands, flagAfter]
  | cons c cs ih =>
    intro s s' h
    simp only [List.map_cons, run, bind_eq_ok] at h
    obtain ⟨s1, h1, h2⟩ := h
    obtain ⟨a1, a2⟩ := continuous_step c h1
    obtain ⟨b1, b2⟩ := ih h2
    have e : decide (s1.commandContext.continuousCommandActive ≠ 0) = c.isStart := by
      rw [a2]
      cases c.isStart <;> simp
    rw [e] at b1
    refine ⟨?_, ?_⟩
    · rw [b1, a1]
      conv_rhs => rw [emittedCommands_cons]
      simp only [List.map_append, List.flatten_append, List.append_assoc]
    · rw [b2, a2]
      rfl

theorem emitted_separated : ∀ (cs : List ContinuousCall) (f : Bool),
    StartsSeparated (emittedCommands f cs) ∧
    (f = true → ∀ c ∈ (emittedCommands f cs).head?, c.isStart = false) := by
  intro cs
  induction cs with
  | nil =>
    intro f
    exact ⟨List.chain'_nil, fun _ c hc => by simp [emittedCommands] at hc⟩
  | cons c cs ih =>
    intro f
    unfold StartsSeparated at *
    by_cases hs : c.isStart = true
    · obtain ⟨i1, i2⟩ := ih true
      have k : List.Chain' (fun a b => ¬ (a.isStart = true ∧ b.isStart = true))
          (c :: emittedCommands true cs) := by
        rw [List.chain'_cons']
        refine ⟨fun y hy => ?_, i1⟩
        have := i2 rfl y hy
        simp [this]
      cases f with
      | false =>
        simp only [emittedCommands, hs, if_true, Bool.false_eq_true, if_false, List.nil_append]
        exact ⟨k, fun h => by cases h⟩
      | true =>
        simp only [emittedCommands, hs, if_true, List.singleton_append]
        refine ⟨?_, fun _ y hy => ?_⟩
        · rw [List.chain'_cons']
          refine ⟨fun y _ => ?_, k⟩
          simp [ContinuousCall.isStart]
        · simp only [List.head?_cons, Option.mem_def, Option.some.injEq] at hy
          subst hy
          rfl
    · have hs' : c.isStart = false := by simpa using hs
      obtain ⟨i1, _⟩ := ih false
      simp only [emittedCommands, hs', Bool.false_eq_true, if_false]
      refine ⟨?_, fun _ y hy => ?_⟩
      · rw [List.chain'_cons']
        refine ⟨fun y _ => ?_, i1⟩
        simp [hs']
      · simp only [List.head?_cons, Option.mem_def, Option.some.injEq] at hy
        subst hy
        exact hs'

theorem continuous_returns {env : Env} (hd : env.Drains) : ∀ (cs : List ContinuousCall)
    (s : FTGLInstance), ∃ s', run env (cs.map ContinuousCall.toCall) s = .ok s' := by
  intro cs
  induction cs with
  | nil => intro s; exact ⟨s, rfl⟩
  | cons c cs ih =>
    intro s
    have stop : ∀ t : FTGLInstance, ∃ t', (if t.commandContext.continuousCommandActive ≠ 0
        then FTGLCmdStop env t else pure t) = .ok t' := by
      intro t
      split
      · exact DLCommand_returns hd _ _
      · exact ⟨t, rfl⟩
    obtain ⟨s1, h1⟩ : ∃ s1, exec env c.toCall s = .ok s1 := by
      cases c with
      | spinner x y style scale =>
        obtain ⟨t, ht⟩ := stop s
        obtain ⟨t1, ht1⟩ := EnsureSpace_returns hd (4 + 2 * 4)
          { t with commandContext := { t.commandContext with continuousCommandActive := 1 } }
        simp only [ContinuousCall.toCall, exec, FTGLCmdSpinner]
        rw [ht]
        simp only [bind_ok, ht1]
        exact ⟨_, rfl⟩
      | screensaver =>
        obtain ⟨t, ht⟩ := stop s
        simp only [ContinuousCall.toCall, exec, FTGLCmdScreensaver]
        rw [ht]
        exact DLCommand_returns hd _ _
      | sketch x y w hh ptr format =>
        obtain ⟨t, ht⟩ := stop s
        obtain ⟨t1, ht1⟩ := EnsureSpace_returns hd (4 * 2 + 2 * 6)
          { t with commandContext := { t.commandContext with continuousCommandActive := 1 } }
        simp only [ContinuousCall.toCall, exec, FTGLCmdSketch]
        rw [ht]
        simp only [bind_ok, ht1]
        exact ⟨_, rfl⟩
      | stop => exact DLCommand_returns hd _ _
    obtain ⟨s2, h2⟩ := ih s1
    exact ⟨s2, by simp only [List.map_cons, run, h1, bind_ok, h2]⟩

/-- C34: for every sequence of calls to `FTGLCmdSpinner`, `FTGLCmdScreensaver`,
`FTGLCmdSketch` and `FTGLCmdStop`, run from any state, the stream grows by the
commands `emittedCommands active cs`, each with its arguments: every call puts
in its own command, and a start that finds the flag set is immediately
preceded by `CMD_STOP`.  In that sequence of commands no start follows a start
directly (the only other command is `CMD_STOP`), and when the flag was set at
the beginning the first command is a stop.  The flag is 1 after a start and 0
after `FTGLCmdStop`; `FTGLInitialize` leaves it 0, so after it the first
command emitted is the one of the first call.  On a device that drains its
queue the calls return. -/
theorem continuous_commands_alternate (env : Env) (cs : List ContinuousCall) (s : FTGLInstance) :
    IfReturns (run env (cs.map ContinuousCall.toCall) s) (fun s' =>
      appended s'.bus = appended s.bus ++
        ((emittedCommands (decide (s.commandContext.continuousCommandActive ≠ 0)) cs).map
          (ContinuousCall.bytes env.hdr)).flatten ∧
      s'.commandContext.continuousCommandActive =
        flagAfter s.commandContext.continuousCommandActive cs) ∧
    (∀ active, StartsSeparated (emittedCommands active cs)) ∧
    (∀ c ∈ (emittedCommands true cs).head?, c = .stop) ∧
    (∀ c rest, emittedCommands false (c :: rest) = c :: emittedCommands c.isStart rest) ∧
    (∀ c rest, c.isStart = true →
      emittedCommands true (c :: rest) = .stop :: c :: emittedCommands true rest) ∧
    (initialized env).commandContext.continuousCommandActive = 0 ∧
    (env.Drains → ∃ s', run env (cs.map ContinuousCall.toCall) s = .ok s') := by
  have h0 : (initialized env).commandContext.continuousCommandActive = 0 := by
    rw [(host_eq_fields (host_initialized env)).2.1]
  refine ⟨fun s' h => continuous_run cs h, fun f => (emitted_separated cs f).1, ?_, ?_, ?_, h0,
    fun hd => continuous_returns hd cs s⟩
  · intro c hc
    have := (emitted_separated cs true).2 rfl c hc
    cases c <;> simp [ContinuousCall.isStart] at this ⊢
  · intro c rest
    cases c <;> simp [emittedCommands, ContinuousCall.isStart]
  · intro c rest hc
    simp [emittedCommands, hc]

/-! ## The bounds of the slot table and of the descriptor table -/

/-- C35: in the shipped build (15 handles, 16 descriptors), after sixteen
bitmaps have been created and the first fifteen drawn one after the other with
`FTGLCmdBitmap`, the eviction cursor `nextHandle` is 15, outside 0..14: the
branch of `PickHandleToEvict` that takes an empty slot increments the cursor
without wrapping it.  The next pick reads `bitmapHandles[15]`, beyond the
table, so the draw of the sixteenth bitmap is undefined. -/
theorem cursor_leaves_slot_table :
    Returns (run avr (sixteenBitmaps ++ drawFirst 15) (initialized avr)) (fun s =>
      s.nextHandle = 15 ∧ s.lastHandle = 14 ∧ s.bitmapHandles.length = 15 ∧
      PickHandleToEvict avr s = .error .outOfBounds) ∧
    run avr (sixteenBitmaps ++ drawFirst 16) (initialized avr) = .error .outOfBounds ∧
    avr.FTGL_NUM_BITMAP_HANDLES = 15 ∧ avr.FTGL_MAX_BITMAPS = 16 := by
  refine ⟨by decide!, by decide!, rfl, rfl⟩

theorem alloc_step_returns {env : Env} {a : Alloc} {s : FTGLInstance} (ha : a.Defined env)
    (h0 : 0 ≤ s.bitmapIndex) (h1 : s.bitmapIndex.toNat < s.bitmaps.length) :
    ∃ r, a.call env s = .ok r := by
  obtain ⟨b, hb⟩ : ∃ b, s.bitmaps.get? s.bitmapIndex.toNat = some b := by
    rw [List.get?_eq_getElem?]
    exact ⟨_, List.getElem?_eq_getElem h1⟩
  cases a with
  | create f w h =>
    simp only [Alloc.call, FTGLCreateBitmap]
    rw [arrModify_of_get? _ h0 hb]
    exact ⟨_, rfl⟩
  | createVerbose f st lh nc fi wx wy rw rh =>
    obtain ⟨p, q, hp, hq⟩ := ha
    simp only [Alloc.call, FTGLCreateBitmapVerbose, hp, hq, bind_ok]
    rw [arrModify_of_get? _ h0 hb]
    exact ⟨_, rfl⟩

theorem allocAll_ids (env : Env) : ∀ (reqs : List Alloc) (s : FTGLInstance)
    (r : List Int × FTGLInstance), 0 ≤ s.bitmapIndex →
    s.bitmapIndex + reqs.length ≤ s.bitmaps.length → s.bitmaps.length ≤ 32767 →
    allocAll env reqs s = .ok r →
    r.1 = (List.range reqs.length).map (fun (k : Nat) => s.bitmapIndex + (k : Int)) ∧
    r.2.bitmapIndex = s.bitmapIndex + reqs.length ∧
    r.2.bitmaps.length = s.bitmaps.length := by
  intro reqs
  induction reqs with
  | nil =>
    intro s r _ _ _ h
    simp only [allocAll, pure_eq_ok] at h
    subst h
    simp
  | cons a rest ih =>
    intro s r h0 h1 h2 h
    simp only [allocAll, bind_eq_ok, pure_eq_ok] at h
    obtain ⟨r1, e1, r2, e2, rfl⟩ := h
    obtain ⟨D, a1, _, _, a4, _, _, a7⟩ := Alloc.alloc_step_ok e1
    simp only [List.length_cons, Nat.cast_add, Nat.cast_one] at h1
    have e7 : r1.2.bitmapIndex = s.bitmapIndex + 1 := by
      rw [a7]
      exact i16_small (by omega) (by omega)
    have el : r1.2.bitmaps.length = s.bitmaps.length := by rw [a4]; simp
    obtain ⟨i1, i2, i3⟩ := ih r1.2 r2 (by omega) (by rw [e7, el]; omega) (by omega) e2
    refine ⟨?_, ?_, ?_⟩
    · show r1.1 :: r2.1 = _
      rw [i1, a1, List.length_cons, List.range_succ_eq_map, List.map_cons, List.map_map, e7]
      congr 1
      · simp
      · apply List.map_congr_left
        intro k _
        simp only [Function.comp, Nat.cast_succ]
        omega
    · show r2.2.bitmapIndex = _
      rw [i2, e7]
      simp only [List.length_cons, Nat.cast_add, Nat.cast_one]
      omega
    · show r2.2.bitmaps.length = _
      rw [i3, el]

theorem allocAll_returns (env : Env) : ∀ (reqs : List Alloc) (s : FTGLInstance),
    0 ≤ s.bitmapIndex → s.bitmapIndex + reqs.length ≤ s.bitmaps.length →
    s.bitmaps.length ≤ 32767 → (∀ a ∈ reqs, a.Defined env) →
    ∃ r, allocAll env reqs s = .ok r := by
  intro reqs
  induction reqs with
  | nil => intro s _ _ _ _; exact ⟨_, rfl⟩
  | cons a rest ih =>
    intro s h0 h1 h2 hd
    simp only [List.length_cons, Nat.cast_add, Nat.cast_one] at h1
    obtain ⟨r1, e1⟩ := @alloc_step_returns env a s (hd a (List.mem_cons_self _ _)) h0 (by omega)
    obtain ⟨D, a1, _, _, a4, _, _, a7⟩ := Alloc.alloc_step_ok e1
    have e7 : r1.2.bitmapIndex = s.bitmapIndex + 1 := by
      rw [a7]
      exact i16_small (by omega) (by omega)
    have el : r1.2.bitmaps.length = s.bitmaps.length := by rw [a4]; simp
    obtain ⟨r2, e2⟩ := ih r1.2 (by omega) (by rw [e7, el]; omega) (by omega)
      (fun b hb => hd b (List.mem_cons_of_mem _ hb))
    exact ⟨(r1.1 :: r2.1, r2.2), by simp only [allocAll, e1, bind_ok, e2]; rfl⟩

theorem initialized_table (env : Env) :
    (initialized env).bitmapIndex = 0 ∧
    (initialized env).bitmaps.length = env.FTGL_MAX_BITMAPS := by
  obtain ⟨_, _, f3, f4, _⟩ := host_eq_fields (host_initialized env)
  rw [f3, f4]
  simp [powerOn]

/-- C36 (amended): in a build whose descriptor table has at most 32767
entries, for every sequence of at most `FTGL_MAX_BITMAPS` allocations by
`FTGLCreateBitmap` and `FTGLCreateBitmapVerbose` right after `FTGLInitialize`,
allocation number k (from 0) returns the id k, so the ids are pairwise
distinct, and every id is the index of a descriptor in
`bitmaps[0..FTGL_MAX_BITMAPS-1]`; afterwards `bitmapIndex` is the number of
allocations.  The allocations return when the products computed by
`FTGLCreateBitmapVerbose` do not overflow. -/
theorem ids_count_up (env : Env) (reqs : List Alloc) (hmax : env.FTGL_MAX_BITMAPS ≤ 32767)
    (hn : reqs.length ≤ env.FTGL_MAX_BITMAPS) :
    IfReturns (allocAll env reqs (initialized env)) (fun r =>
      r.1 = (List.range reqs.length).map (fun (k : Nat) => (k : Int)) ∧ r.1.Nodup ∧
      (∀ id ∈ r.1, 0 ≤ id ∧ id < env.FTGL_MAX_BITMAPS ∧ ∃ D, arrGet r.2.bitmaps id = .ok D) ∧
      r.2.bitmaps.length = env.FTGL_MAX_BITMAPS ∧ r.2.bitmapIndex = reqs.length) ∧
    ((∀ a ∈ reqs, a.Defined env) → ∃ r, allocAll env reqs (initialized env) = .ok r) := by
  obtain ⟨i0, il⟩ := initialized_table env
  refine ⟨fun r h => ?_, fun hd =>
    allocAll_returns env reqs _ (by omega) (by rw [i0, il]; omega) (by omega) hd⟩
  obtain ⟨a1, a2, a3⟩ := allocAll_ids env reqs _ r (by omega) (by rw [i0, il]; omega)
    (by omega) h
  simp only [i0, zero_add] at a1 a2
  rw [il] at a3
  have hin : ∀ id ∈ r.1, 0 ≤ id ∧ id < (reqs.length : Int) := by
    intro id hid
    rw [a1, List.mem_map] at hid
    obtain ⟨k, hk, rfl⟩ := hid
    rw [List.mem_range] at hk
    omega
  refine ⟨a1, ?_, ?_, a3, a2⟩
  · rw [a1]
    exact (List.nodup_range _).map (fun a b h => by simpa using h)
  · intro id hid
    obtain ⟨h0, h1⟩ := hin id hid
    have hlt : id.toNat < r.2.bitmaps.length := by omega
    refine ⟨h0, by omega, r.2.bitmaps.get ⟨id.toNat, hlt⟩, arrGet_of_get? h0 ?_⟩
    rw [List.get?_eq_getElem?]
    exact List.getElem?_eq_getElem hlt

/-- Witness of C36: sixteen allocations on the AVR build return the ids
0 to 15. -/
theorem ids_count_up_witness :
    Returns (allocAll avr (List.replicate 16 (.create ft800.FT_L8 8 8)) (initialized avr))
      (fun r => r.1 = [0, 1, 2, 3, 4, 5, 6, 7, 8, 9, 10, 11, 12, 13, 14, 15] ∧ r.1.Nodup ∧
        r.2.bitmapIndex = 16) := by
  obtain ⟨h1, h2⟩ := ids_count_up avr (List.replicate 16 (.create ft800.FT_L8 8 8))
    (by decide) (by decide)
  obtain ⟨r, hr⟩ := h2 (fun a ha => by
    rw [List.eq_of_mem_replicate ha]
    exact trivial)
  obtain ⟨a1, a2, _, _, a5⟩ := h1 r hr
  exact ⟨r, hr, a1, a2, a5⟩

/-- Counterexample to C36 as stated: on the shipped build the seventeenth
allocation after `FTGLInitialize` writes `bitmaps[16]`, beyond the sixteen
descriptors. -/
theorem seventeenth_allocation_leaves_table :
    allocAll avr (List.replicate 17 (.create ft800.FT_L8 8 8)) (initialized avr) =
      .error .outOfBounds ∧
    Returns (allocAll avr (List.replicate 16 (.create ft800.FT_L8 8 8)) (initialized avr))
      (fun r => r.2.bitmapIndex = 16 ∧ r.2.bitmaps.length = 16 ∧
        (FTGLCreateBitmap avr ft800.FT_L8 8 8 r.2).map (fun p => p.1) = .error .outOfBounds) := by
  refine ⟨by decide!, by decide!⟩

/-! ## The touch sample of a frame and the rectangle test -/

theorem i16_i16 (x : Int) : i16 (i16 x) = i16 x := by
  unfold i16; omega

theorem i16_intOfU16 (env : Env) (v : Nat) : i16 (intOfU16 env v) = i16 v := by
  unfold intOfU16
  split
  · exact i16_i16 _
  · rfl

/-- C37: whenever `FTUIEnd` returns, `hadTouch` is the value `hasTouch` had
before the call.  With `val` the word read from `REG_TOUCH_SCREEN_XY` for this
frame: when `val` is the no-touch value 0x80008000, `hasTouch` is 0 and
`touchX`, `touchY` are unchanged; otherwise `hasTouch` is 1, `touchX` is the
upper and `touchY` the lower half of `val` as `int16_t` values.  So
`FTUITouched` is non-zero afterwards exactly when there was no touch before the
call and there is one now.  On a device that drains its queue the call
returns. -/
theorem FTUIEnd_shifts_sample (env : Env) (g : FTUIState) (s : FTGLInstance) :
    IfReturns (FTUIEnd env g s) (fun e =>
      e.1.hadTouch = g.hasTouch ∧
      (u32 (env.regTouchXY e.2.waits) = 0x80008000 →
        e.1.hasTouch = 0 ∧ e.1.touchX = g.touchX ∧ e.1.touchY = g.touchY) ∧
      (u32 (env.regTouchXY e.2.waits) ≠ 0x80008000 →
        e.1.hasTouch = 1 ∧
        e.1.touchX = i16 (u32 (env.regTouchXY e.2.waits) / 65536) ∧
        e.1.touchY = i16 (u32 (env.regTouchXY e.2.waits) % 65536)) ∧
      (FTUITouched e.1 ≠ 0 ↔
        g.hasTouch = 0 ∧ u32 (env.regTouchXY e.2.waits) ≠ 0x80008000)) ∧
    (env.Drains → ∃ e, FTUIEnd env g s = .ok e) := by
  refine ⟨fun e h => ?_, fun hd => FTUIEnd_returns hd g s⟩
  obtain ⟨h1, a1, a2, a3, a4, _⟩ := FTUIEnd_ok h
  obtain ⟨_, b1, b2, _⟩ := FTGLSwapBuffers_ok h1
  have key : (u32 (env.regTouchXY e.2.waits) = 0x80008000 →
        e.1.hasTouch = 0 ∧ e.1.touchX = g.touchX ∧ e.1.touchY = g.touchY) ∧
      (u32 (env.regTouchXY e.2.waits) ≠ 0x80008000 →
        e.1.hasTouch = 1 ∧
        e.1.touchX = i16 (u32 (env.regTouchXY e.2.waits) / 65536) ∧
        e.1.touchY = i16 (u32 (env.regTouchXY e.2.waits) % 65536)) := by
    refine ⟨fun hv => ?_, fun hv => ?_⟩
    · obtain ⟨c1, _, _⟩ := b1 hv
      have e0 : e.1.hasTouch = 0 := by rw [a2, FTGLHasTouch, c1]; rfl
      exact ⟨e0, a4 e0⟩
    · obtain ⟨c1, c2, c3⟩ := b2 hv
      have e1 : e.1.hasTouch = 1 := by rw [a2, FTGLHasTouch, c1]; rfl
      obtain ⟨d1, d2⟩ := a3 (by rw [e1]; decide)
      refine ⟨e1, ?_, ?_⟩
      · rw [d1, FTGLTouchX, i16_intOfU16, c3]
        norm_cast
      · rw [d2, FTGLTouchY, i16_intOfU16, c2]
        norm_cast
  refine ⟨a1, key.1, key.2, ?_⟩
  unfold FTUITouched
  rw [a1]
  by_cases hv : u32 (env.regTouchXY e.2.waits) = 0x80008000
  · rw [(key.1 hv).1]
    simp [hv]
  · rw [(key.2 hv).1]
    by_cases h0 : g.hasTouch = 0
    · simp [hv, h0]
    · simp [hv, h0]

/-- C38: `FTUIInRect(x, y, w, h)`, with sums `x + w` and `y + h` that do not
overflow, returns 1 if and only if `x <= touchX <= x + w` and
`y <= touchY <= y + h`, and 0 otherwise; all four edges are inclusive: for a
rectangle with `w, h >= 0` the corners return 1 and the points one pixel
outside an edge return 0.  The function only reads `g_State`. -/
theorem FTUIInRect_inclusive (g : FTUIState) (x y w h : Int) :
    (FTUIInRect g x y w h = 1 ↔
      x ≤ g.touchX ∧ g.touchX ≤ x + w ∧ y ≤ g.touchY ∧ g.touchY ≤ y + h) ∧
    (FTUIInRect g x y w h = 0 ↔
      ¬ (x ≤ g.touchX ∧ g.touchX ≤ x + w ∧ y ≤ g.touchY ∧ g.touchY ≤ y + h)) ∧
    (FTUIInRect g x y w h = 1 ∨ FTUIInRect g x y w h = 0) ∧
    (0 ≤ w → 0 ≤ h →
      FTUIInRect { g with touchX := x, touchY := y } x y w h = 1 ∧
      FTUIInRect { g with touchX := x + w, touchY := y + h } x y w h = 1 ∧
      FTUIInRect { g with touchX := x - 1, touchY := y } x y w h = 0 ∧
      FTUIInRect { g with touchX := x + w + 1, touchY := y } x y w h = 0 ∧
      FTUIInRect { g with touchX := x, touchY := y - 1 } x y w h = 0 ∧
      FTUIInRect { g with touchX := x, touchY := y + h + 1 } x y w h = 0) := by
  refine ⟨?_, ?_, ?_, ?_⟩
  · unfold FTUIInRect
    split_ifs <;> simp <;> omega
  · unfold FTUIInRect
    split_ifs <;> simp <;> omega
  · unfold FTUIInRect
    split_ifs <;> simp
  · intro hw hh
    unfold FTUIInRect
    refine ⟨?_, ?_, ?_, ?_, ?_, ?_⟩ <;> dsimp only <;> split_ifs <;> first | rfl | omega

/-! ## Large digits -/

theorem isInt_zero (env : Env) : IsInt env 0 := by
  unfold IsInt
  have : (0 : Int) < 2 ^ (8 * env.sizeofInt - 1) := by positivity
  omega

theorem ediv_pow_succ {n : Int} (hn : 0 ≤ n) (i : Nat) :
    n / 10 ^ i / 10 = n / 10 ^ (i + 1) := by
  obtain ⟨m, rfl⟩ := Int.eq_ofNat_of_zero_le hn
  have h : m / 10 ^ i / 10 = m / 10 ^ (i + 1) := by
    rw [Nat.div_div_eq_div_mul, pow_succ]
  exact_mod_cast h

theorem largeNumberLoop_eq (env : Env) (g : FTUIState) (x0 y scale lz n0 : Int) (N : Nat)
    (hn : 0 ≤ n0) (hW : 0 ≤ 12 * scale + 4) (h12 : IsInt env (12 * scale))
    (hWi : IsInt env (12 * scale + 4)) (hx : IsInt env x0)
    (hxt : IsInt env (x0 + (N : Int) * (12 * scale + 4))) :
    ∀ (k i : Nat) (s : FTGLInstance), i + k = N →
      largeNumberLoop env g y scale lz k i (x0 + (k : Int) * (12 * scale + 4)) (n0 / 10 ^ i) s =
        drawDigits env g.numbersImage y
          (((List.range' i k).filter fun (j : Nat) =>
              decide (lz ≠ 0 ∨ j = 0 ∨ n0 / 10 ^ j ≠ 0)).map
            fun (j : Nat) =>
              (x0 + ((N : Int) - 1 - (j : Int)) * (12 * scale + 4), (n0 / 10 ^ j) % 10))
          s := by
  intro k
  induction k with
  | zero => intro i s _; rfl
  | succ k ih =>
    intro i s hik
    have hni : 0 ≤ n0 / 10 ^ i := Int.ediv_nonneg hn (by positivity)
    have hx' : IsInt env (x0 + (k : Int) * (12 * scale + 4)) := by
      have h1 : 0 ≤ (k : Int) * (12 * scale + 4) := mul_nonneg (by omega) hW
      have h2 : (k : Int) * (12 * scale + 4) ≤ (N : Int) * (12 * scale + 4) :=
        mul_le_mul_of_nonneg_right (by omega) hW
      exact isInt_between hx hxt (by omega) (by omega)
    have e1 : FTUI_NUMBER_WIDTH * scale = 12 * scale := rfl
    have e2 : x0 + ((k + 1 : Nat) : Int) * (12 * scale + 4) - (12 * scale + 4) =
        x0 + (k : Int) * (12 * scale + 4) := by
      push_cast
      ring
    have e3 : (n0 / 10 ^ i).tdiv 10 = n0 / 10 ^ (i + 1) := by
      rw [Int.tdiv_eq_ediv hni (by decide), ediv_pow_succ hn]
    have e4 : (n0 / 10 ^ i).tmod 10 = (n0 / 10 ^ i) % 10 := Int.tmod_eq_emod hni (by decide)
    have e5 : ((N : Int) - 1 - (i : Int)) = (k : Int) := by
      rw [← hik]
      push_cast
      ring
    have rec := fun t => ih (i + 1) t (by omega)
    simp only [largeNumberLoop, e1, intValue_ok h12, bind_ok, intValue_ok hWi, e2,
      intValue_ok hx', e3, e4, List.range'_succ, List.filter_cons]
    have hcond : (¬ (n0 / 10 ^ i = 0 ∧ ((i : Nat) : Int) ≠ 0) ∨ lz ≠ 0) ↔
        (lz ≠ 0 ∨ i = 0 ∨ n0 / 10 ^ i ≠ 0) := by
      constructor
      · rintro (h | h)
        · by_cases c : n0 / 10 ^ i = 0
          · right; left
            by_contra c2
            exact h ⟨c, by exact_mod_cast c2⟩
          · right; right; exact c
        · left; exact h
      · rintro (h | h | h)
        · right; exact h
        · left
          rintro ⟨_, c⟩
          exact c (by exact_mod_cast h)
        · left
          rintro ⟨c, _⟩
          exact h c
    by_cases c : lz ≠ 0 ∨ i = 0 ∨ n0 / 10 ^ i ≠ 0
    · rw [if_pos (hcond.mpr c)]
      simp only [decide_eq_true c, if_true, List.map_cons, drawDigits, e5]
      cases FTGLCmdBitmapCell env g.numbersImage (x0 + (k : Int) * (12 * scale + 4)) y
          (n0 / 10 ^ i % 10) s with
      | error e => rfl
      | ok s1 => exact rec s1
    · rw [if_neg (fun h => c (hcond.mp h))]
      simp only [decide_eq_false c, Bool.false_eq_true, if_false]
      exact rec s

theorem drawable_DLCommand {env : Env} {id : Int} {v : Nat} {s s' : FTGLInstance}
    (h : DLCommand env v s = .ok s') (hb : Drawable env id s) : Drawable env id s' := by
  obtain ⟨a1, _⟩ := DLCommand_ok h
  obtain ⟨_, _, f3, _, f5, f6, f7, _⟩ := host_eq_fields a1
  rw [drawable_iff] at hb ⊢
  rw [f3, f5, f6, f7]
  exact hb

theorem drawDigits_returns {env : Env} (hd : env.Drains) {id : Int} (y : Int) :
    ∀ (l : List (Int × Int)) {s : FTGLInstance}, Drawable env id s →
      Returns (drawDigits env id y l s) (fun s' => Drawable env id s') := by
  intro l
  induction l with
  | nil => intro s hb; exact ⟨s, rfl, hb⟩
  | cons p rest ih =>
    intro s hb
    obtain ⟨px, cell⟩ := p
    obtain ⟨s1, h1, ⟨b, g1, g2⟩, _⟩ := @FTGLCmdBitmapCell_drawable env hd id px y cell s hb
    obtain ⟨s2, h2, hb2⟩ := ih (drawable_iff.mpr ⟨b, g1, Or.inl g2⟩)
    exact ⟨s2, by simp only [drawDigits, h1, bind_ok, h2], hb2⟩

/-- C39 (amended): for `n >= 0`, `numDigits >= 1` and `scale` in 1..4 such
that `numDigits * (12 * scale + 4)` and `x` plus that product are
representable in `int`, `FTUILargeNumber(x, y, numDigits, scale, leadingZeros,
n)` is this sequence of calls: `FTGLBitmapTransformA(256 / scale)`,
`FTGLBitmapTransformE(256 / scale)`, then for the digit positions i = 0, 1, ...
(least significant first) that are drawn a call
`FTGLCmdBitmapCell(numbersImage, x + (numDigits - 1 - i) * (12 * scale + 4), y,
(n / 10^i) mod 10)`, then `FTGLBitmapTransformA(256)` and
`FTGLBitmapTransformE(256)`.  Position i is drawn when `leadingZeros` is not 0,
when i = 0, or when `n / 10^i` is not 0.  On a device that drains its queue the
call returns when the bitmap of the digits can be drawn. -/
theorem FTUILargeNumber_draws (env : Env) (x y numDigits scale leadingZeros n : Int)
    (g : FTUIState) (s : FTGLInstance) (hn : 0 ≤ n) (hd : 1 ≤ numDigits)
    (hs1 : 1 ≤ scale) (hs4 : scale ≤ 4)
    (ht : IsInt env (numDigits * (12 * scale + 4))) (hx : IsInt env x)
    (hxt : IsInt env (x + numDigits * (12 * scale + 4))) :
    FTUILargeNumber env x y numDigits scale leadingZeros n g s = (do
      let s ← FTGLBitmapTransformA env (toU32 (256 / scale)) s
      let s ← FTGLBitmapTransformE env (toU32 (256 / scale)) s
      let s ← drawDigits env g.numbersImage y
        (largeNumberDigits x numDigits scale leadingZeros n) s
      let s ← FTGLBitmapTransformA env 256 s
      FTGLBitmapTransformE env 256 s) ∧
    (env.Drains → Drawable env g.numbersImage s →
      ∃ s', FTUILargeNumber env x y numDigits scale leadingZeros n g s = .ok s') := by
  have hW : 0 ≤ 12 * scale + 4 := by omega
  have hWle : 12 * scale + 4 ≤ numDigits * (12 * scale + 4) := by
    have := mul_le_mul_of_nonneg_right hd hW
    omega
  have hWi : IsInt env (12 * scale + 4) := isInt_between (isInt_zero env) ht hW hWle
  have h12 : IsInt env (12 * scale) := isInt_between (isInt_zero env) ht (by omega) (by omega)
  have hN : ((numDigits.toNat : Nat) : Int) = numDigits := Int.toNat_of_nonneg (by omega)
  have hxt' : IsInt env (x + (numDigits.toNat : Int) * (12 * scale + 4)) := by rw [hN]; exact hxt
  have hloop := largeNumberLoop_eq env g x y scale leadingZeros n numDigits.toNat hn hW h12 hWi
    hx hxt' numDigits.toNat 0
  have e0 : (256 : Int).tdiv scale = 256 / scale := Int.tdiv_eq_ediv (by decide) (by omega)
  have e1 : FTUI_NUMBER_WIDTH * scale = 12 * scale := rfl
  have hsc : scale ≠ 0 := by omega
  have key : FTUILargeNumber env x y numDigits scale leadingZeros n g s = (do
      let s ← FTGLBitmapTransformA env (toU32 (256 / scale)) s
      let s ← FTGLBitmapTransformE env (toU32 (256 / scale)) s
      let s ← drawDigits env g.numbersImage y
        (largeNumberDigits x numDigits scale leadingZeros n) s
      let s ← FTGLBitmapTransformA env 256 s
      FTGLBitmapTransformE env 256 s) := by
    simp only [FTUILargeNumber, if_neg hsc, e0, e1, intValue_ok h12, bind_ok, intValue_ok hWi,
      intValue_ok ht, intValue_ok hxt]
    congr 1
    funext s1
    congr 1
    funext s2
    have h2 := hloop s2 (by omega)
    simp only [hN, pow_zero, Int.ediv_one, Nat.cast_zero] at h2
    rw [h2]
    simp only [largeNumberDigits, List.range_eq_range']
  refine ⟨key, fun hdr hb => ?_⟩
  rw [key]
  obtain ⟨s1, h1⟩ := DLCommand_returns hdr
    (env.hdr.FT_BITMAP_TRANSFORM_A (u32 (toU32 (256 / scale)))) s
  have b1 := drawable_DLCommand h1 hb
  obtain ⟨s2, h2⟩ := DLCommand_returns hdr
    (env.hdr.FT_BITMAP_TRANSFORM_E (u32 (toU32 (256 / scale)))) s1
  have b2 := drawable_DLCommand h2 b1
  obtain ⟨s3, h3, _⟩ := drawDigits_returns hdr y
    (largeNumberDigits x numDigits scale leadingZeros n) b2
  obtain ⟨s4, h4⟩ := DLCommand_returns hdr (env.hdr.FT_BITMAP_TRANSFORM_A (u32 256)) s3
  obtain ⟨s5, h5⟩ := DLCommand_returns hdr (env.hdr.FT_BITMAP_TRANSFORM_E (u32 256)) s4
  exact ⟨s5, by
    simp only [FTGLBitmapTransformA, FTGLBitmapTransformE, h1, bind_ok, h2, h3, h4, h5]⟩

/-- Witness of C39: on the AVR build right after `FTUIInitialize`,
`FTUILargeNumber(10, 20, 3, 2, 0, 42)` draws cell 2 at x = 66 and cell 4 at
x = 38 and leaves out the third position; the stream is the two transform
words for 128, the words that load the digits into handle 0, the two draws and
the two transform words for 256. -/
theorem FTUILargeNumber_draws_witness :
    largeNumberDigits 10 3 2 0 42 = [(66, 2), (38, 4)] ∧
    Returns (FTUILargeNumber avr 10 20 3 2 0 42 (started avr).1 (started avr).2) (fun s' =>
      appended s'.bus = appended (started avr).2.bus ++ bytesOf
        [ft800.FT_BITMAP_TRANSFORM_A 128, ft800.FT_BITMAP_TRANSFORM_E 128,
         ft800.FT_BITMAP_SOURCE 0, ft800.FT_BITMAP_LAYOUT ft800.FT_L1 2 16,
         ft800.FT_BITMAP_SIZE ft800.FT_NEAREST ft800.FT_BORDER ft800.FT_BORDER 48 64,
         ft800.FT_BEGIN ft800.FT_BITMAPS, ft800.FT_VERTEX2II 66 20 0 2,
         ft800.FT_BEGIN ft800.FT_BITMAPS, ft800.FT_VERTEX2II 38 20 0 4,
         ft800.FT_BITMAP_TRANSFORM_A 256, ft800.FT_BITMAP_TRANSFORM_E 256]) ∧
    FTUILargeNumber avr 10 20 3 2 0 42 (started avr).1 (started avr).2 = (do
      let s ← FTGLBitmapTransformA avr (toU32 (256 / 2)) (started avr).2
      let s ← FTGLBitmapTransformE avr (toU32 (256 / 2)) s
      let s ← drawDigits avr (started avr).1.numbersImage 20 (largeNumberDigits 10 3 2 0 42) s
      let s ← FTGLBitmapTransformA avr 256 s
      FTGLBitmapTransformE avr 256 s) :=
  ⟨by decide, by decide!,
    (FTUILargeNumber_draws avr 10 20 3 2 0 42 (started avr).1 (started avr).2 (by decide)
      (by decide) (by decide) (by decide) (by decide) (by decide) (by decide)).1⟩

/-- Counterexample to C39 as stated: on the AVR build, where `int` has 16
bits, `FTUILargeNumber(0, 0, 700, 4, 1, 0)` computes `700 * (12 * 4 + 4)` =
36400, which is not representable in `int`, so the call is undefined. -/
theorem FTUILargeNumber_overflows_int :
    FTUILargeNumber avr 0 0 700 4 1 0 (started avr).1 (started avr).2 = .error .overflow ∧
    ¬ IsInt avr (700 * (12 * 4 + 4)) ∧ (700 : Int) * (12 * 4 + 4) = 36400 ∧
    avr.sizeofInt = 2 := by
  refine ⟨by decide!, by decide, by decide, rfl⟩

/-! ## Host commands on the Arduino transport -/

theorem transferred_append (a b : List WireEvent) :
    transferred (a ++ b) = transferred a ++ transferred b := by
  induction a with
  | nil => rfl
  | cons e es ih => cases e <;> simp [transferred, ih]

theorem or_0x40_lt (a : Nat) (h : a < 256) : a ||| 0x40 < 256 :=
  Nat.or_lt_two_pow (n := 8) h (by decide)

/-- C40: the Arduino `FTHWHostCommand(c)` transfers three bytes, not four: one
command byte and two zero bytes; and for `c` = 0 the command byte is 0, not
`0 | 0x40`.  For every command id the bytes transferred are
`c | 0x40` (0 when `c` is 0), 0, 0, inside one transaction framed by the
chip-select pin.  The comment in `fthw.h` and the claim ask for `c | 0x40`
followed by three zero bytes. -/
theorem FTHWHostCommand_sends_three_bytes :
    (∀ (c : Nat) (wire : List WireEvent),
      (Arduino.FTHWHostCommand c wire).2 = wire ++
        [.digitalWrite SLAVE_SELECT_PIN LOW, .beginTransaction,
         .transfer (if u8 c = 0 then 0 else u8 c ||| 0x40), .transfer 0, .transfer 0,
         .endTransaction, .digitalWrite SLAVE_SELECT_PIN HIGH] ∧
      transferred (Arduino.FTHWHostCommand c wire).2 = transferred wire ++
        [if u8 c = 0 then 0 else u8 c ||| 0x40, 0, 0] ∧
      transferred (Arduino.FTHWHostCommand c wire).2 ≠ transferred wire ++
        [u8 c ||| 0x40, 0, 0, 0]) ∧
    transferred (Arduino.FTHWHostCommand ft800.FT_HOSTCOMMAND_CLKEXT []).2 = [0x44, 0, 0] ∧
    transferred (Arduino.FTHWHostCommand ft800.FT_HOSTCOMMAND_ACTIVE []).2 = [0, 0, 0] ∧
    ft800.FT_HOSTCOMMAND_ACTIVE ||| 0x40 = 0x40 := by
  refine ⟨?_, by decide, by decide, by decide⟩
  intro c wire
  have e : u8 (if u8 c = 0 then u8 c else u8 c ||| 0x40) =
      if u8 c = 0 then 0 else u8 c ||| 0x40 := by
    split
    · rename_i h
      rw [h]
      rfl
    · exact Nat.mod_eq_of_lt (or_0x40_lt _ (Nat.mod_lt _ (by decide)))
  have full : (Arduino.FTHWHostCommand c wire).2 = wire ++
      [.digitalWrite SLAVE_SELECT_PIN LOW, .beginTransaction,
       .transfer (if u8 c = 0 then 0 else u8 c ||| 0x40), .transfer 0, .transfer 0,
       .endTransaction, .digitalWrite SLAVE_SELECT_PIN HIGH] := by
    simp only [Arduino.FTHWHostCommand, e, List.append_assoc, List.singleton_append,
      List.cons_append, List.nil_append]
    rfl
  have tr : transferred (Arduino.FTHWHostCommand c wire).2 = transferred wire ++
      [if u8 c = 0 then 0 else u8 c ||| 0x40, 0, 0] := by
    rw [full, transferred_append]
    rfl
  refine ⟨full, tr, ?_⟩
  rw [tr]
  intro h
  have := congrArg List.length h
  simp at this

end FTGL
